import Mathlib

/-!
openfinancing: the solar investment engine

A shallow embedding of `platforms/solar/invest.go` (`PreInvestmentCheck`,
`SendUSDToPlatform`, `InvestInProject`, `SeedInvestInProject`,
`sendRecipientAssets`) and of the constants of `consts/consts.go` it uses, of the bond
store of `platforms/bonds/bond.go` (`NewBond`, `Save`, `RetrieveAllBonds`,
`RetrieveBond`, `Invest`), of `Payback` of `stellar/accounts/accounts.go` with the
functions it calls, of `ParseInput` of `teller/commands.go` and of `Login` of
`emulator/login.go`.

Conventions of the embedding.

* A Go `float64` is given as the rational it denotes (`ℚ`), and `round64` rounds a
  rational to the nearest `float64`, halfway cases to the even one (no overflow to
  infinity is modelled).  `ConstructionBond.Invest`, the subtraction of `Payback`, and the
  rounds `InvestInProject64` and `SeedInvestInProject64` round their `float64`
  operations; `InvestInProject` and `SeedInvestInProject` carry amounts as exact
  rationals, for the statements that do not turn on the rounding of a sum.  Go `int` is a
  64-bit two's-complement integer (`wrapInt`).
* A Go `error` is an `Option String`, `none` being `nil`.  A Go function returning
  `(v, error)` returns the pair: Go hands back a value next to a non-nil error too.
* Everything the functions call outside the package (ledger, wallet, issuer,
  notification, number formatting) is a field of `Env`.  Each effectful field
  receives the calls issued so far, so its answer may depend on the whole history.
* `World` carries the three entity buckets and the list of external calls issued so
  far (`trace`, oldest first).  A call is recorded whether or not it fails.
* The bond store, the horizon client, the teller and the emulator have environments of
  their own (`BondEnv`, `Horizon`, `TellerEnv`, `LoginEnv`), built the same way.  The unbounded loop of `RetrieveAllBonds` is given a
  number of iterations (`fuel`) and hands back `none` when they do not suffice.
-/

namespace OpenFinancing

/-! ## Constants (`consts/consts.go`) -/

/-- The prefix hashed to give an investor asset id. -/
def InvestorAssetPrefix : String := "InvestorAssets_"
/-- The prefix hashed to give a recipient (debt) asset id. -/
def DebtAssetPrefix : String := "DebtAssets_"
/-- The prefix hashed to give a seed asset id. -/
def SeedAssetPrefix : String := "SeedAssets_"
/-- The prefix hashed to give a payback asset id. -/
def PaybackAssetPrefix : String := "PaybackAssets_"
/-- The password unlocking the encrypted issuer seed file. -/
def IssuerSeedPwd : String := "blah"

/-- Go `int` arithmetic: the result of an integer operation, wrapped to 64 bits. -/
def wrapInt (x : Int) : Int := (x + 2 ^ 63) % 2 ^ 64 - 2 ^ 63

/-! ## Floating-point rounding -/

/-- The integer nearest to `q`, the even one of the two when `q` lies halfway. -/
def roundHalfEven (q : ℚ) : Int :=
  if q - (⌊q⌋ : ℚ) < 1 / 2 then ⌊q⌋
  else if 1 / 2 < q - (⌊q⌋ : ℚ) then ⌊q⌋ + 1
  else if ⌊q⌋ % 2 = 0 then ⌊q⌋ else ⌊q⌋ + 1

/-- The binary floating-point number nearest to `x`, ties to even (the rounding of IEEE
754 arithmetic), for the format with `p` significant bits whose least exponent of the
last bit is `emin`: `x` is rounded to a multiple of `2 ^ k`, where `k` is `emin` or, for
`x` of magnitude `2 ^ e ≤ |x| < 2 ^ (e + 1)` large enough, `e - (p - 1)`. The format has
no largest number here: infinities and NaN are not values of the embedding. -/
def roundBinary (p : Nat) (emin : Int) (x : ℚ) : ℚ :=
  if x = 0 then 0
  else
    (roundHalfEven (x / (2 : ℚ) ^ (max (Int.log 2 |x| - ((p : Int) - 1)) emin)) : ℚ)
      * (2 : ℚ) ^ (max (Int.log 2 |x| - ((p : Int) - 1)) emin)

/-- Rounding to Go's `float64` (53 significant bits, least bit `2 ^ -1074`): the value
of a `float64` operation whose exact result is `x`. -/
def round64 (x : ℚ) : ℚ := roundBinary 53 (-1074) x

/-- Rounding to Go's `float32` (24 significant bits, least bit `2 ^ -149`): the value
`strconv.ParseFloat(s, 32)` returns for a decimal `s` of exact value `x`. -/
def round32 (x : ℚ) : ℚ := roundBinary 24 (-149) x

/-! ## Data model -/

/-- The fields of `database.User` read by the investment engine. -/
structure User where
  Index : Int
  PublicKey : String
  Email : String
  Notification : Bool
deriving DecidableEq, Inhabited

/-- The fields of `database.Investor` read or written by the investment engine and by
`ConstructionBond.Invest`; a record created without bonds has none. -/
structure Investor where
  U : User
  AmountInvested : ℚ
  InvestedSolarProjects : List String
  InvestedBonds : List String := []
deriving DecidableEq, Inhabited

/-- The fields of `database.Recipient` read or written by the investment engine. -/
structure Recipient where
  U : User
  ReceivedSolarProjects : List String
deriving DecidableEq, Inhabited

/-- The fields of `project.Params` read or written by the investment engine. -/
structure SolarParams where
  Index : Int
  TotalValue : ℚ
  MoneyRaised : ℚ
  Years : Int
  Metadata : String
  InvestorAssetCode : String
  SeedAssetCode : String
  DebtAssetCode : String
  PaybackAssetCode : String
  BalLeft : ℚ
deriving DecidableEq, Inhabited

/-- The fields of `solar.Project` read or written by the investment engine. -/
structure Project where
  Params : SolarParams
  ProjectInvestors : List Investor
  SeedInvestors : List Investor
  ProjectRecipient : Recipient
  Stage : ℚ
deriving DecidableEq, Inhabited

/-- The value of `assets.CreateAsset(code, issuer)`: an asset is a code and an issuer. -/
structure Asset where
  Code : String
  Issuer : String
deriving DecidableEq, Inhabited

/-- The external calls a run can issue, with their arguments. -/
inductive Call where
  | InitIssuer (index : Int) (pwd : String)
  | FundIssuer (index : Int) (pwd platformSeed : String)
  | ReturnPubkey (seed : String)
  | GetAssetBalance (pubkey code : String)
  | SendAsset (code issuerPubkey destination amount seed pubkey memo : String)
  | RetrieveSeed (path pwd : String)
  | TrustAsset (code issuerPubkey limit pubkey seed : String)
  | SendAssetFromIssuer (code destination amount issuerSeed issuerPubkey : String)
  | FreezeIssuer (index : Int) (pwd : String)
  | SaveInvestor (inv : Investor)
  | SaveRecipient (recp : Recipient)
  | SaveProject (proj : Project)
  | NotifInvestor (projIndex : Int) (email stableTx trustTx assetTx : String)
  | NotifSeedInvestor (projIndex : Int) (email stableTx trustTx assetTx : String)
  | NotifRecipient (projIndex : Int) (email pbTrust pbAsset debtTrust debtAsset : String)
deriving DecidableEq, Inhabited

/-- The calls that reach the ledger: issuer bootstrap, balance read, payment, trust
line, mint, freeze. -/
def Call.isLedger : Call → Bool
  | .InitIssuer .. => true
  | .FundIssuer .. => true
  | .GetAssetBalance .. => true
  | .SendAsset .. => true
  | .TrustAsset .. => true
  | .SendAssetFromIssuer .. => true
  | .FreezeIssuer .. => true
  | _ => false

/-- Trust-line calls. -/
def Call.isTrust : Call → Bool
  | .TrustAsset .. => true
  | _ => false

/-- Mint calls (`assets.SendAssetFromIssuer`). -/
def Call.isMint : Call → Bool
  | .SendAssetFromIssuer .. => true
  | _ => false

/-- Issuer-freeze calls. -/
def Call.isFreeze : Call → Bool
  | .FreezeIssuer .. => true
  | _ => false

/-- Store writes. -/
def Call.isSave : Call → Bool
  | .SaveInvestor .. => true
  | .SaveRecipient .. => true
  | .SaveProject .. => true
  | _ => false

/-- The packages `invest.go` imports and whose code it calls: `utils`, `assets`,
`issuer`, `wallet`, `xlm`, `stablecoin`, `database` and the constant `FundedProject`.
The first argument of an effectful field is the list of calls issued before it. -/
structure Env where
  StoF : String → ℚ
  FtoS : ℚ → String
  ItoS : Int → String
  AssetID : String → String
  CreatePath : Int → String
  FundedProject : ℚ
  StablecoinCode : String
  StablecoinPublicKey : String
  CanInvest : List Call → Investor → String → Bool
  InitIssuer : List Call → Int → String → Option String
  FundIssuer : List Call → Int → String → String → Option String
  ReturnPubkey : List Call → String → String × Option String
  GetAssetBalance : List Call → String → String → String × Option String
  SendAsset : List Call → String → String → String → String → String → String → String →
    String × Option String
  RetrieveSeed : List Call → String → String → (String × String) × Option String
  TrustAsset : List Call → String → String → String → String → String → String × Option String
  SendAssetFromIssuer : List Call → String → String → String → String → String →
    String × Option String
  FreezeIssuer : List Call → Int → String → String × Option String
  SaveInvestor : List Call → Investor → Option String
  SaveRecipient : List Call → Recipient → Option String
  SaveProject : List Call → Project → Option String

/-- The entity buckets and the calls issued so far. -/
structure World where
  projects : Int → Option Project
  investors : Int → Option Investor
  recipients : Int → Option Recipient
  trace : List Call

/-- Record a call. -/
def World.log (w : World) (c : Call) : World := { w with trace := w.trace ++ [c] }

/-- The value of `assets.CreateAsset`. -/
def CreateAsset (code issuer : String) : Asset := ⟨code, issuer⟩

/-! ## The entity store -/

/-- Modelled from the spec: `solar.RetrieveProject` is not in the sources; the store is
`Get(bucket, index) -> record | notFound`, and a failed read hands back the zero record
(as `RetrieveBond` of `platforms/bonds/bond.go` does). -/
def RetrieveProject (w : World) (key : Int) : Project × Option String :=
  match w.projects key with
  | some p => (p, none)
  | none => (default, some "Retrieved project nil")

/-- Modelled from the spec: `database.RetrieveInvestor` is not in the sources; see
`RetrieveProject`. -/
def RetrieveInvestor (w : World) (key : Int) : Investor × Option String :=
  match w.investors key with
  | some i => (i, none)
  | none => (default, some "Retrieved investor nil")

/-- Modelled from the spec: `database.RetrieveRecipient` is not in the sources; see
`RetrieveProject`. -/
def RetrieveRecipient (w : World) (key : Int) : Recipient × Option String :=
  match w.recipients key with
  | some r => (r, none)
  | none => (default, some "Retrieved recipient nil")

/-- Modelled from the spec: `Project.Save` is not in the sources; the store is
`Put(bucket, index, record)` under the record's own index (as `ConstructionBond.Save`
of `platforms/bonds/bond.go` does), and the write may fail. -/
def Project.Save (env : Env) (w : World) (p : Project) : Option String × World :=
  match env.SaveProject w.trace p with
  | some e => (some e, w.log (.SaveProject p))
  | none =>
    (none, { (w.log (.SaveProject p)) with
      projects := fun k => if k = p.Params.Index then some p else w.projects k })

/-- Modelled from the spec: `Investor.Save` is not in the sources; see `Project.Save`. -/
def Investor.Save (env : Env) (w : World) (i : Investor) : Option String × World :=
  match env.SaveInvestor w.trace i with
  | some e => (some e, w.log (.SaveInvestor i))
  | none =>
    (none, { (w.log (.SaveInvestor i)) with
      investors := fun k => if k = i.U.Index then some i else w.investors k })

/-- Modelled from the spec: `Recipient.Save` is not in the sources; see `Project.Save`. -/
def Recipient.Save (env : Env) (w : World) (r : Recipient) : Option String × World :=
  match env.SaveRecipient w.trace r with
  | some e => (some e, w.log (.SaveRecipient r))
  | none =>
    (none, { (w.log (.SaveRecipient r)) with
      recipients := fun k => if k = r.U.Index then some r else w.recipients k })

/-! ## `platforms/solar/invest.go` -/

/-- What `PreInvestmentCheck` hands back: `(Project, Investor, Recipient, error)`. -/
structure Checked where
  project : Project
  investor : Investor
  recipient : Recipient
  err : Option String

/-- What `InvestInProject`, `SeedInvestInProject` and `sendRecipientAssets` hand back:
the project value (for `sendRecipientAssets`, the receiver after the call), the error,
and the world after the call. -/
structure Outcome where
  project : Project
  err : Option String
  world : World

/-- `PreInvestmentCheck` (invest.go 23-55).  The return of line 51 hands back the
variable `err`, which there holds the error of the recipient read of line 39. -/
def PreInvestmentCheck (env : Env) (w : World) (projIndex invIndex recpIndex : Int)
    (invAmount : String) : Checked :=
  let rp := RetrieveProject w projIndex
  let project := rp.1
  match rp.2 with
  | some e => ⟨project, default, default, some e⟩
  | none =>
  let ri := RetrieveInvestor w invIndex
  let investor := ri.1
  match ri.2 with
  | some e => ⟨project, investor, default, some e⟩
  | none =>
  let rr := RetrieveRecipient w recpIndex
  let recipient := rr.1
  let err := rr.2
  match err with
  | some e => ⟨project, investor, recipient, some e⟩
  | none =>
  if !env.CanInvest w.trace investor invAmount then
    ⟨project, investor, recipient,
      some "Investor has less balance than what is required to ivnest in this asset"⟩
  else if env.StoF invAmount > project.Params.TotalValue - project.Params.MoneyRaised then
    ⟨project, investor, recipient, err⟩
  else
    ⟨project, investor, recipient, none⟩

/-- `SendUSDToPlatform` (invest.go 57-94): the transaction hash, the error and the
world after the call. -/
def SendUSDToPlatform (env : Env) (w : World) (platformSeed invSeed invAmount : String)
    (projIndex : Int) : (String × Option String) × World :=
  let r1 := env.ReturnPubkey w.trace platformSeed
  let w1 := w.log (.ReturnPubkey platformSeed)
  let platformPubkey := r1.1
  match r1.2 with
  | some e => (("", some e), w1)
  | none =>
  let r2 := env.ReturnPubkey w1.trace invSeed
  let w2 := w1.log (.ReturnPubkey invSeed)
  let invPubkey := r2.1
  match r2.2 with
  | some e => (("", some e), w2)
  | none =>
  let r3 := env.GetAssetBalance w2.trace platformPubkey env.StablecoinCode
  let w3 := w2.log (.GetAssetBalance platformPubkey env.StablecoinCode)
  let oldPlatformBalance := r3.1
  match r3.2 with
  | some e => (("", some e), w3)
  | none =>
  let memo := "Opensolar investment: " ++ env.ItoS projIndex
  let r4 := env.SendAsset w3.trace env.StablecoinCode env.StablecoinPublicKey platformPubkey
    invAmount invSeed invPubkey memo
  let w4 := w3.log (.SendAsset env.StablecoinCode env.StablecoinPublicKey platformPubkey
    invAmount invSeed invPubkey memo)
  let txhash := r4.1
  match r4.2 with
  | some e => ((txhash, some e), w4)
  | none =>
  let r5 := env.GetAssetBalance w4.trace platformPubkey env.StablecoinCode
  let w5 := w4.log (.GetAssetBalance platformPubkey env.StablecoinCode)
  let newPlatformBalance := r5.1
  match r5.2 with
  | some e => ((txhash, some e), w5)
  | none =>
  if env.StoF newPlatformBalance - env.StoF oldPlatformBalance < env.StoF invAmount - 1 then
    ((txhash, some "Sent amount doesn't match with investment amount"), w5)
  else
    ((txhash, none), w5)

/-- `(project *Project) sendRecipientAssets` (invest.go 249-316).  `project` of the
outcome is the receiver after the call. -/
def sendRecipientAssets (env : Env) (w : World) (project : Project) (recipient : Recipient)
    (issuerPubkey issuerSeed recpSeed : String) : Outcome :=
  if project.Params.MoneyRaised ≠ project.Params.TotalValue then
    ⟨project, none, w⟩
  else
  let project : Project := { project with Params := { project.Params with
    DebtAssetCode := env.AssetID (DebtAssetPrefix ++ project.Params.Metadata) } }
  let project : Project := { project with Params := { project.Params with
    PaybackAssetCode := env.AssetID (PaybackAssetPrefix ++ project.Params.Metadata) } }
  let DebtAsset := CreateAsset project.Params.DebtAssetCode issuerPubkey
  let PaybackAsset := CreateAsset project.Params.PaybackAssetCode issuerPubkey
  let pbAmtTrust := env.ItoS (wrapInt (wrapInt (project.Params.Years * 12) * 2))
  let r1 := env.TrustAsset w.trace PaybackAsset.Code issuerPubkey pbAmtTrust
    recipient.U.PublicKey recpSeed
  let w1 := w.log (.TrustAsset PaybackAsset.Code issuerPubkey pbAmtTrust
    recipient.U.PublicKey recpSeed)
  let recpPbTrustHash := r1.1
  match r1.2 with
  | some e => ⟨project, some e, w1⟩
  | none =>
  let r2 := env.SendAssetFromIssuer w1.trace PaybackAsset.Code recipient.U.PublicKey pbAmtTrust
    issuerSeed issuerPubkey
  let w2 := w1.log (.SendAssetFromIssuer PaybackAsset.Code recipient.U.PublicKey pbAmtTrust
    issuerSeed issuerPubkey)
  let recpAssetHash := r2.1
  match r2.2 with
  | some e => ⟨project, some e, w2⟩
  | none =>
  let r3 := env.TrustAsset w2.trace DebtAsset.Code issuerPubkey
    (env.FtoS (project.Params.TotalValue * 2)) recipient.U.PublicKey recpSeed
  let w3 := w2.log (.TrustAsset DebtAsset.Code issuerPubkey
    (env.FtoS (project.Params.TotalValue * 2)) recipient.U.PublicKey recpSeed)
  let recpDebtTrustHash := r3.1
  match r3.2 with
  | some e => ⟨project, some e, w3⟩
  | none =>
  let r4 := env.SendAssetFromIssuer w3.trace DebtAsset.Code recipient.U.PublicKey
    (env.FtoS project.Params.TotalValue) issuerSeed issuerPubkey
  let w4 := w3.log (.SendAssetFromIssuer DebtAsset.Code recipient.U.PublicKey
    (env.FtoS project.Params.TotalValue) issuerSeed issuerPubkey)
  let recpDebtAssetHash := r4.1
  match r4.2 with
  | some e => ⟨project, some e, w4⟩
  | none =>
  let project : Project := { project with Params := { project.Params with
    BalLeft := project.Params.TotalValue } }
  let project : Project := { project with ProjectRecipient := recipient }
  let project : Project := { project with Stage := env.FundedProject }
  let recipient : Recipient := { recipient with
    ReceivedSolarProjects := recipient.ReceivedSolarProjects ++ [DebtAsset.Code] }
  let s5 := Recipient.Save env w4 recipient
  match s5.1 with
  | some e => ⟨project, some e, s5.2⟩
  | none =>
  let s6 := Project.Save env s5.2 project
  match s6.1 with
  | some e => ⟨project, some e, s6.2⟩
  | none =>
  let r7 := env.FreezeIssuer s6.2.trace project.Params.Index "blah"
  let w7 := s6.2.log (.FreezeIssuer project.Params.Index "blah")
  match r7.2 with
  | some e => ⟨project, some e, w7⟩
  | none =>
  let w8 := if recipient.U.Notification then
      w7.log (.NotifRecipient project.Params.Index recipient.U.Email recpPbTrustHash
        recpAssetHash recpDebtTrustHash recpDebtAssetHash)
    else w7
  let s9 := Project.Save env w8 project
  ⟨project, s9.1, s9.2⟩

/-! ### The investment round

`InvestInProject` and `SeedInvestInProject` are the same text but for the asset code,
the investor list and the notification.  The blocks they share are written once:
`bootstrap`, `collect`, `trustAndMint` and `book`, each ending where the Go text has a
`return`. -/

/-- Issuer bootstrap, `issuer.InitIssuer` then `issuer.FundIssuer`
(invest.go 113-120 and 189-196). -/
def bootstrap (env : Env) (w : World) (project : Project) (platformSeed : String) : Outcome :=
  let e1 := env.InitIssuer w.trace project.Params.Index IssuerSeedPwd
  let w1 := w.log (.InitIssuer project.Params.Index IssuerSeedPwd)
  match e1 with
  | some e => ⟨project, some e, w1⟩
  | none =>
  let e2 := env.FundIssuer w1.trace project.Params.Index IssuerSeedPwd platformSeed
  let w2 := w1.log (.FundIssuer project.Params.Index IssuerSeedPwd platformSeed)
  ⟨project, e2, w2⟩

/-- What payment collection and the issuer seed read leave for the rest of the round. -/
structure Paid where
  err : Option String
  world : World
  stableTxHash : String
  issuerPubkey : String
  issuerSeed : String

/-- Payment collection, `SendUSDToPlatform` then `wallet.RetrieveSeed`
(invest.go 123-131 and 200-208). -/
def collect (env : Env) (w : World) (platformSeed invSeed invAmount : String) (index : Int) :
    Paid :=
  let pay := SendUSDToPlatform env w platformSeed invSeed invAmount index
  let stableTxHash := pay.1.1
  match pay.1.2 with
  | some e => ⟨some e, pay.2, stableTxHash, "", ""⟩
  | none =>
  let r4 := env.RetrieveSeed pay.2.trace (env.CreatePath index) IssuerSeedPwd
  let w4 := pay.2.log (.RetrieveSeed (env.CreatePath index) IssuerSeedPwd)
  ⟨r4.2, w4, stableTxHash, r4.1.1, r4.1.2⟩

/-- What the investor's trust line and mint leave for the rest of the round. -/
structure Minted where
  err : Option String
  world : World
  invTrustTxHash : String
  invAssetTxHash : String

/-- The investor's trust line and mint, `assets.TrustAsset` then
`assets.SendAssetFromIssuer` (invest.go 134-143 and 213-222). -/
def trustAndMint (env : Env) (w : World) (code issuerPubkey issuerSeed limit pubkey invSeed
    invAmount : String) : Minted :=
  let r5 := env.TrustAsset w.trace code issuerPubkey limit pubkey invSeed
  let w5 := w.log (.TrustAsset code issuerPubkey limit pubkey invSeed)
  let invTrustTxHash := r5.1
  match r5.2 with
  | some e => ⟨some e, w5, invTrustTxHash, ""⟩
  | none =>
  let r6 := env.SendAssetFromIssuer w5.trace code pubkey invAmount issuerSeed issuerPubkey
  let w6 := w5.log (.SendAssetFromIssuer code pubkey invAmount issuerSeed issuerPubkey)
  ⟨r6.2, w6, invTrustTxHash, r6.1⟩

/-- The end of the round: investor write, notification (`note` is the notification
call of the round), funding completion, project write (invest.go 154-169 and 231-246). -/
def book (env : Env) (w : World) (project : Project) (investor : Investor)
    (recipient : Recipient) (note : Call) (issuerPubkey issuerSeed recpSeed : String) :
    Outcome :=
  let s7 := Investor.Save env w investor
  match s7.1 with
  | some e => ⟨project, some e, s7.2⟩
  | none =>
  let w8 := if investor.U.Notification then s7.2.log note else s7.2
  let r9 := sendRecipientAssets env w8 project recipient issuerPubkey issuerSeed recpSeed
  let project := r9.project
  match r9.err with
  | some e => ⟨project, some e, r9.world⟩
  | none =>
  let s10 := Project.Save env r9.world project
  ⟨project, s10.1, s10.2⟩

/-- `InvestInProject` (invest.go 97-170). -/
def InvestInProject (env : Env) (w : World) (projIndex invIndex recpIndex : Int)
    (invAmount invSeed recpSeed platformSeed : String) : Outcome :=
  let pre := PreInvestmentCheck env w projIndex invIndex recpIndex invAmount
  let project := pre.project
  let investor := pre.investor
  let recipient := pre.recipient
  match pre.err with
  | some e => ⟨project, some e, w⟩
  | none =>
  let boot : Outcome :=
    if project.Params.SeedAssetCode = "" ∧ project.Params.InvestorAssetCode = "" then
      let project : Project := { project with Params := { project.Params with
        InvestorAssetCode := env.AssetID (InvestorAssetPrefix ++ project.Params.Metadata) } }
      bootstrap env w project platformSeed
    else ⟨project, none, w⟩
  let project := boot.project
  match boot.err with
  | some e => ⟨project, some e, boot.world⟩
  | none =>
  let paid := collect env boot.world platformSeed invSeed invAmount project.Params.Index
  match paid.err with
  | some e => ⟨project, some e, paid.world⟩
  | none =>
  let InvestorAsset := CreateAsset project.Params.InvestorAssetCode paid.issuerPubkey
  let minted := trustAndMint env paid.world InvestorAsset.Code paid.issuerPubkey paid.issuerSeed
    (env.FtoS project.Params.TotalValue) investor.U.PublicKey invSeed invAmount
  match minted.err with
  | some e => ⟨project, some e, minted.world⟩
  | none =>
  let project : Project := { project with Params := { project.Params with
    MoneyRaised := project.Params.MoneyRaised + env.StoF invAmount } }
  let project : Project := { project with
    ProjectInvestors := project.ProjectInvestors ++ [investor] }
  let investor : Investor := { investor with
    AmountInvested := investor.AmountInvested + env.StoF invAmount }
  let investor : Investor := { investor with
    InvestedSolarProjects := investor.InvestedSolarProjects ++ [InvestorAsset.Code] }
  book env minted.world project investor recipient
    (.NotifInvestor projIndex investor.U.Email paid.stableTxHash minted.invTrustTxHash
      minted.invAssetTxHash)
    paid.issuerPubkey paid.issuerSeed recpSeed

/-- `SeedInvestInProject` (invest.go 174-247). -/
def SeedInvestInProject (env : Env) (w : World) (projIndex invIndex recpIndex : Int)
    (invAmount invSeed recpSeed platformSeed : String) : Outcome :=
  let pre := PreInvestmentCheck env w projIndex invIndex recpIndex invAmount
  let project := pre.project
  let investor := pre.investor
  let recipient := pre.recipient
  match pre.err with
  | some e => ⟨project, some e, w⟩
  | none =>
  let boot : Outcome :=
    if project.Params.SeedAssetCode = "" then
      let project : Project := { project with Params := { project.Params with
        SeedAssetCode := env.AssetID (InvestorAssetPrefix ++ project.Params.Metadata) } }
      bootstrap env w project platformSeed
    else ⟨project, none, w⟩
  let project := boot.project
  match boot.err with
  | some e => ⟨project, some e, boot.world⟩
  | none =>
  let paid := collect env boot.world platformSeed invSeed invAmount project.Params.Index
  match paid.err with
  | some e => ⟨project, some e, paid.world⟩
  | none =>
  let project : Project := { project with Params := { project.Params with
    SeedAssetCode := env.AssetID (SeedAssetPrefix ++ project.Params.Metadata) } }
  let SeedAsset := CreateAsset project.Params.SeedAssetCode paid.issuerPubkey
  let minted := trustAndMint env paid.world SeedAsset.Code paid.issuerPubkey paid.issuerSeed
    (env.FtoS project.Params.TotalValue) investor.U.PublicKey invSeed invAmount
  match minted.err with
  | some e => ⟨project, some e, minted.world⟩
  | none =>
  let project : Project := { project with Params := { project.Params with
    MoneyRaised := project.Params.MoneyRaised + env.StoF invAmount } }
  let project : Project := { project with
    SeedInvestors := project.SeedInvestors ++ [investor] }
  let investor : Investor := { investor with
    AmountInvested := investor.AmountInvested + env.StoF invAmount }
  let investor : Investor := { investor with
    InvestedSolarProjects := investor.InvestedSolarProjects ++ [SeedAsset.Code] }
  book env minted.world project investor recipient
    (.NotifSeedInvestor projIndex investor.U.Email paid.stableTxHash minted.invTrustTxHash
      minted.invAssetTxHash)
    paid.issuerPubkey paid.issuerSeed recpSeed

/-! ## Runs, environments and worlds used in the statements -/

/-- The calls issued between world `w` and a later world `w'`. -/
def callsSince (w w' : World) : List Call := w'.trace.drop w.trace.length

/-- Every ledger, wallet, issuer and store call succeeds, and every payment shows on
the platform account: in the call order of `SendUSDToPlatform` (two key derivations,
balance read, transfer of `a`, balance read) the second balance read is no less than
the first plus `a - 1`. -/
structure Env.Succeeds (env : Env) : Prop where
  initIssuer : ∀ h i p, env.InitIssuer h i p = none
  fundIssuer : ∀ h i p s, env.FundIssuer h i p s = none
  returnPubkey : ∀ h s, (env.ReturnPubkey h s).2 = none
  getAssetBalance : ∀ h k c, (env.GetAssetBalance h k c).2 = none
  sendAsset : ∀ h c i d a s k m, (env.SendAsset h c i d a s k m).2 = none
  retrieveSeed : ∀ h a b, (env.RetrieveSeed h a b).2 = none
  trustAsset : ∀ h a b c d e, (env.TrustAsset h a b c d e).2 = none
  sendAssetFromIssuer : ∀ h a b c d e, (env.SendAssetFromIssuer h a b c d e).2 = none
  freezeIssuer : ∀ h i p, (env.FreezeIssuer h i p).2 = none
  saveInvestor : ∀ h i, env.SaveInvestor h i = none
  saveRecipient : ∀ h r, env.SaveRecipient h r = none
  saveProject : ∀ h p, env.SaveProject h p = none
  payment : ∀ h ps is k c i a s pk m,
    env.StoF a - 1 ≤
      env.StoF (env.GetAssetBalance
        (h ++ [Call.ReturnPubkey ps, Call.ReturnPubkey is, Call.GetAssetBalance k c,
          Call.SendAsset c i k a s pk m]) k c).1
      - env.StoF (env.GetAssetBalance (h ++ [Call.ReturnPubkey ps, Call.ReturnPubkey is]) k c).1

/-- A reader for the decimal strings of the examples. -/
def demoStoF (s : String) : ℚ :=
  if s = "1000" then 1000 else if s = "1001" then 1001 else if s = "600" then 600
  else if s = "400" then 400 else if s = "1" then 1 else if s = "-1" then -1 else 0

/-- A stub platform account for the examples: the balance read right after a transfer
is the amount transferred, any other read gives "0". -/
def demoBalance (h : List Call) : String :=
  match h.getLast? with
  | some (.SendAsset _ _ _ amount _ _ _) => amount
  | _ => "0"

/-- An environment in which every call succeeds. -/
def demoEnv : Env where
  StoF := demoStoF
  FtoS := fun _ => "amount"
  ItoS := fun _ => "index"
  AssetID := fun s => "ID:" ++ s
  CreatePath := fun _ => "path"
  FundedProject := 4
  StablecoinCode := "STABLEUSD"
  StablecoinPublicKey := "GSTABLE"
  CanInvest := fun _ _ _ => true
  InitIssuer := fun _ _ _ => none
  FundIssuer := fun _ _ _ _ => none
  ReturnPubkey := fun _ s => ("pub:" ++ s, none)
  GetAssetBalance := fun h _ _ => (demoBalance h, none)
  SendAsset := fun _ _ _ _ _ _ _ _ => ("txpay", none)
  RetrieveSeed := fun _ _ _ => (("GISSUER", "SISSUER"), none)
  TrustAsset := fun _ _ _ _ _ _ => ("txtrust", none)
  SendAssetFromIssuer := fun _ _ _ _ _ _ => ("txmint", none)
  FreezeIssuer := fun _ _ _ => ("txfreeze", none)
  SaveInvestor := fun _ _ => none
  SaveRecipient := fun _ _ => none
  SaveProject := fun _ _ => none

/-- A project of the examples: index 1, total value 1000, nothing raised, no code set. -/
def demoProject : Project :=
  { Params :=
      { Index := 1, TotalValue := 1000, MoneyRaised := 0, Years := 3, Metadata := "roof",
        InvestorAssetCode := "", SeedAssetCode := "", DebtAssetCode := "",
        PaybackAssetCode := "", BalLeft := 0 },
    ProjectInvestors := [], SeedInvestors := [],
    ProjectRecipient := { U := ⟨0, "", "", false⟩, ReceivedSolarProjects := [] },
    Stage := 3 }

/-- Investor A of the examples. -/
def demoInvestor : Investor :=
  { U := ⟨1, "GINVA", "a@example.org", false⟩, AmountInvested := 0,
    InvestedSolarProjects := [] }

/-- Investor B of the examples. -/
def demoInvestorB : Investor :=
  { U := ⟨2, "GINVB", "b@example.org", true⟩, AmountInvested := 0,
    InvestedSolarProjects := [] }

/-- The recipient of the examples. -/
def demoRecipient : Recipient :=
  { U := ⟨1, "GRECP", "r@example.org", false⟩, ReceivedSolarProjects := [] }

/-- The world of the examples: `demoProject` under key 1, investors A and B under keys 1
and 2, `demoRecipient` under key 1, no call issued yet. -/
def demoWorld : World where
  projects := fun k => if k = 1 then some demoProject else none
  investors := fun k =>
    if k = 1 then some demoInvestor else if k = 2 then some demoInvestorB else none
  recipients := fun k => if k = 1 then some demoRecipient else none
  trace := []

/-! ## Values along a round

The project, investor and recipient values the round assigns, named so that the
statements can speak of them. -/

/-- The project after line 112 of `InvestInProject`: the investor code is assigned when
neither the seed code nor the investor code is set. -/
def investorCoded (env : Env) (p : Project) : Project :=
  if p.Params.SeedAssetCode = "" ∧ p.Params.InvestorAssetCode = "" then
    { p with Params := { p.Params with
        InvestorAssetCode := env.AssetID (InvestorAssetPrefix ++ p.Params.Metadata) } }
  else p

/-- The project after line 188 of `SeedInvestInProject`: an unset seed code is assigned
from the investor prefix. -/
def seedCoded (env : Env) (p : Project) : Project :=
  if p.Params.SeedAssetCode = "" then
    { p with Params := { p.Params with
        SeedAssetCode := env.AssetID (InvestorAssetPrefix ++ p.Params.Metadata) } }
  else p

/-- The project after line 210 of `SeedInvestInProject`: the seed code is assigned from
the seed prefix. -/
def seedRecoded (env : Env) (p : Project) : Project :=
  { p with Params := { p.Params with
      SeedAssetCode := env.AssetID (SeedAssetPrefix ++ p.Params.Metadata) } }

/-- The project after lines 148-149 of `InvestInProject`. -/
def investorRaised (env : Env) (p : Project) (investor : Investor) (invAmount : String) :
    Project :=
  { p with
    Params := { p.Params with MoneyRaised := p.Params.MoneyRaised + env.StoF invAmount },
    ProjectInvestors := p.ProjectInvestors ++ [investor] }

/-- The project after lines 226-227 of `SeedInvestInProject`. -/
def seedRaised (env : Env) (p : Project) (investor : Investor) (invAmount : String) :
    Project :=
  { p with
    Params := { p.Params with MoneyRaised := p.Params.MoneyRaised + env.StoF invAmount },
    SeedInvestors := p.SeedInvestors ++ [investor] }

/-- The investor after lines 150-151 (228-229) of the round. -/
def investorBooked (env : Env) (investor : Investor) (invAmount code : String) : Investor :=
  { investor with
    AmountInvested := investor.AmountInvested + env.StoF invAmount,
    InvestedSolarProjects := investor.InvestedSolarProjects ++ [code] }

/-- The project after lines 258-259 of `sendRecipientAssets`: both codes assigned. -/
def withCodes (env : Env) (p : Project) : Project :=
  { p with Params := { p.Params with
      DebtAssetCode := env.AssetID (DebtAssetPrefix ++ p.Params.Metadata),
      PaybackAssetCode := env.AssetID (PaybackAssetPrefix ++ p.Params.Metadata) } }

/-- The project after lines 290-292 of `sendRecipientAssets`. -/
def funded (env : Env) (p : Project) (r : Recipient) : Project :=
  { p with
    Params := { p.Params with
      DebtAssetCode := env.AssetID (DebtAssetPrefix ++ p.Params.Metadata),
      PaybackAssetCode := env.AssetID (PaybackAssetPrefix ++ p.Params.Metadata),
      BalLeft := p.Params.TotalValue },
    ProjectRecipient := r,
    Stage := env.FundedProject }

/-- The recipient after line 293 of `sendRecipientAssets`. -/
def recipientCredited (env : Env) (p : Project) (r : Recipient) : Recipient :=
  { r with ReceivedSolarProjects :=
      r.ReceivedSolarProjects ++ [env.AssetID (DebtAssetPrefix ++ p.Params.Metadata)] }

/-- Trust-line, mint and freeze calls. -/
def Call.isIssue (c : Call) : Bool := c.isTrust || c.isMint || c.isFreeze

/-- The five trust-line, mint and freeze calls of a completed `sendRecipientAssets`. -/
def fundingCalls (env : Env) (p : Project) (r : Recipient)
    (issuerPubkey issuerSeed recpSeed : String) : List Call :=
  [ .TrustAsset (env.AssetID (PaybackAssetPrefix ++ p.Params.Metadata)) issuerPubkey
      (env.ItoS (wrapInt (wrapInt (p.Params.Years * 12) * 2))) r.U.PublicKey recpSeed,
    .SendAssetFromIssuer (env.AssetID (PaybackAssetPrefix ++ p.Params.Metadata)) r.U.PublicKey
      (env.ItoS (wrapInt (wrapInt (p.Params.Years * 12) * 2))) issuerSeed issuerPubkey,
    .TrustAsset (env.AssetID (DebtAssetPrefix ++ p.Params.Metadata)) issuerPubkey
      (env.FtoS (p.Params.TotalValue * 2)) r.U.PublicKey recpSeed,
    .SendAssetFromIssuer (env.AssetID (DebtAssetPrefix ++ p.Params.Metadata)) r.U.PublicKey
      (env.FtoS p.Params.TotalValue) issuerSeed issuerPubkey,
    .FreezeIssuer p.Params.Index "blah" ]

/-- Between `w` and `w'` the project bucket gained at most the record `q`: a project
found in `w'` was in `w` under the same key or is `q`. -/
def StoreStep (q : Project) (w w' : World) : Prop :=
  ∀ k x, w'.projects k = some x → w.projects k = some x ∨ x = q

/-- The calls of payment collection: key derivation, balance read, transfer, issuer
seed read. -/
def Call.isCollect : Call → Bool
  | .ReturnPubkey .. => true
  | .GetAssetBalance .. => true
  | .SendAsset .. => true
  | .RetrieveSeed .. => true
  | _ => false

/-- Issuer-bootstrap calls. -/
def Call.isBoot : Call → Bool
  | .InitIssuer .. => true
  | .FundIssuer .. => true
  | _ => false

/-- The money raised lies between zero and the total value. -/
def Project.WithinTarget (q : Project) : Prop :=
  0 ≤ q.Params.MoneyRaised ∧ q.Params.MoneyRaised ≤ q.Params.TotalValue

/-- Project 1 of the examples with the whole total value raised and no code set yet. -/
def demoRaised : Project :=
  { demoProject with Params := { demoProject.Params with MoneyRaised := 1000 } }

/-- A first, completed run of the funding-completion step on `demoRaised`. -/
def demoFunding : Outcome :=
  sendRecipientAssets demoEnv demoWorld demoRaised demoRecipient "GISSUER" "SISSUER" "SRECP"

/-- Investor A funds project 1 in full. -/
def demoFull : Outcome := InvestInProject demoEnv demoWorld 1 1 1 "1000" "SINVA" "SRECP" "SPLAT"

/-- Investor B then invests "0" in the funded project. -/
def demoAfterFull : Outcome :=
  InvestInProject demoEnv demoFull.world 1 2 1 "0" "SINVB" "SRECP" "SPLAT"

/-- Investor A invests 600 in project 1. -/
def demoPartA : Outcome := InvestInProject demoEnv demoWorld 1 1 1 "600" "SINVA" "SRECP" "SPLAT"

/-- Project 1 of the examples holding codes other than the derived ones, fully raised. -/
def demoOldCodes : Project :=
  { demoProject with Params := { demoProject.Params with
      MoneyRaised := 1000, SeedAssetCode := "OLDSEED", DebtAssetCode := "OLDDEBT",
      PaybackAssetCode := "OLDPAYBACK" } }

/-- Project 1 of the examples with a seed code other than the derived one. -/
def demoOldSeed : Project :=
  { demoProject with Params := { demoProject.Params with SeedAssetCode := "OLDSEED" } }

/-- The world of the examples with `demoOldSeed` under key 1. -/
def demoWorldOldSeed : World := { demoWorld with
  projects := fun k => if k = 1 then some demoOldSeed else none }

/-- A seed round: investor A seed-invests 400 in project 1. -/
def demoSeedRound : Outcome :=
  SeedInvestInProject demoEnv demoWorld 1 1 1 "400" "SINVA" "SRECP" "SPLAT"

/-- After the seed round investor B invests 400 through `InvestInProject`. -/
def demoAfterSeed : Outcome :=
  InvestInProject demoEnv demoSeedRound.world 1 2 1 "400" "SINVB" "SRECP" "SPLAT"

/-! ## The blocks of a round and the values of a payment -/

/-- The issuer-bootstrap block of `InvestInProject` (invest.go 109-121): with neither the
seed code nor the investor code set, the investor code is assigned and the issuer is
created and funded; otherwise nothing is done. -/
def investorBoot (env : Env) (w : World) (p : Project) (platformSeed : String) : Outcome :=
  if p.Params.SeedAssetCode = "" ∧ p.Params.InvestorAssetCode = "" then
    bootstrap env w { p with Params := { p.Params with
      InvestorAssetCode := env.AssetID (InvestorAssetPrefix ++ p.Params.Metadata) } }
      platformSeed
  else ⟨p, none, w⟩

/-- The issuer-bootstrap block of `SeedInvestInProject` (invest.go 185-197): with the seed
code unset, it is assigned and the issuer is created and funded; otherwise nothing is
done. -/
def seedBoot (env : Env) (w : World) (p : Project) (platformSeed : String) : Outcome :=
  if p.Params.SeedAssetCode = "" then
    bootstrap env w { p with Params := { p.Params with
      SeedAssetCode := env.AssetID (InvestorAssetPrefix ++ p.Params.Metadata) } }
      platformSeed
  else ⟨p, none, w⟩

/-- Payment collection as `InvestInProject` runs it on the stored project `p` (lines
123-131), in the world its bootstrap block leaves. -/
def investorPaid (env : Env) (w : World) (p : Project)
    (platformSeed invSeed invAmount : String) : Paid :=
  collect env (investorBoot env w p platformSeed).world platformSeed invSeed invAmount
    p.Params.Index

/-- Payment collection as `SeedInvestInProject` runs it on the stored project `p` (lines
200-208), in the world its bootstrap block leaves. -/
def seedPaid (env : Env) (w : World) (p : Project)
    (platformSeed invSeed invAmount : String) : Paid :=
  collect env (seedBoot env w p platformSeed).world platformSeed invSeed invAmount
    p.Params.Index

/-- The investor's trust line and mint as `InvestInProject` runs them for the stored
project `p` and investor `i` (lines 133-143). -/
def investorMinted (env : Env) (w : World) (p : Project) (i : Investor)
    (platformSeed invSeed invAmount : String) : Minted :=
  trustAndMint env (investorPaid env w p platformSeed invSeed invAmount).world
    (investorCoded env p).Params.InvestorAssetCode
    (investorPaid env w p platformSeed invSeed invAmount).issuerPubkey
    (investorPaid env w p platformSeed invSeed invAmount).issuerSeed
    (env.FtoS p.Params.TotalValue) i.U.PublicKey invSeed invAmount

/-- The investor's trust line and mint as `SeedInvestInProject` runs them for the stored
project `p` and investor `i` (lines 210-222). -/
def seedMinted (env : Env) (w : World) (p : Project) (i : Investor)
    (platformSeed invSeed invAmount : String) : Minted :=
  trustAndMint env (seedPaid env w p platformSeed invSeed invAmount).world
    (env.AssetID (SeedAssetPrefix ++ p.Params.Metadata))
    (seedPaid env w p platformSeed invSeed invAmount).issuerPubkey
    (seedPaid env w p platformSeed invSeed invAmount).issuerSeed
    (env.FtoS p.Params.TotalValue) i.U.PublicKey invSeed invAmount

/-- The calls `l` are issuer-bootstrap calls, then payment-collection calls, then at
most the investor's trust line followed by at most the investor's mint. -/
def StepsInOrder (l : List Call) : Prop :=
  ∃ lb lc lm, l = lb ++ lc ++ lm ∧ (∀ c ∈ lb, c.isBoot = true) ∧
    (∀ c ∈ lc, c.isCollect = true) ∧
    (lm = [] ∨ (∃ t, t.isTrust = true ∧ lm = [t]) ∨
      ∃ t m, t.isTrust = true ∧ m.isMint = true ∧ lm = [t, m])

/-- A round on the stored project `p`, started in world `w`, that ended with the error
`e` in world `w'` before any bookkeeping: the money raised and the two investor lists of
the project handed back are those of `p`, the project and investor buckets are those of
`w`, no store write was issued, and the calls issued are in the order bootstrap, payment,
trust line, mint. -/
def AbortedAt (w : World) (p : Project) (e : String) (w' : World) (out : Outcome) : Prop :=
  out.err = some e ∧ out.world = w' ∧
  out.project.Params.MoneyRaised = p.Params.MoneyRaised ∧
  out.project.ProjectInvestors = p.ProjectInvestors ∧
  out.project.SeedInvestors = p.SeedInvestors ∧
  out.world.projects = w.projects ∧ out.world.investors = w.investors ∧
  (callsSince w out.world).filter Call.isSave = [] ∧
  StepsInOrder (callsSince w out.world)

/-- `platformPubkey` of `SendUSDToPlatform` (line 61) when started in world `w`. -/
def platformPubkey (env : Env) (w : World) (platformSeed : String) : String :=
  (env.ReturnPubkey w.trace platformSeed).1

/-- `invPubkey` of `SendUSDToPlatform` (line 66) when started in world `w`. -/
def invPubkey (env : Env) (w : World) (platformSeed invSeed : String) : String :=
  (env.ReturnPubkey (w.trace ++ [Call.ReturnPubkey platformSeed]) invSeed).1

/-- `oldPlatformBalance` of `SendUSDToPlatform` (line 71) when started in world `w`. -/
def oldPlatformBalance (env : Env) (w : World) (platformSeed invSeed : String) : String :=
  (env.GetAssetBalance (w.trace ++ [Call.ReturnPubkey platformSeed, Call.ReturnPubkey invSeed])
    (platformPubkey env w platformSeed) env.StablecoinCode).1

/-- The transfer `SendUSDToPlatform` asks for (line 76) when started in world `w`. -/
def paymentCall (env : Env) (w : World) (platformSeed invSeed invAmount : String)
    (projIndex : Int) : Call :=
  Call.SendAsset env.StablecoinCode env.StablecoinPublicKey (platformPubkey env w platformSeed)
    invAmount invSeed (invPubkey env w platformSeed invSeed)
    ("Opensolar investment: " ++ env.ItoS projIndex)

/-- `newPlatformBalance` of `SendUSDToPlatform` (line 85) when started in world `w`. -/
def newPlatformBalance (env : Env) (w : World) (platformSeed invSeed invAmount : String)
    (projIndex : Int) : String :=
  (env.GetAssetBalance
    (w.trace ++ [Call.ReturnPubkey platformSeed, Call.ReturnPubkey invSeed,
      Call.GetAssetBalance (platformPubkey env w platformSeed) env.StablecoinCode,
      paymentCall env w platformSeed invSeed invAmount projIndex])
    (platformPubkey env w platformSeed) env.StablecoinCode).1

/-- The environment of the examples with a ledger that refuses every mint. -/
def demoEnvMintFails : Env :=
  { demoEnv with SendAssetFromIssuer := fun _ _ _ _ _ _ => ("", some "mint refused") }

/-- After investor A's investment of 600 (`demoPartA`), investor B seed-invests 400 in
project 1. -/
def demoSeedAfterPartA : Outcome :=
  SeedInvestInProject demoEnv demoPartA.world 1 2 1 "400" "SINVB" "SRECP" "SPLAT"

/-! ## `platforms/bonds/bond.go` -/

/-- The fields of `BondCoopParams` read or written by `platforms/bonds/bond.go` (the
declaration of the type is not among the sources). -/
structure BondCoopParams where
  Index : Int
  MaturationDate : String
  MemberRights : String
  SecurityType : String
  InterestRate : ℚ
  Rating : String
  BondIssuer : String
  Underwriter : String
  Title : String
  Location : String
  Description : String
  DateInitiated : String
  InvestorAssetCode : String
deriving DecidableEq, Inhabited

/-- `ConstructionBond` (bond.go 20-30). -/
structure ConstructionBond where
  Params : BondCoopParams
  AmountRaised : ℚ
  CostOfUnit : ℚ
  InstrumentType : String
  NoOfUnits : Int
  Tax : String
  Investors : List Investor
  RecipientIndex : Int
deriving DecidableEq, Inhabited

/-- The calls the bond store issues outside the package. -/
inductive DBCall where
  | Timestamp
  | OpenDB
  | Begin (writable : Bool)
  | Put (key value : String)
  | Commit
deriving DecidableEq, Inhabited

/-- What `bond.go` calls outside the package: `utils.Timestamp`, `utils.ItoB`,
`json.Marshal`, `json.Unmarshal`, `database.OpenDB`, and the transactions of the bolt
database (`db.Update` begins a writable transaction, runs its body and commits, `db.View`
begins a read-only one and runs its body; a body that returns an error, or a failed
commit, leaves the bucket as it was). The first argument of an effectful field is the
list of calls issued before it. -/
structure BondEnv where
  Timestamp : List DBCall → String
  ItoB : Int → String
  Marshal : ConstructionBond → String × Option String
  Unmarshal : String → ConstructionBond × Option String
  OpenDB : List DBCall → Option String
  Begin : List DBCall → Bool → Option String
  Put : List DBCall → String → String → Option String
  Commit : List DBCall → Option String

/-- The bond bucket (`database.BondBucket`), from key bytes to value bytes, and the calls
issued so far. -/
structure BondStore where
  bonds : String → Option String
  trace : List DBCall

/-- Record a call. -/
def BondStore.log (s : BondStore) (c : DBCall) : BondStore := { s with trace := s.trace ++ [c] }

/-- `newParams` (bond.go 34-49). -/
def newParams (env : BondEnv) (s : BondStore) (mdate mrights stype : String) (intrate : ℚ)
    (rating bIssuer uWriter title location description : String) :
    BondCoopParams × BondStore :=
  let rParams : BondCoopParams := default
  let rParams := { rParams with MaturationDate := mdate }
  let rParams := { rParams with MemberRights := mrights }
  let rParams := { rParams with SecurityType := stype }
  let rParams := { rParams with InterestRate := intrate }
  let rParams := { rParams with Rating := rating }
  let rParams := { rParams with BondIssuer := bIssuer }
  let rParams := { rParams with Underwriter := uWriter }
  let rParams := { rParams with Title := title }
  let rParams := { rParams with Location := location }
  let rParams := { rParams with Description := description }
  let rParams := { rParams with DateInitiated := env.Timestamp s.trace }
  (rParams, s.log .Timestamp)

/-- `(a *ConstructionBond) Save` (bond.go 72-88): the error and the store after the
call. The bucket gains the encoded bond under `ItoB(a.Params.Index)` when the database
opens, the transaction begins, the encoding and the `Put` succeed and the transaction
commits. -/
def ConstructionBond.Save (env : BondEnv) (s : BondStore) (a : ConstructionBond) :
    Option String × BondStore :=
  let s1 := s.log .OpenDB
  match env.OpenDB s.trace with
  | some e => (some e, s1)
  | none =>
  let s2 := s1.log (.Begin true)
  match env.Begin s1.trace true with
  | some e => (some e, s2)
  | none =>
  let enc := env.Marshal a
  let encoded := enc.1
  match enc.2 with
  | some e => (some e, s2)
  | none =>
  let s3 := s2.log (.Put (env.ItoB a.Params.Index) encoded)
  match env.Put s2.trace (env.ItoB a.Params.Index) encoded with
  | some e => (some e, s3)
  | none =>
  let s4 := s3.log .Commit
  match env.Commit s3.trace with
  | some e => (some e, s4)
  | none =>
    (none, { s4 with
      bonds := fun k => if k = env.ItoB a.Params.Index then some encoded else s.bonds k })

/-- The loop of `RetrieveAllBonds` (bond.go 101-112) from key `i` on, `arr` holding the
bonds read so far: the bonds and the error handed to `db.View`, or `none` when `fuel`
iterations did not reach a key without a record. -/
def retrieveAllLoop (env : BondEnv) (bucket : String → Option String) :
    Nat → Int → List ConstructionBond → Option (List ConstructionBond × Option String)
  | 0, _, _ => none
  | fuel + 1, i, arr =>
    match bucket (env.ItoB i) with
    | none => some (arr, none)
    | some x =>
      let r := env.Unmarshal x
      match r.2 with
      | some e => some (arr, some e)
      | none => retrieveAllLoop env bucket fuel (wrapInt (i + 1)) (arr ++ [r.1])

/-- `RetrieveAllBonds` (bond.go 91-116), its loop given `fuel` iterations: the bonds, the
error and the store after the call, or `none` when the loop did not end within `fuel`
iterations. -/
def RetrieveAllBonds (env : BondEnv) (s : BondStore) (fuel : Nat) :
    Option ((List ConstructionBond × Option String) × BondStore) :=
  let s1 := s.log .OpenDB
  match env.OpenDB s.trace with
  | some e => some (([], some e), s1)
  | none =>
  let s2 := s1.log (.Begin false)
  match env.Begin s1.trace false with
  | some e => some (([], some e), s2)
  | none =>
  match retrieveAllLoop env s.bonds fuel 1 [] with
  | none => none
  | some r => some (r, s2)

/-- `RetrieveBond` (bond.go 118-135): the bond, the error and the store after the call. -/
def RetrieveBond (env : BondEnv) (s : BondStore) (key : Int) :
    (ConstructionBond × Option String) × BondStore :=
  let bond : ConstructionBond := default
  let s1 := s.log .OpenDB
  match env.OpenDB s.trace with
  | some e => ((bond, some e), s1)
  | none =>
  let s2 := s1.log (.Begin false)
  match env.Begin s1.trace false with
  | some e => ((bond, some e), s2)
  | none =>
  match s.bonds (env.ItoB key) with
  | none => ((bond, some "Retreived Bond returns nil"), s2)
  | some x => (env.Unmarshal x, s2)

/-- `NewBond` (bond.go 52-70), the loop of `RetrieveAllBonds` given `fuel` iterations:
the bond, the error and the store after the call, or `none` when that loop did not end
within `fuel` iterations. The length of a Go slice is below `2^63 - 1`, so `len(x) + 1`
is computed without wrapping. -/
def NewBond (env : BondEnv) (s : BondStore) (fuel : Nat) (mdate mrights stype : String)
    (intrate : ℚ) (rating bIssuer uWriter : String) (unitCost : ℚ) (itype : String)
    (nUnits : Int) (tax : String) (recIndex : Int) (title location description : String) :
    Option ((ConstructionBond × Option String) × BondStore) :=
  let cBond : ConstructionBond := default
  let np := newParams env s mdate mrights stype intrate rating bIssuer uWriter title location
    description
  let cBond := { cBond with Params := np.1 }
  match RetrieveAllBonds env np.2 fuel with
  | none => none
  | some ((x, err), s1) =>
  match err with
  | some e => some ((cBond, some e), s1)
  | none =>
  let cBond := { cBond with Params := { cBond.Params with Index := (x.length : Int) + 1 } }
  let cBond := { cBond with CostOfUnit := unitCost }
  let cBond := { cBond with InstrumentType := itype }
  let cBond := { cBond with NoOfUnits := nUnits }
  let cBond := { cBond with Tax := tax }
  let cBond := { cBond with RecipientIndex := recIndex }
  let sv := ConstructionBond.Save env s1 cBond
  some ((cBond, sv.1), sv.2)

/-- The bucket holds records exactly at the keys `ItoB 1`, ..., `ItoB n`. -/
def BondStore.HoldsUpTo (env : BondEnv) (s : BondStore) (n : Nat) : Prop :=
  ∀ key, (s.bonds key).isSome = true ↔ ∃ k : Int, 1 ≤ k ∧ k ≤ n ∧ key = env.ItoB k

/-- Every record of the bucket decodes. -/
def BondStore.Decodable (env : BondEnv) (s : BondStore) : Prop :=
  ∀ key x, s.bonds key = some x → (env.Unmarshal x).2 = none

/-- The database opens, transactions begin and commit, every `Put` succeeds, every bond
encodes and its encoding decodes, and `ItoB` sends different integers to different
keys. -/
structure BondEnv.Sound (env : BondEnv) : Prop where
  openDB : ∀ h, env.OpenDB h = none
  begin : ∀ h b, env.Begin h b = none
  put : ∀ h k v, env.Put h k v = none
  commit : ∀ h, env.Commit h = none
  marshal : ∀ b, (env.Marshal b).2 = none
  decodes : ∀ b, (env.Unmarshal (env.Marshal b).1).2 = none
  itob : Function.Injective env.ItoB

/-- The arguments of one `NewBond` call. -/
structure BondArgs where
  mdate : String
  mrights : String
  stype : String
  intrate : ℚ
  rating : String
  bIssuer : String
  uWriter : String
  unitCost : ℚ
  itype : String
  nUnits : Int
  tax : String
  recIndex : Int
  title : String
  location : String
  description : String

/-- `NewBond` on the arguments `a`. -/
def BondArgs.run (env : BondEnv) (s : BondStore) (fuel : Nat) (a : BondArgs) :
    Option ((ConstructionBond × Option String) × BondStore) :=
  NewBond env s fuel a.mdate a.mrights a.stype a.intrate a.rating a.bIssuer a.uWriter
    a.unitCost a.itype a.nUnits a.tax a.recIndex a.title a.location a.description

/-- The bond `NewBond` builds from the arguments `a` (bond.go 55-67) when started in
store `s` and assigning the index `index`. -/
def BondArgs.bond (env : BondEnv) (s : BondStore) (a : BondArgs) (index : Int) :
    ConstructionBond :=
  { Params :=
      { (newParams env s a.mdate a.mrights a.stype a.intrate a.rating a.bIssuer a.uWriter
          a.title a.location a.description).1 with Index := index },
    AmountRaised := 0, CostOfUnit := a.unitCost, InstrumentType := a.itype,
    NoOfUnits := a.nUnits, Tax := a.tax, Investors := [], RecipientIndex := a.recIndex }

/-- The indices assigned by the `NewBond` calls `as`, made one after the other, and the
store they leave, when each of them returns no error; `none` when one of them returns an
error or runs out of fuel. -/
def newBonds (env : BondEnv) (fuel : Nat) : BondStore → List BondArgs →
    Option (List Int × BondStore)
  | s, [] => some ([], s)
  | s, a :: as =>
    match a.run env s fuel with
    | some ((b, none), s') =>
      match newBonds env fuel s' as with
      | some (l, s'') => some (b.Params.Index :: l, s'')
      | none => none
    | _ => none

/-- A key encoding for the examples: a sign and the magnitude in unary. -/
def demoItoB (k : Int) : String :=
  ⟨(if 0 ≤ k then 'p' else 'n') :: List.replicate k.natAbs 'i'⟩

/-- An environment for the bond store in which every call succeeds. A bond is encoded
as its title, and a record decodes to the bond with that title whose index is the length
of the title. -/
def demoBondEnv : BondEnv where
  Timestamp := fun _ => "now"
  ItoB := demoItoB
  Marshal := fun b => (b.Params.Title, none)
  Unmarshal := fun x =>
    ({ (default : ConstructionBond) with
        Params := { (default : BondCoopParams) with Index := (x.length : Int), Title := x } },
      none)
  OpenDB := fun _ => none
  Begin := fun _ _ => none
  Put := fun _ _ _ => none
  Commit := fun _ => none

/-- The empty bond store. -/
def emptyBondStore : BondStore := ⟨fun _ => none, []⟩

/-- Arguments of a `NewBond` call of the examples, with the given title. -/
def demoBondArgs (title : String) : BondArgs :=
  ⟨"Dec 21 2049", "rights", "security", 5, "AAA", "issuer", "underwriter", 200000, "bond",
    10, "none", 1, title, "location", "description"⟩

/-! ## `stellar/accounts/accounts.go` -/

/-- `Account` (accounts.go 16-19). -/
structure Account where
  Seed : String
  PublicKey : String
deriving DecidableEq, Inhabited

/-- The fields of a `horizon.Balance` read by `GetAssetBalance`: the code of the asset
and the balance, a decimal string. -/
structure HorizonBalance where
  Code : String
  Balance : String
deriving DecidableEq, Inhabited

/-- The calls `accounts.go` makes to the horizon client and the transaction builder. -/
inductive HorizonCall where
  | LoadAccount (pubkey : String)
  | Transaction (source destination code issuer amount : String)
  | Sign (tx seed : String)
  | Base64 (txe : String)
  | SubmitTransaction (txeB64 : String)
deriving DecidableEq, Inhabited

/-- What `accounts.go` calls outside the package: `DefaultTestNetClient.LoadAccount`
(the balances of the account), `build.Transaction` with a payment (which reads the
sequence number from the network), `Sign`, `Base64`, `SubmitTransaction` (the ledger and
the hash of the transaction) and `strconv.ParseFloat(s, 32)`, whose value, a `float64`
holding a `float32`, is given as the rational it denotes.
The first argument of an effectful field is the list of calls issued before it. -/
structure Horizon where
  LoadAccount : List HorizonCall → String → List HorizonBalance × Option String
  Transaction : List HorizonCall → String → String → String → String → String →
    String × Option String
  Sign : List HorizonCall → String → String → String × Option String
  Base64 : List HorizonCall → String → String × Option String
  SubmitTransaction : List HorizonCall → String → (Int × String) × Option String
  ParseFloat : String → ℚ × Option String

/-- How a Go function that may call `log.Fatal` ends: the process exits, or the function
returns its error. -/
inductive Ended where
  | fatal (err : String)
  | returned (err : Option String)
deriving DecidableEq, Inhabited

/-- `(a *Account) GetAssetBalance` (accounts.go 104-118): the balance, the error (always
nil) and the calls issued so far. -/
def Account.GetAssetBalance (hz : Horizon) (h : List HorizonCall) (a : Account)
    (assetCode : String) : (String × Option String) × List HorizonCall :=
  let r := hz.LoadAccount h a.PublicKey
  let h1 := h ++ [.LoadAccount a.PublicKey]
  match r.2 with
  | some _ => (("", none), h1)
  | none =>
    match r.1.find? (fun balance => balance.Code == assetCode) with
    | some balance => ((balance.Balance, none), h1)
    | none => (("", none), h1)

/-- `(a *Account) SendAssetToIssuer` (accounts.go 248-280): the ledger, the hash, the
error and the calls issued so far. -/
def Account.SendAssetToIssuer (hz : Horizon) (h : List HorizonCall) (a : Account)
    (assetName issuerPubkey amount : String) :
    ((Int × String) × Option String) × List HorizonCall :=
  let r1 := hz.Transaction h a.PublicKey issuerPubkey assetName issuerPubkey amount
  let h1 := h ++ [.Transaction a.PublicKey issuerPubkey assetName issuerPubkey amount]
  match r1.2 with
  | some e => (((-11, ""), some e), h1)
  | none =>
  let r2 := hz.Sign h1 r1.1 a.Seed
  let h2 := h1 ++ [.Sign r1.1 a.Seed]
  match r2.2 with
  | some e => (((-11, ""), some e), h2)
  | none =>
  let r3 := hz.Base64 h2 r2.1
  let h3 := h2 ++ [.Base64 r2.1]
  match r3.2 with
  | some e => (((-11, ""), some e), h3)
  | none =>
  let r4 := hz.SubmitTransaction h3 r3.1
  let h4 := h3 ++ [.SubmitTransaction r3.1]
  match r4.2 with
  | some e => (((-11, ""), some e), h4)
  | none => ((r4.1, none), h4)

/-- `PriceOracle` (accounts.go 282-288). -/
def PriceOracle (_assetName : String) : String × Option String := ("200", none)

/-- `(a *Account) Payback` (accounts.go 290-351): how the call ends and the calls issued
so far. The difference of line 334 is a `float64` subtraction, the exact difference
rounded by `round64`. -/
def Account.Payback (hz : Horizon) (h : List HorizonCall) (a : Account)
    (assetName issuerPubkey amount : String) : Ended × List HorizonCall :=
  let g1 := a.GetAssetBalance hz h assetName
  let oldBalance := g1.1.1
  match g1.1.2 with
  | some e => (.fatal e, g1.2)
  | none =>
  let po := PriceOracle assetName
  let PBAmount := po.1
  match po.2 with
  | some e => (.returned (some e), g1.2)
  | none =>
  let sd := a.SendAssetToIssuer hz g1.2 assetName issuerPubkey amount
  match sd.1.2 with
  | some e => (.returned (some e), sd.2)
  | none =>
  let g2 := a.GetAssetBalance hz sd.2 assetName
  let newBalance := g2.1.1
  match g2.1.2 with
  | some e => (.fatal e, g2.2)
  | none =>
  let pn := hz.ParseFloat newBalance
  let newBalanceFloat := pn.1
  match pn.2 with
  | some e => (.returned (some e), g2.2)
  | none =>
  let pold := hz.ParseFloat oldBalance
  let oldBalanceFloat := pold.1
  match pold.2 with
  | some e => (.returned (some e), g2.2)
  | none =>
  let pa := hz.ParseFloat PBAmount
  let amountFloat := pa.1
  match pa.2 with
  | some e => (.returned (some e), g2.2)
  | none =>
  let paidAmount := round64 (oldBalanceFloat - newBalanceFloat)
  if paidAmount < amountFloat then
    (.returned (some "Amount paid is less than amount required, please pay more"), g2.2)
  else if paidAmount > amountFloat then
    (.returned none, g2.2)
  else
    (.returned none, g2.2)

/-- The balance `Payback` reads before the transfer. -/
def paybackOldBalance (hz : Horizon) (h : List HorizonCall) (a : Account)
    (assetName : String) : String :=
  (a.GetAssetBalance hz h assetName).1.1

/-- The transfer of `Payback`, made after the first balance read. -/
def paybackTransfer (hz : Horizon) (h : List HorizonCall) (a : Account)
    (assetName issuerPubkey amount : String) :
    ((Int × String) × Option String) × List HorizonCall :=
  a.SendAssetToIssuer hz (a.GetAssetBalance hz h assetName).2 assetName issuerPubkey amount

/-- The balance `Payback` reads after the transfer. -/
def paybackNewBalance (hz : Horizon) (h : List HorizonCall) (a : Account)
    (assetName issuerPubkey amount : String) : String :=
  (a.GetAssetBalance hz (paybackTransfer hz h a assetName issuerPubkey amount).2 assetName).1.1

/-- A reader for the decimal strings of the payback examples. -/
def demoParseFloat (s : String) : ℚ × Option String :=
  if s = "1000" then (1000, none) else if s = "900" then (900, none)
  else if s = "850" then (850, none) else if s = "800" then (800, none)
  else if s = "750" then (750, none) else if s = "250" then (250, none)
  else if s = "200" then (200, none) else if s = "150" then (150, none)
  else (0, some "strconv.ParseFloat: invalid syntax")

/-- A ledger for the payback examples: the account holds "1000" of the debt asset until
a transaction is submitted, and afterwards what is left once the amount of the last
payment built ("150", "200" or "250") is debited. -/
def demoDebtBalance (h : List HorizonCall) : String :=
  if h.any (fun c => match c with | .SubmitTransaction _ => true | _ => false) then
    if h.any (fun c => match c with | .Transaction _ _ _ _ "150" => true | _ => false) then
      "850"
    else if h.any (fun c => match c with | .Transaction _ _ _ _ "200" => true | _ => false)
    then "800"
    else "750"
  else "1000"

/-- A horizon client for the payback examples in which every call succeeds. -/
def demoHorizon : Horizon where
  LoadAccount := fun h _ => ([⟨"DEBT", demoDebtBalance h⟩], none)
  Transaction := fun _ _ _ _ _ _ => ("tx", none)
  Sign := fun _ _ _ => ("txe", none)
  Base64 := fun _ _ => ("b64", none)
  SubmitTransaction := fun _ _ => ((7, "hash"), none)
  ParseFloat := demoParseFloat

/-- The recipient account of the payback examples. -/
def demoAccount : Account := ⟨"SRECP", "GRECP"⟩

/-! ## Runs that differ in a notification flag -/

/-- The investor with the notification flag cleared. -/
def Investor.mute (i : Investor) : Investor :=
  { i with U := { i.U with Notification := false } }

/-- The project with the notification flag of every investor on record cleared. -/
def Project.mute (p : Project) : Project :=
  { p with
    ProjectInvestors := p.ProjectInvestors.map Investor.mute,
    SeedInvestors := p.SeedInvestors.map Investor.mute }

/-- A call as seen by someone who sees neither the notifications to investors nor the
notification flags of investors: those notifications are dropped, and the records of
store writes have the flags cleared. -/
def Call.mute : Call → Option Call
  | .NotifInvestor .. => none
  | .NotifSeedInvestor .. => none
  | .SaveInvestor i => some (.SaveInvestor i.mute)
  | .SaveProject p => some (.SaveProject p.mute)
  | c => some c

/-- A history without the notifications to investors and the notification flags of
investors. -/
def muted (h : List Call) : List Call := h.filterMap Call.mute

/-- The environment does not see investor notifications: `CanInvest`, the store writes
and the ledger calls of the funding-completion step answer as they do on the history
without the notifications to investors, for records with the notification flags of
investors cleared. -/
structure Env.NotifBlind (env : Env) : Prop where
  canInvest : ∀ h i a, env.CanInvest h i a = env.CanInvest (muted h) i.mute a
  trustAsset : ∀ h, env.TrustAsset h = env.TrustAsset (muted h)
  sendAssetFromIssuer : ∀ h, env.SendAssetFromIssuer h = env.SendAssetFromIssuer (muted h)
  freezeIssuer : ∀ h, env.FreezeIssuer h = env.FreezeIssuer (muted h)
  saveInvestor : ∀ h i, env.SaveInvestor h i = env.SaveInvestor (muted h) i.mute
  saveRecipient : ∀ h, env.SaveRecipient h = env.SaveRecipient (muted h)
  saveProject : ∀ h p, env.SaveProject h p = env.SaveProject (muted h) p.mute

/-- The investor `i` with the notification flag set to `b`. -/
def Investor.withNotification (i : Investor) (b : Bool) : Investor :=
  { i with U := { i.U with Notification := b } }

/-- The world `w` with the notification flag of the investor stored under `invIndex` set
to `b`. -/
def World.withNotification (w : World) (invIndex : Int) (b : Bool) : World :=
  { w with investors := fun k =>
      if k = invIndex then (w.investors k).map (fun i => i.withNotification b)
      else w.investors k }

/-! ## The funding-completion step with numbers written as numerals -/

/-- A writer of decimal numerals for the amounts of the examples, in the six-decimal form
of the ledger. -/
def demoFtoS (q : ℚ) : String :=
  if q = 1000 then "1000.000000" else if q = 2000 then "2000.000000" else "0.000000"

/-- A writer of decimal numerals for the integers of the examples. -/
def demoItoS (k : Int) : String := if k = 72 then "72" else "0"

/-- The environment `demoEnv` with amounts and integers written as numerals. -/
def demoEnvNumerals : Env := { demoEnv with FtoS := demoFtoS, ItoS := demoItoS }

/-- A completed run of the funding-completion step on `demoRaised` (total value 1000,
3 years) with numbers written as numerals. -/
def demoFundingNumerals : Outcome :=
  sendRecipientAssets demoEnvNumerals demoWorld demoRaised demoRecipient "GISSUER" "SISSUER"
    "SRECP"

/-! ## Durations (`consts/consts.go`) -/

/-- Go `time.Second`, a `time.Duration`: a count of nanoseconds held in an `int64`. -/
def Second : Int := 1000000000

/-- `LockInterval` (consts.go 123), an `int64` count of seconds. -/
def LockInterval : Int := 1 * 60 * 60 * 24 * 3

/-- `PaybackInterval` (consts.go 124), the `time.Duration` of the literal. -/
def PaybackInterval : Int := 1 * 60 * 60 * 24 * 30

/-- `OneWeekInSecond` (consts.go 125), a `time.Duration`. -/
def OneWeekInSecond : Int := 604800 * Second

/-- `TwoWeeksInSecond` (consts.go 126), a `time.Duration`. -/
def TwoWeeksInSecond : Int := 1209600 * Second

/-- `SixWeeksInSecond` (consts.go 127), a `time.Duration`. -/
def SixWeeksInSecond : Int := 3628800 * Second

/-- `CutDownPeriod` (consts.go 128), a `time.Duration`. -/
def CutDownPeriod : Int := 4838400 * Second

/-! ## Accounts that hold none of the asset -/

/-- A horizon client for an account that holds none of the debt asset: the account
loads, its only balance is in another asset, a payment can be built, signed and encoded,
and the ledger turns the payment down when it is submitted. -/
def demoHorizonNoDebt : Horizon where
  LoadAccount := fun _ _ => ([⟨"OTHER", "5"⟩], none)
  Transaction := fun _ _ _ _ _ _ => ("tx", none)
  Sign := fun _ _ _ => ("txe", none)
  Base64 := fun _ _ => ("b64", none)
  SubmitTransaction := fun _ _ => ((0, ""), some "tx_failed: op_underfunded")
  ParseFloat := demoParseFloat

/-- A horizon client for an account that holds none of the debt asset and whose payment
the ledger accepts all the same. -/
def demoHorizonNoEntry : Horizon where
  LoadAccount := fun _ _ => ([⟨"OTHER", "5"⟩], none)
  Transaction := fun _ _ _ _ _ _ => ("tx", none)
  Sign := fun _ _ _ => ("txe", none)
  Base64 := fun _ _ => ("b64", none)
  SubmitTransaction := fun _ _ => ((7, "hash"), none)
  ParseFloat := demoParseFloat

/-- Submissions of a transaction. -/
def HorizonCall.isSubmit : HorizonCall → Bool
  | .SubmitTransaction _ => true
  | _ => false

/-! ## Buckets with gaps -/

/-- The bond decoded from the record under key `j + 1` (the default bond when the key
holds no record). -/
def recordAt (env : BondEnv) (bucket : String → Option String) (j : Nat) : ConstructionBond :=
  match bucket (env.ItoB ((j : Int) + 1)) with
  | some x => (env.Unmarshal x).1
  | none => default

/-- The bonds decoded from the records under keys 1..k, in increasing order of key. -/
def recordsUpTo (env : BondEnv) (bucket : String → Option String) (k : Nat) :
    List ConstructionBond :=
  (List.range k).map (recordAt env bucket)

/-- Key `k + 1` is the smallest positive key without a record: keys 1..k hold one and key
`k + 1` holds none. -/
def FirstGap (env : BondEnv) (bucket : String → Option String) (k : Nat) : Prop :=
  (∀ j : Nat, j < k → bucket (env.ItoB ((j : Int) + 1)) ≠ none) ∧
  bucket (env.ItoB ((k : Int) + 1)) = none

/-- A bond bucket with a gap: records "a", "bb" and "dddd" under keys 1, 2 and 4, nothing
under key 3. -/
def demoGapStore : BondStore where
  bonds := fun key =>
    if key = demoItoB 1 then some "a" else if key = demoItoB 2 then some "bb"
    else if key = demoItoB 4 then some "dddd" else none
  trace := []

/-! ## `teller/commands.go` -/

/-- The colours `ColorOutput` is called with (their values are not among the sources). -/
inductive Color where
  | White
  | Magenta
  | Green
  | Cyan
deriving DecidableEq, Inhabited

/-- The fields of the teller's `LocalProject` printed by `ParseInput`, each as
`fmt.Println` writes it. -/
structure TellerProject where
  Index : String
  PanelSize : String
  TotalValue : String
  Location : String
  MoneyRaised : String
  Metadata : String
  Years : String
  AuctionType : String
  DebtAssetCode : String
  PaybackAssetCode : String
  BalLeft : String
  DateInitiated : String
  DateLastPaid : String
deriving DecidableEq, Inhabited

/-- What `ParseInput` does outside its own body: output (`fmt.Println` with its operands,
`log.Println`, `log.Fatal`, `ColorOutput`), the calls to the platform and to the ledger,
and `updateState`. -/
inductive TellerCall where
  | Println (operands : List String)
  | LogPrintln (msg : String)
  | LogFatal (msg : String)
  | ColorOutput (msg : String) (color : Color)
  | PingRpc
  | GetXLM (pubkey : String)
  | GetNativeBalance (pubkey : String)
  | GetAssetBalance (pubkey code : String)
  | GetLocalProjectDetails (index : String)
  | UpdateState
deriving DecidableEq, Inhabited

/-- The balance queries. -/
def TellerCall.isQuery : TellerCall → Bool
  | .GetNativeBalance _ => true
  | .GetAssetBalance _ _ => true
  | _ => false

/-- The functions `ParseInput` calls and whose answer it reads: `PingRpc`, `xlm.GetXLM`,
`xlm.GetNativeBalance`, `xlm.GetAssetBalance` and `GetLocalProjectDetails`. The first
argument is the list of calls issued before. -/
structure TellerEnv where
  PingRpc : List TellerCall → Option String
  GetXLM : List TellerCall → String → Option String
  GetNativeBalance : List TellerCall → String → String × Option String
  GetAssetBalance : List TellerCall → String → String → String × Option String
  GetLocalProjectDetails : List TellerCall → String → TellerProject × Option String

/-- The package variables of the teller that `ParseInput` reads or writes, the calls
issued so far, and whether the process has exited (`log.Fatal`). -/
structure Teller where
  RecpPublicKey : String
  LocalProjIndex : String
  LocalProject : TellerProject
  trace : List TellerCall
  exited : Bool

/-- Record a call. -/
def Teller.log (t : Teller) (c : TellerCall) : Teller := { t with trace := t.trace ++ [c] }

/-- `ParseInput` (commands.go 22-112): the teller after the command `input`. -/
def ParseInput (env : TellerEnv) (t : Teller) (input : List String) : Teller :=
  match input with
  | [] => t.log (.Println ["List of commands: ping, receive, display, update"])
  | command :: rest =>
    if command = "qq" then
      { (t.log (.LogFatal "qq emergency exit")) with exited := true }
    else if command = "help" then
      t.log (.Println ["List of commands: ping, receive, display, update"])
    else if command = "ping" then
      let t1 := t.log .PingRpc
      match env.PingRpc t.trace with
      | some e => t1.log (.LogPrintln e)
      | none => t1
    else if command = "receive" then
      if input.length ≠ 2 then
        t.log (.Println ["USAGE: receive xlm"])
      else
        let t1 := t.log (.GetXLM t.RecpPublicKey)
        match env.GetXLM t.trace t.RecpPublicKey with
        | some e => t1.log (.LogPrintln e)
        | none => t1
    else if command = "display" then
      match rest with
      | [] => t.log (.Println ["USAGE: display <balance, info>"])
      | subcommand :: rest2 =>
        if subcommand = "balance" then
          match rest2 with
          | [] => t.log (.Println ["USAGE: display balance <xlm, asset>"])
          | subsubcommand :: _ =>
            let t1 := t.log (.ColorOutput
              ("Displaying balance in " ++ subsubcommand ++ " for user: ") .White)
            let r :=
              if subsubcommand = "xlm" then env.GetNativeBalance t1.trace t.RecpPublicKey
              else env.GetAssetBalance t1.trace t.RecpPublicKey subcommand
            let t2 :=
              if subsubcommand = "xlm" then t1.log (.GetNativeBalance t.RecpPublicKey)
              else t1.log (.GetAssetBalance t.RecpPublicKey subcommand)
            let balance := r.1
            match r.2 with
            | some e => t2.log (.LogPrintln e)
            | none => t2.log (.ColorOutput balance .Magenta)
        else if subcommand = "info" then
          let r := env.GetLocalProjectDetails t.trace t.LocalProjIndex
          let t1 := { (t.log (.GetLocalProjectDetails t.LocalProjIndex)) with
            LocalProject := r.1 }
          match r.2 with
          | some e => t1.log (.LogPrintln e)
          | none =>
            { t1 with trace := t1.trace ++
              [ .Println ["          PROJECT INDEX: ", t1.LocalProject.Index],
                .Println ["          Panel Size: ", t1.LocalProject.PanelSize],
                .Println ["          Total Value: ", t1.LocalProject.TotalValue],
                .Println ["          Location: ", t1.LocalProject.Location],
                .Println ["          Money Raised: ", t1.LocalProject.MoneyRaised],
                .Println ["          Metadata: ", t1.LocalProject.Metadata],
                .Println ["          Years: ", t1.LocalProject.Years],
                .Println ["          Auction Type: ", t1.LocalProject.AuctionType],
                .Println ["          Debt Asset Code: ", t1.LocalProject.DebtAssetCode],
                .Println ["          Payback Asset Code: ", t1.LocalProject.PaybackAssetCode],
                .Println ["          Balance Left: ", t1.LocalProject.BalLeft],
                .Println ["          Date Initiated: ", t1.LocalProject.DateInitiated],
                .Println ["          Date Last Paid: ", t1.LocalProject.DateLastPaid] ] }
        else
          t.log (.LogPrintln "Invalid command or need more parameters")
    else if command = "update" then
      if input.length ≠ 1 then
        t.log (.Println ["USAGE: update <state>"])
      else
        t.log .UpdateState
    else t

/-- A ledger for the teller examples: the recipient holds "150" of the asset "STABLEUSD"
and "9" lumens, and no asset of any other code. -/
def demoTellerEnv : TellerEnv where
  PingRpc := fun _ => none
  GetXLM := fun _ _ => none
  GetNativeBalance := fun _ _ => ("9", none)
  GetAssetBalance := fun _ _ code =>
    if code = "STABLEUSD" then ("150", none) else ("", some "asset balance not found")
  GetLocalProjectDetails := fun _ _ => (default, none)

/-- The teller of the examples, no call issued yet. -/
def demoTeller : Teller :=
  { RecpPublicKey := "GRECP", LocalProjIndex := "1", LocalProject := default, trace := [],
    exited := false }

/-! ## `emulator/login.go` -/

/-- The field of the embedded `database.User` that `Login` reads. -/
structure EmulatorUser where
  EncryptedSeed : String
deriving DecidableEq, Inhabited

/-- The fields of `database.Investor` read by `Login`. -/
structure EmulatorInvestor where
  U : EmulatorUser
deriving DecidableEq, Inhabited

/-- The fields of `database.Recipient` read by `Login`. -/
structure EmulatorRecipient where
  U : EmulatorUser
deriving DecidableEq, Inhabited

/-- The fields of `solar.Entity` read by `Login`. -/
structure Entity where
  U : EmulatorUser
  Contractor : Bool
  Originator : Bool
deriving DecidableEq, Inhabited

/-- The calls `Login` issues: requests to the platform, output, the password prompt and
the decryption of the seed. -/
inductive LoginCall where
  | GetRequest (url : String)
  | ColorOutput (msg : String) (color : Color)
  | LogPrintln (msg : String)
  | ScanRawPassword
  | DecryptSeed (encrypted pwd : String)
deriving DecidableEq, Inhabited

/-- What `Login` calls outside the package: `rpc.GetRequest`, the `UnmarshalJSON` of the
four records (of `rpc.ValidateParams` only the field `Role` is read),
`scan.ScanRawPassword` and `wallet.DecryptSeed`. The first argument of an effectful field
is the list of calls issued before it. -/
structure LoginEnv where
  GetRequest : List LoginCall → String → String × Option String
  UnmarshalValidate : String → String × Option String
  UnmarshalInvestor : String → EmulatorInvestor × Option String
  UnmarshalRecipient : String → EmulatorRecipient × Option String
  UnmarshalEntity : String → Entity × Option String
  ScanRawPassword : List LoginCall → String × Option String
  DecryptSeed : String → String → String × Option String

/-- The package variables of the emulator that `Login` reads or writes, and the calls
issued so far. -/
structure Emulator where
  ApiUrl : String
  LocalInvestor : EmulatorInvestor
  LocalRecipient : EmulatorRecipient
  LocalContractor : Entity
  LocalOriginator : Entity
  LocalSeedPwd : String
  LocalSeed : String
  trace : List LoginCall

/-- Record a call. -/
def Emulator.log (m : Emulator) (c : LoginCall) : Emulator := { m with trace := m.trace ++ [c] }

/-- `errors.Wrap(err, msg)` of `github.com/pkg/errors`: the message, a colon and the
cause. -/
def Wrap (err msg : String) : String := msg ++ ": " ++ err

/-- The password prompt and the decryption of a seed, the steps that end each of the
role branches of `Login` (login.go 39-47, 60-68 and 89-103): the error, already wrapped,
and the emulator after them. -/
def scanAndDecrypt (env : LoginEnv) (m : Emulator) (encrypted : String) :
    Option String × Emulator :=
  let m1 := m.log (.ColorOutput "ENTER YOUR SEEDPWD: " .Cyan)
  let r := env.ScanRawPassword m1.trace
  let m2 := { (m1.log .ScanRawPassword) with LocalSeedPwd := r.1 }
  match r.2 with
  | some e => (some (Wrap e "could not scan raw password"), m2)
  | none =>
  let d := env.DecryptSeed encrypted m2.LocalSeedPwd
  let m3 := { (m2.log (.DecryptSeed encrypted m2.LocalSeedPwd)) with LocalSeed := d.1 }
  match d.2 with
  | some e => (some (Wrap e "could not decrypt seed"), m3)
  | none => (none, m3)

/-- The last two lines of `Login` (login.go 106-107): the announcement and the return of
the role with a nil error. -/
def authenticated (m : Emulator) (wString : String) : (String × Option String) × Emulator :=
  ((wString, none),
    m.log (.ColorOutput ("AUTHENTICATED USER, YOUR ROLE IS: " ++ wString) .Green))

/-- `Login` (login.go 15-108): the role, the error and the emulator after the call. -/
def Login (env : LoginEnv) (m : Emulator) (username pwhash : String) :
    (String × Option String) × Emulator :=
  let wString := ""
  let r := env.GetRequest m.trace
    (m.ApiUrl ++ "/user/validate?" ++ "username=" ++ username ++ "&pwhash=" ++ pwhash)
  let m1 := m.log (.GetRequest
    (m.ApiUrl ++ "/user/validate?" ++ "username=" ++ username ++ "&pwhash=" ++ pwhash))
  match r.2 with
  | some e => ((wString, some (Wrap e "validate request failed")), m1)
  | none =>
  let x := env.UnmarshalValidate r.1
  match x.2 with
  | some e => ((wString, some (Wrap e "could not unmarshal json")), m1)
  | none =>
  let Role := x.1
  if Role = "Investor" then
    let wString := "Investor"
    let r := env.GetRequest m1.trace
      (m.ApiUrl ++ "/investor/validate?" ++ "username=" ++ username ++ "&pwhash=" ++ pwhash)
    let m2 := m1.log (.GetRequest
      (m.ApiUrl ++ "/investor/validate?" ++ "username=" ++ username ++ "&pwhash=" ++ pwhash))
    match r.2 with
    | some e => ((wString, some (Wrap e "could not call ivnestor validate function")), m2)
    | none =>
    let inv := env.UnmarshalInvestor r.1
    match inv.2 with
    | some e => ((wString, some (Wrap e "could not unmarshal json")), m2)
    | none =>
    let m3 := { m2 with LocalInvestor := inv.1 }
    let sd := scanAndDecrypt env m3 m3.LocalInvestor.U.EncryptedSeed
    match sd.1 with
    | some e => ((wString, some e), sd.2)
    | none => authenticated sd.2 wString
  else if Role = "Recipient" then
    let wString := "Recipient"
    let r := env.GetRequest m1.trace
      (m.ApiUrl ++ "/recipient/validate?" ++ "username=" ++ username ++ "&pwhash=" ++ pwhash)
    let m2 := m1.log (.GetRequest
      (m.ApiUrl ++ "/recipient/validate?" ++ "username=" ++ username ++ "&pwhash=" ++ pwhash))
    match r.2 with
    | some e => ((wString, some (Wrap e "could not call recipient validate endpoint")), m2)
    | none =>
    let recp := env.UnmarshalRecipient r.1
    match recp.2 with
    | some e => ((wString, some (Wrap e "could not unmarshal json")), m2)
    | none =>
    let m3 := { m2 with LocalRecipient := recp.1 }
    let sd := scanAndDecrypt env m3 m3.LocalRecipient.U.EncryptedSeed
    match sd.1 with
    | some e => ((wString, some e), sd.2)
    | none => authenticated sd.2 wString
  else if Role = "Entity" then
    let m1 := m1.log (.LogPrintln "ENTITY?")
    let r := env.GetRequest m1.trace
      (m.ApiUrl ++ "/entity/validate?" ++ "username=" ++ username ++ "&pwhash=" ++ pwhash)
    let m2 := m1.log (.GetRequest
      (m.ApiUrl ++ "/entity/validate?" ++ "username=" ++ username ++ "&pwhash=" ++ pwhash))
    match r.2 with
    | some e => ((wString, some (Wrap e "could not call entity validate endpoint")), m2)
    | none =>
    let ent := env.UnmarshalEntity r.1
    let entity := ent.1
    match ent.2 with
    | some e => ((wString, some (Wrap e "could not unmarshal json")), m2)
    | none =>
    if entity.Contractor then
      let m3 := { m2 with LocalContractor := entity }
      let wString := "Contractor"
      let sd := scanAndDecrypt env m3 m3.LocalContractor.U.EncryptedSeed
      match sd.1 with
      | some e => ((wString, some e), sd.2)
      | none => authenticated sd.2 wString
    else if entity.Originator then
      let m3 := { m2 with LocalOriginator := entity }
      let wString := "Originator"
      let sd := scanAndDecrypt env m3 m3.LocalOriginator.U.EncryptedSeed
      match sd.1 with
      | some e => ((wString, some e), sd.2)
      | none => authenticated sd.2 wString
    else ((wString, some "Not a contractor"), m2)
  else authenticated m1 wString

/-- A platform for the login examples: the validate endpoint answers every request, and
the answer decodes to the role "Admin" for the user "root" and to the role "Investor" for
everybody else; every other call succeeds. -/
def demoLoginEnv : LoginEnv where
  GetRequest := fun _ url => (url, none)
  UnmarshalValidate := fun data =>
    if data = "https://api/user/validate?username=root&pwhash=h" then ("Admin", none)
    else ("Investor", none)
  UnmarshalInvestor := fun _ => (⟨⟨"ENC"⟩⟩, none)
  UnmarshalRecipient := fun _ => (⟨⟨"ENC"⟩⟩, none)
  UnmarshalEntity := fun _ => (⟨⟨"ENC"⟩, false, false⟩, none)
  ScanRawPassword := fun _ => ("pwd", none)
  DecryptSeed := fun _ _ => ("SEED", none)

/-- The emulator of the examples before any login. -/
def demoEmulator : Emulator :=
  { ApiUrl := "https://api", LocalInvestor := default, LocalRecipient := default,
    LocalContractor := default, LocalOriginator := default, LocalSeedPwd := "",
    LocalSeed := "", trace := [] }

/-! ## `Invest` of `platforms/bonds/bond.go` -/

/-- The prefix hashed to give a bond asset id (`consts.BondAssetPrefix`). -/
def BondAssetPrefix : String := "BondAssets_"

/-- What `Invest` leaves behind: the receiver and the investor after the call (both are
passed by pointer), the error, the entity store with the ledger calls, and the bond
store. -/
structure BondOutcome where
  bond : ConstructionBond
  investor : Investor
  err : Option String
  world : World
  store : BondStore

/-- `(a *ConstructionBond) Invest` (bond.go 139-187). `StoI` is `utils.StoI`, which is not
among the sources. The conversion `float64(investmentAmount)`, the product of line 158
and the sums of lines 177 and 178 are `float64` operations: each is the exact result
rounded by `round64`. The ledger calls and `investor.Save` go through `env` and `w`,
`a.Save` through `benv` and `s`. -/
def ConstructionBond.Invest (env : Env) (benv : BondEnv) (StoI : String → Int) (w : World)
    (s : BondStore) (a : ConstructionBond) (issuerPublicKey issuerSeed : String)
    (investor : Investor) (_recipient : Recipient)
    (investmentAmountS investorSeed _recipientSeed : String) : BondOutcome :=
  let investmentAmount := StoI investmentAmountS
  if round64 (investmentAmount : ℚ) > a.CostOfUnit then
    ⟨a, investor,
      some "You are trying to invest more than a unit's cost, do you want to invest in two units?",
      w, s⟩
  else
  let assetName := env.AssetID (a.Params.MaturationDate ++ a.Params.SecurityType ++
    a.Params.Rating ++ a.Params.BondIssuer)
  let a : ConstructionBond :=
    if a.Params.InvestorAssetCode = "" then
      { a with Params := { a.Params with
          InvestorAssetCode := env.AssetID (BondAssetPrefix ++ assetName) } }
    else a
  let r1 := env.TrustAsset w.trace a.Params.InvestorAssetCode issuerPublicKey
    (env.FtoS (round64 (a.CostOfUnit * round64 (a.NoOfUnits : ℚ)))) investor.U.PublicKey
    investorSeed
  let w1 := w.log (.TrustAsset a.Params.InvestorAssetCode issuerPublicKey
    (env.FtoS (round64 (a.CostOfUnit * round64 (a.NoOfUnits : ℚ)))) investor.U.PublicKey
    investorSeed)
  match r1.2 with
  | some e => ⟨a, investor, some e, w1, s⟩
  | none =>
  let r2 := env.SendAssetFromIssuer w1.trace a.Params.InvestorAssetCode investor.U.PublicKey
    investmentAmountS issuerSeed issuerPublicKey
  let w2 := w1.log (.SendAssetFromIssuer a.Params.InvestorAssetCode investor.U.PublicKey
    investmentAmountS issuerSeed issuerPublicKey)
  match r2.2 with
  | some e => ⟨a, investor, some e, w2, s⟩
  | none =>
  let a : ConstructionBond := { a with
    AmountRaised := round64 (a.AmountRaised + round64 (investmentAmount : ℚ)) }
  let investor : Investor := { investor with
    AmountInvested := round64 (investor.AmountInvested + round64 (investmentAmount : ℚ)) }
  let investor : Investor := { investor with
    InvestedBonds := investor.InvestedBonds ++ [a.Params.InvestorAssetCode] }
  let s3 := Investor.Save env w2 investor
  match s3.1 with
  | some e => ⟨a, investor, some e, s3.2, s⟩
  | none =>
  let a : ConstructionBond := { a with Investors := a.Investors ++ [investor] }
  let s4 := ConstructionBond.Save benv s a
  ⟨a, investor, s4.1, s3.2, s4.2⟩

/-- The bond respects its raise bound: what was raised lies between zero and the cost of
all its units. -/
def ConstructionBond.WithinUnits (a : ConstructionBond) : Prop :=
  0 ≤ a.AmountRaised ∧ a.AmountRaised ≤ a.CostOfUnit * (a.NoOfUnits : ℚ)

/-- A reader for the integer strings of the bond examples. -/
def demoStoI (s : String) : Int :=
  if s = "50" then 50 else if s = "100" then 100 else if s = "150" then 150
  else if s = "9007199254740993" then 9007199254740993 else 0

/-- A bond of the examples: index 1, two units of 100 each, nothing raised, no asset code
yet. -/
def demoUnitBond : ConstructionBond :=
  { (default : ConstructionBond) with
    Params := { (default : BondCoopParams) with
      Index := 1, MaturationDate := "Dec 21 2049", SecurityType := "security",
      Rating := "AAA", BondIssuer := "issuer", Title := "tower" },
    AmountRaised := 0, CostOfUnit := 100, NoOfUnits := 2 }

/-- The bond of the examples with all it can raise already raised. -/
def demoFullBond : ConstructionBond := { demoUnitBond with AmountRaised := 200 }

/-- The bond of the examples with units of `2 ^ 53` each. -/
def demoBigBond : ConstructionBond := { demoUnitBond with CostOfUnit := 9007199254740992 }

/-- Investor A invests `amount` in the bond `a`, every ledger and store call
succeeding. -/
def demoInvest (a : ConstructionBond) (amount : String) : BondOutcome :=
  a.Invest demoEnv demoBondEnv demoStoI demoWorld emptyBondStore "GISSUER" "SISSUER"
    demoInvestor demoRecipient amount "SINVA" "SRECP"

/-! ## A ledger read at single precision -/

/-- The parser of the single-precision example: `strconv.ParseFloat(s, 32)` on the three
decimals that occur, each rounded to `float32`. -/
def demoParseFloat32 (s : String) : ℚ × Option String :=
  if s = "300.02" then (round32 (30002 / 100), none)
  else if s = "100.02" then (round32 (10002 / 100), none)
  else if s = "200" then (round32 200, none)
  else (0, some "strconv.ParseFloat: invalid syntax")

/-- A ledger that debits exactly what is tendered: the account holds "300.02" of the debt
asset until a transaction is submitted and "100.02" afterwards, the payment built being
of "200". Every call succeeds. -/
def demoHorizon32 : Horizon where
  LoadAccount := fun h _ =>
    ([⟨"DEBT", if h.any HorizonCall.isSubmit then "100.02" else "300.02"⟩], none)
  Transaction := fun _ _ _ _ _ _ => ("tx", none)
  Sign := fun _ _ _ => ("txe", none)
  Base64 := fun _ _ => ("b64", none)
  SubmitTransaction := fun _ _ => ((7, "hash"), none)
  ParseFloat := demoParseFloat32

/-! ## The round with the booked sums rounded

`InvestInProject64` and `SeedInvestInProject64` are the text of `InvestInProject` and
`SeedInvestInProject` with the two `float64` additions of the bookkeeping (lines 148 and
150, 226 and 228) rounded by `round64`; the other lines are the same. -/

/-- The project after lines 148-149 of `InvestInProject`, the sum of line 148 being the
`float64` sum. -/
def investorRaised64 (env : Env) (p : Project) (investor : Investor) (invAmount : String) :
    Project :=
  { p with
    Params := { p.Params with
      MoneyRaised := round64 (p.Params.MoneyRaised + env.StoF invAmount) },
    ProjectInvestors := p.ProjectInvestors ++ [investor] }

/-- The project after lines 226-227 of `SeedInvestInProject`, the sum of line 226 being
the `float64` sum. -/
def seedRaised64 (env : Env) (p : Project) (investor : Investor) (invAmount : String) :
    Project :=
  { p with
    Params := { p.Params with
      MoneyRaised := round64 (p.Params.MoneyRaised + env.StoF invAmount) },
    SeedInvestors := p.SeedInvestors ++ [investor] }

/-- The investor after lines 150-151 (228-229) of the round, the sum of line 150 (228)
being the `float64` sum. -/
def investorBooked64 (env : Env) (investor : Investor) (invAmount code : String) : Investor :=
  { investor with
    AmountInvested := round64 (investor.AmountInvested + env.StoF invAmount),
    InvestedSolarProjects := investor.InvestedSolarProjects ++ [code] }

/-- `InvestInProject` (invest.go 97-170) with the sums of lines 148 and 150 rounded to
`float64`. -/
def InvestInProject64 (env : Env) (w : World) (projIndex invIndex recpIndex : Int)
    (invAmount invSeed recpSeed platformSeed : String) : Outcome :=
  let pre := PreInvestmentCheck env w projIndex invIndex recpIndex invAmount
  let project := pre.project
  let investor := pre.investor
  let recipient := pre.recipient
  match pre.err with
  | some e => ⟨project, some e, w⟩
  | none =>
  let boot : Outcome :=
    if project.Params.SeedAssetCode = "" ∧ project.Params.InvestorAssetCode = "" then
      let project : Project := { project with Params := { project.Params with
        InvestorAssetCode := env.AssetID (InvestorAssetPrefix ++ project.Params.Metadata) } }
      bootstrap env w project platformSeed
    else ⟨project, none, w⟩
  let project := boot.project
  match boot.err with
  | some e => ⟨project, some e, boot.world⟩
  | none =>
  let paid := collect env boot.world platformSeed invSeed invAmount project.Params.Index
  match paid.err with
  | some e => ⟨project, some e, paid.world⟩
  | none =>
  let InvestorAsset := CreateAsset project.Params.InvestorAssetCode paid.issuerPubkey
  let minted := trustAndMint env paid.world InvestorAsset.Code paid.issuerPubkey paid.issuerSeed
    (env.FtoS project.Params.TotalValue) investor.U.PublicKey invSeed invAmount
  match minted.err with
  | some e => ⟨project, some e, minted.world⟩
  | none =>
  let project : Project := { project with Params := { project.Params with
    MoneyRaised := round64 (project.Params.MoneyRaised + env.StoF invAmount) } }
  let project : Project := { project with
    ProjectInvestors := project.ProjectInvestors ++ [investor] }
  let investor : Investor := { investor with
    AmountInvested := round64 (investor.AmountInvested + env.StoF invAmount) }
  let investor : Investor := { investor with
    InvestedSolarProjects := investor.InvestedSolarProjects ++ [InvestorAsset.Code] }
  book env minted.world project investor recipient
    (.NotifInvestor projIndex investor.U.Email paid.stableTxHash minted.invTrustTxHash
      minted.invAssetTxHash)
    paid.issuerPubkey paid.issuerSeed recpSeed

/-- `SeedInvestInProject` (invest.go 174-247) with the sums of lines 226 and 228 rounded
to `float64`. -/
def SeedInvestInProject64 (env : Env) (w : World) (projIndex invIndex recpIndex : Int)
    (invAmount invSeed recpSeed platformSeed : String) : Outcome :=
  let pre := PreInvestmentCheck env w projIndex invIndex recpIndex invAmount
  let project := pre.project
  let investor := pre.investor
  let recipient := pre.recipient
  match pre.err with
  | some e => ⟨project, some e, w⟩
  | none =>
  let boot : Outcome :=
    if project.Params.SeedAssetCode = "" then
      let project : Project := { project with Params := { project.Params with
        SeedAssetCode := env.AssetID (InvestorAssetPrefix ++ project.Params.Metadata) } }
      bootstrap env w project platformSeed
    else ⟨project, none, w⟩
  let project := boot.project
  match boot.err with
  | some e => ⟨project, some e, boot.world⟩
  | none =>
  let paid := collect env boot.world platformSeed invSeed invAmount project.Params.Index
  match paid.err with
  | some e => ⟨project, some e, paid.world⟩
  | none =>
  let project : Project := { project with Params := { project.Params with
    SeedAssetCode := env.AssetID (SeedAssetPrefix ++ project.Params.Metadata) } }
  let SeedAsset := CreateAsset project.Params.SeedAssetCode paid.issuerPubkey
  let minted := trustAndMint env paid.world SeedAsset.Code paid.issuerPubkey paid.issuerSeed
    (env.FtoS project.Params.TotalValue) investor.U.PublicKey invSeed invAmount
  match minted.err with
  | some e => ⟨project, some e, minted.world⟩
  | none =>
  let project : Project := { project with Params := { project.Params with
    MoneyRaised := round64 (project.Params.MoneyRaised + env.StoF invAmount) } }
  let project : Project := { project with
    SeedInvestors := project.SeedInvestors ++ [investor] }
  let investor : Investor := { investor with
    AmountInvested := round64 (investor.AmountInvested + env.StoF invAmount) }
  let investor : Investor := { investor with
    InvestedSolarProjects := investor.InvestedSolarProjects ++ [SeedAsset.Code] }
  book env minted.world project investor recipient
    (.NotifSeedInvestor projIndex investor.U.Email paid.stableTxHash minted.invTrustTxHash
      minted.invAssetTxHash)
    paid.issuerPubkey paid.issuerSeed recpSeed

/-- Once the calls `h0` have been issued the ledger refuses every mint signed with the
issuer key `issuerSeed`, `issuerPubkey`. -/
def Env.FrozenKey (env : Env) (issuerSeed issuerPubkey : String) (h0 : List Call) : Prop :=
  ∀ h code destination amount, h0 <+: h →
    (env.SendAssetFromIssuer h code destination amount issuerSeed issuerPubkey).2 ≠ none

/-- The issuer key of project `index` as read after the calls `hr`: the public key and
the seed of `wallet.RetrieveSeed` at the path of the index (invest.go 127). -/
def issuerKey (env : Env) (index : Int) (hr : List Call) : String × String :=
  (env.RetrieveSeed hr (env.CreatePath index) IssuerSeedPwd).1

/-- Once the calls `h0` have been issued the issuer of project `index` is frozen: the
ledger refuses every mint signed with its key, whenever the key was read. -/
def Env.Frozen (env : Env) (index : Int) (h0 : List Call) : Prop :=
  ∀ hr, env.FrozenKey (issuerKey env index hr).2 (issuerKey env index hr).1 h0

/-- The ledger honours the freeze: after a `FreezeIssuer` call that returned no error the
issuer of its index is frozen. -/
def Env.HonoursFreeze (env : Env) : Prop :=
  ∀ h index pwd, (env.FreezeIssuer h index pwd).2 = none →
    env.Frozen index (h ++ [Call.FreezeIssuer index pwd])

/-- Every ledger, wallet, issuer and store call succeeds, a mint as long as no
`FreezeIssuer` call has been issued, and every payment shows on the platform account (as
in `Env.Succeeds`). -/
structure Env.SucceedsUnfrozen (env : Env) : Prop where
  initIssuer : ∀ h i p, env.InitIssuer h i p = none
  fundIssuer : ∀ h i p s, env.FundIssuer h i p s = none
  returnPubkey : ∀ h s, (env.ReturnPubkey h s).2 = none
  getAssetBalance : ∀ h k c, (env.GetAssetBalance h k c).2 = none
  sendAsset : ∀ h c i d a s k m, (env.SendAsset h c i d a s k m).2 = none
  retrieveSeed : ∀ h a b, (env.RetrieveSeed h a b).2 = none
  trustAsset : ∀ h a b c d e, (env.TrustAsset h a b c d e).2 = none
  sendAssetFromIssuer : ∀ h a b c d e, (∀ x ∈ h, x.isFreeze = false) →
    (env.SendAssetFromIssuer h a b c d e).2 = none
  freezeIssuer : ∀ h i p, (env.FreezeIssuer h i p).2 = none
  saveInvestor : ∀ h i, env.SaveInvestor h i = none
  saveRecipient : ∀ h r, env.SaveRecipient h r = none
  saveProject : ∀ h p, env.SaveProject h p = none
  payment : ∀ h ps is k c i a s pk m,
    env.StoF a - 1 ≤
      env.StoF (env.GetAssetBalance
        (h ++ [Call.ReturnPubkey ps, Call.ReturnPubkey is, Call.GetAssetBalance k c,
          Call.SendAsset c i k a s pk m]) k c).1
      - env.StoF (env.GetAssetBalance (h ++ [Call.ReturnPubkey ps, Call.ReturnPubkey is]) k c).1

/-- A second run of the funding-completion step, on the project and in the world left by
a first run, for the same recipient and with the same issuer key. -/
def fundingAgain (env : Env) (w : World) (p : Project) (r : Recipient)
    (issuerPubkey issuerSeed recpSeed : String) : Outcome :=
  sendRecipientAssets env
    (sendRecipientAssets env w p r issuerPubkey issuerSeed recpSeed).world
    (sendRecipientAssets env w p r issuerPubkey issuerSeed recpSeed).project r
    issuerPubkey issuerSeed recpSeed

/-- A reader for the decimal strings of the examples that also reads "1.5". -/
def demoStoFHalves (s : String) : ℚ := if s = "1.5" then 3 / 2 else demoStoF s

/-- The environment of the examples with a ledger that honours the freeze: a mint is
refused once a `FreezeIssuer` call has been issued, every other call succeeds. -/
def demoEnvFreeze : Env :=
  { demoEnv with
    StoF := demoStoFHalves
    SendAssetFromIssuer := fun h _ _ _ _ _ =>
      if h.any Call.isFreeze then ("", some "op_no_issuer: issuer frozen")
      else ("txmint", none) }

/-- Project 1 of the examples with a total value of 2 * 10^16, of which 10^16 is
raised. -/
def demoLarge : Project :=
  { demoProject with Params := { demoProject.Params with
      TotalValue := 20000000000000000, MoneyRaised := 10000000000000000 } }

/-- The world of the examples with `demoLarge` under key 1. -/
def demoWorldLarge : World := { demoWorld with
  projects := fun k => if k = 1 then some demoLarge else none }

/-- Project 1 of the examples with a total value of 2^53 + 2, of which 2^53 is raised. -/
def demoNearTarget : Project :=
  { demoProject with Params := { demoProject.Params with
      TotalValue := 9007199254740994, MoneyRaised := 9007199254740992 } }

/-- The world of the examples with `demoNearTarget` under key 1. -/
def demoWorldNearTarget : World := { demoWorld with
  projects := fun k => if k = 1 then some demoNearTarget else none }

/-- Investor A funds project 1 in full on the ledger that honours the freeze. -/
def demoFull64 : Outcome :=
  InvestInProject64 demoEnvFreeze demoWorld 1 1 1 "1000" "SINVA" "SRECP" "SPLAT"

/-- Investor A invests 600 in project 1 on the ledger that honours the freeze. -/
def demoPartA64 : Outcome :=
  InvestInProject64 demoEnvFreeze demoWorld 1 1 1 "600" "SINVA" "SRECP" "SPLAT"

/-- Investor B then invests 400 in project 1. -/
def demoPartB64 : Outcome :=
  InvestInProject64 demoEnvFreeze demoPartA64.world 1 2 1 "400" "SINVB" "SRECP" "SPLAT"

/-- Investor A invests 400 in project 1 on the ledger that honours the freeze. -/
def demoInvest64 : Outcome :=
  InvestInProject64 demoEnvFreeze demoWorld 1 1 1 "400" "SINVA" "SRECP" "SPLAT"

/-- Investor A seed-invests 400 in project 1 on the ledger that honours the freeze. -/
def demoSeedRound64 : Outcome :=
  SeedInvestInProject64 demoEnvFreeze demoWorld 1 1 1 "400" "SINVA" "SRECP" "SPLAT"

/-- Investor A invests 1 in the project of which 10^16 is raised. -/
def demoLargeCall : Outcome :=
  InvestInProject64 demoEnvFreeze demoWorldLarge 1 1 1 "1" "SINVA" "SRECP" "SPLAT"

/-- Investor A invests 1.5 in the project that lacks 2 of its total value of 2^53 + 2. -/
def demoNearCall : Outcome :=
  InvestInProject64 demoEnvFreeze demoWorldNearTarget 1 1 1 "1.5" "SINVA" "SRECP" "SPLAT"

/-- A first, completed run of the funding-completion step on `demoRaised`, on the ledger
that honours the freeze. -/
def demoFunding64 : Outcome :=
  sendRecipientAssets demoEnvFreeze demoWorld demoRaised demoRecipient "GISSUER" "SISSUER"
    "SRECP"

/-- The second run, on the project and in the world left by `demoFunding64`. -/
def demoFundingAgain64 : Outcome :=
  fundingAgain demoEnvFreeze demoWorld demoRaised demoRecipient "GISSUER" "SISSUER" "SRECP"

/-! ## Auxiliary facts -/

@[simp] theorem log_trace (w : World) (c : Call) : (w.log c).trace = w.trace ++ [c] := rfl
@[simp] theorem log_projects (w : World) (c : Call) : (w.log c).projects = w.projects := rfl
@[simp] theorem log_investors (w : World) (c : Call) : (w.log c).investors = w.investors := rfl
@[simp] theorem log_recipients (w : World) (c : Call) :
    (w.log c).recipients = w.recipients := rfl

@[simp] theorem isIssue_initIssuer (i : Int) (p : String) :
    (Call.InitIssuer i p).isIssue = false := rfl
@[simp] theorem isIssue_fundIssuer (i : Int) (p s : String) :
    (Call.FundIssuer i p s).isIssue = false := rfl
@[simp] theorem isIssue_returnPubkey (s : String) : (Call.ReturnPubkey s).isIssue = false := rfl
@[simp] theorem isIssue_getAssetBalance (k c : String) :
    (Call.GetAssetBalance k c).isIssue = false := rfl
@[simp] theorem isIssue_sendAsset (c i d a s k m : String) :
    (Call.SendAsset c i d a s k m).isIssue = false := rfl
@[simp] theorem isIssue_retrieveSeed (a b : String) :
    (Call.RetrieveSeed a b).isIssue = false := rfl
@[simp] theorem isIssue_trustAsset (a b c d e : String) :
    (Call.TrustAsset a b c d e).isIssue = true := rfl
@[simp] theorem isIssue_sendAssetFromIssuer (a b c d e : String) :
    (Call.SendAssetFromIssuer a b c d e).isIssue = true := rfl
@[simp] theorem isIssue_freezeIssuer (i : Int) (p : String) :
    (Call.FreezeIssuer i p).isIssue = true := rfl
@[simp] theorem isIssue_saveInvestor (i : Investor) : (Call.SaveInvestor i).isIssue = false := rfl
@[simp] theorem isIssue_saveRecipient (r : Recipient) :
    (Call.SaveRecipient r).isIssue = false := rfl
@[simp] theorem isIssue_saveProject (p : Project) : (Call.SaveProject p).isIssue = false := rfl
@[simp] theorem isIssue_notifInvestor (i : Int) (a b c d : String) :
    (Call.NotifInvestor i a b c d).isIssue = false := rfl
@[simp] theorem isIssue_notifSeedInvestor (i : Int) (a b c d : String) :
    (Call.NotifSeedInvestor i a b c d).isIssue = false := rfl
@[simp] theorem isIssue_notifRecipient (i : Int) (a b c d e : String) :
    (Call.NotifRecipient i a b c d e).isIssue = false := rfl

theorem isIssue_of_isCollect (c : Call) (h : c.isCollect = true) : c.isIssue = false := by
  cases c <;> simp_all [Call.isCollect]

theorem isIssue_of_isBoot (c : Call) (h : c.isBoot = true) : c.isIssue = false := by
  cases c <;> simp_all [Call.isBoot]

theorem filter_isIssue_of_isCollect (l : List Call) (h : ∀ c ∈ l, c.isCollect = true) :
    l.filter Call.isIssue = [] := by
  rw [List.filter_eq_nil_iff]
  intro c hc
  simp [isIssue_of_isCollect c (h c hc)]

theorem filter_isIssue_of_isBoot (l : List Call) (h : ∀ c ∈ l, c.isBoot = true) :
    l.filter Call.isIssue = [] := by
  rw [List.filter_eq_nil_iff]
  intro c hc
  simp [isIssue_of_isBoot c (h c hc)]

theorem callsSince_append (w w' : World) (l : List Call) (h : w'.trace = w.trace ++ l) :
    callsSince w w' = l := by
  simp [callsSince, h]

@[simp] theorem callsSince_self (w : World) : callsSince w w = [] := by
  simp [callsSince]

@[simp] theorem demoEnv_StoF : demoEnv.StoF = demoStoF := rfl
@[simp] theorem demoStoF_1000 : demoStoF "1000" = 1000 := by decide
@[simp] theorem demoStoF_1001 : demoStoF "1001" = 1001 := by decide
@[simp] theorem demoStoF_600 : demoStoF "600" = 600 := by decide
@[simp] theorem demoStoF_400 : demoStoF "400" = 400 := by decide
@[simp] theorem demoStoF_1 : demoStoF "1" = 1 := by decide
@[simp] theorem demoStoF_neg1 : demoStoF "-1" = -1 := by decide
@[simp] theorem demoStoF_0 : demoStoF "0" = 0 := by decide

theorem demoEnv_succeeds : demoEnv.Succeeds where
  initIssuer := fun _ _ _ => rfl
  fundIssuer := fun _ _ _ _ => rfl
  returnPubkey := fun _ _ => rfl
  getAssetBalance := fun _ _ _ => rfl
  sendAsset := fun _ _ _ _ _ _ _ _ => rfl
  retrieveSeed := fun _ _ _ => rfl
  trustAsset := fun _ _ _ _ _ _ => rfl
  sendAssetFromIssuer := fun _ _ _ _ _ _ => rfl
  freezeIssuer := fun _ _ _ => rfl
  saveInvestor := fun _ _ => rfl
  saveRecipient := fun _ _ => rfl
  saveProject := fun _ _ => rfl
  payment := by
    intro h ps is k c i a s pk m
    simp [demoEnv, demoBalance]

/-! ### The store -/

@[simp] theorem projectSave_err (env : Env) (w : World) (p : Project) :
    (Project.Save env w p).1 = env.SaveProject w.trace p := by
  unfold Project.Save; split <;> simp_all

@[simp] theorem projectSave_trace (env : Env) (w : World) (p : Project) :
    (Project.Save env w p).2.trace = w.trace ++ [Call.SaveProject p] := by
  unfold Project.Save; split <;> rfl

@[simp] theorem projectSave_investors (env : Env) (w : World) (p : Project) :
    (Project.Save env w p).2.investors = w.investors := by
  unfold Project.Save; split <;> rfl

@[simp] theorem projectSave_recipients (env : Env) (w : World) (p : Project) :
    (Project.Save env w p).2.recipients = w.recipients := by
  unfold Project.Save; split <;> rfl

theorem projectSave_projects (env : Env) (w : World) (p : Project) :
    (Project.Save env w p).2.projects =
      if env.SaveProject w.trace p = none then
        fun k => if k = p.Params.Index then some p else w.projects k
      else w.projects := by
  unfold Project.Save; split <;> simp_all [World.log]

theorem projectSave_projects_cases (env : Env) (w : World) (p : Project) (k : Int)
    (q : Project) (h : (Project.Save env w p).2.projects k = some q) :
    w.projects k = some q ∨ q = p := by
  rw [projectSave_projects] at h
  split at h
  · simp only at h
    split at h
    · right; exact (Option.some.inj h).symm
    · left; exact h
  · left; exact h

@[simp] theorem investorSave_err (env : Env) (w : World) (i : Investor) :
    (Investor.Save env w i).1 = env.SaveInvestor w.trace i := by
  unfold Investor.Save; split <;> simp_all

@[simp] theorem investorSave_trace (env : Env) (w : World) (i : Investor) :
    (Investor.Save env w i).2.trace = w.trace ++ [Call.SaveInvestor i] := by
  unfold Investor.Save; split <;> rfl

@[simp] theorem investorSave_projects (env : Env) (w : World) (i : Investor) :
    (Investor.Save env w i).2.projects = w.projects := by
  unfold Investor.Save; split <;> rfl

@[simp] theorem investorSave_recipients (env : Env) (w : World) (i : Investor) :
    (Investor.Save env w i).2.recipients = w.recipients := by
  unfold Investor.Save; split <;> rfl

theorem investorSave_investors (env : Env) (w : World) (i : Investor) :
    (Investor.Save env w i).2.investors =
      if env.SaveInvestor w.trace i = none then
        fun k => if k = i.U.Index then some i else w.investors k
      else w.investors := by
  unfold Investor.Save; split <;> simp_all [World.log]

@[simp] theorem recipientSave_err (env : Env) (w : World) (r : Recipient) :
    (Recipient.Save env w r).1 = env.SaveRecipient w.trace r := by
  unfold Recipient.Save; split <;> simp_all

@[simp] theorem recipientSave_trace (env : Env) (w : World) (r : Recipient) :
    (Recipient.Save env w r).2.trace = w.trace ++ [Call.SaveRecipient r] := by
  unfold Recipient.Save; split <;> rfl

@[simp] theorem recipientSave_projects (env : Env) (w : World) (r : Recipient) :
    (Recipient.Save env w r).2.projects = w.projects := by
  unfold Recipient.Save; split <;> rfl

@[simp] theorem recipientSave_investors (env : Env) (w : World) (r : Recipient) :
    (Recipient.Save env w r).2.investors = w.investors := by
  unfold Recipient.Save; split <;> rfl

theorem recipientSave_recipients (env : Env) (w : World) (r : Recipient) :
    (Recipient.Save env w r).2.recipients =
      if env.SaveRecipient w.trace r = none then
        fun k => if k = r.U.Index then some r else w.recipients k
      else w.recipients := by
  unfold Recipient.Save; split <;> simp_all [World.log]

theorem storeStep_refl (q : Project) (w : World) : StoreStep q w w :=
  fun _ _ h => Or.inl h

theorem storeStep_of_eq (q : Project) (w w' : World) (h : w'.projects = w.projects) :
    StoreStep q w w' := by
  intro k x hx
  rw [h] at hx
  exact Or.inl hx

@[simp] theorem storeStep_log (q : Project) (w w1 : World) (c : Call) :
    StoreStep q w (w1.log c) ↔ StoreStep q w w1 := Iff.rfl

theorem storeStep_save (env : Env) (q : Project) (w w1 : World) (h : StoreStep q w w1) :
    StoreStep q w (Project.Save env w1 q).2 := by
  intro k x hx
  rcases projectSave_projects_cases env w1 q k x hx with h1 | h1
  · exact h k x h1
  · exact Or.inr h1

@[simp] theorem storeStep_recipientSave (env : Env) (q : Project) (w w1 : World)
    (r : Recipient) : StoreStep q w (Recipient.Save env w1 r).2 ↔ StoreStep q w w1 := by
  unfold StoreStep
  rw [recipientSave_projects]

@[simp] theorem storeStep_investorSave (env : Env) (q : Project) (w w1 : World)
    (i : Investor) : StoreStep q w (Investor.Save env w1 i).2 ↔ StoreStep q w w1 := by
  unfold StoreStep
  rw [investorSave_projects]

theorem storeStep_ite (q : Project) (w a b : World) (c : Prop) [Decidable c]
    (ha : StoreStep q w a) (hb : StoreStep q w b) : StoreStep q w (if c then a else b) := by
  split
  · exact ha
  · exact hb

theorem storeStep_trans_eq (q : Project) (w w1 w2 : World) (h1 : w1.projects = w.projects)
    (h2 : StoreStep q w1 w2) : StoreStep q w w2 := by
  intro k x hx
  have := h2 k x hx
  rwa [h1] at this

/-! ### `PreInvestmentCheck` -/

/-- The project handed back is always the one the project read returned. -/
@[simp] theorem pre_project (env : Env) (w : World) (pi ii ri : Int) (amt : String) :
    (PreInvestmentCheck env w pi ii ri amt).project = (RetrieveProject w pi).1 := by
  unfold PreInvestmentCheck
  simp only []
  repeat' split
  all_goals rfl

/-- With the three records in the store and `CanInvest` true the check passes, whatever
the amount: the over-subscription branch returns the nil `err`. -/
theorem pre_of_lookups (env : Env) (w : World) (pi ii ri : Int) (amt : String)
    (p : Project) (i : Investor) (r : Recipient)
    (hp : w.projects pi = some p) (hi : w.investors ii = some i)
    (hr : w.recipients ri = some r) (hc : env.CanInvest w.trace i amt = true) :
    PreInvestmentCheck env w pi ii ri amt = ⟨p, i, r, none⟩ := by
  simp [PreInvestmentCheck, RetrieveProject, RetrieveInvestor, RetrieveRecipient, hp, hi, hr, hc]

/-- The check passes only with the three records in the store and `CanInvest` true. -/
theorem pre_err_none (env : Env) (w : World) (pi ii ri : Int) (amt : String)
    (h : (PreInvestmentCheck env w pi ii ri amt).err = none) :
    ∃ p i r, w.projects pi = some p ∧ w.investors ii = some i ∧ w.recipients ri = some r ∧
      env.CanInvest w.trace i amt = true ∧
      PreInvestmentCheck env w pi ii ri amt = ⟨p, i, r, none⟩ := by
  cases hp : w.projects pi with
  | none => simp [PreInvestmentCheck, RetrieveProject, hp] at h
  | some p =>
    cases hi : w.investors ii with
    | none => simp [PreInvestmentCheck, RetrieveProject, RetrieveInvestor, hp, hi] at h
    | some i =>
      cases hr : w.recipients ri with
      | none =>
        simp [PreInvestmentCheck, RetrieveProject, RetrieveInvestor, RetrieveRecipient,
          hp, hi, hr] at h
      | some r =>
        cases hc : env.CanInvest w.trace i amt with
        | false =>
          simp [PreInvestmentCheck, RetrieveProject, RetrieveInvestor, RetrieveRecipient,
            hp, hi, hr, hc] at h
        | true =>
          exact ⟨p, i, r, rfl, rfl, rfl, hc, pre_of_lookups env w pi ii ri amt p i r hp hi hr hc⟩

/-- A missing record or a false `CanInvest` makes the check fail. -/
theorem pre_err_some (env : Env) (w : World) (pi ii ri : Int) (amt : String)
    (h : w.projects pi = none ∨ w.investors ii = none ∨ w.recipients ri = none ∨
      ∃ i, w.investors ii = some i ∧ env.CanInvest w.trace i amt = false) :
    (PreInvestmentCheck env w pi ii ri amt).err ≠ none := by
  intro hn
  obtain ⟨p, i, r, hp, hi, hr, hc, -⟩ := pre_err_none env w pi ii ri amt hn
  rcases h with h | h | h | ⟨i', hi', hc'⟩
  · simp [hp] at h
  · simp [hi] at h
  · simp [hr] at h
  · rw [hi] at hi'
    cases hi'
    simp [hc] at hc'

/-- A failed check ends `InvestInProject` at once. -/
theorem invest_of_pre_err (env : Env) (w : World) (pi ii ri : Int)
    (amt invSeed recpSeed platformSeed : String) (e : String)
    (h : (PreInvestmentCheck env w pi ii ri amt).err = some e) :
    InvestInProject env w pi ii ri amt invSeed recpSeed platformSeed =
      ⟨(PreInvestmentCheck env w pi ii ri amt).project, some e, w⟩ := by
  unfold InvestInProject
  simp only [h]

/-- A failed check ends `SeedInvestInProject` at once. -/
theorem seedInvest_of_pre_err (env : Env) (w : World) (pi ii ri : Int)
    (amt invSeed recpSeed platformSeed : String) (e : String)
    (h : (PreInvestmentCheck env w pi ii ri amt).err = some e) :
    SeedInvestInProject env w pi ii ri amt invSeed recpSeed platformSeed =
      ⟨(PreInvestmentCheck env w pi ii ri amt).project, some e, w⟩ := by
  unfold SeedInvestInProject
  simp only [h]

/-! ### `bootstrap`, `collect`, `trustAndMint` -/

@[simp] theorem bootstrap_project (env : Env) (w : World) (p : Project) (s : String) :
    (bootstrap env w p s).project = p := by
  unfold bootstrap; simp only []; split <;> rfl

@[simp] theorem bootstrap_projects (env : Env) (w : World) (p : Project) (s : String) :
    (bootstrap env w p s).world.projects = w.projects := by
  unfold bootstrap; simp only []; split <;> rfl

@[simp] theorem bootstrap_investors (env : Env) (w : World) (p : Project) (s : String) :
    (bootstrap env w p s).world.investors = w.investors := by
  unfold bootstrap; simp only []; split <;> rfl

@[simp] theorem bootstrap_recipients (env : Env) (w : World) (p : Project) (s : String) :
    (bootstrap env w p s).world.recipients = w.recipients := by
  unfold bootstrap; simp only []; split <;> rfl

/-- The calls of the bootstrap: `InitIssuer`, then `FundIssuer` unless the first
failed; both when the bootstrap succeeds. -/
theorem bootstrap_trace (env : Env) (w : World) (p : Project) (s : String) :
    ∃ l, (bootstrap env w p s).world.trace = w.trace ++ l ∧
      (∀ c ∈ l, c.isBoot = true) ∧
      ((bootstrap env w p s).err = none →
        l = [Call.InitIssuer p.Params.Index IssuerSeedPwd,
          Call.FundIssuer p.Params.Index IssuerSeedPwd s]) := by
  unfold bootstrap
  simp only []
  split
  · exact ⟨[Call.InitIssuer p.Params.Index IssuerSeedPwd], by simp, by simp [Call.isBoot],
      by simp⟩
  · exact ⟨[Call.InitIssuer p.Params.Index IssuerSeedPwd,
      Call.FundIssuer p.Params.Index IssuerSeedPwd s], by simp, by simp [Call.isBoot],
      by simp⟩

theorem bootstrap_ok (env : Env) (hs : env.Succeeds) (w : World) (p : Project) (s : String) :
    (bootstrap env w p s).err = none := by
  simp [bootstrap, hs.initIssuer, hs.fundIssuer]

@[simp] theorem sendUSD_projects (env : Env) (w : World) (ps is amt : String) (i : Int) :
    (SendUSDToPlatform env w ps is amt i).2.projects = w.projects := by
  unfold SendUSDToPlatform
  simp only []
  repeat' split
  all_goals rfl

@[simp] theorem sendUSD_investors (env : Env) (w : World) (ps is amt : String) (i : Int) :
    (SendUSDToPlatform env w ps is amt i).2.investors = w.investors := by
  unfold SendUSDToPlatform
  simp only []
  repeat' split
  all_goals rfl

@[simp] theorem sendUSD_recipients (env : Env) (w : World) (ps is amt : String) (i : Int) :
    (SendUSDToPlatform env w ps is amt i).2.recipients = w.recipients := by
  unfold SendUSDToPlatform
  simp only []
  repeat' split
  all_goals rfl

/-- `SendUSDToPlatform` issues key derivations, balance reads and the transfer only. -/
theorem sendUSD_trace (env : Env) (w : World) (ps is amt : String) (i : Int) :
    ∃ l, (SendUSDToPlatform env w ps is amt i).2.trace = w.trace ++ l ∧
      ∀ c ∈ l, c.isCollect = true := by
  unfold SendUSDToPlatform
  simp only []
  repeat' split
  all_goals simp only [log_trace, List.append_assoc]
  all_goals exact ⟨_, rfl, by simp [Call.isCollect]⟩

/-- With every call succeeding and the payment showing, `SendUSDToPlatform` returns no
error, after the two key derivations, a balance read, the transfer and a balance read. -/
theorem sendUSD_ok (env : Env) (hs : env.Succeeds) (w : World) (ps is amt : String)
    (i : Int) :
    (SendUSDToPlatform env w ps is amt i).1.2 = none ∧
    ∃ k pk m, (SendUSDToPlatform env w ps is amt i).2.trace = w.trace ++
      [Call.ReturnPubkey ps, Call.ReturnPubkey is,
        Call.GetAssetBalance k env.StablecoinCode,
        Call.SendAsset env.StablecoinCode env.StablecoinPublicKey k amt is pk m,
        Call.GetAssetBalance k env.StablecoinCode] := by
  have hpay := hs.payment w.trace ps is (env.ReturnPubkey w.trace ps).1 env.StablecoinCode
    env.StablecoinPublicKey amt is
    (env.ReturnPubkey (w.trace ++ [Call.ReturnPubkey ps]) is).1
    ("Opensolar investment: " ++ env.ItoS i)
  have hpay' := not_lt.mpr hpay
  simp [SendUSDToPlatform, hs.returnPubkey, hs.getAssetBalance, hs.sendAsset, hpay']

@[simp] theorem collect_projects (env : Env) (w : World) (ps is amt : String) (i : Int) :
    (collect env w ps is amt i).world.projects = w.projects := by
  unfold collect; simp only []; split <;> simp

@[simp] theorem collect_investors (env : Env) (w : World) (ps is amt : String) (i : Int) :
    (collect env w ps is amt i).world.investors = w.investors := by
  unfold collect; simp only []; split <;> simp

@[simp] theorem collect_recipients (env : Env) (w : World) (ps is amt : String) (i : Int) :
    (collect env w ps is amt i).world.recipients = w.recipients := by
  unfold collect; simp only []; split <;> simp

/-- `collect` issues key derivations, balance reads, the transfer and the seed read
only. -/
theorem collect_trace (env : Env) (w : World) (ps is amt : String) (i : Int) :
    ∃ l, (collect env w ps is amt i).world.trace = w.trace ++ l ∧
      ∀ c ∈ l, c.isCollect = true := by
  obtain ⟨l, hl, hc⟩ := sendUSD_trace env w ps is amt i
  unfold collect
  simp only []
  split
  · exact ⟨l, hl, hc⟩
  · refine ⟨l ++ [Call.RetrieveSeed (env.CreatePath i) IssuerSeedPwd], by simp [hl], ?_⟩
    intro c hcm
    rcases List.mem_append.mp hcm with h | h
    · exact hc c h
    · simp at h; subst h; rfl

/-- With every call succeeding `collect` returns no error; its calls are those of
`SendUSDToPlatform` followed by the seed read. -/
theorem collect_ok (env : Env) (hs : env.Succeeds) (w : World) (ps is amt : String)
    (i : Int) :
    (collect env w ps is amt i).err = none ∧
    ∃ k pk m, (collect env w ps is amt i).world.trace = w.trace ++
      [Call.ReturnPubkey ps, Call.ReturnPubkey is,
        Call.GetAssetBalance k env.StablecoinCode,
        Call.SendAsset env.StablecoinCode env.StablecoinPublicKey k amt is pk m,
        Call.GetAssetBalance k env.StablecoinCode,
        Call.RetrieveSeed (env.CreatePath i) IssuerSeedPwd] := by
  obtain ⟨h1, k, pk, m, h2⟩ := sendUSD_ok env hs w ps is amt i
  unfold collect
  simp only [h1]
  exact ⟨hs.retrieveSeed _ _ _, k, pk, m, by simp [h2]⟩

@[simp] theorem trustAndMint_projects (env : Env) (w : World)
    (code ipk iseed lim pk is amt : String) :
    (trustAndMint env w code ipk iseed lim pk is amt).world.projects = w.projects := by
  unfold trustAndMint; simp only []; split <;> rfl

@[simp] theorem trustAndMint_investors (env : Env) (w : World)
    (code ipk iseed lim pk is amt : String) :
    (trustAndMint env w code ipk iseed lim pk is amt).world.investors = w.investors := by
  unfold trustAndMint; simp only []; split <;> rfl

@[simp] theorem trustAndMint_recipients (env : Env) (w : World)
    (code ipk iseed lim pk is amt : String) :
    (trustAndMint env w code ipk iseed lim pk is amt).world.recipients = w.recipients := by
  unfold trustAndMint; simp only []; split <;> rfl

/-- The calls of `trustAndMint`: the trust line, then the mint unless the trust line
failed; both when it succeeds. -/
theorem trustAndMint_trace (env : Env) (w : World) (code ipk iseed lim pk is amt : String) :
    ∃ l, (trustAndMint env w code ipk iseed lim pk is amt).world.trace = w.trace ++ l ∧
      (l = [Call.TrustAsset code ipk lim pk is] ∨
        l = [Call.TrustAsset code ipk lim pk is,
          Call.SendAssetFromIssuer code pk amt iseed ipk]) ∧
      ((trustAndMint env w code ipk iseed lim pk is amt).err = none →
        l = [Call.TrustAsset code ipk lim pk is,
          Call.SendAssetFromIssuer code pk amt iseed ipk]) := by
  unfold trustAndMint
  simp only []
  split
  · exact ⟨[Call.TrustAsset code ipk lim pk is], by simp, Or.inl rfl, by simp⟩
  · exact ⟨[Call.TrustAsset code ipk lim pk is,
      Call.SendAssetFromIssuer code pk amt iseed ipk], by simp, Or.inr rfl, by simp⟩

theorem trustAndMint_ok (env : Env) (hs : env.Succeeds) (w : World)
    (code ipk iseed lim pk is amt : String) :
    (trustAndMint env w code ipk iseed lim pk is amt).err = none := by
  simp [trustAndMint, hs.trustAsset, hs.sendAssetFromIssuer]

/-! ### `sendRecipientAssets` -/

/-- Below the target the funding-completion step does nothing. -/
theorem sendRecipientAssets_not_due (env : Env) (w : World) (p : Project) (r : Recipient)
    (a b c : String) (h : p.Params.MoneyRaised ≠ p.Params.TotalValue) :
    sendRecipientAssets env w p r a b c = ⟨p, none, w⟩ := by
  simp [sendRecipientAssets, h]

/-- The fields of the receiver the funding-completion step never touches, and the two
codes, on every path. -/
theorem sendRecipientAssets_params (env : Env) (w : World) (p : Project) (r : Recipient)
    (a b c : String) :
    (sendRecipientAssets env w p r a b c).project.Params.Index = p.Params.Index ∧
    (sendRecipientAssets env w p r a b c).project.Params.TotalValue = p.Params.TotalValue ∧
    (sendRecipientAssets env w p r a b c).project.Params.MoneyRaised = p.Params.MoneyRaised ∧
    (sendRecipientAssets env w p r a b c).project.Params.Years = p.Params.Years ∧
    (sendRecipientAssets env w p r a b c).project.Params.Metadata = p.Params.Metadata ∧
    (sendRecipientAssets env w p r a b c).project.Params.InvestorAssetCode
      = p.Params.InvestorAssetCode ∧
    (sendRecipientAssets env w p r a b c).project.Params.SeedAssetCode
      = p.Params.SeedAssetCode ∧
    (sendRecipientAssets env w p r a b c).project.Params.DebtAssetCode =
      (if p.Params.MoneyRaised = p.Params.TotalValue then
        env.AssetID (DebtAssetPrefix ++ p.Params.Metadata) else p.Params.DebtAssetCode) ∧
    (sendRecipientAssets env w p r a b c).project.Params.PaybackAssetCode =
      (if p.Params.MoneyRaised = p.Params.TotalValue then
        env.AssetID (PaybackAssetPrefix ++ p.Params.Metadata)
        else p.Params.PaybackAssetCode) ∧
    (sendRecipientAssets env w p r a b c).project.ProjectInvestors = p.ProjectInvestors ∧
    (sendRecipientAssets env w p r a b c).project.SeedInvestors = p.SeedInvestors := by
  unfold sendRecipientAssets
  split
  · simp_all
  · simp only []
    repeat' split
    all_goals simp_all

/-- The receiver after the funding-completion step is one of three values. -/
theorem sendRecipientAssets_project (env : Env) (w : World) (p : Project) (r : Recipient)
    (a b c : String) :
    (p.Params.MoneyRaised ≠ p.Params.TotalValue ∧
      sendRecipientAssets env w p r a b c = ⟨p, none, w⟩) ∨
    (p.Params.MoneyRaised = p.Params.TotalValue ∧
      (sendRecipientAssets env w p r a b c).err ≠ none ∧
      (sendRecipientAssets env w p r a b c).project = withCodes env p ∧
      (sendRecipientAssets env w p r a b c).world.projects = w.projects) ∨
    (p.Params.MoneyRaised = p.Params.TotalValue ∧
      (sendRecipientAssets env w p r a b c).project = funded env p r) := by
  by_cases h : p.Params.MoneyRaised ≠ p.Params.TotalValue
  · exact Or.inl ⟨h, sendRecipientAssets_not_due env w p r a b c h⟩
  · right
    have h' : p.Params.MoneyRaised = p.Params.TotalValue := not_not.mp h
    unfold sendRecipientAssets
    simp only [h, if_false]
    repeat' split
    all_goals simp_all [withCodes, funded]

/-- The funding-completion step never writes the investor bucket. -/
@[simp] theorem sendRecipientAssets_investors (env : Env) (w : World) (p : Project)
    (r : Recipient) (a b c : String) :
    (sendRecipientAssets env w p r a b c).world.investors = w.investors := by
  unfold sendRecipientAssets
  split
  · rfl
  · simp only []
    repeat' split
    all_goals simp

/-- A project found in the store after the funding-completion step was there before or
is the receiver as handed back. -/
theorem sendRecipientAssets_storeStep (env : Env) (w : World) (p : Project)
    (r : Recipient) (a b c : String) :
    StoreStep (sendRecipientAssets env w p r a b c).project w
      (sendRecipientAssets env w p r a b c).world := by
  unfold sendRecipientAssets
  split
  · exact storeStep_refl _ _
  · simp only []
    repeat' split
    all_goals simp only [storeStep_log, storeStep_recipientSave]
    all_goals
      repeat (first
        | exact storeStep_refl _ _
        | (apply storeStep_save; simp only [storeStep_log, storeStep_recipientSave]))

/-- A completed funding-completion step: with every call succeeding and the target met,
the receiver is `funded`, both buckets are written and the trust-line, mint and freeze
calls are the five `fundingCalls`, in that order. -/
theorem sendRecipientAssets_ok (env : Env) (hs : env.Succeeds) (w : World) (p : Project)
    (r : Recipient) (a b c : String) (h : p.Params.MoneyRaised = p.Params.TotalValue) :
    (sendRecipientAssets env w p r a b c).err = none ∧
    (sendRecipientAssets env w p r a b c).project = funded env p r ∧
    (sendRecipientAssets env w p r a b c).world.projects =
      (fun k => if k = p.Params.Index then some (funded env p r) else w.projects k) ∧
    (sendRecipientAssets env w p r a b c).world.recipients =
      (fun k => if k = r.U.Index then some (recipientCredited env p r) else w.recipients k) ∧
    ∃ l, (sendRecipientAssets env w p r a b c).world.trace = w.trace ++ l ∧
      l.filter Call.isIssue = fundingCalls env p r a b c := by
  by_cases hn : r.U.Notification = true
  · simp [sendRecipientAssets, h, hs.trustAsset, hs.sendAssetFromIssuer, hs.freezeIssuer,
      hs.saveRecipient, hs.saveProject, projectSave_projects, recipientSave_recipients,
      funded, recipientCredited, CreateAsset, hn, fundingCalls, Call.isIssue, Call.isTrust,
      Call.isMint, Call.isFreeze]
    funext k
    by_cases hk : k = p.Params.Index <;> simp [hk]
  · simp [sendRecipientAssets, h, hs.trustAsset, hs.sendAssetFromIssuer, hs.freezeIssuer,
      hs.saveRecipient, hs.saveProject, projectSave_projects, recipientSave_recipients,
      funded, recipientCredited, CreateAsset, hn, fundingCalls, Call.isIssue, Call.isTrust,
      Call.isMint, Call.isFreeze]
    funext k
    by_cases hk : k = p.Params.Index <;> simp [hk]

/-- A funding-completion step that returns no error at the target: the receiver is
`funded` and stored under its index, the credited recipient is stored under its index,
and the trust-line, mint and freeze calls are the five `fundingCalls`, in that order. -/
theorem sendRecipientAssets_done (env : Env) (w : World) (p : Project) (r : Recipient)
    (a b c : String) (hm : p.Params.MoneyRaised = p.Params.TotalValue)
    (h : (sendRecipientAssets env w p r a b c).err = none) :
    (sendRecipientAssets env w p r a b c).project = funded env p r ∧
    (sendRecipientAssets env w p r a b c).world.projects p.Params.Index
      = some (funded env p r) ∧
    (sendRecipientAssets env w p r a b c).world.recipients =
      (fun k => if k = r.U.Index then some (recipientCredited env p r) else w.recipients k) ∧
    ∃ l, (sendRecipientAssets env w p r a b c).world.trace = w.trace ++ l ∧
      l.filter Call.isIssue = fundingCalls env p r a b c := by
  revert h
  unfold sendRecipientAssets
  simp only [hm, ne_eq, not_true_eq_false, if_false]
  repeat' split
  all_goals intro h
  all_goals first
    | (exfalso; simp at h; done)
    | (simp only [projectSave_err] at h
       simp_all [projectSave_projects, recipientSave_recipients, funded, recipientCredited,
         CreateAsset, fundingCalls])

/-! ### `book` -/

/-- The world in which `book` runs the funding-completion step. -/
theorem book_noted (env : Env) (w : World) (i : Investor) (n : Call) :
    ∀ w8, w8 = (if i.U.Notification = true then (Investor.Save env w i).2.log n
        else (Investor.Save env w i).2) →
      w8.projects = w.projects ∧ w8.recipients = w.recipients ∧
      w8.investors = (Investor.Save env w i).2.investors ∧
      ∃ l, w8.trace = w.trace ++ l ∧
        (l = [Call.SaveInvestor i] ∨ l = [Call.SaveInvestor i, n]) := by
  intro w8 h
  subst h
  split
  · exact ⟨by simp, by simp, by simp, [Call.SaveInvestor i, n], by simp, Or.inr rfl⟩
  · exact ⟨by simp, by simp, by simp, [Call.SaveInvestor i], by simp, Or.inl rfl⟩

/-- A project found in the store after `book` was there before or is the project handed
back. -/
theorem book_storeStep (env : Env) (w : World) (p : Project) (i : Investor) (r : Recipient)
    (n : Call) (a b c : String) :
    StoreStep (book env w p i r n a b c).project w (book env w p i r n a b c).world := by
  unfold book
  simp only []
  split
  · simp only [storeStep_investorSave]; exact storeStep_refl _ _
  · generalize hw8 : (if i.U.Notification = true then (Investor.Save env w i).2.log n
      else (Investor.Save env w i).2) = w8
    obtain ⟨h8, -, -, -⟩ := book_noted env w i n w8 hw8.symm
    split
    · exact storeStep_trans_eq _ _ _ _ h8 (sendRecipientAssets_storeStep _ _ _ _ _ _ _)
    · apply storeStep_save
      exact storeStep_trans_eq _ _ _ _ h8 (sendRecipientAssets_storeStep _ _ _ _ _ _ _)

/-- The project `book` hands back: the one it was given, or, at the target, that
project with the codes set (an error is then returned) or `funded`. -/
theorem book_project (env : Env) (w : World) (p : Project) (i : Investor) (r : Recipient)
    (n : Call) (a b c : String) :
    (book env w p i r n a b c).project = p ∨
    (p.Params.MoneyRaised = p.Params.TotalValue ∧
      (book env w p i r n a b c).err ≠ none ∧
      (book env w p i r n a b c).project = withCodes env p) ∨
    (p.Params.MoneyRaised = p.Params.TotalValue ∧
      (book env w p i r n a b c).project = funded env p r) := by
  unfold book
  simp only []
  split
  · exact Or.inl rfl
  · generalize (if i.U.Notification = true then (Investor.Save env w i).2.log n
      else (Investor.Save env w i).2) = w8
    rcases sendRecipientAssets_project env w8 p r a b c with
      ⟨_, h2⟩ | ⟨h1, h2, h3, _⟩ | ⟨h1, h2⟩
    · rw [h2]; exact Or.inl rfl
    · cases he : (sendRecipientAssets env w8 p r a b c).err with
      | none => exact absurd he h2
      | some e => exact Or.inr (Or.inl ⟨h1, by simp, h3⟩)
    · split
      · exact Or.inr (Or.inr ⟨h1, h2⟩)
      · exact Or.inr (Or.inr ⟨h1, h2⟩)

/-- When `book` returns no error: below the target it hands back the project it was
given, at the target `funded`; that project is in the store under its own index, the
investor given is in the store under its own index, the recipient bucket is written at
the target only (with the credited recipient), and the trust-line, mint and freeze calls
are none below the target and the five `fundingCalls` at the target. -/
theorem book_err_none (env : Env) (w : World) (p : Project) (i : Investor) (r : Recipient)
    (n : Call) (a b c : String) (hn : n.isIssue = false)
    (h : (book env w p i r n a b c).err = none) :
    (book env w p i r n a b c).project =
      (if p.Params.MoneyRaised = p.Params.TotalValue then funded env p r else p) ∧
    (book env w p i r n a b c).world.projects p.Params.Index
      = some (book env w p i r n a b c).project ∧
    (book env w p i r n a b c).world.investors =
      (fun k => if k = i.U.Index then some i else w.investors k) ∧
    (book env w p i r n a b c).world.recipients =
      (if p.Params.MoneyRaised = p.Params.TotalValue then
        fun k => if k = r.U.Index then some (recipientCredited env p r) else w.recipients k
      else w.recipients) ∧
    ∃ l, (book env w p i r n a b c).world.trace = w.trace ++ l ∧
      l.filter Call.isIssue =
        (if p.Params.MoneyRaised = p.Params.TotalValue then fundingCalls env p r a b c
          else []) := by
  revert h
  unfold book
  simp only []
  cases hsave : (Investor.Save env w i).1 with
  | some e => intro h; simp at h
  | none =>
    simp only []
    rw [investorSave_err] at hsave
    generalize hw8 : (if i.U.Notification = true then (Investor.Save env w i).2.log n
      else (Investor.Save env w i).2) = w8
    obtain ⟨-, h8r, h8i, l, hl, hl'⟩ := book_noted env w i n w8 hw8.symm
    have hlf : l.filter Call.isIssue = [] := by
      rcases hl' with h | h <;> subst h <;> simp [hn]
    rw [investorSave_investors, if_pos hsave] at h8i
    cases he : (sendRecipientAssets env w8 p r a b c).err with
    | some e => intro h; simp at h
    | none =>
      simp only []
      intro h
      simp only [projectSave_err] at h
      by_cases hm : p.Params.MoneyRaised = p.Params.TotalValue
      · obtain ⟨h1, -, h3, l2, hl2, hf2⟩ := sendRecipientAssets_done env w8 p r a b c hm he
        have hidx : (funded env p r).Params.Index = p.Params.Index := rfl
        simp only [hm, if_true]
        simp only [h1] at h ⊢
        refine ⟨trivial, ?_, by simp [h8i], by simp [h3, h8r],
          l ++ l2 ++ [Call.SaveProject (funded env p r)], by simp [hl2, hl], ?_⟩
        · simp [projectSave_projects, h, hidx]
        · simp [hlf, hf2]
      · have h2 := sendRecipientAssets_not_due env w8 p r a b c hm
        simp only [hm, if_false]
        simp only [h2] at h ⊢
        refine ⟨trivial, ?_, by simp [h8i], by simp [h8r],
          l ++ [Call.SaveProject p], by simp [hl], by simp [hlf]⟩
        simp [projectSave_projects, h]

/-- With every call succeeding `book` returns no error. -/
theorem book_ok (env : Env) (hs : env.Succeeds) (w : World) (p : Project) (i : Investor)
    (r : Recipient) (n : Call) (a b c : String) :
    (book env w p i r n a b c).err = none := by
  unfold book
  simp only [investorSave_err, hs.saveInvestor]
  generalize (if i.U.Notification = true then (Investor.Save env w i).2.log n
    else (Investor.Save env w i).2) = w8
  by_cases hm : p.Params.MoneyRaised = p.Params.TotalValue
  · simp [(sendRecipientAssets_ok env hs w8 p r a b c hm).1, hs.saveProject]
  · simp [sendRecipientAssets_not_due env w8 p r a b c hm, hs.saveProject]

/-! ### Values along a round -/

@[simp] theorem investorCoded_Index (env : Env) (p : Project) :
    (investorCoded env p).Params.Index = p.Params.Index := by
  unfold investorCoded; split <;> rfl

@[simp] theorem investorCoded_TotalValue (env : Env) (p : Project) :
    (investorCoded env p).Params.TotalValue = p.Params.TotalValue := by
  unfold investorCoded; split <;> rfl

@[simp] theorem investorCoded_MoneyRaised (env : Env) (p : Project) :
    (investorCoded env p).Params.MoneyRaised = p.Params.MoneyRaised := by
  unfold investorCoded; split <;> rfl

@[simp] theorem investorCoded_Years (env : Env) (p : Project) :
    (investorCoded env p).Params.Years = p.Params.Years := by
  unfold investorCoded; split <;> rfl

@[simp] theorem investorCoded_Metadata (env : Env) (p : Project) :
    (investorCoded env p).Params.Metadata = p.Params.Metadata := by
  unfold investorCoded; split <;> rfl

@[simp] theorem investorCoded_DebtAssetCode (env : Env) (p : Project) :
    (investorCoded env p).Params.DebtAssetCode = p.Params.DebtAssetCode := by
  unfold investorCoded; split <;> rfl

@[simp] theorem investorCoded_PaybackAssetCode (env : Env) (p : Project) :
    (investorCoded env p).Params.PaybackAssetCode = p.Params.PaybackAssetCode := by
  unfold investorCoded; split <;> rfl

@[simp] theorem investorCoded_BalLeft (env : Env) (p : Project) :
    (investorCoded env p).Params.BalLeft = p.Params.BalLeft := by
  unfold investorCoded; split <;> rfl

@[simp] theorem investorCoded_ProjectInvestors (env : Env) (p : Project) :
    (investorCoded env p).ProjectInvestors = p.ProjectInvestors := by
  unfold investorCoded; split <;> rfl

@[simp] theorem investorCoded_SeedInvestors (env : Env) (p : Project) :
    (investorCoded env p).SeedInvestors = p.SeedInvestors := by
  unfold investorCoded; split <;> rfl

@[simp] theorem investorCoded_ProjectRecipient (env : Env) (p : Project) :
    (investorCoded env p).ProjectRecipient = p.ProjectRecipient := by
  unfold investorCoded; split <;> rfl

@[simp] theorem investorCoded_Stage (env : Env) (p : Project) :
    (investorCoded env p).Stage = p.Stage := by
  unfold investorCoded; split <;> rfl

@[simp] theorem investorCoded_SeedAssetCode (env : Env) (p : Project) :
    (investorCoded env p).Params.SeedAssetCode = p.Params.SeedAssetCode := by
  unfold investorCoded; split <;> rfl

@[simp] theorem seedCoded_Index (env : Env) (p : Project) :
    (seedCoded env p).Params.Index = p.Params.Index := by
  unfold seedCoded; split <;> rfl

@[simp] theorem seedCoded_TotalValue (env : Env) (p : Project) :
    (seedCoded env p).Params.TotalValue = p.Params.TotalValue := by
  unfold seedCoded; split <;> rfl

@[simp] theorem seedCoded_MoneyRaised (env : Env) (p : Project) :
    (seedCoded env p).Params.MoneyRaised = p.Params.MoneyRaised := by
  unfold seedCoded; split <;> rfl

@[simp] theorem seedCoded_Years (env : Env) (p : Project) :
    (seedCoded env p).Params.Years = p.Params.Years := by
  unfold seedCoded; split <;> rfl

@[simp] theorem seedCoded_Metadata (env : Env) (p : Project) :
    (seedCoded env p).Params.Metadata = p.Params.Metadata := by
  unfold seedCoded; split <;> rfl

@[simp] theorem seedCoded_DebtAssetCode (env : Env) (p : Project) :
    (seedCoded env p).Params.DebtAssetCode = p.Params.DebtAssetCode := by
  unfold seedCoded; split <;> rfl

@[simp] theorem seedCoded_PaybackAssetCode (env : Env) (p : Project) :
    (seedCoded env p).Params.PaybackAssetCode = p.Params.PaybackAssetCode := by
  unfold seedCoded; split <;> rfl

@[simp] theorem seedCoded_BalLeft (env : Env) (p : Project) :
    (seedCoded env p).Params.BalLeft = p.Params.BalLeft := by
  unfold seedCoded; split <;> rfl

@[simp] theorem seedCoded_ProjectInvestors (env : Env) (p : Project) :
    (seedCoded env p).ProjectInvestors = p.ProjectInvestors := by
  unfold seedCoded; split <;> rfl

@[simp] theorem seedCoded_SeedInvestors (env : Env) (p : Project) :
    (seedCoded env p).SeedInvestors = p.SeedInvestors := by
  unfold seedCoded; split <;> rfl

@[simp] theorem seedCoded_ProjectRecipient (env : Env) (p : Project) :
    (seedCoded env p).ProjectRecipient = p.ProjectRecipient := by
  unfold seedCoded; split <;> rfl

@[simp] theorem seedCoded_Stage (env : Env) (p : Project) :
    (seedCoded env p).Stage = p.Stage := by
  unfold seedCoded; split <;> rfl

@[simp] theorem seedCoded_InvestorAssetCode (env : Env) (p : Project) :
    (seedCoded env p).Params.InvestorAssetCode = p.Params.InvestorAssetCode := by
  unfold seedCoded; split <;> rfl

/-! ### The two rounds -/

/-- The issuer-bootstrap block of `InvestInProject`: the project it leaves is
`investorCoded`, no bucket is written, and its calls are bootstrap calls. -/
theorem investorBoot_spec (env : Env) (w : World) (p : Project) (ps : String) :
    ∀ boot : Outcome,
      boot = (if p.Params.SeedAssetCode = "" ∧ p.Params.InvestorAssetCode = "" then
          bootstrap env w { p with Params := { p.Params with
            InvestorAssetCode := env.AssetID (InvestorAssetPrefix ++ p.Params.Metadata) } } ps
        else ⟨p, none, w⟩) →
      boot.project = investorCoded env p ∧ boot.world.projects = w.projects ∧
      boot.world.investors = w.investors ∧ boot.world.recipients = w.recipients ∧
      ∃ l, boot.world.trace = w.trace ++ l ∧ ∀ c ∈ l, c.isBoot = true := by
  intro boot hb
  subst hb
  unfold investorCoded
  split
  · obtain ⟨l, hl, hc, -⟩ := bootstrap_trace env w { p with Params := { p.Params with
      InvestorAssetCode := env.AssetID (InvestorAssetPrefix ++ p.Params.Metadata) } } ps
    exact ⟨by simp, by simp, by simp, by simp, l, hl, hc⟩
  · exact ⟨rfl, rfl, rfl, rfl, [], by simp, by simp⟩

/-- An `InvestInProject` that returns no error. -/
theorem invest_err_none (env : Env) (w : World) (pi ii ri : Int)
    (amt invSeed recpSeed platformSeed : String)
    (h : (InvestInProject env w pi ii ri amt invSeed recpSeed platformSeed).err = none) :
    ∃ p i r, w.projects pi = some p ∧ w.investors ii = some i ∧ w.recipients ri = some r ∧
      env.CanInvest w.trace i amt = true ∧
      (InvestInProject env w pi ii ri amt invSeed recpSeed platformSeed).project =
        (if (investorRaised env (investorCoded env p) i amt).Params.MoneyRaised
            = (investorRaised env (investorCoded env p) i amt).Params.TotalValue then
          funded env (investorRaised env (investorCoded env p) i amt) r
        else investorRaised env (investorCoded env p) i amt) ∧
      (InvestInProject env w pi ii ri amt invSeed recpSeed platformSeed).world.projects
          p.Params.Index
        = some (InvestInProject env w pi ii ri amt invSeed recpSeed platformSeed).project ∧
      (InvestInProject env w pi ii ri amt invSeed recpSeed platformSeed).world.investors =
        (fun k => if k = i.U.Index then
            some (investorBooked env i amt (investorCoded env p).Params.InvestorAssetCode)
          else w.investors k) ∧
      (InvestInProject env w pi ii ri amt invSeed recpSeed platformSeed).world.recipients =
        (if (investorRaised env (investorCoded env p) i amt).Params.MoneyRaised
            = (investorRaised env (investorCoded env p) i amt).Params.TotalValue then
          fun k => if k = r.U.Index then
              some (recipientCredited env (investorRaised env (investorCoded env p) i amt) r)
            else w.recipients k
        else w.recipients) ∧
      ∃ iss seed,
        (callsSince w
          (InvestInProject env w pi ii ri amt invSeed recpSeed platformSeed).world).filter
            Call.isIssue =
          [Call.TrustAsset (investorCoded env p).Params.InvestorAssetCode iss
              (env.FtoS p.Params.TotalValue) i.U.PublicKey invSeed,
            Call.SendAssetFromIssuer (investorCoded env p).Params.InvestorAssetCode
              i.U.PublicKey amt seed iss] ++
          (if (investorRaised env (investorCoded env p) i amt).Params.MoneyRaised
              = (investorRaised env (investorCoded env p) i amt).Params.TotalValue then
            fundingCalls env (investorRaised env (investorCoded env p) i amt) r iss seed
              recpSeed
          else []) := by
  have hpre : (PreInvestmentCheck env w pi ii ri amt).err = none := by
    cases he : (PreInvestmentCheck env w pi ii ri amt).err with
    | none => rfl
    | some e =>
      rw [invest_of_pre_err env w pi ii ri amt invSeed recpSeed platformSeed e he] at h
      simp at h
  obtain ⟨p, i, r, hp, hi, hr, hc, hpre'⟩ := pre_err_none env w pi ii ri amt hpre
  refine ⟨p, i, r, hp, hi, hr, hc, ?_⟩
  revert h
  unfold InvestInProject
  simp only [hpre']
  generalize hb : (if p.Params.SeedAssetCode = "" ∧ p.Params.InvestorAssetCode = "" then
      bootstrap env w { p with Params := { p.Params with
        InvestorAssetCode := env.AssetID (InvestorAssetPrefix ++ p.Params.Metadata) } }
        platformSeed
    else (⟨p, none, w⟩ : Outcome)) = boot
  obtain ⟨hb1, hb2, hb3, hb4, lb, hlb, hcb⟩ := investorBoot_spec env w p platformSeed boot hb.symm
  cases hbe : boot.err with
  | some e => intro h; simp at h
  | none =>
    simp only [hb1]
    obtain ⟨lc, hlc, hcc⟩ := collect_trace env boot.world platformSeed invSeed amt
      (investorCoded env p).Params.Index
    have hc2 := collect_projects env boot.world platformSeed invSeed amt
      (investorCoded env p).Params.Index
    have hc3 := collect_investors env boot.world platformSeed invSeed amt
      (investorCoded env p).Params.Index
    have hc4 := collect_recipients env boot.world platformSeed invSeed amt
      (investorCoded env p).Params.Index
    generalize collect env boot.world platformSeed invSeed amt
      (investorCoded env p).Params.Index = paid at hlc hc2 hc3 hc4 ⊢
    cases hpe : paid.err with
    | some e => intro h; simp at h
    | none =>
      simp only [CreateAsset]
      obtain ⟨lm, hlm, -, hlm'⟩ := trustAndMint_trace env paid.world
        (investorCoded env p).Params.InvestorAssetCode paid.issuerPubkey paid.issuerSeed
        (env.FtoS (investorCoded env p).Params.TotalValue) i.U.PublicKey invSeed amt
      have hm2 := trustAndMint_projects env paid.world
        (investorCoded env p).Params.InvestorAssetCode paid.issuerPubkey paid.issuerSeed
        (env.FtoS (investorCoded env p).Params.TotalValue) i.U.PublicKey invSeed amt
      have hm3 := trustAndMint_investors env paid.world
        (investorCoded env p).Params.InvestorAssetCode paid.issuerPubkey paid.issuerSeed
        (env.FtoS (investorCoded env p).Params.TotalValue) i.U.PublicKey invSeed amt
      have hm4 := trustAndMint_recipients env paid.world
        (investorCoded env p).Params.InvestorAssetCode paid.issuerPubkey paid.issuerSeed
        (env.FtoS (investorCoded env p).Params.TotalValue) i.U.PublicKey invSeed amt
      generalize trustAndMint env paid.world
        (investorCoded env p).Params.InvestorAssetCode paid.issuerPubkey paid.issuerSeed
        (env.FtoS (investorCoded env p).Params.TotalValue) i.U.PublicKey invSeed amt
        = minted at hlm hlm' hm2 hm3 hm4 ⊢
      cases hme : minted.err with
      | some e => intro h; simp at h
      | none =>
        simp only []
        intro h
        have hlm2 := hlm' hme
        subst hlm2
        obtain ⟨h1, h2, h3, h4, l, hl, hf⟩ := book_err_none env minted.world
          (investorRaised env (investorCoded env p) i amt)
          (investorBooked env i amt (investorCoded env p).Params.InvestorAssetCode) r
          (Call.NotifInvestor pi i.U.Email paid.stableTxHash minted.invTrustTxHash
            minted.invAssetTxHash)
          paid.issuerPubkey paid.issuerSeed recpSeed rfl h
        have hidx : (investorRaised env (investorCoded env p) i amt).Params.Index
            = p.Params.Index := by simp [investorRaised]
        have hbi : (investorBooked env i amt
            (investorCoded env p).Params.InvestorAssetCode).U.Index = i.U.Index := rfl
        rw [hidx] at h2
        rw [hbi] at h3
        refine ⟨h1, h2, ?_, ?_, paid.issuerPubkey, paid.issuerSeed, ?_⟩
        · exact h3.trans (by rw [hm3, hc3, hb3])
        · exact h4.trans (by rw [hm4, hc4, hb4])
        · have ht : (book env minted.world
              (investorRaised env (investorCoded env p) i amt)
              (investorBooked env i amt (investorCoded env p).Params.InvestorAssetCode) r
              (Call.NotifInvestor pi i.U.Email paid.stableTxHash minted.invTrustTxHash
                minted.invAssetTxHash)
              paid.issuerPubkey paid.issuerSeed recpSeed).world.trace =
              w.trace ++ (lb ++ lc ++
                [Call.TrustAsset (investorCoded env p).Params.InvestorAssetCode
                    paid.issuerPubkey (env.FtoS (investorCoded env p).Params.TotalValue)
                    i.U.PublicKey invSeed,
                  Call.SendAssetFromIssuer (investorCoded env p).Params.InvestorAssetCode
                    i.U.PublicKey amt paid.issuerSeed paid.issuerPubkey] ++ l) := by
            rw [hl, hlm, hlc, hlb]; simp
          exact (congrArg (List.filter Call.isIssue) (callsSince_append w _ _ ht)).trans
            (by simp [List.filter_append, filter_isIssue_of_isBoot lb hcb,
              filter_isIssue_of_isCollect lc hcc, hf])

/-- With every call succeeding, the records in the store and `CanInvest` true,
`InvestInProject` returns no error. -/
theorem invest_ok (env : Env) (hs : env.Succeeds) (w : World) (pi ii ri : Int)
    (amt invSeed recpSeed platformSeed : String) (p : Project) (i : Investor) (r : Recipient)
    (hp : w.projects pi = some p) (hi : w.investors ii = some i)
    (hr : w.recipients ri = some r) (hc : env.CanInvest w.trace i amt = true) :
    (InvestInProject env w pi ii ri amt invSeed recpSeed platformSeed).err = none := by
  unfold InvestInProject
  simp only [pre_of_lookups env w pi ii ri amt p i r hp hi hr hc]
  have hboot : ∀ boot : Outcome,
      boot = (if p.Params.SeedAssetCode = "" ∧ p.Params.InvestorAssetCode = "" then
          bootstrap env w { p with Params := { p.Params with
            InvestorAssetCode := env.AssetID (InvestorAssetPrefix ++ p.Params.Metadata) } }
            platformSeed
        else ⟨p, none, w⟩) → boot.err = none := by
    intro boot hb
    subst hb
    split
    · exact bootstrap_ok env hs _ _ _
    · rfl
  generalize hb : (if p.Params.SeedAssetCode = "" ∧ p.Params.InvestorAssetCode = "" then
      bootstrap env w { p with Params := { p.Params with
        InvestorAssetCode := env.AssetID (InvestorAssetPrefix ++ p.Params.Metadata) } }
        platformSeed
    else (⟨p, none, w⟩ : Outcome)) = boot
  simp only [hboot boot hb.symm, (collect_ok env hs _ _ _ _ _).1,
    trustAndMint_ok env hs, book_ok env hs]

/-- The issuer-bootstrap block of `SeedInvestInProject`: the project it leaves is
`seedCoded`, no bucket is written, and its calls are bootstrap calls. -/
theorem seedBoot_spec (env : Env) (w : World) (p : Project) (ps : String) :
    ∀ boot : Outcome,
      boot = (if p.Params.SeedAssetCode = "" then
          bootstrap env w { p with Params := { p.Params with
            SeedAssetCode := env.AssetID (InvestorAssetPrefix ++ p.Params.Metadata) } } ps
        else ⟨p, none, w⟩) →
      boot.project = seedCoded env p ∧ boot.world.projects = w.projects ∧
      boot.world.investors = w.investors ∧ boot.world.recipients = w.recipients ∧
      ∃ l, boot.world.trace = w.trace ++ l ∧ ∀ c ∈ l, c.isBoot = true := by
  intro boot hb
  subst hb
  unfold seedCoded
  split
  · obtain ⟨l, hl, hc, -⟩ := bootstrap_trace env w { p with Params := { p.Params with
      SeedAssetCode := env.AssetID (InvestorAssetPrefix ++ p.Params.Metadata) } } ps
    exact ⟨by simp, by simp, by simp, by simp, l, hl, hc⟩
  · exact ⟨rfl, rfl, rfl, rfl, [], by simp, by simp⟩

/-- Line 210 overwrites what line 188 assigned. -/
theorem seedRecoded_seedCoded (env : Env) (p : Project) :
    seedRecoded env (seedCoded env p) = seedRecoded env p := by
  unfold seedCoded
  split <;> rfl

/-- A `SeedInvestInProject` that returns no error. -/
theorem seedInvest_err_none (env : Env) (w : World) (pi ii ri : Int)
    (amt invSeed recpSeed platformSeed : String)
    (h : (SeedInvestInProject env w pi ii ri amt invSeed recpSeed platformSeed).err = none) :
    ∃ p i r, w.projects pi = some p ∧ w.investors ii = some i ∧ w.recipients ri = some r ∧
      env.CanInvest w.trace i amt = true ∧
      (SeedInvestInProject env w pi ii ri amt invSeed recpSeed platformSeed).project =
        (if (seedRaised env (seedRecoded env p) i amt).Params.MoneyRaised
            = (seedRaised env (seedRecoded env p) i amt).Params.TotalValue then
          funded env (seedRaised env (seedRecoded env p) i amt) r
        else seedRaised env (seedRecoded env p) i amt) ∧
      (SeedInvestInProject env w pi ii ri amt invSeed recpSeed platformSeed).world.projects
          p.Params.Index
        = some (SeedInvestInProject env w pi ii ri amt invSeed recpSeed platformSeed).project ∧
      (SeedInvestInProject env w pi ii ri amt invSeed recpSeed platformSeed).world.investors =
        (fun k => if k = i.U.Index then
            some (investorBooked env i amt (seedRecoded env p).Params.SeedAssetCode)
          else w.investors k) ∧
      (SeedInvestInProject env w pi ii ri amt invSeed recpSeed platformSeed).world.recipients =
        (if (seedRaised env (seedRecoded env p) i amt).Params.MoneyRaised
            = (seedRaised env (seedRecoded env p) i amt).Params.TotalValue then
          fun k => if k = r.U.Index then
              some (recipientCredited env (seedRaised env (seedRecoded env p) i amt) r)
            else w.recipients k
        else w.recipients) ∧
      ∃ iss seed,
        (callsSince w
          (SeedInvestInProject env w pi ii ri amt invSeed recpSeed platformSeed).world).filter
            Call.isIssue =
          [Call.TrustAsset (seedRecoded env p).Params.SeedAssetCode iss
              (env.FtoS p.Params.TotalValue) i.U.PublicKey invSeed,
            Call.SendAssetFromIssuer (seedRecoded env p).Params.SeedAssetCode
              i.U.PublicKey amt seed iss] ++
          (if (seedRaised env (seedRecoded env p) i amt).Params.MoneyRaised
              = (seedRaised env (seedRecoded env p) i amt).Params.TotalValue then
            fundingCalls env (seedRaised env (seedRecoded env p) i amt) r iss seed recpSeed
          else []) := by
  have hpre : (PreInvestmentCheck env w pi ii ri amt).err = none := by
    cases he : (PreInvestmentCheck env w pi ii ri amt).err with
    | none => rfl
    | some e =>
      rw [seedInvest_of_pre_err env w pi ii ri amt invSeed recpSeed platformSeed e he] at h
      simp at h
  obtain ⟨p, i, r, hp, hi, hr, hc, hpre'⟩ := pre_err_none env w pi ii ri amt hpre
  refine ⟨p, i, r, hp, hi, hr, hc, ?_⟩
  revert h
  unfold SeedInvestInProject
  simp only [hpre']
  generalize hb : (if p.Params.SeedAssetCode = "" then
      bootstrap env w { p with Params := { p.Params with
        SeedAssetCode := env.AssetID (InvestorAssetPrefix ++ p.Params.Metadata) } }
        platformSeed
    else (⟨p, none, w⟩ : Outcome)) = boot
  obtain ⟨hb1, hb2, hb3, hb4, lb, hlb, hcb⟩ := seedBoot_spec env w p platformSeed boot hb.symm
  cases hbe : boot.err with
  | some e => intro h; simp at h
  | none =>
    simp only [hb1]
    obtain ⟨lc, hlc, hcc⟩ := collect_trace env boot.world platformSeed invSeed amt
      (seedCoded env p).Params.Index
    have hc2 := collect_projects env boot.world platformSeed invSeed amt
      (seedCoded env p).Params.Index
    have hc3 := collect_investors env boot.world platformSeed invSeed amt
      (seedCoded env p).Params.Index
    have hc4 := collect_recipients env boot.world platformSeed invSeed amt
      (seedCoded env p).Params.Index
    generalize collect env boot.world platformSeed invSeed amt
      (seedCoded env p).Params.Index = paid at hlc hc2 hc3 hc4 ⊢
    cases hpe : paid.err with
    | some e => intro h; simp at h
    | none =>
      simp only [CreateAsset]
      obtain ⟨lm, hlm, -, hlm'⟩ := trustAndMint_trace env paid.world
        (env.AssetID (SeedAssetPrefix ++ (seedCoded env p).Params.Metadata))
        paid.issuerPubkey paid.issuerSeed
        (env.FtoS (seedCoded env p).Params.TotalValue) i.U.PublicKey invSeed amt
      have hm2 := trustAndMint_projects env paid.world
        (env.AssetID (SeedAssetPrefix ++ (seedCoded env p).Params.Metadata))
        paid.issuerPubkey paid.issuerSeed
        (env.FtoS (seedCoded env p).Params.TotalValue) i.U.PublicKey invSeed amt
      have hm3 := trustAndMint_investors env paid.world
        (env.AssetID (SeedAssetPrefix ++ (seedCoded env p).Params.Metadata))
        paid.issuerPubkey paid.issuerSeed
        (env.FtoS (seedCoded env p).Params.TotalValue) i.U.PublicKey invSeed amt
      have hm4 := trustAndMint_recipients env paid.world
        (env.AssetID (SeedAssetPrefix ++ (seedCoded env p).Params.Metadata))
        paid.issuerPubkey paid.issuerSeed
        (env.FtoS (seedCoded env p).Params.TotalValue) i.U.PublicKey invSeed amt
      generalize trustAndMint env paid.world
        (env.AssetID (SeedAssetPrefix ++ (seedCoded env p).Params.Metadata))
        paid.issuerPubkey paid.issuerSeed
        (env.FtoS (seedCoded env p).Params.TotalValue) i.U.PublicKey invSeed amt
        = minted at hlm hlm' hm2 hm3 hm4 ⊢
      cases hme : minted.err with
      | some e => intro h; simp at h
      | none =>
        simp only []
        intro h
        have hlm2 := hlm' hme
        subst hlm2
        have hq : seedRaised env (seedRecoded env (seedCoded env p)) i amt
            = seedRaised env (seedRecoded env p) i amt := by
          rw [seedRecoded_seedCoded]
        have hcode : env.AssetID (SeedAssetPrefix ++ (seedCoded env p).Params.Metadata)
            = (seedRecoded env p).Params.SeedAssetCode := by
          rw [seedCoded_Metadata]; rfl
        obtain ⟨h1, h2, h3, h4, l, hl, hf⟩ := book_err_none env minted.world
          (seedRaised env (seedRecoded env (seedCoded env p)) i amt)
          (investorBooked env i amt
            (env.AssetID (SeedAssetPrefix ++ (seedCoded env p).Params.Metadata))) r
          (Call.NotifSeedInvestor pi i.U.Email paid.stableTxHash minted.invTrustTxHash
            minted.invAssetTxHash)
          paid.issuerPubkey paid.issuerSeed recpSeed rfl h
        have hidx : (seedRaised env (seedRecoded env (seedCoded env p)) i amt).Params.Index
            = p.Params.Index := by simp [seedRaised, seedRecoded]
        have hbi : (investorBooked env i amt
            (env.AssetID (SeedAssetPrefix ++ (seedCoded env p).Params.Metadata))).U.Index
            = i.U.Index := rfl
        rw [hidx] at h2
        rw [hbi] at h3
        refine ⟨h1.trans (by rw [hq]), h2, ?_, ?_, paid.issuerPubkey, paid.issuerSeed, ?_⟩
        · exact h3.trans (by rw [hm3, hc3, hb3, hcode])
        · exact h4.trans (by rw [hm4, hc4, hb4, hq])
        · have ht : (book env minted.world
              (seedRaised env (seedRecoded env (seedCoded env p)) i amt)
              (investorBooked env i amt
                (env.AssetID (SeedAssetPrefix ++ (seedCoded env p).Params.Metadata))) r
              (Call.NotifSeedInvestor pi i.U.Email paid.stableTxHash minted.invTrustTxHash
                minted.invAssetTxHash)
              paid.issuerPubkey paid.issuerSeed recpSeed).world.trace =
              w.trace ++ (lb ++ lc ++
                [Call.TrustAsset (seedRecoded env p).Params.SeedAssetCode
                    paid.issuerPubkey (env.FtoS p.Params.TotalValue)
                    i.U.PublicKey invSeed,
                  Call.SendAssetFromIssuer (seedRecoded env p).Params.SeedAssetCode
                    i.U.PublicKey amt paid.issuerSeed paid.issuerPubkey] ++ l) := by
            rw [hl, hlm, hlc, hlb, hcode, seedCoded_TotalValue]; simp
          exact (congrArg (List.filter Call.isIssue) (callsSince_append w _ _ ht)).trans
            (by rw [hq] at hf
                simp [List.filter_append, filter_isIssue_of_isBoot lb hcb,
                  filter_isIssue_of_isCollect lc hcc, hf])

/-- With every call succeeding, the records in the store and `CanInvest` true,
`SeedInvestInProject` returns no error. -/
theorem seedInvest_ok (env : Env) (hs : env.Succeeds) (w : World) (pi ii ri : Int)
    (amt invSeed recpSeed platformSeed : String) (p : Project) (i : Investor) (r : Recipient)
    (hp : w.projects pi = some p) (hi : w.investors ii = some i)
    (hr : w.recipients ri = some r) (hc : env.CanInvest w.trace i amt = true) :
    (SeedInvestInProject env w pi ii ri amt invSeed recpSeed platformSeed).err = none := by
  unfold SeedInvestInProject
  simp only [pre_of_lookups env w pi ii ri amt p i r hp hi hr hc]
  have hboot : ∀ boot : Outcome,
      boot = (if p.Params.SeedAssetCode = "" then
          bootstrap env w { p with Params := { p.Params with
            SeedAssetCode := env.AssetID (InvestorAssetPrefix ++ p.Params.Metadata) } }
            platformSeed
        else ⟨p, none, w⟩) → boot.err = none := by
    intro boot hb
    subst hb
    split
    · exact bootstrap_ok env hs _ _ _
    · rfl
  generalize hb : (if p.Params.SeedAssetCode = "" then
      bootstrap env w { p with Params := { p.Params with
        SeedAssetCode := env.AssetID (InvestorAssetPrefix ++ p.Params.Metadata) } }
        platformSeed
    else (⟨p, none, w⟩ : Outcome)) = boot
  simp only [hboot boot hb.symm, (collect_ok env hs _ _ _ _ _).1,
    trustAndMint_ok env hs, book_ok env hs]

/-- The project read by the check when it is in the store. -/
theorem retrieveProject_of_lookup (w : World) (pi : Int) (p : Project)
    (hp : w.projects pi = some p) : (RetrieveProject w pi).1 = p := by
  simp [RetrieveProject, hp]

/-- The project read by the check when it is not in the store. -/
theorem retrieveProject_of_missing (w : World) (pi : Int)
    (hp : w.projects pi = none) : (RetrieveProject w pi).1 = default := by
  simp [RetrieveProject, hp]

/-- On every path of `InvestInProject`: a project found in the store afterwards was there
before or is the project handed back, and the project handed back is the one read, or
that with the investor code assigned, or that with the amount booked, the latter
possibly with the two codes set or `funded` when the target is met. -/
theorem invest_paths (env : Env) (w : World) (pi ii ri : Int)
    (amt invSeed recpSeed platformSeed : String) :
    StoreStep (InvestInProject env w pi ii ri amt invSeed recpSeed platformSeed).project w
      (InvestInProject env w pi ii ri amt invSeed recpSeed platformSeed).world ∧
    ((InvestInProject env w pi ii ri amt invSeed recpSeed platformSeed).project
        = (RetrieveProject w pi).1 ∨
      (InvestInProject env w pi ii ri amt invSeed recpSeed platformSeed).project
        = investorCoded env (RetrieveProject w pi).1 ∨
      ∃ i r,
        (InvestInProject env w pi ii ri amt invSeed recpSeed platformSeed).project
          = investorRaised env (investorCoded env (RetrieveProject w pi).1) i amt ∨
        ((investorRaised env (investorCoded env (RetrieveProject w pi).1) i amt).Params.MoneyRaised
          = (investorRaised env (investorCoded env (RetrieveProject w pi).1) i
              amt).Params.TotalValue ∧
          ((InvestInProject env w pi ii ri amt invSeed recpSeed platformSeed).project
            = withCodes env
                (investorRaised env (investorCoded env (RetrieveProject w pi).1) i amt) ∨
           (InvestInProject env w pi ii ri amt invSeed recpSeed platformSeed).project
            = funded env
                (investorRaised env (investorCoded env (RetrieveProject w pi).1) i amt) r))) := by
  have hpp := pre_project env w pi ii ri amt
  unfold InvestInProject
  generalize PreInvestmentCheck env w pi ii ri amt = pre at hpp ⊢
  rw [← hpp]
  simp only []
  cases hpe : pre.err with
  | some e => exact ⟨storeStep_refl _ _, Or.inl rfl⟩
  | none =>
    simp only []
    generalize hb : (if pre.project.Params.SeedAssetCode = "" ∧
        pre.project.Params.InvestorAssetCode = "" then
        bootstrap env w { pre.project with Params := { pre.project.Params with
          InvestorAssetCode :=
            env.AssetID (InvestorAssetPrefix ++ pre.project.Params.Metadata) } }
          platformSeed
      else (⟨pre.project, none, w⟩ : Outcome)) = boot
    obtain ⟨hb1, hb2, -, -, -⟩ := investorBoot_spec env w pre.project platformSeed boot hb.symm
    cases hbe : boot.err with
    | some e => exact ⟨storeStep_of_eq _ _ _ hb2, Or.inr (Or.inl hb1)⟩
    | none =>
      simp only [hb1]
      have hc2 := collect_projects env boot.world platformSeed invSeed amt
        (investorCoded env pre.project).Params.Index
      generalize collect env boot.world platformSeed invSeed amt
        (investorCoded env pre.project).Params.Index = paid at hc2 ⊢
      cases hpa : paid.err with
      | some e => exact ⟨storeStep_of_eq _ _ _ (hc2.trans hb2), Or.inr (Or.inl rfl)⟩
      | none =>
        simp only [CreateAsset]
        have hm2 := trustAndMint_projects env paid.world
          (investorCoded env pre.project).Params.InvestorAssetCode paid.issuerPubkey
          paid.issuerSeed (env.FtoS (investorCoded env pre.project).Params.TotalValue)
          pre.investor.U.PublicKey invSeed amt
        generalize trustAndMint env paid.world
          (investorCoded env pre.project).Params.InvestorAssetCode paid.issuerPubkey
          paid.issuerSeed (env.FtoS (investorCoded env pre.project).Params.TotalValue)
          pre.investor.U.PublicKey invSeed amt = minted at hm2 ⊢
        cases hme : minted.err with
        | some e =>
          exact ⟨storeStep_of_eq _ _ _ (hm2.trans (hc2.trans hb2)), Or.inr (Or.inl rfl)⟩
        | none =>
          simp only []
          refine ⟨storeStep_trans_eq _ _ _ _ (hm2.trans (hc2.trans hb2))
            (book_storeStep env minted.world
              (investorRaised env (investorCoded env pre.project) pre.investor amt)
              (investorBooked env pre.investor amt
                (investorCoded env pre.project).Params.InvestorAssetCode) pre.recipient
              (Call.NotifInvestor pi pre.investor.U.Email paid.stableTxHash
                minted.invTrustTxHash minted.invAssetTxHash)
              paid.issuerPubkey paid.issuerSeed recpSeed), Or.inr (Or.inr ?_)⟩
          refine ⟨pre.investor, pre.recipient, ?_⟩
          rcases book_project env minted.world
              (investorRaised env (investorCoded env pre.project) pre.investor amt)
              (investorBooked env pre.investor amt
                (investorCoded env pre.project).Params.InvestorAssetCode) pre.recipient
              (Call.NotifInvestor pi pre.investor.U.Email paid.stableTxHash
                minted.invTrustTxHash minted.invAssetTxHash)
              paid.issuerPubkey paid.issuerSeed recpSeed with h | ⟨h1, -, h2⟩ | ⟨h1, h2⟩
          · exact Or.inl h
          · exact Or.inr ⟨h1, Or.inl h2⟩
          · exact Or.inr ⟨h1, Or.inr h2⟩

/-- On every path of `SeedInvestInProject`: a project found in the store afterwards was
there before or is the project handed back, and the project handed back is the one read,
or that with the seed code assigned (from the investor prefix, line 188, or from the seed
prefix, line 210), or that with the amount booked, the latter possibly with the two
codes set or `funded` when the target is met. -/
theorem seedInvest_paths (env : Env) (w : World) (pi ii ri : Int)
    (amt invSeed recpSeed platformSeed : String) :
    StoreStep (SeedInvestInProject env w pi ii ri amt invSeed recpSeed platformSeed).project w
      (SeedInvestInProject env w pi ii ri amt invSeed recpSeed platformSeed).world ∧
    ((SeedInvestInProject env w pi ii ri amt invSeed recpSeed platformSeed).project
        = (RetrieveProject w pi).1 ∨
      (SeedInvestInProject env w pi ii ri amt invSeed recpSeed platformSeed).project
        = seedCoded env (RetrieveProject w pi).1 ∨
      (SeedInvestInProject env w pi ii ri amt invSeed recpSeed platformSeed).project
        = seedRecoded env (RetrieveProject w pi).1 ∨
      ∃ i r,
        (SeedInvestInProject env w pi ii ri amt invSeed recpSeed platformSeed).project
          = seedRaised env (seedRecoded env (RetrieveProject w pi).1) i amt ∨
        ((seedRaised env (seedRecoded env (RetrieveProject w pi).1) i amt).Params.MoneyRaised
          = (seedRaised env (seedRecoded env (RetrieveProject w pi).1) i
              amt).Params.TotalValue ∧
          ((SeedInvestInProject env w pi ii ri amt invSeed recpSeed platformSeed).project
            = withCodes env
                (seedRaised env (seedRecoded env (RetrieveProject w pi).1) i amt) ∨
           (SeedInvestInProject env w pi ii ri amt invSeed recpSeed platformSeed).project
            = funded env
                (seedRaised env (seedRecoded env (RetrieveProject w pi).1) i amt) r))) := by
  have hpp := pre_project env w pi ii ri amt
  unfold SeedInvestInProject
  generalize PreInvestmentCheck env w pi ii ri amt = pre at hpp ⊢
  rw [← hpp]
  simp only []
  cases hpe : pre.err with
  | some e => exact ⟨storeStep_refl _ _, Or.inl rfl⟩
  | none =>
    simp only []
    generalize hb : (if pre.project.Params.SeedAssetCode = "" then
        bootstrap env w { pre.project with Params := { pre.project.Params with
          SeedAssetCode :=
            env.AssetID (InvestorAssetPrefix ++ pre.project.Params.Metadata) } }
          platformSeed
      else (⟨pre.project, none, w⟩ : Outcome)) = boot
    obtain ⟨hb1, hb2, -, -, -⟩ := seedBoot_spec env w pre.project platformSeed boot hb.symm
    cases hbe : boot.err with
    | some e => exact ⟨storeStep_of_eq _ _ _ hb2, Or.inr (Or.inl hb1)⟩
    | none =>
      simp only [hb1]
      have hc2 := collect_projects env boot.world platformSeed invSeed amt
        (seedCoded env pre.project).Params.Index
      generalize collect env boot.world platformSeed invSeed amt
        (seedCoded env pre.project).Params.Index = paid at hc2 ⊢
      cases hpa : paid.err with
      | some e => exact ⟨storeStep_of_eq _ _ _ (hc2.trans hb2), Or.inr (Or.inl rfl)⟩
      | none =>
        simp only [CreateAsset]
        have hm2 := trustAndMint_projects env paid.world
          (env.AssetID (SeedAssetPrefix ++ (seedCoded env pre.project).Params.Metadata))
          paid.issuerPubkey
          paid.issuerSeed (env.FtoS (seedCoded env pre.project).Params.TotalValue)
          pre.investor.U.PublicKey invSeed amt
        generalize trustAndMint env paid.world
          (env.AssetID (SeedAssetPrefix ++ (seedCoded env pre.project).Params.Metadata))
          paid.issuerPubkey
          paid.issuerSeed (env.FtoS (seedCoded env pre.project).Params.TotalValue)
          pre.investor.U.PublicKey invSeed amt = minted at hm2 ⊢
        have hq := seedRecoded_seedCoded env pre.project
        cases hme : minted.err with
        | some e =>
          exact ⟨storeStep_of_eq _ _ _ (hm2.trans (hc2.trans hb2)),
            Or.inr (Or.inr (Or.inl hq))⟩
        | none =>
          simp only []
          refine ⟨storeStep_trans_eq _ _ _ _ (hm2.trans (hc2.trans hb2))
            (book_storeStep env minted.world
              (seedRaised env (seedRecoded env (seedCoded env pre.project)) pre.investor amt)
              (investorBooked env pre.investor amt
                (env.AssetID (SeedAssetPrefix ++ (seedCoded env pre.project).Params.Metadata)))
              pre.recipient
              (Call.NotifSeedInvestor pi pre.investor.U.Email paid.stableTxHash
                minted.invTrustTxHash minted.invAssetTxHash)
              paid.issuerPubkey paid.issuerSeed recpSeed), Or.inr (Or.inr (Or.inr ?_))⟩
          refine ⟨pre.investor, pre.recipient, ?_⟩
          rw [← hq]
          rcases book_project env minted.world
              (seedRaised env (seedRecoded env (seedCoded env pre.project)) pre.investor amt)
              (investorBooked env pre.investor amt
                (env.AssetID (SeedAssetPrefix ++ (seedCoded env pre.project).Params.Metadata)))
              pre.recipient
              (Call.NotifSeedInvestor pi pre.investor.U.Email paid.stableTxHash
                minted.invTrustTxHash minted.invAssetTxHash)
              paid.issuerPubkey paid.issuerSeed recpSeed with h | ⟨h1, -, h2⟩ | ⟨h1, h2⟩
          · exact Or.inl h
          · exact Or.inr ⟨h1, Or.inl h2⟩
          · exact Or.inr ⟨h1, Or.inr h2⟩

/-- The fields of the project a round hands back when it returns no error, in terms of
the project `q` with the amount booked. -/
theorem settled_fields (env : Env) (q : Project) (r : Recipient) :
    (if q.Params.MoneyRaised = q.Params.TotalValue then funded env q r else q).Params.Index
      = q.Params.Index ∧
    (if q.Params.MoneyRaised = q.Params.TotalValue then funded env q r
      else q).Params.TotalValue = q.Params.TotalValue ∧
    (if q.Params.MoneyRaised = q.Params.TotalValue then funded env q r
      else q).Params.MoneyRaised = q.Params.MoneyRaised ∧
    (if q.Params.MoneyRaised = q.Params.TotalValue then funded env q r
      else q).Params.Metadata = q.Params.Metadata ∧
    (if q.Params.MoneyRaised = q.Params.TotalValue then funded env q r
      else q).Params.InvestorAssetCode = q.Params.InvestorAssetCode ∧
    (if q.Params.MoneyRaised = q.Params.TotalValue then funded env q r
      else q).Params.SeedAssetCode = q.Params.SeedAssetCode ∧
    (if q.Params.MoneyRaised = q.Params.TotalValue then funded env q r
      else q).Params.DebtAssetCode =
        (if q.Params.MoneyRaised = q.Params.TotalValue then
          env.AssetID (DebtAssetPrefix ++ q.Params.Metadata) else q.Params.DebtAssetCode) ∧
    (if q.Params.MoneyRaised = q.Params.TotalValue then funded env q r
      else q).Params.PaybackAssetCode =
        (if q.Params.MoneyRaised = q.Params.TotalValue then
          env.AssetID (PaybackAssetPrefix ++ q.Params.Metadata)
          else q.Params.PaybackAssetCode) ∧
    (if q.Params.MoneyRaised = q.Params.TotalValue then funded env q r
      else q).Params.BalLeft =
        (if q.Params.MoneyRaised = q.Params.TotalValue then q.Params.TotalValue
          else q.Params.BalLeft) ∧
    (if q.Params.MoneyRaised = q.Params.TotalValue then funded env q r else q).Stage =
        (if q.Params.MoneyRaised = q.Params.TotalValue then env.FundedProject
          else q.Stage) := by
  split <;> simp [funded]

/-- The fields of the project an `InvestInProject` hands back when it returns no error. -/
theorem invest_success_fields (env : Env) (w : World) (pi ii ri : Int)
    (amt invSeed recpSeed platformSeed : String) (p : Project)
    (hp : w.projects pi = some p)
    (h : (InvestInProject env w pi ii ri amt invSeed recpSeed platformSeed).err = none) :
    (InvestInProject env w pi ii ri amt invSeed recpSeed platformSeed).project.Params.Index
      = p.Params.Index ∧
    (InvestInProject env w pi ii ri amt invSeed recpSeed
      platformSeed).project.Params.TotalValue = p.Params.TotalValue ∧
    (InvestInProject env w pi ii ri amt invSeed recpSeed
      platformSeed).project.Params.MoneyRaised = p.Params.MoneyRaised + env.StoF amt ∧
    (InvestInProject env w pi ii ri amt invSeed recpSeed
      platformSeed).project.Params.Metadata = p.Params.Metadata ∧
    (InvestInProject env w pi ii ri amt invSeed recpSeed
      platformSeed).project.Params.InvestorAssetCode
        = (investorCoded env p).Params.InvestorAssetCode ∧
    (InvestInProject env w pi ii ri amt invSeed recpSeed
      platformSeed).project.Params.SeedAssetCode = p.Params.SeedAssetCode ∧
    (InvestInProject env w pi ii ri amt invSeed recpSeed
      platformSeed).project.Params.DebtAssetCode =
        (if p.Params.MoneyRaised + env.StoF amt = p.Params.TotalValue then
          env.AssetID (DebtAssetPrefix ++ p.Params.Metadata) else p.Params.DebtAssetCode) ∧
    (InvestInProject env w pi ii ri amt invSeed recpSeed
      platformSeed).project.Params.PaybackAssetCode =
        (if p.Params.MoneyRaised + env.StoF amt = p.Params.TotalValue then
          env.AssetID (PaybackAssetPrefix ++ p.Params.Metadata)
          else p.Params.PaybackAssetCode) ∧
    (InvestInProject env w pi ii ri amt invSeed recpSeed
      platformSeed).project.Params.BalLeft =
        (if p.Params.MoneyRaised + env.StoF amt = p.Params.TotalValue then p.Params.TotalValue
          else p.Params.BalLeft) ∧
    (InvestInProject env w pi ii ri amt invSeed recpSeed platformSeed).project.Stage =
        (if p.Params.MoneyRaised + env.StoF amt = p.Params.TotalValue then env.FundedProject
          else p.Stage) := by
  obtain ⟨p', i, r, hp', -, -, -, hproj, -⟩ :=
    invest_err_none env w pi ii ri amt invSeed recpSeed platformSeed h
  rw [hp] at hp'
  cases hp'
  rw [hproj]
  have := settled_fields env (investorRaised env (investorCoded env p) i amt) r
  simpa [investorRaised] using this

/-- The fields of the project a `SeedInvestInProject` hands back when it returns no
error. -/
theorem seedInvest_success_fields (env : Env) (w : World) (pi ii ri : Int)
    (amt invSeed recpSeed platformSeed : String) (p : Project)
    (hp : w.projects pi = some p)
    (h : (SeedInvestInProject env w pi ii ri amt invSeed recpSeed platformSeed).err = none) :
    (SeedInvestInProject env w pi ii ri amt invSeed recpSeed platformSeed).project.Params.Index
      = p.Params.Index ∧
    (SeedInvestInProject env w pi ii ri amt invSeed recpSeed
      platformSeed).project.Params.TotalValue = p.Params.TotalValue ∧
    (SeedInvestInProject env w pi ii ri amt invSeed recpSeed
      platformSeed).project.Params.MoneyRaised = p.Params.MoneyRaised + env.StoF amt ∧
    (SeedInvestInProject env w pi ii ri amt invSeed recpSeed
      platformSeed).project.Params.Metadata = p.Params.Metadata ∧
    (SeedInvestInProject env w pi ii ri amt invSeed recpSeed
      platformSeed).project.Params.InvestorAssetCode = p.Params.InvestorAssetCode ∧
    (SeedInvestInProject env w pi ii ri amt invSeed recpSeed
      platformSeed).project.Params.SeedAssetCode
        = env.AssetID (SeedAssetPrefix ++ p.Params.Metadata) ∧
    (SeedInvestInProject env w pi ii ri amt invSeed recpSeed
      platformSeed).project.Params.DebtAssetCode =
        (if p.Params.MoneyRaised + env.StoF amt = p.Params.TotalValue then
          env.AssetID (DebtAssetPrefix ++ p.Params.Metadata) else p.Params.DebtAssetCode) ∧
    (SeedInvestInProject env w pi ii ri amt invSeed recpSeed
      platformSeed).project.Params.PaybackAssetCode =
        (if p.Params.MoneyRaised + env.StoF amt = p.Params.TotalValue then
          env.AssetID (PaybackAssetPrefix ++ p.Params.Metadata)
          else p.Params.PaybackAssetCode) ∧
    (SeedInvestInProject env w pi ii ri amt invSeed recpSeed
      platformSeed).project.Params.BalLeft =
        (if p.Params.MoneyRaised + env.StoF amt = p.Params.TotalValue then p.Params.TotalValue
          else p.Params.BalLeft) ∧
    (SeedInvestInProject env w pi ii ri amt invSeed recpSeed platformSeed).project.Stage =
        (if p.Params.MoneyRaised + env.StoF amt = p.Params.TotalValue then env.FundedProject
          else p.Stage) := by
  obtain ⟨p', i, r, hp', -, -, -, hproj, -⟩ :=
    seedInvest_err_none env w pi ii ri amt invSeed recpSeed platformSeed h
  rw [hp] at hp'
  cases hp'
  rw [hproj]
  have := settled_fields env (seedRaised env (seedRecoded env p) i amt) r
  simpa [seedRaised, seedRecoded] using this

theorem demoEnv_assetID (s : String) : demoEnv.AssetID s ≠ "" := by
  intro h
  have := congrArg String.length h
  simp [demoEnv] at this
  exact absurd this.1 (by decide)

theorem filter_isFreeze_of_isIssue (l : List Call) :
    l.filter Call.isFreeze = (l.filter Call.isIssue).filter Call.isFreeze := by
  rw [List.filter_filter]
  congr 1
  funext c
  cases c <;> rfl

/-- With a seed code set the bootstrap block of `InvestInProject` is skipped: the
investor code is not assigned. -/
theorem investorCoded_of_seed (env : Env) (p : Project) (h : p.Params.SeedAssetCode ≠ "") :
    investorCoded env p = p := by
  simp [investorCoded, h]

/-- A set investor code is left alone by the bootstrap block of `InvestInProject`. -/
theorem investorCoded_of_code (env : Env) (p : Project)
    (h : p.Params.InvestorAssetCode ≠ "") : investorCoded env p = p := by
  simp [investorCoded, h]

/-- A set seed code is left alone by the bootstrap block of `SeedInvestInProject`. -/
theorem seedCoded_of_seed (env : Env) (p : Project) (h : p.Params.SeedAssetCode ≠ "") :
    seedCoded env p = p := by
  simp [seedCoded, h]

/-! ### The blocks of a round -/

theorem investorBoot_facts (env : Env) (w : World) (p : Project) (ps : String) :
    (investorBoot env w p ps).project = investorCoded env p ∧
    (investorBoot env w p ps).world.projects = w.projects ∧
    (investorBoot env w p ps).world.investors = w.investors ∧
    (investorBoot env w p ps).world.recipients = w.recipients ∧
    ∃ l, (investorBoot env w p ps).world.trace = w.trace ++ l ∧ ∀ c ∈ l, c.isBoot = true :=
  investorBoot_spec env w p ps _ rfl

theorem seedBoot_facts (env : Env) (w : World) (p : Project) (ps : String) :
    (seedBoot env w p ps).project = seedCoded env p ∧
    (seedBoot env w p ps).world.projects = w.projects ∧
    (seedBoot env w p ps).world.investors = w.investors ∧
    (seedBoot env w p ps).world.recipients = w.recipients ∧
    ∃ l, (seedBoot env w p ps).world.trace = w.trace ++ l ∧ ∀ c ∈ l, c.isBoot = true :=
  seedBoot_spec env w p ps _ rfl

/-- `InvestInProject` when its bootstrap block fails. -/
theorem invest_boot_fail (env : Env) (w : World) (pi ii ri : Int)
    (amt invSeed recpSeed platformSeed : String) (p : Project) (i : Investor) (r : Recipient)
    (e : String)
    (hpre : PreInvestmentCheck env w pi ii ri amt = ⟨p, i, r, none⟩)
    (hb : (investorBoot env w p platformSeed).err = some e) :
    InvestInProject env w pi ii ri amt invSeed recpSeed platformSeed =
      ⟨investorCoded env p, some e, (investorBoot env w p platformSeed).world⟩ := by
  have hp := (investorBoot_facts env w p platformSeed).1
  unfold InvestInProject
  simp only [hpre]
  have hfold : (if p.Params.SeedAssetCode = "" ∧ p.Params.InvestorAssetCode = "" then
      bootstrap env w { p with Params := { p.Params with
        InvestorAssetCode := env.AssetID (InvestorAssetPrefix ++ p.Params.Metadata) } }
        platformSeed
    else (⟨p, none, w⟩ : Outcome)) = investorBoot env w p platformSeed := rfl
  rw [hfold]
  simp only [hb, hp]

/-- `InvestInProject` when payment collection fails. -/
theorem invest_collect_fail (env : Env) (w : World) (pi ii ri : Int)
    (amt invSeed recpSeed platformSeed : String) (p : Project) (i : Investor) (r : Recipient)
    (e : String)
    (hpre : PreInvestmentCheck env w pi ii ri amt = ⟨p, i, r, none⟩)
    (hb : (investorBoot env w p platformSeed).err = none)
    (hc : (investorPaid env w p platformSeed invSeed amt).err = some e) :
    InvestInProject env w pi ii ri amt invSeed recpSeed platformSeed =
      ⟨investorCoded env p, some e, (investorPaid env w p platformSeed invSeed amt).world⟩ := by
  have hp := (investorBoot_facts env w p platformSeed).1
  unfold investorPaid at hc ⊢
  unfold InvestInProject
  simp only [hpre]
  have hfold : (if p.Params.SeedAssetCode = "" ∧ p.Params.InvestorAssetCode = "" then
      bootstrap env w { p with Params := { p.Params with
        InvestorAssetCode := env.AssetID (InvestorAssetPrefix ++ p.Params.Metadata) } }
        platformSeed
    else (⟨p, none, w⟩ : Outcome)) = investorBoot env w p platformSeed := rfl
  rw [hfold]
  simp only [hb, hp, investorCoded_Index, hc]

/-- `InvestInProject` when the investor's trust line or mint fails. -/
theorem invest_mint_fail (env : Env) (w : World) (pi ii ri : Int)
    (amt invSeed recpSeed platformSeed : String) (p : Project) (i : Investor) (r : Recipient)
    (e : String)
    (hpre : PreInvestmentCheck env w pi ii ri amt = ⟨p, i, r, none⟩)
    (hb : (investorBoot env w p platformSeed).err = none)
    (hc : (investorPaid env w p platformSeed invSeed amt).err = none)
    (hm : (investorMinted env w p i platformSeed invSeed amt).err = some e) :
    InvestInProject env w pi ii ri amt invSeed recpSeed platformSeed =
      ⟨investorCoded env p, some e,
        (investorMinted env w p i platformSeed invSeed amt).world⟩ := by
  have hp := (investorBoot_facts env w p platformSeed).1
  unfold investorMinted at hm ⊢
  unfold investorPaid at hc hm ⊢
  unfold InvestInProject
  simp only [hpre]
  have hfold : (if p.Params.SeedAssetCode = "" ∧ p.Params.InvestorAssetCode = "" then
      bootstrap env w { p with Params := { p.Params with
        InvestorAssetCode := env.AssetID (InvestorAssetPrefix ++ p.Params.Metadata) } }
        platformSeed
    else (⟨p, none, w⟩ : Outcome)) = investorBoot env w p platformSeed := rfl
  rw [hfold]
  simp only [hb, hp, investorCoded_Index, investorCoded_TotalValue, hc, CreateAsset, hm]

/-- `InvestInProject` when the investor's mint succeeds: the rest is `book`. -/
theorem invest_booked (env : Env) (w : World) (pi ii ri : Int)
    (amt invSeed recpSeed platformSeed : String) (p : Project) (i : Investor) (r : Recipient)
    (hpre : PreInvestmentCheck env w pi ii ri amt = ⟨p, i, r, none⟩)
    (hb : (investorBoot env w p platformSeed).err = none)
    (hc : (investorPaid env w p platformSeed invSeed amt).err = none)
    (hm : (investorMinted env w p i platformSeed invSeed amt).err = none) :
    InvestInProject env w pi ii ri amt invSeed recpSeed platformSeed =
      book env (investorMinted env w p i platformSeed invSeed amt).world
        (investorRaised env (investorCoded env p) i amt)
        (investorBooked env i amt (investorCoded env p).Params.InvestorAssetCode) r
        (Call.NotifInvestor pi i.U.Email
          (investorPaid env w p platformSeed invSeed amt).stableTxHash
          (investorMinted env w p i platformSeed invSeed amt).invTrustTxHash
          (investorMinted env w p i platformSeed invSeed amt).invAssetTxHash)
        (investorPaid env w p platformSeed invSeed amt).issuerPubkey
        (investorPaid env w p platformSeed invSeed amt).issuerSeed recpSeed := by
  have hp := (investorBoot_facts env w p platformSeed).1
  unfold investorMinted at hm ⊢
  unfold investorPaid at hc hm ⊢
  unfold InvestInProject
  simp only [hpre]
  have hfold : (if p.Params.SeedAssetCode = "" ∧ p.Params.InvestorAssetCode = "" then
      bootstrap env w { p with Params := { p.Params with
        InvestorAssetCode := env.AssetID (InvestorAssetPrefix ++ p.Params.Metadata) } }
        platformSeed
    else (⟨p, none, w⟩ : Outcome)) = investorBoot env w p platformSeed := rfl
  rw [hfold]
  simp only [hb, hp, investorCoded_Index, investorCoded_TotalValue, hc, CreateAsset, hm,
    investorRaised, investorBooked]

/-- `SeedInvestInProject` when its bootstrap block fails. -/
theorem seedInvest_boot_fail (env : Env) (w : World) (pi ii ri : Int)
    (amt invSeed recpSeed platformSeed : String) (p : Project) (i : Investor) (r : Recipient)
    (e : String)
    (hpre : PreInvestmentCheck env w pi ii ri amt = ⟨p, i, r, none⟩)
    (hb : (seedBoot env w p platformSeed).err = some e) :
    SeedInvestInProject env w pi ii ri amt invSeed recpSeed platformSeed =
      ⟨seedCoded env p, some e, (seedBoot env w p platformSeed).world⟩ := by
  have hp := (seedBoot_facts env w p platformSeed).1
  unfold SeedInvestInProject
  simp only [hpre]
  have hfold : (if p.Params.SeedAssetCode = "" then
      bootstrap env w { p with Params := { p.Params with
        SeedAssetCode := env.AssetID (InvestorAssetPrefix ++ p.Params.Metadata) } }
        platformSeed
    else (⟨p, none, w⟩ : Outcome)) = seedBoot env w p platformSeed := rfl
  rw [hfold]
  simp only [hb, hp]

/-- `SeedInvestInProject` when payment collection fails. -/
theorem seedInvest_collect_fail (env : Env) (w : World) (pi ii ri : Int)
    (amt invSeed recpSeed platformSeed : String) (p : Project) (i : Investor) (r : Recipient)
    (e : String)
    (hpre : PreInvestmentCheck env w pi ii ri amt = ⟨p, i, r, none⟩)
    (hb : (seedBoot env w p platformSeed).err = none)
    (hc : (seedPaid env w p platformSeed invSeed amt).err = some e) :
    SeedInvestInProject env w pi ii ri amt invSeed recpSeed platformSeed =
      ⟨seedCoded env p, some e, (seedPaid env w p platformSeed invSeed amt).world⟩ := by
  have hp := (seedBoot_facts env w p platformSeed).1
  unfold seedPaid at hc ⊢
  unfold SeedInvestInProject
  simp only [hpre]
  have hfold : (if p.Params.SeedAssetCode = "" then
      bootstrap env w { p with Params := { p.Params with
        SeedAssetCode := env.AssetID (InvestorAssetPrefix ++ p.Params.Metadata) } }
        platformSeed
    else (⟨p, none, w⟩ : Outcome)) = seedBoot env w p platformSeed := rfl
  rw [hfold]
  simp only [hb, hp, seedCoded_Index, hc]

/-- `SeedInvestInProject` when the investor's trust line or mint fails. -/
theorem seedInvest_mint_fail (env : Env) (w : World) (pi ii ri : Int)
    (amt invSeed recpSeed platformSeed : String) (p : Project) (i : Investor) (r : Recipient)
    (e : String)
    (hpre : PreInvestmentCheck env w pi ii ri amt = ⟨p, i, r, none⟩)
    (hb : (seedBoot env w p platformSeed).err = none)
    (hc : (seedPaid env w p platformSeed invSeed amt).err = none)
    (hm : (seedMinted env w p i platformSeed invSeed amt).err = some e) :
    SeedInvestInProject env w pi ii ri amt invSeed recpSeed platformSeed =
      ⟨seedRecoded env p, some e, (seedMinted env w p i platformSeed invSeed amt).world⟩ := by
  have hp := (seedBoot_facts env w p platformSeed).1
  rw [← seedRecoded_seedCoded env p]
  unfold seedMinted at hm ⊢
  unfold seedPaid at hc hm ⊢
  unfold SeedInvestInProject
  simp only [hpre]
  have hfold : (if p.Params.SeedAssetCode = "" then
      bootstrap env w { p with Params := { p.Params with
        SeedAssetCode := env.AssetID (InvestorAssetPrefix ++ p.Params.Metadata) } }
        platformSeed
    else (⟨p, none, w⟩ : Outcome)) = seedBoot env w p platformSeed := rfl
  rw [hfold]
  simp only [hb, hp, seedCoded_Index, seedCoded_TotalValue, seedCoded_Metadata, hc,
    CreateAsset, hm, seedRecoded]

/-- `SeedInvestInProject` when the investor's mint succeeds: the rest is `book`. -/
theorem seedInvest_booked (env : Env) (w : World) (pi ii ri : Int)
    (amt invSeed recpSeed platformSeed : String) (p : Project) (i : Investor) (r : Recipient)
    (hpre : PreInvestmentCheck env w pi ii ri amt = ⟨p, i, r, none⟩)
    (hb : (seedBoot env w p platformSeed).err = none)
    (hc : (seedPaid env w p platformSeed invSeed amt).err = none)
    (hm : (seedMinted env w p i platformSeed invSeed amt).err = none) :
    SeedInvestInProject env w pi ii ri amt invSeed recpSeed platformSeed =
      book env (seedMinted env w p i platformSeed invSeed amt).world
        (seedRaised env (seedRecoded env p) i amt)
        (investorBooked env i amt (env.AssetID (SeedAssetPrefix ++ p.Params.Metadata))) r
        (Call.NotifSeedInvestor pi i.U.Email
          (seedPaid env w p platformSeed invSeed amt).stableTxHash
          (seedMinted env w p i platformSeed invSeed amt).invTrustTxHash
          (seedMinted env w p i platformSeed invSeed amt).invAssetTxHash)
        (seedPaid env w p platformSeed invSeed amt).issuerPubkey
        (seedPaid env w p platformSeed invSeed amt).issuerSeed recpSeed := by
  have hp := (seedBoot_facts env w p platformSeed).1
  have hq : seedRaised env (seedRecoded env (seedCoded env p)) i amt
      = seedRaised env (seedRecoded env p) i amt := by rw [seedRecoded_seedCoded]
  rw [← hq]
  unfold seedMinted at hm ⊢
  unfold seedPaid at hc hm ⊢
  unfold SeedInvestInProject
  simp only [hpre]
  have hfold : (if p.Params.SeedAssetCode = "" then
      bootstrap env w { p with Params := { p.Params with
        SeedAssetCode := env.AssetID (InvestorAssetPrefix ++ p.Params.Metadata) } }
        platformSeed
    else (⟨p, none, w⟩ : Outcome)) = seedBoot env w p platformSeed := rfl
  rw [hfold]
  simp only [hb, hp, seedCoded_Index, seedCoded_TotalValue, seedCoded_Metadata, hc,
    CreateAsset, hm, seedRaised, seedRecoded, investorBooked]

theorem isSave_of_isBoot (c : Call) (h : c.isBoot = true) : c.isSave = false := by
  cases c <;> simp_all [Call.isBoot, Call.isSave]

theorem isSave_of_isCollect (c : Call) (h : c.isCollect = true) : c.isSave = false := by
  cases c <;> simp_all [Call.isCollect, Call.isSave]

theorem isSave_of_isTrust (c : Call) (h : c.isTrust = true) : c.isSave = false := by
  cases c <;> simp_all [Call.isTrust, Call.isSave]

theorem isSave_of_isMint (c : Call) (h : c.isMint = true) : c.isSave = false := by
  cases c <;> simp_all [Call.isMint, Call.isSave]

/-- Calls in the order bootstrap, payment, trust line, mint hold no store write. -/
theorem stepsInOrder_no_save (l : List Call) (h : StepsInOrder l) :
    l.filter Call.isSave = [] := by
  obtain ⟨lb, lc, lm, rfl, hb, hc, hm⟩ := h
  rw [List.filter_eq_nil_iff]
  intro c hcm
  rcases List.mem_append.mp hcm with h1 | h1
  · rcases List.mem_append.mp h1 with h2 | h2
    · simp [isSave_of_isBoot c (hb c h2)]
    · simp [isSave_of_isCollect c (hc c h2)]
  · rcases hm with rfl | ⟨t, ht, rfl⟩ | ⟨t, m, ht, hm, rfl⟩
    · simp at h1
    · simp at h1; subst h1; simp [isSave_of_isTrust _ ht]
    · simp at h1
      rcases h1 with rfl | rfl
      · simp [isSave_of_isTrust _ ht]
      · simp [isSave_of_isMint _ hm]

/-- `collect` when the payment fails: the seed read is not made. -/
theorem collect_of_pay_err (env : Env) (w : World) (ps is amt : String) (idx : Int)
    (e : String) (h : (SendUSDToPlatform env w ps is amt idx).1.2 = some e) :
    (collect env w ps is amt idx).err = some e ∧
    (collect env w ps is amt idx).world = (SendUSDToPlatform env w ps is amt idx).2 := by
  unfold collect
  simp only [h]
  exact ⟨by trivial, by trivial⟩

/-- `collect` when the payment succeeds: the seed read is the last call, and its error
is the error of `collect`. -/
theorem collect_of_pay_ok (env : Env) (w : World) (ps is amt : String) (idx : Int)
    (h : (SendUSDToPlatform env w ps is amt idx).1.2 = none) :
    (collect env w ps is amt idx).err =
      (env.RetrieveSeed (SendUSDToPlatform env w ps is amt idx).2.trace (env.CreatePath idx)
        IssuerSeedPwd).2 ∧
    (collect env w ps is amt idx).world =
      (SendUSDToPlatform env w ps is amt idx).2.log
        (Call.RetrieveSeed (env.CreatePath idx) IssuerSeedPwd) := by
  unfold collect
  simp only [h]
  exact ⟨by trivial, by trivial⟩

/-- `trustAndMint` when the trust line fails: the mint is not made. -/
theorem trustAndMint_of_trust_err (env : Env) (w : World)
    (code ipk iseed lim pk is amt : String) (e : String)
    (h : (env.TrustAsset w.trace code ipk lim pk is).2 = some e) :
    (trustAndMint env w code ipk iseed lim pk is amt).err = some e ∧
    (trustAndMint env w code ipk iseed lim pk is amt).world =
      w.log (Call.TrustAsset code ipk lim pk is) := by
  unfold trustAndMint
  simp only [h]
  exact ⟨by trivial, by trivial⟩

/-- `trustAndMint` when the trust line succeeds: the mint is the last call, and its
error is the error of `trustAndMint`. -/
theorem trustAndMint_of_trust_ok (env : Env) (w : World)
    (code ipk iseed lim pk is amt : String)
    (h : (env.TrustAsset w.trace code ipk lim pk is).2 = none) :
    (trustAndMint env w code ipk iseed lim pk is amt).err =
      (env.SendAssetFromIssuer (w.trace ++ [Call.TrustAsset code ipk lim pk is]) code pk amt
        iseed ipk).2 ∧
    (trustAndMint env w code ipk iseed lim pk is amt).world =
      (w.log (Call.TrustAsset code ipk lim pk is)).log
        (Call.SendAssetFromIssuer code pk amt iseed ipk) := by
  unfold trustAndMint
  simp only [h]
  exact ⟨by trivial, by trivial⟩

/-- The calls up to the end of payment collection in `InvestInProject`. -/
theorem investorPaid_facts (env : Env) (w : World) (p : Project) (ps is amt : String) :
    (investorPaid env w p ps is amt).world.projects = w.projects ∧
    (investorPaid env w p ps is amt).world.investors = w.investors ∧
    (investorPaid env w p ps is amt).world.recipients = w.recipients ∧
    ∃ lb lc, (investorPaid env w p ps is amt).world.trace = w.trace ++ (lb ++ lc) ∧
      (investorBoot env w p ps).world.trace = w.trace ++ lb ∧
      (∀ c ∈ lb, c.isBoot = true) ∧ (∀ c ∈ lc, c.isCollect = true) := by
  obtain ⟨-, h2, h3, h4, lb, hlb, hb⟩ := investorBoot_facts env w p ps
  obtain ⟨lc, hlc, hc⟩ := collect_trace env (investorBoot env w p ps).world ps is amt
    p.Params.Index
  unfold investorPaid
  refine ⟨by simp [h2], by simp [h3], by simp [h4], lb, lc, ?_, hlb, hb, hc⟩
  rw [hlc, hlb, List.append_assoc]

/-- The calls up to the end of payment collection in `SeedInvestInProject`. -/
theorem seedPaid_facts (env : Env) (w : World) (p : Project) (ps is amt : String) :
    (seedPaid env w p ps is amt).world.projects = w.projects ∧
    (seedPaid env w p ps is amt).world.investors = w.investors ∧
    (seedPaid env w p ps is amt).world.recipients = w.recipients ∧
    ∃ lb lc, (seedPaid env w p ps is amt).world.trace = w.trace ++ (lb ++ lc) ∧
      (seedBoot env w p ps).world.trace = w.trace ++ lb ∧
      (∀ c ∈ lb, c.isBoot = true) ∧ (∀ c ∈ lc, c.isCollect = true) := by
  obtain ⟨-, h2, h3, h4, lb, hlb, hb⟩ := seedBoot_facts env w p ps
  obtain ⟨lc, hlc, hc⟩ := collect_trace env (seedBoot env w p ps).world ps is amt
    p.Params.Index
  unfold seedPaid
  refine ⟨by simp [h2], by simp [h3], by simp [h4], lb, lc, ?_, hlb, hb, hc⟩
  rw [hlc, hlb, List.append_assoc]

/-- The calls up to the end of the investor's trust line and mint in `InvestInProject`. -/
theorem investorMinted_facts (env : Env) (w : World) (p : Project) (i : Investor)
    (ps is amt : String) :
    (investorMinted env w p i ps is amt).world.projects = w.projects ∧
    (investorMinted env w p i ps is amt).world.investors = w.investors ∧
    (investorMinted env w p i ps is amt).world.recipients = w.recipients ∧
    ∃ lb lc lm, (investorMinted env w p i ps is amt).world.trace = w.trace ++ (lb ++ lc ++ lm) ∧
      (investorBoot env w p ps).world.trace = w.trace ++ lb ∧
      (∀ c ∈ lb, c.isBoot = true) ∧ (∀ c ∈ lc, c.isCollect = true) ∧
      (lm = [Call.TrustAsset (investorCoded env p).Params.InvestorAssetCode
            (investorPaid env w p ps is amt).issuerPubkey (env.FtoS p.Params.TotalValue)
            i.U.PublicKey is] ∨
        lm = [Call.TrustAsset (investorCoded env p).Params.InvestorAssetCode
            (investorPaid env w p ps is amt).issuerPubkey (env.FtoS p.Params.TotalValue)
            i.U.PublicKey is,
          Call.SendAssetFromIssuer (investorCoded env p).Params.InvestorAssetCode
            i.U.PublicKey amt (investorPaid env w p ps is amt).issuerSeed
            (investorPaid env w p ps is amt).issuerPubkey]) ∧
      ((investorMinted env w p i ps is amt).err = none →
        lm = [Call.TrustAsset (investorCoded env p).Params.InvestorAssetCode
            (investorPaid env w p ps is amt).issuerPubkey (env.FtoS p.Params.TotalValue)
            i.U.PublicKey is,
          Call.SendAssetFromIssuer (investorCoded env p).Params.InvestorAssetCode
            i.U.PublicKey amt (investorPaid env w p ps is amt).issuerSeed
            (investorPaid env w p ps is amt).issuerPubkey]) := by
  obtain ⟨h2, h3, h4, lb, lc, hl, hlb, hb, hc⟩ := investorPaid_facts env w p ps is amt
  obtain ⟨lm, hlm, hm, hm'⟩ := trustAndMint_trace env (investorPaid env w p ps is amt).world
    (investorCoded env p).Params.InvestorAssetCode
    (investorPaid env w p ps is amt).issuerPubkey (investorPaid env w p ps is amt).issuerSeed
    (env.FtoS p.Params.TotalValue) i.U.PublicKey is amt
  unfold investorMinted
  refine ⟨by simp [h2], by simp [h3], by simp [h4], lb, lc, lm, ?_, hlb, hb, hc, hm, hm'⟩
  rw [hlm, hl, List.append_assoc]

/-- The calls up to the end of the investor's trust line and mint in
`SeedInvestInProject`. -/
theorem seedMinted_facts (env : Env) (w : World) (p : Project) (i : Investor)
    (ps is amt : String) :
    (seedMinted env w p i ps is amt).world.projects = w.projects ∧
    (seedMinted env w p i ps is amt).world.investors = w.investors ∧
    (seedMinted env w p i ps is amt).world.recipients = w.recipients ∧
    ∃ lb lc lm, (seedMinted env w p i ps is amt).world.trace = w.trace ++ (lb ++ lc ++ lm) ∧
      (seedBoot env w p ps).world.trace = w.trace ++ lb ∧
      (∀ c ∈ lb, c.isBoot = true) ∧ (∀ c ∈ lc, c.isCollect = true) ∧
      (lm = [Call.TrustAsset (env.AssetID (SeedAssetPrefix ++ p.Params.Metadata))
            (seedPaid env w p ps is amt).issuerPubkey (env.FtoS p.Params.TotalValue)
            i.U.PublicKey is] ∨
        lm = [Call.TrustAsset (env.AssetID (SeedAssetPrefix ++ p.Params.Metadata))
            (seedPaid env w p ps is amt).issuerPubkey (env.FtoS p.Params.TotalValue)
            i.U.PublicKey is,
          Call.SendAssetFromIssuer (env.AssetID (SeedAssetPrefix ++ p.Params.Metadata))
            i.U.PublicKey amt (seedPaid env w p ps is amt).issuerSeed
            (seedPaid env w p ps is amt).issuerPubkey]) ∧
      ((seedMinted env w p i ps is amt).err = none →
        lm = [Call.TrustAsset (env.AssetID (SeedAssetPrefix ++ p.Params.Metadata))
            (seedPaid env w p ps is amt).issuerPubkey (env.FtoS p.Params.TotalValue)
            i.U.PublicKey is,
          Call.SendAssetFromIssuer (env.AssetID (SeedAssetPrefix ++ p.Params.Metadata))
            i.U.PublicKey amt (seedPaid env w p ps is amt).issuerSeed
            (seedPaid env w p ps is amt).issuerPubkey]) := by
  obtain ⟨h2, h3, h4, lb, lc, hl, hlb, hb, hc⟩ := seedPaid_facts env w p ps is amt
  obtain ⟨lm, hlm, hm, hm'⟩ := trustAndMint_trace env (seedPaid env w p ps is amt).world
    (env.AssetID (SeedAssetPrefix ++ p.Params.Metadata))
    (seedPaid env w p ps is amt).issuerPubkey (seedPaid env w p ps is amt).issuerSeed
    (env.FtoS p.Params.TotalValue) i.U.PublicKey is amt
  unfold seedMinted
  refine ⟨by simp [h2], by simp [h3], by simp [h4], lb, lc, lm, ?_, hlb, hb, hc, hm, hm'⟩
  rw [hlm, hl, List.append_assoc]

/-- A round that ends with an error in a world reached by bootstrap, payment, trust-line
and mint calls only, handing back a project with the money raised and investor lists of
`p`, is `AbortedAt` that world. -/
theorem abortedAt_intro (w : World) (p q : Project) (e : String) (w' : World)
    (lb lc lm : List Call)
    (h1 : q.Params.MoneyRaised = p.Params.MoneyRaised)
    (h2 : q.ProjectInvestors = p.ProjectInvestors) (h3 : q.SeedInvestors = p.SeedInvestors)
    (h4 : w'.projects = w.projects) (h5 : w'.investors = w.investors)
    (ht : w'.trace = w.trace ++ (lb ++ lc ++ lm))
    (hb : ∀ c ∈ lb, c.isBoot = true) (hc : ∀ c ∈ lc, c.isCollect = true)
    (hm : lm = [] ∨ (∃ t, t.isTrust = true ∧ lm = [t]) ∨
      ∃ t m, t.isTrust = true ∧ m.isMint = true ∧ lm = [t, m]) :
    AbortedAt w p e w' ⟨q, some e, w'⟩ := by
  have hs : StepsInOrder (callsSince w w') := by
    rw [callsSince_append w w' _ ht]
    exact ⟨lb, lc, lm, rfl, hb, hc, hm⟩
  exact ⟨rfl, rfl, h1, h2, h3, h4, h5, stepsInOrder_no_save _ hs, hs⟩

theorem isTrust_of_isBoot (c : Call) (h : c.isBoot = true) : c.isTrust = false := by
  cases c <;> simp_all [Call.isBoot, Call.isTrust]

theorem isTrust_of_isCollect (c : Call) (h : c.isCollect = true) : c.isTrust = false := by
  cases c <;> simp_all [Call.isCollect, Call.isTrust]

/-- Bootstrap and payment-collection calls hold no trust line. -/
theorem filter_isTrust_of_boot_collect (lb lc : List Call) (hb : ∀ c ∈ lb, c.isBoot = true)
    (hc : ∀ c ∈ lc, c.isCollect = true) : (lb ++ lc).filter Call.isTrust = [] := by
  rw [List.filter_eq_nil_iff]
  intro c hcm
  rcases List.mem_append.mp hcm with h | h
  · simp [isTrust_of_isBoot c (hb c h)]
  · simp [isTrust_of_isCollect c (hc c h)]

/-- The first trust line among bootstrap calls, payment-collection calls, a trust line
and whatever follows is that trust line. -/
theorem head_filter_isTrust (lb lc rest : List Call) (t : Call)
    (hb : ∀ c ∈ lb, c.isBoot = true) (hc : ∀ c ∈ lc, c.isCollect = true)
    (ht : t.isTrust = true) :
    ((lb ++ lc ++ (t :: rest)).filter Call.isTrust).head? = some t := by
  rw [List.filter_append, filter_isTrust_of_boot_collect lb lc hb hc, List.nil_append,
    List.filter_cons_of_pos ht]
  rfl

/-- The funding-completion step only adds calls. -/
theorem sendRecipientAssets_extends (env : Env) (w : World) (p : Project) (r : Recipient)
    (a b c : String) :
    ∃ l, (sendRecipientAssets env w p r a b c).world.trace = w.trace ++ l := by
  unfold sendRecipientAssets
  split
  · exact ⟨[], by simp⟩
  · simp only []
    repeat' split
    all_goals simp only [log_trace, projectSave_trace, recipientSave_trace, List.append_assoc]
    all_goals exact ⟨_, rfl⟩

/-- `book` only adds calls. -/
theorem book_extends (env : Env) (w : World) (p : Project) (i : Investor) (r : Recipient)
    (n : Call) (a b c : String) :
    ∃ l, (book env w p i r n a b c).world.trace = w.trace ++ l := by
  unfold book
  simp only []
  split
  · exact ⟨_, investorSave_trace env w i⟩
  · generalize hw8 : (if i.U.Notification = true then (Investor.Save env w i).2.log n
      else (Investor.Save env w i).2) = w8
    obtain ⟨-, -, -, l, hl, -⟩ := book_noted env w i n w8 hw8.symm
    obtain ⟨l2, hl2⟩ := sendRecipientAssets_extends env w8 p r a b c
    split
    · exact ⟨l ++ l2, by rw [hl2, hl, List.append_assoc]⟩
    · exact ⟨l ++ l2 ++ [Call.SaveProject (sendRecipientAssets env w8 p r a b c).project],
        by rw [projectSave_trace, hl2, hl]; simp⟩

/-- The calls of an `InvestInProject`, on every path: nothing, or bootstrap calls and
payment-collection calls, followed, when the trust-line step is reached, by the investor's
trust line for the total value of the stored project and whatever comes after. -/
theorem invest_calls (env : Env) (w : World) (pi ii ri : Int)
    (amt invSeed recpSeed platformSeed : String) (p : Project) (i : Investor)
    (hp : w.projects pi = some p) (hi : w.investors ii = some i) :
    ∃ lb lc rest, callsSince w (InvestInProject env w pi ii ri amt invSeed recpSeed
        platformSeed).world = lb ++ lc ++ rest ∧
      (∀ c ∈ lb, c.isBoot = true) ∧ (∀ c ∈ lc, c.isCollect = true) ∧
      (rest = [] ∨ ∃ code iss rest', rest =
        Call.TrustAsset code iss (env.FtoS p.Params.TotalValue) i.U.PublicKey invSeed
          :: rest') ∧
      ((InvestInProject env w pi ii ri amt invSeed recpSeed platformSeed).err = none →
        rest ≠ []) := by
  cases hpe : (PreInvestmentCheck env w pi ii ri amt).err with
  | some e =>
    rw [invest_of_pre_err env w pi ii ri amt invSeed recpSeed platformSeed e hpe]
    exact ⟨[], [], [], by simp, by simp, by simp, Or.inl rfl, by simp⟩
  | none =>
    obtain ⟨p', i', r, hp', hi', -, -, hpre⟩ := pre_err_none env w pi ii ri amt hpe
    cases (Option.some.inj (hp.symm.trans hp'))
    cases (Option.some.inj (hi.symm.trans hi'))
    cases hb : (investorBoot env w p platformSeed).err with
    | some e =>
      rw [invest_boot_fail env w pi ii ri amt invSeed recpSeed platformSeed p i r e hpre hb]
      obtain ⟨-, -, -, -, lb, hlb, hb'⟩ := investorBoot_facts env w p platformSeed
      exact ⟨lb, [], [], by simp [callsSince_append w _ _ hlb], hb', by simp, Or.inl rfl,
        by simp⟩
    | none =>
      cases hc : (investorPaid env w p platformSeed invSeed amt).err with
      | some e =>
        rw [invest_collect_fail env w pi ii ri amt invSeed recpSeed platformSeed p i r e hpre
          hb hc]
        obtain ⟨-, -, -, lb, lc, hl, -, hlb, hlc⟩ :=
          investorPaid_facts env w p platformSeed invSeed amt
        exact ⟨lb, lc, [], by simp [callsSince_append w _ _ hl], hlb, hlc, Or.inl rfl,
          by simp⟩
      | none =>
        obtain ⟨-, -, -, lb, lc, lm, hl, -, hlb, hlc, hlm, -⟩ :=
          investorMinted_facts env w p i platformSeed invSeed amt
        cases hm : (investorMinted env w p i platformSeed invSeed amt).err with
        | some e =>
          rw [invest_mint_fail env w pi ii ri amt invSeed recpSeed platformSeed p i r e hpre
            hb hc hm]
          refine ⟨lb, lc, lm, callsSince_append w _ _ hl, hlb, hlc, Or.inr ?_, by simp⟩
          rcases hlm with h | h
          · exact ⟨_, _, [], h⟩
          · exact ⟨_, _, _, h⟩
        | none =>
          rw [invest_booked env w pi ii ri amt invSeed recpSeed platformSeed p i r hpre hb hc
            hm]
          obtain ⟨l, hbk⟩ := book_extends env
            (investorMinted env w p i platformSeed invSeed amt).world
            (investorRaised env (investorCoded env p) i amt)
            (investorBooked env i amt (investorCoded env p).Params.InvestorAssetCode) r
            (Call.NotifInvestor pi i.U.Email
              (investorPaid env w p platformSeed invSeed amt).stableTxHash
              (investorMinted env w p i platformSeed invSeed amt).invTrustTxHash
              (investorMinted env w p i platformSeed invSeed amt).invAssetTxHash)
            (investorPaid env w p platformSeed invSeed amt).issuerPubkey
            (investorPaid env w p platformSeed invSeed amt).issuerSeed recpSeed
          refine ⟨lb, lc, lm ++ l, ?_, hlb, hlc, Or.inr ?_, ?_⟩
          · apply callsSince_append
            rw [hbk, hl]
            simp
          · rcases hlm with h | h
            · exact ⟨_, _, l, by rw [h]; rfl⟩
            · exact ⟨_, _, _, by rw [h]; rfl⟩
          · intro _
            rcases hlm with h | h <;> simp [h]

/-- The calls of a `SeedInvestInProject`, on every path: nothing, or bootstrap calls and
payment-collection calls, followed, when the trust-line step is reached, by the investor's
trust line for the total value of the stored project and whatever comes after. -/
theorem seedInvest_calls (env : Env) (w : World) (pi ii ri : Int)
    (amt invSeed recpSeed platformSeed : String) (p : Project) (i : Investor)
    (hp : w.projects pi = some p) (hi : w.investors ii = some i) :
    ∃ lb lc rest, callsSince w (SeedInvestInProject env w pi ii ri amt invSeed recpSeed
        platformSeed).world = lb ++ lc ++ rest ∧
      (∀ c ∈ lb, c.isBoot = true) ∧ (∀ c ∈ lc, c.isCollect = true) ∧
      (rest = [] ∨ ∃ code iss rest', rest =
        Call.TrustAsset code iss (env.FtoS p.Params.TotalValue) i.U.PublicKey invSeed
          :: rest') ∧
      ((SeedInvestInProject env w pi ii ri amt invSeed recpSeed platformSeed).err = none →
        rest ≠ []) := by
  cases hpe : (PreInvestmentCheck env w pi ii ri amt).err with
  | some e =>
    rw [seedInvest_of_pre_err env w pi ii ri amt invSeed recpSeed platformSeed e hpe]
    exact ⟨[], [], [], by simp, by simp, by simp, Or.inl rfl, by simp⟩
  | none =>
    obtain ⟨p', i', r, hp', hi', -, -, hpre⟩ := pre_err_none env w pi ii ri amt hpe
    cases (Option.some.inj (hp.symm.trans hp'))
    cases (Option.some.inj (hi.symm.trans hi'))
    cases hb : (seedBoot env w p platformSeed).err with
    | some e =>
      rw [seedInvest_boot_fail env w pi ii ri amt invSeed recpSeed platformSeed p i r e hpre hb]
      obtain ⟨-, -, -, -, lb, hlb, hb'⟩ := seedBoot_facts env w p platformSeed
      exact ⟨lb, [], [], by simp [callsSince_append w _ _ hlb], hb', by simp, Or.inl rfl,
        by simp⟩
    | none =>
      cases hc : (seedPaid env w p platformSeed invSeed amt).err with
      | some e =>
        rw [seedInvest_collect_fail env w pi ii ri amt invSeed recpSeed platformSeed p i r e
          hpre hb hc]
        obtain ⟨-, -, -, lb, lc, hl, -, hlb, hlc⟩ :=
          seedPaid_facts env w p platformSeed invSeed amt
        exact ⟨lb, lc, [], by simp [callsSince_append w _ _ hl], hlb, hlc, Or.inl rfl,
          by simp⟩
      | none =>
        obtain ⟨-, -, -, lb, lc, lm, hl, -, hlb, hlc, hlm, -⟩ :=
          seedMinted_facts env w p i platformSeed invSeed amt
        cases hm : (seedMinted env w p i platformSeed invSeed amt).err with
        | some e =>
          rw [seedInvest_mint_fail env w pi ii ri amt invSeed recpSeed platformSeed p i r e
            hpre hb hc hm]
          refine ⟨lb, lc, lm, callsSince_append w _ _ hl, hlb, hlc, Or.inr ?_, by simp⟩
          rcases hlm with h | h
          · exact ⟨_, _, [], h⟩
          · exact ⟨_, _, _, h⟩
        | none =>
          rw [seedInvest_booked env w pi ii ri amt invSeed recpSeed platformSeed p i r hpre hb
            hc hm]
          obtain ⟨l, hbk⟩ := book_extends env
            (seedMinted env w p i platformSeed invSeed amt).world
            (seedRaised env (seedRecoded env p) i amt)
            (investorBooked env i amt (env.AssetID (SeedAssetPrefix ++ p.Params.Metadata))) r
            (Call.NotifSeedInvestor pi i.U.Email
              (seedPaid env w p platformSeed invSeed amt).stableTxHash
              (seedMinted env w p i platformSeed invSeed amt).invTrustTxHash
              (seedMinted env w p i platformSeed invSeed amt).invAssetTxHash)
            (seedPaid env w p platformSeed invSeed amt).issuerPubkey
            (seedPaid env w p platformSeed invSeed amt).issuerSeed recpSeed
          refine ⟨lb, lc, lm ++ l, ?_, hlb, hlc, Or.inr ?_, ?_⟩
          · apply callsSince_append
            rw [hbk, hl]
            simp
          · rcases hlm with h | h
            · exact ⟨_, _, l, by rw [h]; rfl⟩
            · exact ⟨_, _, _, by rw [h]; rfl⟩
          · intro _
            rcases hlm with h | h <;> simp [h]

theorem isBoot_of_isCollect (c : Call) (h : c.isCollect = true) : c.isBoot = false := by
  cases c <;> simp_all [Call.isCollect, Call.isBoot]

/-- The funding-completion step issues no bootstrap call. -/
theorem sendRecipientAssets_no_boot (env : Env) (w : World) (p : Project) (r : Recipient)
    (a b c : String) :
    ∃ l, (sendRecipientAssets env w p r a b c).world.trace = w.trace ++ l ∧
      ∀ x ∈ l, x.isBoot = false := by
  unfold sendRecipientAssets
  split
  · exact ⟨[], by simp, by simp⟩
  · simp only []
    repeat' split
    all_goals simp only [log_trace, projectSave_trace, recipientSave_trace, List.append_assoc]
    all_goals exact ⟨_, rfl, by simp [Call.isBoot]⟩

/-- `book` issues no bootstrap call. -/
theorem book_no_boot (env : Env) (w : World) (p : Project) (i : Investor) (r : Recipient)
    (n : Call) (a b c : String) (hn : n.isBoot = false) :
    ∃ l, (book env w p i r n a b c).world.trace = w.trace ++ l ∧
      ∀ x ∈ l, x.isBoot = false := by
  unfold book
  simp only []
  split
  · exact ⟨_, investorSave_trace env w i, by simp [Call.isBoot]⟩
  · generalize hw8 : (if i.U.Notification = true then (Investor.Save env w i).2.log n
      else (Investor.Save env w i).2) = w8
    obtain ⟨-, -, -, l, hl, hl'⟩ := book_noted env w i n w8 hw8.symm
    have hlb : ∀ x ∈ l, x.isBoot = false := by
      intro x hx
      rcases hl' with h | h <;> subst h <;> simp at hx
      · subst hx; rfl
      · rcases hx with rfl | rfl
        · rfl
        · exact hn
    obtain ⟨l2, hl2, hl2b⟩ := sendRecipientAssets_no_boot env w8 p r a b c
    split
    · refine ⟨l ++ l2, by rw [hl2, hl, List.append_assoc], ?_⟩
      intro x hx
      rcases List.mem_append.mp hx with h | h
      · exact hlb x h
      · exact hl2b x h
    · refine ⟨l ++ l2 ++ [Call.SaveProject (sendRecipientAssets env w8 p r a b c).project],
        by rw [projectSave_trace, hl2, hl]; simp, ?_⟩
      intro x hx
      rcases List.mem_append.mp hx with h | h
      · rcases List.mem_append.mp h with h | h
        · exact hlb x h
        · exact hl2b x h
      · simp at h; subst h; rfl

/-- Filtering the bootstrap calls out of bootstrap calls followed by calls that are not. -/
theorem filter_isBoot_append (lb l : List Call) (hb : ∀ c ∈ lb, c.isBoot = true)
    (hl : ∀ c ∈ l, c.isBoot = false) : (lb ++ l).filter Call.isBoot = lb := by
  rw [List.filter_append, List.filter_eq_self.mpr hb]
  have : l.filter Call.isBoot = [] := by
    rw [List.filter_eq_nil_iff]
    intro c hc
    simp [hl c hc]
  rw [this, List.append_nil]

/-- The bootstrap calls of the bootstrap block of `InvestInProject` when it returns no
error: `InitIssuer` then `FundIssuer` when neither code is set, none otherwise. -/
theorem investorBoot_calls (env : Env) (w : World) (p : Project) (ps : String)
    (h : (investorBoot env w p ps).err = none) :
    (investorBoot env w p ps).world.trace = w.trace ++
      (if p.Params.SeedAssetCode = "" ∧ p.Params.InvestorAssetCode = "" then
        [Call.InitIssuer p.Params.Index IssuerSeedPwd,
          Call.FundIssuer p.Params.Index IssuerSeedPwd ps]
      else []) := by
  unfold investorBoot at h ⊢
  split
  · rename_i hg
    rw [if_pos hg] at h
    obtain ⟨l, hl, -, hl'⟩ := bootstrap_trace env w { p with Params := { p.Params with
      InvestorAssetCode := env.AssetID (InvestorAssetPrefix ++ p.Params.Metadata) } } ps
    rw [hl, hl' h]
  · simp

/-- The bootstrap calls of the bootstrap block of `SeedInvestInProject` when it returns no
error: `InitIssuer` then `FundIssuer` when the seed code is not set, none otherwise. -/
theorem seedBoot_calls (env : Env) (w : World) (p : Project) (ps : String)
    (h : (seedBoot env w p ps).err = none) :
    (seedBoot env w p ps).world.trace = w.trace ++
      (if p.Params.SeedAssetCode = "" then
        [Call.InitIssuer p.Params.Index IssuerSeedPwd,
          Call.FundIssuer p.Params.Index IssuerSeedPwd ps]
      else []) := by
  unfold seedBoot at h ⊢
  split
  · rename_i hg
    rw [if_pos hg] at h
    obtain ⟨l, hl, -, hl'⟩ := bootstrap_trace env w { p with Params := { p.Params with
      SeedAssetCode := env.AssetID (InvestorAssetPrefix ++ p.Params.Metadata) } } ps
    rw [hl, hl' h]
  · simp

/-- The bootstrap calls of an `InvestInProject` that returns no error: `InitIssuer` then
`FundIssuer` when the stored project has neither the seed code nor the investor code
set, none otherwise. -/
theorem invest_boot_calls (env : Env) (w : World) (pi ii ri : Int)
    (amt invSeed recpSeed platformSeed : String) (p : Project)
    (hp : w.projects pi = some p)
    (h : (InvestInProject env w pi ii ri amt invSeed recpSeed platformSeed).err = none) :
    (callsSince w (InvestInProject env w pi ii ri amt invSeed recpSeed
      platformSeed).world).filter Call.isBoot =
      (if p.Params.SeedAssetCode = "" ∧ p.Params.InvestorAssetCode = "" then
        [Call.InitIssuer p.Params.Index IssuerSeedPwd,
          Call.FundIssuer p.Params.Index IssuerSeedPwd platformSeed]
      else []) := by
  have hpe : (PreInvestmentCheck env w pi ii ri amt).err = none := by
    cases he : (PreInvestmentCheck env w pi ii ri amt).err with
    | none => rfl
    | some e =>
      rw [invest_of_pre_err env w pi ii ri amt invSeed recpSeed platformSeed e he] at h
      simp at h
  obtain ⟨p', i, r, hp', -, -, -, hpre⟩ := pre_err_none env w pi ii ri amt hpe
  cases (Option.some.inj (hp.symm.trans hp'))
  cases hb : (investorBoot env w p platformSeed).err with
  | some e =>
    rw [invest_boot_fail env w pi ii ri amt invSeed recpSeed platformSeed p i r e hpre hb] at h
    simp at h
  | none =>
    cases hc : (investorPaid env w p platformSeed invSeed amt).err with
    | some e =>
      rw [invest_collect_fail env w pi ii ri amt invSeed recpSeed platformSeed p i r e hpre
        hb hc] at h
      simp at h
    | none =>
      cases hm : (investorMinted env w p i platformSeed invSeed amt).err with
      | some e =>
        rw [invest_mint_fail env w pi ii ri amt invSeed recpSeed platformSeed p i r e hpre
          hb hc hm] at h
        simp at h
      | none =>
        obtain ⟨-, -, -, lb, lc, lm, hl, hlb, hbb, hlc, hlm, -⟩ :=
          investorMinted_facts env w p i platformSeed invSeed amt
        have hlb' := investorBoot_calls env w p platformSeed hb
        rw [hlb] at hlb'
        have hlb'' := List.append_cancel_left hlb'
        rw [invest_booked env w pi ii ri amt invSeed recpSeed platformSeed p i r hpre hb hc hm]
        obtain ⟨l, hbk, hlnb⟩ := book_no_boot env
          (investorMinted env w p i platformSeed invSeed amt).world
          (investorRaised env (investorCoded env p) i amt)
          (investorBooked env i amt (investorCoded env p).Params.InvestorAssetCode) r
          (Call.NotifInvestor pi i.U.Email
            (investorPaid env w p platformSeed invSeed amt).stableTxHash
            (investorMinted env w p i platformSeed invSeed amt).invTrustTxHash
            (investorMinted env w p i platformSeed invSeed amt).invAssetTxHash)
          (investorPaid env w p platformSeed invSeed amt).issuerPubkey
          (investorPaid env w p platformSeed invSeed amt).issuerSeed recpSeed rfl
        have ht : (book env (investorMinted env w p i platformSeed invSeed amt).world
            (investorRaised env (investorCoded env p) i amt)
            (investorBooked env i amt (investorCoded env p).Params.InvestorAssetCode) r
            (Call.NotifInvestor pi i.U.Email
              (investorPaid env w p platformSeed invSeed amt).stableTxHash
              (investorMinted env w p i platformSeed invSeed amt).invTrustTxHash
              (investorMinted env w p i platformSeed invSeed amt).invAssetTxHash)
            (investorPaid env w p platformSeed invSeed amt).issuerPubkey
            (investorPaid env w p platformSeed invSeed amt).issuerSeed recpSeed).world.trace
            = w.trace ++ (lb ++ (lc ++ lm ++ l)) := by
          rw [hbk, hl]; simp
        rw [callsSince_append w _ _ ht, ← hlb'']
        apply filter_isBoot_append lb _ hbb
        intro c hcm
        rcases List.mem_append.mp hcm with h1 | h1
        · rcases List.mem_append.mp h1 with h2 | h2
          · exact isBoot_of_isCollect c (hlc c h2)
          · rcases hlm with h3 | h3 <;> rw [h3] at h2 <;> simp at h2
            · subst h2; rfl
            · rcases h2 with rfl | rfl <;> rfl
        · exact hlnb c h1

/-- The bootstrap calls of a `SeedInvestInProject` that returns no error: `InitIssuer`
then `FundIssuer` when the stored project has no seed code set, none otherwise. -/
theorem seedInvest_boot_calls (env : Env) (w : World) (pi ii ri : Int)
    (amt invSeed recpSeed platformSeed : String) (p : Project)
    (hp : w.projects pi = some p)
    (h : (SeedInvestInProject env w pi ii ri amt invSeed recpSeed platformSeed).err = none) :
    (callsSince w (SeedInvestInProject env w pi ii ri amt invSeed recpSeed
      platformSeed).world).filter Call.isBoot =
      (if p.Params.SeedAssetCode = "" then
        [Call.InitIssuer p.Params.Index IssuerSeedPwd,
          Call.FundIssuer p.Params.Index IssuerSeedPwd platformSeed]
      else []) := by
  have hpe : (PreInvestmentCheck env w pi ii ri amt).err = none := by
    cases he : (PreInvestmentCheck env w pi ii ri amt).err with
    | none => rfl
    | some e =>
      rw [seedInvest_of_pre_err env w pi ii ri amt invSeed recpSeed platformSeed e he] at h
      simp at h
  obtain ⟨p', i, r, hp', -, -, -, hpre⟩ := pre_err_none env w pi ii ri amt hpe
  cases (Option.some.inj (hp.symm.trans hp'))
  cases hb : (seedBoot env w p platformSeed).err with
  | some e =>
    rw [seedInvest_boot_fail env w pi ii ri amt invSeed recpSeed platformSeed p i r e hpre
      hb] at h
    simp at h
  | none =>
    cases hc : (seedPaid env w p platformSeed invSeed amt).err with
    | some e =>
      rw [seedInvest_collect_fail env w pi ii ri amt invSeed recpSeed platformSeed p i r e hpre
        hb hc] at h
      simp at h
    | none =>
      cases hm : (seedMinted env w p i platformSeed invSeed amt).err with
      | some e =>
        rw [seedInvest_mint_fail env w pi ii ri amt invSeed recpSeed platformSeed p i r e hpre
          hb hc hm] at h
        simp at h
      | none =>
        obtain ⟨-, -, -, lb, lc, lm, hl, hlb, hbb, hlc, hlm, -⟩ :=
          seedMinted_facts env w p i platformSeed invSeed amt
        have hlb' := seedBoot_calls env w p platformSeed hb
        rw [hlb] at hlb'
        have hlb'' := List.append_cancel_left hlb'
        rw [seedInvest_booked env w pi ii ri amt invSeed recpSeed platformSeed p i r hpre hb hc
          hm]
        obtain ⟨l, hbk, hlnb⟩ := book_no_boot env
          (seedMinted env w p i platformSeed invSeed amt).world
          (seedRaised env (seedRecoded env p) i amt)
          (investorBooked env i amt (env.AssetID (SeedAssetPrefix ++ p.Params.Metadata))) r
          (Call.NotifSeedInvestor pi i.U.Email
            (seedPaid env w p platformSeed invSeed amt).stableTxHash
            (seedMinted env w p i platformSeed invSeed amt).invTrustTxHash
            (seedMinted env w p i platformSeed invSeed amt).invAssetTxHash)
          (seedPaid env w p platformSeed invSeed amt).issuerPubkey
          (seedPaid env w p platformSeed invSeed amt).issuerSeed recpSeed rfl
        have ht : (book env (seedMinted env w p i platformSeed invSeed amt).world
            (seedRaised env (seedRecoded env p) i amt)
            (investorBooked env i amt (env.AssetID (SeedAssetPrefix ++ p.Params.Metadata))) r
            (Call.NotifSeedInvestor pi i.U.Email
              (seedPaid env w p platformSeed invSeed amt).stableTxHash
              (seedMinted env w p i platformSeed invSeed amt).invTrustTxHash
              (seedMinted env w p i platformSeed invSeed amt).invAssetTxHash)
            (seedPaid env w p platformSeed invSeed amt).issuerPubkey
            (seedPaid env w p platformSeed invSeed amt).issuerSeed recpSeed).world.trace
            = w.trace ++ (lb ++ (lc ++ lm ++ l)) := by
          rw [hbk, hl]; simp
        rw [callsSince_append w _ _ ht, ← hlb'']
        apply filter_isBoot_append lb _ hbb
        intro c hcm
        rcases List.mem_append.mp hcm with h1 | h1
        · rcases List.mem_append.mp h1 with h2 | h2
          · exact isBoot_of_isCollect c (hlc c h2)
          · rcases hlm with h3 | h3 <;> rw [h3] at h2 <;> simp at h2
            · subst h2; rfl
            · rcases h2 with rfl | rfl <;> rfl
        · exact hlnb c h1

/-! ### The bond store -/

/-- A Go `int` within range is not wrapped. -/
theorem wrapInt_of_range (x : Int) (h0 : 0 ≤ x) (h1 : x < 2 ^ 63) : wrapInt x = x := by
  unfold wrapInt
  rw [Int.emod_eq_of_lt (by omega) (by omega)]
  omega

@[simp] theorem bondLog_bonds (s : BondStore) (c : DBCall) : (s.log c).bonds = s.bonds := rfl
@[simp] theorem bondLog_trace (s : BondStore) (c : DBCall) :
    (s.log c).trace = s.trace ++ [c] := rfl

/-- `newParams` leaves the bucket alone. -/
@[simp] theorem newParams_bonds (env : BondEnv) (s : BondStore) (a b c : String) (d : ℚ)
    (e f g h i j : String) : (newParams env s a b c d e f g h i j).2.bonds = s.bonds := rfl

/-- A successful `Save` puts the encoded bond under the key of its index and changes no
other key. -/
theorem bondSave_ok (env : BondEnv) (hs : env.Sound) (s : BondStore) (a : ConstructionBond) :
    (ConstructionBond.Save env s a).1 = none ∧
    (ConstructionBond.Save env s a).2.bonds =
      fun k => if k = env.ItoB a.Params.Index then some (env.Marshal a).1 else s.bonds k := by
  simp [ConstructionBond.Save, hs.openDB, hs.begin, hs.put, hs.commit, hs.marshal]

/-- The loop of `RetrieveAllBonds` on a bucket holding decodable records exactly at keys
1..n: started at key `j + 1` with `j ≤ n` and more than `n - j` iterations of fuel, it
ends without error having read `n - j` further bonds. -/
theorem retrieveAllLoop_spec (env : BondEnv) (hinj : Function.Injective env.ItoB)
    (bucket : String → Option String) (n : Nat) (hn : (n : Int) + 1 < 2 ^ 63)
    (hkeys : ∀ key, (bucket key).isSome = true ↔ ∃ k : Int, 1 ≤ k ∧ k ≤ n ∧ key = env.ItoB k)
    (hdec : ∀ key x, bucket key = some x → (env.Unmarshal x).2 = none) :
    ∀ (d j fuel : Nat) (arr : List ConstructionBond), j + d = n → d < fuel →
      ∃ arr', retrieveAllLoop env bucket fuel ((j : Int) + 1) arr = some (arr', none) ∧
        arr'.length = arr.length + d := by
  intro d
  induction d with
  | zero =>
    intro j fuel arr hj hf
    obtain ⟨f, rfl⟩ : ∃ f, fuel = f + 1 := ⟨fuel - 1, by omega⟩
    have hnone : bucket (env.ItoB ((j : Int) + 1)) = none := by
      cases hb : bucket (env.ItoB ((j : Int) + 1)) with
      | none => rfl
      | some x =>
        obtain ⟨k, hk1, hk2, hk⟩ := (hkeys _).mp (by rw [hb]; rfl)
        have := hinj hk
        omega
    exact ⟨arr, by simp [retrieveAllLoop, hnone], by simp⟩
  | succ d ih =>
    intro j fuel arr hj hf
    obtain ⟨f, rfl⟩ : ∃ f, fuel = f + 1 := ⟨fuel - 1, by omega⟩
    have hsome : (bucket (env.ItoB ((j : Int) + 1))).isSome = true :=
      (hkeys _).mpr ⟨(j : Int) + 1, by omega, by omega, rfl⟩
    obtain ⟨x, hx⟩ := Option.isSome_iff_exists.mp hsome
    have hd := hdec _ x hx
    have hw : wrapInt ((j : Int) + 1 + 1) = ((j + 1 : Nat) : Int) + 1 := by
      rw [wrapInt_of_range _ (by omega) (by omega)]
      push_cast
      ring
    obtain ⟨arr', h1, h2⟩ := ih (j + 1) f (arr ++ [(env.Unmarshal x).1]) (by omega) (by omega)
    refine ⟨arr', ?_, ?_⟩
    · simp only [retrieveAllLoop, hx, hd, hw]
      exact h1
    · rw [h2]
      simp
      omega

/-- `RetrieveAllBonds` on a bucket holding decodable records exactly at keys 1..n: with
more than `n` iterations of fuel it returns `n` bonds and no error, and leaves the bucket
alone. -/
theorem retrieveAllBonds_spec (env : BondEnv) (hs : env.Sound) (s : BondStore) (n fuel : Nat)
    (hn : (n : Int) + 1 < 2 ^ 63) (hfuel : n < fuel) (hkeys : s.HoldsUpTo env n)
    (hdec : s.Decodable env) :
    ∃ arr s', RetrieveAllBonds env s fuel = some ((arr, none), s') ∧ arr.length = n ∧
      s'.bonds = s.bonds := by
  obtain ⟨arr, h1, h2⟩ := retrieveAllLoop_spec env hs.itob s.bonds n hn hkeys hdec n 0 fuel []
    (by omega) hfuel
  have h1' : retrieveAllLoop env s.bonds fuel 1 [] = some (arr, none) := by
    simpa using h1
  refine ⟨arr, (s.log .OpenDB).log (.Begin false), ?_, by simpa using h2, rfl⟩
  simp [RetrieveAllBonds, hs.openDB, hs.begin, h1']

/-- A bucket holding records exactly at keys 1..n, once the key of `n + 1` is written,
holds records exactly at keys 1..n+1. -/
theorem holdsUpTo_succ (env : BondEnv) (s s' : BondStore) (n : Nat) (v : String)
    (hkeys : s.HoldsUpTo env n)
    (hb : s'.bonds = fun k => if k = env.ItoB ((n : Int) + 1) then some v else s.bonds k) :
    s'.HoldsUpTo env (n + 1) := by
  intro key
  rw [hb]
  by_cases hk : key = env.ItoB ((n : Int) + 1)
  · simp only [hk, if_true, Option.isSome_some, true_iff]
    exact ⟨(n : Int) + 1, by omega, by push_cast; omega, rfl⟩
  · simp only [hk, if_false]
    rw [hkeys key]
    constructor
    · rintro ⟨k, h1, h2, h3⟩
      exact ⟨k, h1, by push_cast; omega, h3⟩
    · rintro ⟨k, h1, h2, h3⟩
      have hne : k ≠ (n : Int) + 1 := by
        rintro rfl
        exact hk h3
      exact ⟨k, h1, by push_cast at h2; omega, h3⟩

/-- `NewBond` once `RetrieveAllBonds` has returned the bonds `x` without error: the bond
built with index `len(x) + 1` is saved and handed back with the error of the save. -/
theorem newBond_of_retrieved (env : BondEnv) (s s1 : BondStore) (fuel : Nat) (a : BondArgs)
    (x : List ConstructionBond)
    (h : RetrieveAllBonds env (newParams env s a.mdate a.mrights a.stype a.intrate a.rating
      a.bIssuer a.uWriter a.title a.location a.description).2 fuel = some ((x, none), s1)) :
    a.run env s fuel =
      some ((a.bond env s ((x.length : Int) + 1),
          (ConstructionBond.Save env s1 (a.bond env s ((x.length : Int) + 1))).1),
        (ConstructionBond.Save env s1 (a.bond env s ((x.length : Int) + 1))).2) := by
  unfold BondArgs.run NewBond
  simp only [h]
  rfl

/-- `NewBond` on a bucket holding decodable records exactly at keys 1..n: with more than
`n` iterations of fuel it returns, without error, the bond built from its arguments with
index `n + 1`, and has written its encoding under the key of `n + 1` and nothing else. -/
theorem newBond_spec (env : BondEnv) (hs : env.Sound) (s : BondStore) (n fuel : Nat)
    (hn : (n : Int) + 1 < 2 ^ 63) (hfuel : n < fuel) (hkeys : s.HoldsUpTo env n)
    (hdec : s.Decodable env) (a : BondArgs) :
    ∃ s', a.run env s fuel = some ((a.bond env s ((n : Int) + 1), none), s') ∧
      s'.bonds = (fun k => if k = env.ItoB ((n : Int) + 1) then
          some (env.Marshal (a.bond env s ((n : Int) + 1))).1
        else s.bonds k) ∧
      s'.HoldsUpTo env (n + 1) ∧ s'.Decodable env := by
  obtain ⟨arr, s1, h1, h2, h3⟩ := retrieveAllBonds_spec env hs
    (newParams env s a.mdate a.mrights a.stype a.intrate a.rating a.bIssuer a.uWriter a.title
      a.location a.description).2 n fuel hn hfuel hkeys hdec
  have hrun := newBond_of_retrieved env s s1 fuel a arr h1
  rw [h2] at hrun
  obtain ⟨hs1, hs2⟩ := bondSave_ok env hs s1 (a.bond env s ((n : Int) + 1))
  rw [hs1] at hrun
  have hb : (ConstructionBond.Save env s1 (a.bond env s ((n : Int) + 1))).2.bonds =
      (fun k => if k = env.ItoB ((n : Int) + 1) then
          some (env.Marshal (a.bond env s ((n : Int) + 1))).1
        else s.bonds k) := by
    rw [hs2, h3]
    rfl
  refine ⟨_, hrun, hb, holdsUpTo_succ env s _ n _ hkeys hb, ?_⟩
  intro key x hx
  rw [hb] at hx
  simp only at hx
  split at hx
  · cases hx
    exact hs.decodes _
  · exact hdec key x hx

/-- A sequence of `NewBond` calls on a bucket holding decodable records exactly at keys
1..n assigns the indices `n + 1`, `n + 2`, ... in turn. -/
theorem newBonds_spec (env : BondEnv) (hs : env.Sound) (fuel : Nat) :
    ∀ (as : List BondArgs) (s : BondStore) (n : Nat), s.HoldsUpTo env n → s.Decodable env →
      n + as.length ≤ fuel → ((n + as.length : Nat) : Int) < 2 ^ 63 →
      ∃ s', newBonds env fuel s as =
          some ((List.range as.length).map (fun (k : Nat) => (n : Int) + 1 + (k : Int)), s') ∧
        s'.HoldsUpTo env (n + as.length) := by
  intro as
  induction as with
  | nil =>
    intro s n hk _ _ _
    exact ⟨s, rfl, hk⟩
  | cons a as ih =>
    intro s n hk hd hf hn
    simp only [List.length_cons] at hf hn
    obtain ⟨s1, h1, -, h3, h4⟩ := newBond_spec env hs s n fuel (by push_cast at hn; omega)
      (by omega) hk hd a
    obtain ⟨s2, h5, h6⟩ := ih s1 (n + 1) h3 h4 (by omega) (by push_cast at hn ⊢; omega)
    have harith : n + 1 + as.length = n + (as.length + 1) := by omega
    rw [harith] at h6
    refine ⟨s2, ?_, h6⟩
    simp only [newBonds, h1, h5, List.length_cons, List.range_succ_eq_map, List.map_cons,
      List.map_map]
    refine congrArg some (Prod.ext ?_ rfl)
    simp only [BondArgs.bond, Nat.cast_zero, add_zero, List.cons.injEq, true_and]
    apply List.map_congr_left
    intro k _
    simp only [Function.comp, Nat.cast_succ, Nat.cast_add, Nat.cast_one]
    ring

/-- The key encoding of the examples sends different integers to different keys. -/
theorem demoItoB_injective : Function.Injective demoItoB := by
  intro j k h
  unfold demoItoB at h
  have h' := congrArg String.data h
  simp only at h'
  rw [List.cons.injEq] at h'
  obtain ⟨h1, h2⟩ := h'
  have h3 : j.natAbs = k.natAbs := by
    have := congrArg List.length h2
    simpa using this
  by_cases hj : 0 ≤ j <;> by_cases hk : 0 ≤ k <;> simp [hj, hk] at h1 <;> omega

/-- In the bond-store environment of the examples every call succeeds. -/
theorem demoBondEnv_sound : demoBondEnv.Sound where
  openDB := fun _ => rfl
  begin := fun _ _ => rfl
  put := fun _ _ _ => rfl
  commit := fun _ => rfl
  marshal := fun _ => rfl
  decodes := fun _ => rfl
  itob := demoItoB_injective

/-- An empty bucket holds records exactly at keys 1..0, and all of them decode. -/
theorem empty_holdsUpTo (env : BondEnv) (s : BondStore) (h : ∀ key, s.bonds key = none) :
    s.HoldsUpTo env 0 ∧ s.Decodable env := by
  constructor
  · intro key
    rw [h key]
    simp only [Option.isSome_none, Bool.false_eq_true, false_iff, not_exists]
    intro k hk
    have := hk.1
    have := hk.2.1
    simp at this
    omega
  · intro key x hx
    rw [h key] at hx
    cases hx

/-! ### `Payback` -/

/-- `GetAssetBalance` never returns an error. -/
@[simp] theorem getAssetBalance_err (hz : Horizon) (h : List HorizonCall) (a : Account)
    (code : String) : (a.GetAssetBalance hz h code).1.2 = none := by
  unfold Account.GetAssetBalance
  simp only []
  repeat' split
  all_goals rfl

/-- `Payback` once the transfer has succeeded and the three amounts have parsed. -/
theorem payback_classified (hz : Horizon) (h : List HorizonCall) (a : Account)
    (assetName issuerPubkey amount : String) (nb ob due : ℚ)
    (hsend : (paybackTransfer hz h a assetName issuerPubkey amount).1.2 = none)
    (hnew : hz.ParseFloat (paybackNewBalance hz h a assetName issuerPubkey amount)
      = (nb, none))
    (hold : hz.ParseFloat (paybackOldBalance hz h a assetName) = (ob, none))
    (hdue : hz.ParseFloat "200" = (due, none)) :
    (a.Payback hz h assetName issuerPubkey amount).1 =
      Ended.returned (if round64 (ob - nb) < due then
        some "Amount paid is less than amount required, please pay more" else none) := by
  unfold paybackNewBalance at hnew
  unfold paybackTransfer at hsend hnew
  unfold paybackOldBalance at hold
  unfold Account.Payback
  simp only [getAssetBalance_err, PriceOracle, hsend, hnew, hold, hdue]
  split
  · rfl
  · split <;> rfl

/-! ### Notifications -/

@[simp] theorem muted_nil : muted [] = [] := rfl

@[simp] theorem muted_append (a b : List Call) : muted (a ++ b) = muted a ++ muted b := by
  simp [muted, List.filterMap_append]

theorem muted_cons_none (c : Call) (l : List Call) (h : c.mute = none) :
    muted (c :: l) = muted l := by
  simp [muted, List.filterMap_cons, h]

theorem muted_cons_some (c d : Call) (l : List Call) (h : c.mute = some d) :
    muted (c :: l) = d :: muted l := by
  simp [muted, List.filterMap_cons, h]

@[simp] theorem investor_mute_mute (i : Investor) : i.mute.mute = i.mute := rfl

@[simp] theorem project_mute_mute (p : Project) : p.mute.mute = p.mute := by
  simp [Project.mute, Function.comp_def]

@[simp] theorem project_mute_params (p : Project) : p.mute.Params = p.Params := rfl
@[simp] theorem project_mute_stage (p : Project) : p.mute.Stage = p.Stage := rfl
@[simp] theorem project_mute_recipient (p : Project) :
    p.mute.ProjectRecipient = p.ProjectRecipient := rfl

/-- Ledger calls are seen as they are. -/
theorem mute_of_isLedger (c : Call) (h : c.isLedger = true) : c.mute = some c := by
  cases c <;> simp_all [Call.isLedger, Call.mute]

/-- What is seen of a call that is not a ledger call is not a ledger call. -/
theorem isLedger_of_mute (c d : Call) (h : c.mute = some d) : d.isLedger = c.isLedger := by
  cases c <;> simp_all [Call.mute] <;> subst h <;> rfl

/-- The ledger calls of a history are those of the history without the notifications. -/
theorem filter_isLedger_muted (l : List Call) :
    (muted l).filter Call.isLedger = l.filter Call.isLedger := by
  induction l with
  | nil => rfl
  | cons c l ih =>
    cases hl : c.isLedger with
    | true =>
      rw [muted_cons_some c c l (mute_of_isLedger c hl)]
      simp [hl, ih]
    | false =>
      cases hc : c.mute with
      | none =>
        rw [muted_cons_none c l hc]
        simp [hl, ih]
      | some d =>
        rw [muted_cons_some c d l hc]
        have hd := isLedger_of_mute c d hc
        simp [hl, hd, ih]

@[simp] theorem muted_cons_trustAsset (a b c d e : String) (l : List Call) :
    muted (Call.TrustAsset a b c d e :: l) = Call.TrustAsset a b c d e :: muted l := rfl
@[simp] theorem muted_cons_sendAssetFromIssuer (a b c d e : String) (l : List Call) :
    muted (Call.SendAssetFromIssuer a b c d e :: l)
      = Call.SendAssetFromIssuer a b c d e :: muted l := rfl
@[simp] theorem muted_cons_freezeIssuer (i : Int) (p : String) (l : List Call) :
    muted (Call.FreezeIssuer i p :: l) = Call.FreezeIssuer i p :: muted l := rfl
@[simp] theorem muted_cons_saveRecipient (r : Recipient) (l : List Call) :
    muted (Call.SaveRecipient r :: l) = Call.SaveRecipient r :: muted l := rfl
@[simp] theorem muted_cons_saveProject (p : Project) (l : List Call) :
    muted (Call.SaveProject p :: l) = Call.SaveProject p.mute :: muted l := rfl
@[simp] theorem muted_cons_saveInvestor (i : Investor) (l : List Call) :
    muted (Call.SaveInvestor i :: l) = Call.SaveInvestor i.mute :: muted l := rfl
@[simp] theorem muted_cons_notifRecipient (i : Int) (a b c d e : String) (l : List Call) :
    muted (Call.NotifRecipient i a b c d e :: l) = Call.NotifRecipient i a b c d e :: muted l :=
  rfl
@[simp] theorem muted_cons_notifInvestor (i : Int) (a b c d : String) (l : List Call) :
    muted (Call.NotifInvestor i a b c d :: l) = muted l := rfl
@[simp] theorem muted_cons_notifSeedInvestor (i : Int) (a b c d : String) (l : List Call) :
    muted (Call.NotifSeedInvestor i a b c d :: l) = muted l := rfl

/-- Projects that agree once the notification flags are cleared agree on every field but
the flags of the investors on record. -/
theorem mute_eq_fields (p p' : Project) (hp : p'.mute = p.mute) :
    p'.Params = p.Params ∧ p'.Stage = p.Stage ∧ p'.ProjectRecipient = p.ProjectRecipient ∧
    p'.ProjectInvestors.map Investor.mute = p.ProjectInvestors.map Investor.mute ∧
    p'.SeedInvestors.map Investor.mute = p.SeedInvestors.map Investor.mute :=
  ⟨(congrArg Project.Params hp : p'.mute.Params = p.mute.Params),
    (congrArg Project.Stage hp : p'.mute.Stage = p.mute.Stage),
    (congrArg Project.ProjectRecipient hp :
      p'.mute.ProjectRecipient = p.mute.ProjectRecipient),
    (congrArg Project.ProjectInvestors hp :
      p'.mute.ProjectInvestors = p.mute.ProjectInvestors),
    (congrArg Project.SeedInvestors hp : p'.mute.SeedInvestors = p.mute.SeedInvestors)⟩

/-- The funding-completion step run on two histories and two projects that agree but for
investor notifications and notification flags: same error, and a project and a history
that agree in the same way. -/
theorem sendRecipientAssets_sim (env : Env) (hB : env.NotifBlind) (w w' : World)
    (p p' : Project) (r : Recipient) (a b c : String)
    (hw : muted w'.trace = muted w.trace) (hp : p'.mute = p.mute) :
    (sendRecipientAssets env w' p' r a b c).err = (sendRecipientAssets env w p r a b c).err ∧
    (sendRecipientAssets env w' p' r a b c).project.mute
      = (sendRecipientAssets env w p r a b c).project.mute ∧
    muted (sendRecipientAssets env w' p' r a b c).world.trace
      = muted (sendRecipientAssets env w p r a b c).world.trace := by
  obtain ⟨hpp, hst, hpr, hpi, hsi⟩ := mute_eq_fields p p' hp
  obtain ⟨T, hT⟩ : ∃ T : List Call → String → String → String → String → String →
      String × Option String, ∀ h, env.TrustAsset h = T (muted h) := ⟨_, hB.trustAsset⟩
  obtain ⟨M, hM⟩ : ∃ M : List Call → String → String → String → String → String →
      String × Option String, ∀ h, env.SendAssetFromIssuer h = M (muted h) :=
    ⟨_, hB.sendAssetFromIssuer⟩
  obtain ⟨F, hF⟩ : ∃ F : List Call → Int → String → String × Option String,
      ∀ h, env.FreezeIssuer h = F (muted h) := ⟨_, hB.freezeIssuer⟩
  obtain ⟨SR, hSR⟩ : ∃ SR : List Call → Recipient → Option String,
      ∀ h, env.SaveRecipient h = SR (muted h) := ⟨_, hB.saveRecipient⟩
  obtain ⟨SP, hSP⟩ : ∃ SP : List Call → Project → Option String,
      ∀ h p, env.SaveProject h p = SP (muted h) p.mute := ⟨_, hB.saveProject⟩
  unfold sendRecipientAssets
  simp only [hpp]
  split
  · exact ⟨rfl, hp, hw⟩
  · simp only [CreateAsset, log_trace, recipientSave_err, recipientSave_trace, projectSave_err,
      projectSave_trace, hT, hM, hF, hSR, hSP, muted_append, hw, List.append_assoc,
      muted_cons_trustAsset, muted_cons_sendAssetFromIssuer, muted_cons_freezeIssuer,
      muted_cons_saveRecipient, muted_cons_saveProject, muted_cons_notifRecipient, muted_nil,
      Project.mute, hpi, hsi, hpr, hst]
    repeat' split
    all_goals simp_all [Project.mute]

/-- The world in which `book` runs the funding-completion step, as seen without the
investor notifications. -/
theorem book_noted_muted (env : Env) (w : World) (i : Investor) (n : Call)
    (hn : n.mute = none) :
    muted (if i.U.Notification = true then (Investor.Save env w i).2.log n
      else (Investor.Save env w i).2).trace = muted w.trace ++ [Call.SaveInvestor i.mute] := by
  split
  · simp [muted_cons_none n [] hn]
  · simp

/-- `book` run on two histories, two projects and two investors that agree but for
investor notifications and notification flags: same error, and a project and a history
that agree in the same way. -/
theorem book_sim (env : Env) (hB : env.NotifBlind) (w w' : World) (p p' : Project)
    (i i' : Investor) (r : Recipient) (n n' : Call) (a b c : String)
    (hw : muted w'.trace = muted w.trace) (hp : p'.mute = p.mute) (hi : i'.mute = i.mute)
    (hn : n.mute = none) (hn' : n'.mute = none) :
    (book env w' p' i' r n' a b c).err = (book env w p i r n a b c).err ∧
    (book env w' p' i' r n' a b c).project.mute = (book env w p i r n a b c).project.mute ∧
    muted (book env w' p' i' r n' a b c).world.trace
      = muted (book env w p i r n a b c).world.trace := by
  have e : env.SaveInvestor w'.trace i' = env.SaveInvestor w.trace i := by
    rw [hB.saveInvestor w'.trace, hB.saveInvestor w.trace, hw, hi]
  unfold book
  simp only [investorSave_err, e]
  cases hs : env.SaveInvestor w.trace i with
  | some x =>
    refine ⟨rfl, hp, ?_⟩
    simp [hw, hi]
  | none =>
    simp only []
    have h8 := book_noted_muted env w i n hn
    have h8' := book_noted_muted env w' i' n' hn'
    rw [hw, hi, ← h8] at h8'
    generalize (if i.U.Notification = true then (Investor.Save env w i).2.log n
      else (Investor.Save env w i).2) = w8 at h8' ⊢
    generalize (if i'.U.Notification = true then (Investor.Save env w' i').2.log n'
      else (Investor.Save env w' i').2) = w8' at h8' ⊢
    obtain ⟨e1, e2, e3⟩ := sendRecipientAssets_sim env hB w8 w8' p p' r a b c h8' hp
    rw [e1]
    cases hr : (sendRecipientAssets env w8 p r a b c).err with
    | some x => exact ⟨rfl, e2, e3⟩
    | none =>
      simp only [projectSave_err, projectSave_trace, muted_append, muted_cons_saveProject,
        muted_nil]
      refine ⟨?_, e2, by rw [e3, e2]⟩
      rw [hB.saveProject (sendRecipientAssets env w8' p' r a b c).world.trace,
        hB.saveProject (sendRecipientAssets env w8 p r a b c).world.trace, e3, e2]

/-- `bootstrap` reads the world through its history only. -/
theorem bootstrap_congr (env : Env) (w w' : World) (p : Project) (s : String)
    (h : w'.trace = w.trace) :
    (bootstrap env w' p s).err = (bootstrap env w p s).err ∧
    (bootstrap env w' p s).world.trace = (bootstrap env w p s).world.trace := by
  unfold bootstrap
  simp only [log_trace, h]
  split <;> simp [h]

/-- The bootstrap block of `InvestInProject` reads the world through its history only. -/
theorem investorBoot_congr (env : Env) (w w' : World) (p : Project) (s : String)
    (h : w'.trace = w.trace) :
    (investorBoot env w' p s).err = (investorBoot env w p s).err ∧
    (investorBoot env w' p s).world.trace = (investorBoot env w p s).world.trace := by
  unfold investorBoot
  split
  · exact bootstrap_congr env w w' _ s h
  · exact ⟨rfl, h⟩

/-- `SendUSDToPlatform` reads the world through its history only. -/
theorem sendUSD_congr (env : Env) (w w' : World) (ps is amt : String) (idx : Int)
    (h : w'.trace = w.trace) :
    (SendUSDToPlatform env w' ps is amt idx).1 = (SendUSDToPlatform env w ps is amt idx).1 ∧
    (SendUSDToPlatform env w' ps is amt idx).2.trace
      = (SendUSDToPlatform env w ps is amt idx).2.trace := by
  unfold SendUSDToPlatform
  simp only [log_trace, h]
  repeat' split
  all_goals simp [h]

/-- `collect` reads the world through its history only. -/
theorem collect_congr (env : Env) (w w' : World) (ps is amt : String) (idx : Int)
    (h : w'.trace = w.trace) :
    (collect env w' ps is amt idx).err = (collect env w ps is amt idx).err ∧
    (collect env w' ps is amt idx).stableTxHash = (collect env w ps is amt idx).stableTxHash ∧
    (collect env w' ps is amt idx).issuerPubkey = (collect env w ps is amt idx).issuerPubkey ∧
    (collect env w' ps is amt idx).issuerSeed = (collect env w ps is amt idx).issuerSeed ∧
    (collect env w' ps is amt idx).world.trace = (collect env w ps is amt idx).world.trace := by
  obtain ⟨h1, h2⟩ := sendUSD_congr env w w' ps is amt idx h
  unfold collect
  simp only [h1, log_trace, h2]
  split <;> simp [h2]

/-- `trustAndMint` reads the world through its history only. -/
theorem trustAndMint_congr (env : Env) (w w' : World) (code ipk iseed lim pk is amt : String)
    (h : w'.trace = w.trace) :
    (trustAndMint env w' code ipk iseed lim pk is amt).err
      = (trustAndMint env w code ipk iseed lim pk is amt).err ∧
    (trustAndMint env w' code ipk iseed lim pk is amt).invTrustTxHash
      = (trustAndMint env w code ipk iseed lim pk is amt).invTrustTxHash ∧
    (trustAndMint env w' code ipk iseed lim pk is amt).invAssetTxHash
      = (trustAndMint env w code ipk iseed lim pk is amt).invAssetTxHash ∧
    (trustAndMint env w' code ipk iseed lim pk is amt).world.trace
      = (trustAndMint env w code ipk iseed lim pk is amt).world.trace := by
  unfold trustAndMint
  simp only [log_trace, h]
  split <;> simp [h]

/-- Payment collection in `InvestInProject` reads the world through its history only. -/
theorem investorPaid_congr (env : Env) (w w' : World) (p : Project) (ps is amt : String)
    (h : w'.trace = w.trace) :
    (investorPaid env w' p ps is amt).err = (investorPaid env w p ps is amt).err ∧
    (investorPaid env w' p ps is amt).stableTxHash
      = (investorPaid env w p ps is amt).stableTxHash ∧
    (investorPaid env w' p ps is amt).issuerPubkey
      = (investorPaid env w p ps is amt).issuerPubkey ∧
    (investorPaid env w' p ps is amt).issuerSeed = (investorPaid env w p ps is amt).issuerSeed ∧
    (investorPaid env w' p ps is amt).world.trace
      = (investorPaid env w p ps is amt).world.trace :=
  collect_congr env _ _ ps is amt _ (investorBoot_congr env w w' p ps h).2

/-- The investor's trust line and mint in `InvestInProject` read the world through its
history only, and the investor through the public key only. -/
theorem investorMinted_congr (env : Env) (w w' : World) (p : Project) (i i' : Investor)
    (ps is amt : String) (h : w'.trace = w.trace) (hk : i'.U.PublicKey = i.U.PublicKey) :
    (investorMinted env w' p i' ps is amt).err = (investorMinted env w p i ps is amt).err ∧
    (investorMinted env w' p i' ps is amt).invTrustTxHash
      = (investorMinted env w p i ps is amt).invTrustTxHash ∧
    (investorMinted env w' p i' ps is amt).invAssetTxHash
      = (investorMinted env w p i ps is amt).invAssetTxHash ∧
    (investorMinted env w' p i' ps is amt).world.trace
      = (investorMinted env w p i ps is amt).world.trace := by
  obtain ⟨-, -, h3, h4, h5⟩ := investorPaid_congr env w w' p ps is amt h
  unfold investorMinted
  rw [h3, h4, hk]
  exact trustAndMint_congr env _ _ _ _ _ _ _ _ _ h5

@[simp] theorem withNotification_trace (w : World) (ii : Int) (b : Bool) :
    (w.withNotification ii b).trace = w.trace := rfl
@[simp] theorem withNotification_projects (w : World) (ii : Int) (b : Bool) :
    (w.withNotification ii b).projects = w.projects := rfl
@[simp] theorem withNotification_recipients (w : World) (ii : Int) (b : Bool) :
    (w.withNotification ii b).recipients = w.recipients := rfl
@[simp] theorem withNotification_investors (w : World) (ii : Int) (b : Bool) :
    (w.withNotification ii b).investors ii
      = (w.investors ii).map (fun i => i.withNotification b) := by
  simp [World.withNotification]

@[simp] theorem withNotification_mute (i : Investor) (b : Bool) :
    (i.withNotification b).mute = i.mute := rfl

/-- The ledger calls issued since a common start, by two runs whose histories agree but
for investor notifications and notification flags, are the same. -/
theorem filter_isLedger_callsSince (w w' v v' : World) (l l' : List Call)
    (hw : w'.trace = w.trace) (hv : v.trace = w.trace ++ l) (hv' : v'.trace = w'.trace ++ l')
    (hm : muted v'.trace = muted v.trace) :
    (callsSince w' v').filter Call.isLedger = (callsSince w v).filter Call.isLedger := by
  rw [callsSince_append w' v' l' hv', callsSince_append w v l hv]
  rw [hv', hv, hw, muted_append, muted_append] at hm
  have := List.append_cancel_left hm
  rw [← filter_isLedger_muted l', ← filter_isLedger_muted l, this]

/-- The check of `InvestInProject` on a world and on the same world with the notification
flag of the investor changed: same error, project and recipient, and the investor but for
the flag. -/
theorem pre_withNotification (env : Env) (hB : env.NotifBlind) (w : World) (pi ii ri : Int)
    (amt : String) (b : Bool) :
    (PreInvestmentCheck env (w.withNotification ii b) pi ii ri amt).err
      = (PreInvestmentCheck env w pi ii ri amt).err ∧
    (PreInvestmentCheck env (w.withNotification ii b) pi ii ri amt).project
      = (PreInvestmentCheck env w pi ii ri amt).project ∧
    ((PreInvestmentCheck env w pi ii ri amt).err = none →
      ∃ p i r, PreInvestmentCheck env w pi ii ri amt = ⟨p, i, r, none⟩ ∧
        PreInvestmentCheck env (w.withNotification ii b) pi ii ri amt
          = ⟨p, i.withNotification b, r, none⟩) := by
  cases hp : w.projects pi with
  | none =>
    simp [PreInvestmentCheck, RetrieveProject, hp]
  | some p =>
    cases hi : w.investors ii with
    | none =>
      simp [PreInvestmentCheck, RetrieveProject, RetrieveInvestor, hp, hi]
    | some i =>
      cases hr : w.recipients ri with
      | none =>
        simp [PreInvestmentCheck, RetrieveProject, RetrieveInvestor, RetrieveRecipient, hp, hi,
          hr]
      | some r =>
        have hc : env.CanInvest w.trace (i.withNotification b) amt
            = env.CanInvest w.trace i amt := by
          rw [hB.canInvest, hB.canInvest w.trace i]
          rfl
        cases hcan : env.CanInvest w.trace i amt with
        | false =>
          simp [PreInvestmentCheck, RetrieveProject, RetrieveInvestor, RetrieveRecipient, hp,
            hi, hr, hc, hcan]
        | true =>
          have h1 := pre_of_lookups env w pi ii ri amt p i r hp hi hr hcan
          have h2 := pre_of_lookups env (w.withNotification ii b) pi ii ri amt p
            (i.withNotification b) r hp (by simp [hi]) hr (hc.trans hcan)
          rw [h1, h2]
          exact ⟨rfl, rfl, fun _ => ⟨p, i, r, rfl, rfl⟩⟩

/-- The environment of the examples does not see investor notifications. -/
theorem demoEnv_notifBlind : demoEnv.NotifBlind where
  canInvest := fun _ _ _ => rfl
  trustAsset := fun _ => rfl
  sendAssetFromIssuer := fun _ => rfl
  freezeIssuer := fun _ => rfl
  saveInvestor := fun _ _ => rfl
  saveRecipient := fun _ => rfl
  saveProject := fun _ _ => rfl

/-! ### Facts used by the claims on the funding-completion step -/

theorem demoEnvNumerals_succeeds : demoEnvNumerals.Succeeds where
  initIssuer := fun _ _ _ => rfl
  fundIssuer := fun _ _ _ _ => rfl
  returnPubkey := fun _ _ => rfl
  getAssetBalance := fun _ _ _ => rfl
  sendAsset := fun _ _ _ _ _ _ _ _ => rfl
  retrieveSeed := fun _ _ _ => rfl
  trustAsset := fun _ _ _ _ _ _ => rfl
  sendAssetFromIssuer := fun _ _ _ _ _ _ => rfl
  freezeIssuer := fun _ _ _ => rfl
  saveInvestor := fun _ _ => rfl
  saveRecipient := fun _ _ => rfl
  saveProject := fun _ _ => rfl
  payment := by
    intro h ps is k c i a s pk m
    simp [demoEnvNumerals, demoEnv, demoBalance]

theorem isIssue_of_isMint (c : Call) (h : c.isMint = true) : c.isIssue = true := by
  simp [Call.isIssue, h]

/-- Mint calls can be looked for among the trust-line, mint and freeze calls. -/
theorem filter_isMint_of_isIssue (l : List Call) :
    (l.filter Call.isIssue).filter Call.isMint = l.filter Call.isMint := by
  rw [List.filter_filter]
  congr 1
  funext c
  cases hc : c.isMint
  · simp
  · simp [isIssue_of_isMint c hc]

/-! ### `GetAssetBalance` and the ends of `Payback` -/

/-- The balance `GetAssetBalance` hands back: empty when the account does not load or has
no entry with the code, the balance of the first entry with the code otherwise. -/
theorem getAssetBalance_value (hz : Horizon) (h : List HorizonCall) (a : Account)
    (code : String) :
    (a.GetAssetBalance hz h code).1.1 =
      (match (hz.LoadAccount h a.PublicKey).2 with
        | some _ => ""
        | none =>
          match (hz.LoadAccount h a.PublicKey).1.find? (fun balance => balance.Code == code) with
          | some balance => balance.Balance
          | none => "") := by
  unfold Account.GetAssetBalance
  simp only []
  repeat' split
  all_goals simp_all

/-- `GetAssetBalance` issues one call, the load of the account. -/
@[simp] theorem getAssetBalance_trace (hz : Horizon) (h : List HorizonCall) (a : Account)
    (code : String) :
    (a.GetAssetBalance hz h code).2 = h ++ [HorizonCall.LoadAccount a.PublicKey] := by
  unfold Account.GetAssetBalance
  simp only []
  repeat' split
  all_goals rfl

/-- `Payback` never ends in `log.Fatal`. -/
theorem payback_not_fatal (hz : Horizon) (h : List HorizonCall) (a : Account)
    (assetName issuerPubkey amount e : String) :
    (a.Payback hz h assetName issuerPubkey amount).1 ≠ Ended.fatal e := by
  unfold Account.Payback
  simp only [getAssetBalance_err, PriceOracle]
  repeat' split
  all_goals simp

/-- When the transfer fails `Payback` returns the error of the transfer. -/
theorem payback_of_transfer_err (hz : Horizon) (h : List HorizonCall) (a : Account)
    (assetName issuerPubkey amount e : String)
    (hsend : (paybackTransfer hz h a assetName issuerPubkey amount).1.2 = some e) :
    a.Payback hz h assetName issuerPubkey amount =
      (Ended.returned (some e), (paybackTransfer hz h a assetName issuerPubkey amount).2) := by
  unfold paybackTransfer at hsend ⊢
  unfold Account.Payback
  simp only [getAssetBalance_err, PriceOracle, hsend]

/-- A transfer that returns no error has submitted its transaction: a submission is among
the calls it has added. -/
theorem sendAssetToIssuer_submitted (hz : Horizon) (h : List HorizonCall) (a : Account)
    (assetName issuerPubkey amount : String)
    (hsend : (a.SendAssetToIssuer hz h assetName issuerPubkey amount).1.2 = none) :
    (a.SendAssetToIssuer hz h assetName issuerPubkey amount).2 =
      h ++ (a.SendAssetToIssuer hz h assetName issuerPubkey amount).2.drop h.length ∧
    ((a.SendAssetToIssuer hz h assetName issuerPubkey amount).2.drop h.length).any
      HorizonCall.isSubmit = true := by
  revert hsend
  unfold Account.SendAssetToIssuer
  simp only []
  repeat' split
  all_goals intro hsend
  all_goals first
    | (exfalso; simp at hsend; done)
    | simp [HorizonCall.isSubmit, List.append_assoc]

/-- After a transfer that returns no error `Payback` reads the balance again and parses
the new balance, then the old one: a balance that does not parse ends the call with the
error of the parser. -/
theorem payback_of_transfer_ok (hz : Horizon) (h : List HorizonCall) (a : Account)
    (assetName issuerPubkey amount : String)
    (hsend : (paybackTransfer hz h a assetName issuerPubkey amount).1.2 = none) :
    (a.Payback hz h assetName issuerPubkey amount).2 =
      (paybackTransfer hz h a assetName issuerPubkey amount).2 ++
        [HorizonCall.LoadAccount a.PublicKey] ∧
    (∀ e, (hz.ParseFloat (paybackNewBalance hz h a assetName issuerPubkey amount)).2 = some e →
      (a.Payback hz h assetName issuerPubkey amount).1 = Ended.returned (some e)) ∧
    (∀ e, (hz.ParseFloat (paybackNewBalance hz h a assetName issuerPubkey amount)).2 = none →
      (hz.ParseFloat (paybackOldBalance hz h a assetName)).2 = some e →
      (a.Payback hz h assetName issuerPubkey amount).1 = Ended.returned (some e)) := by
  unfold paybackNewBalance paybackOldBalance
  unfold paybackTransfer at hsend ⊢
  unfold Account.Payback
  simp only [getAssetBalance_err, PriceOracle, hsend]
  refine ⟨?_, ?_, ?_⟩
  · repeat' split
    all_goals simp
  · intro e he
    simp only [he]
  · intro e hn he
    simp only [hn, he]

/-! ### `RetrieveAllBonds` on a bucket with gaps -/

theorem recordsUpTo_length (env : BondEnv) (bucket : String → Option String) (k : Nat) :
    (recordsUpTo env bucket k).length = k := by
  simp [recordsUpTo]

/-- The loop of `RetrieveAllBonds` on a bucket whose first gap is at key `k + 1`, the
records below it decoding: started at key `j + 1` with `j ≤ k` and more than `k - j`
iterations of fuel, it ends without error having appended the bonds of keys `j + 1`..`k`. -/
theorem retrieveAllLoop_gap (env : BondEnv) (bucket : String → Option String) (k : Nat)
    (hk : (k : Int) + 1 < 2 ^ 63)
    (hrec : ∀ j : Nat, j < k → ∃ x, bucket (env.ItoB ((j : Int) + 1)) = some x ∧
      (env.Unmarshal x).2 = none)
    (hgap : bucket (env.ItoB ((k : Int) + 1)) = none) :
    ∀ (d j fuel : Nat) (arr : List ConstructionBond), j + d = k → d < fuel →
      retrieveAllLoop env bucket fuel ((j : Int) + 1) arr =
        some (arr ++ (List.range' j d).map (recordAt env bucket), none) := by
  intro d
  induction d with
  | zero =>
    intro j fuel arr hj hf
    obtain ⟨f, rfl⟩ : ∃ f, fuel = f + 1 := ⟨fuel - 1, by omega⟩
    have hjk : j = k := by omega
    subst hjk
    simp [retrieveAllLoop, hgap]
  | succ d ih =>
    intro j fuel arr hj hf
    obtain ⟨f, rfl⟩ : ∃ f, fuel = f + 1 := ⟨fuel - 1, by omega⟩
    obtain ⟨x, hx, hd⟩ := hrec j (by omega)
    have hw : wrapInt ((j : Int) + 1 + 1) = ((j + 1 : Nat) : Int) + 1 := by
      rw [wrapInt_of_range _ (by omega) (by omega)]
      push_cast
      ring
    have hr : recordAt env bucket j = (env.Unmarshal x).1 := by
      simp [recordAt, hx]
    simp only [retrieveAllLoop, hx, hd, hw]
    rw [ih (j + 1) f (arr ++ [(env.Unmarshal x).1]) (by omega) (by omega)]
    simp [List.range'_succ, hr]

/-- `RetrieveAllBonds` on a bucket whose first gap is at key `k + 1`: when the database
opens, the read transaction begins and the records below the gap decode, more than `k`
iterations of fuel give the bonds of keys 1..k, in that order, and no error. -/
theorem retrieveAllBonds_gap (env : BondEnv) (s : BondStore) (k fuel : Nat)
    (hopen : ∀ h, env.OpenDB h = none) (hbegin : ∀ h b, env.Begin h b = none)
    (hk : (k : Int) + 1 < 2 ^ 63)
    (hrec : ∀ j : Nat, j < k → ∃ x, s.bonds (env.ItoB ((j : Int) + 1)) = some x ∧
      (env.Unmarshal x).2 = none)
    (hgap : s.bonds (env.ItoB ((k : Int) + 1)) = none) (hfuel : k < fuel) :
    RetrieveAllBonds env s fuel =
      some ((recordsUpTo env s.bonds k, none), (s.log .OpenDB).log (.Begin false)) := by
  have h1 := retrieveAllLoop_gap env s.bonds k hk hrec hgap k 0 fuel [] (by omega) hfuel
  have h1' : retrieveAllLoop env s.bonds fuel 1 [] = some (recordsUpTo env s.bonds k, none) := by
    simpa [recordsUpTo, List.range_eq_range'] using h1
  simp [RetrieveAllBonds, hopen, hbegin, h1']

/-- The loop of `RetrieveAllBonds` ends on a bucket with a gap at key `k + 1`, whether or
not the records decode: started at key `j + 1` with `j ≤ k`, more than `k - j` iterations
of fuel suffice. -/
theorem retrieveAllLoop_ends (env : BondEnv) (bucket : String → Option String) (k : Nat)
    (hk : (k : Int) + 1 < 2 ^ 63) (hgap : bucket (env.ItoB ((k : Int) + 1)) = none) :
    ∀ (d j fuel : Nat) (arr : List ConstructionBond), j + d = k → d < fuel →
      (retrieveAllLoop env bucket fuel ((j : Int) + 1) arr).isSome = true := by
  intro d
  induction d with
  | zero =>
    intro j fuel arr hj hf
    obtain ⟨f, rfl⟩ : ∃ f, fuel = f + 1 := ⟨fuel - 1, by omega⟩
    have hjk : j = k := by omega
    subst hjk
    simp [retrieveAllLoop, hgap]
  | succ d ih =>
    intro j fuel arr hj hf
    obtain ⟨f, rfl⟩ : ∃ f, fuel = f + 1 := ⟨fuel - 1, by omega⟩
    have hw : wrapInt ((j : Int) + 1 + 1) = ((j + 1 : Nat) : Int) + 1 := by
      rw [wrapInt_of_range _ (by omega) (by omega)]
      push_cast
      ring
    unfold retrieveAllLoop
    split
    · rfl
    · simp only []
      split
      · rfl
      · rw [hw]
        exact ih (j + 1) f _ (by omega) (by omega)

/-- `RetrieveAllBonds` ends on a bucket with a gap at key `k + 1`: more than `k`
iterations of fuel suffice, whatever the database and the decoder answer. -/
theorem retrieveAllBonds_ends (env : BondEnv) (s : BondStore) (k fuel : Nat)
    (hk : (k : Int) + 1 < 2 ^ 63) (hgap : s.bonds (env.ItoB ((k : Int) + 1)) = none)
    (hfuel : k < fuel) : (RetrieveAllBonds env s fuel).isSome = true := by
  have h1 := retrieveAllLoop_ends env s.bonds k hk hgap k 0 fuel [] (by omega) hfuel
  obtain ⟨r, hr⟩ := Option.isSome_iff_exists.mp h1
  have hr' : retrieveAllLoop env s.bonds fuel 1 [] = some r := by simpa using hr
  unfold RetrieveAllBonds
  simp only [hr']
  repeat' split
  all_goals rfl

/-- A bucket whose keys all lie in a list has a first gap no further than the length of
the list, when different integers have different keys. -/
theorem exists_firstGap (env : BondEnv) (hinj : Function.Injective env.ItoB)
    (bucket : String → Option String) (keys : List String)
    (hfin : ∀ key, bucket key ≠ none → key ∈ keys) :
    ∃ k, k ≤ keys.length ∧ FirstGap env bucket k := by
  classical
  have hex : ∃ n : Nat, n ≤ keys.length ∧ bucket (env.ItoB ((n : Int) + 1)) = none := by
    by_contra hcon
    push_neg at hcon
    have hsub : (List.range (keys.length + 1)).map (fun (n : Nat) => env.ItoB ((n : Int) + 1))
        ⊆ keys := by
      intro key hkey
      obtain ⟨n, hn, rfl⟩ := List.mem_map.mp hkey
      exact hfin _ (hcon n (by simpa [Nat.lt_succ_iff] using hn))
    have hnd : ((List.range (keys.length + 1)).map
        (fun (n : Nat) => env.ItoB ((n : Int) + 1))).Nodup := by
      refine List.Nodup.map ?_ (List.nodup_range _)
      intro a b hab
      have := hinj hab
      omega
    have hle := (List.subperm_of_subset hnd hsub).length_le
    simp at hle
  have hex' : ∃ n : Nat, bucket (env.ItoB ((n : Int) + 1)) = none := by
    obtain ⟨n, -, hn⟩ := hex
    exact ⟨n, hn⟩
  refine ⟨Nat.find hex', ?_, ?_, Nat.find_spec hex'⟩
  · obtain ⟨n, hn, hb⟩ := hex
    exact le_trans (Nat.find_min' hex' hb) hn
  · intro j hj
    exact Nat.find_min hex' hj

/-- A bucket has one first gap at most. -/
theorem firstGap_unique (env : BondEnv) (bucket : String → Option String) (k k' : Nat)
    (h : FirstGap env bucket k) (h' : FirstGap env bucket k') : k = k' := by
  rcases Nat.lt_trichotomy k k' with hlt | heq | hgt
  · exact absurd h.2 (h'.1 k hlt)
  · exact heq
  · exact absurd h'.2 (h.1 k' hgt)

/-- The first gap of `demoGapStore` is at key 3. -/
theorem demoGapStore_firstGap : FirstGap demoBondEnv demoGapStore.bonds 2 := by
  refine ⟨?_, by decide⟩
  intro j hj
  interval_cases j <;> decide

/-- The keys of `demoGapStore`. -/
theorem demoGapStore_keys (key : String) (h : demoGapStore.bonds key ≠ none) :
    key ∈ [demoItoB 1, demoItoB 2, demoItoB 4] := by
  unfold demoGapStore at h
  simp only at h
  split at h
  · simp [*]
  · split at h
    · simp [*]
    · split at h
      · simp [*]
      · exact absurd rfl h

/-! ### `Login` -/

/-- A `Login` that returns no error returns one of four roles or the empty string. -/
theorem login_roles (env : LoginEnv) (m : Emulator) (username pwhash : String)
    (h : (Login env m username pwhash).1.2 = none) :
    (Login env m username pwhash).1.1 ∈
      ["Investor", "Recipient", "Contractor", "Originator", ""] := by
  revert h
  unfold Login authenticated
  simp only []
  repeat' split
  all_goals simp

/-! ### Binary rounding -/

theorem roundHalfEven_of_lt (q : ℚ) (f : Int) (h1 : (f : ℚ) ≤ q) (h2 : q - (f : ℚ) < 1 / 2) :
    roundHalfEven q = f := by
  have hf : ⌊q⌋ = f := Int.floor_eq_iff.mpr ⟨h1, by linarith⟩
  unfold roundHalfEven
  rw [hf, if_pos h2]

theorem roundHalfEven_of_gt (q : ℚ) (f : Int) (h1 : 1 / 2 < q - (f : ℚ)) (h2 : q < (f : ℚ) + 1) :
    roundHalfEven q = f + 1 := by
  have hf : ⌊q⌋ = f := Int.floor_eq_iff.mpr ⟨by linarith, h2⟩
  unfold roundHalfEven
  rw [hf, if_neg (by linarith), if_pos h1]

theorem roundHalfEven_of_tie_even (q : ℚ) (f : Int) (h : q - (f : ℚ) = 1 / 2)
    (he : f % 2 = 0) : roundHalfEven q = f := by
  have hf : ⌊q⌋ = f := Int.floor_eq_iff.mpr ⟨by linarith, by linarith⟩
  unfold roundHalfEven
  rw [hf, if_neg (by linarith), if_neg (by linarith), if_pos he]

/-- An integer is rounded to itself. -/
@[simp] theorem roundHalfEven_intCast (z : Int) : roundHalfEven (z : ℚ) = z :=
  roundHalfEven_of_lt _ z le_rfl (by norm_num)

/-- Rounding goes to the integer below or to the one above. -/
theorem roundHalfEven_floor (q : ℚ) : roundHalfEven q = ⌊q⌋ ∨ roundHalfEven q = ⌊q⌋ + 1 := by
  unfold roundHalfEven
  split
  · exact Or.inl rfl
  · split
    · exact Or.inr rfl
    · split
      · exact Or.inl rfl
      · exact Or.inr rfl

theorem roundHalfEven_nonneg (q : ℚ) (h : 0 ≤ q) : 0 ≤ roundHalfEven q := by
  have hf : 0 ≤ ⌊q⌋ := Int.floor_nonneg.mpr h
  rcases roundHalfEven_floor q with h1 | h1 <;> omega

/-- The exponent of a rational between two consecutive powers of two. -/
theorem intLog_eq (x : ℚ) (e : Int) (h1 : (2 : ℚ) ^ e ≤ |x|) (h2 : |x| < (2 : ℚ) ^ (e + 1)) :
    Int.log 2 |x| = e := by
  have hpos : 0 < |x| := lt_of_lt_of_le (zpow_pos (by norm_num) e) h1
  have a := (Int.zpow_le_iff_le_log (b := 2) (by norm_num) hpos).mp (by exact_mod_cast h1)
  have b := (Int.lt_zpow_iff_log_lt (b := 2) (by norm_num) hpos).mp (by exact_mod_cast h2)
  omega

/-- The value of a rounding, from the exponent of the number and the rounding of its
quotient by the unit of the last bit. -/
theorem roundBinary_eval (p : Nat) (emin : Int) (x : ℚ) (e z : Int)
    (h1 : (2 : ℚ) ^ e ≤ |x|) (h2 : |x| < (2 : ℚ) ^ (e + 1))
    (hz : roundHalfEven (x / (2 : ℚ) ^ (max (e - ((p : Int) - 1)) emin)) = z) :
    roundBinary p emin x = (z : ℚ) * (2 : ℚ) ^ (max (e - ((p : Int) - 1)) emin) := by
  have hpos : 0 < |x| := lt_of_lt_of_le (zpow_pos (by norm_num) e) h1
  have hx : x ≠ 0 := abs_pos.mp hpos
  unfold roundBinary
  rw [if_neg hx, intLog_eq x e h1 h2, hz]

/-- A number that is a multiple of the unit of its last bit is rounded to itself. -/
theorem roundBinary_of_multiple (p : Nat) (emin : Int) (x : ℚ) (z : Int)
    (h : x / (2 : ℚ) ^ (max (Int.log 2 |x| - ((p : Int) - 1)) emin) = (z : ℚ)) :
    roundBinary p emin x = x := by
  unfold roundBinary
  split
  · rename_i h0
    exact h0.symm
  · rw [h, roundHalfEven_intCast, ← h]
    have h2 : (2 : ℚ) ^ (max (Int.log 2 |x| - ((p : Int) - 1)) emin) ≠ 0 :=
      zpow_ne_zero _ (by norm_num)
    field_simp

/-- Rounding keeps the sign of a number that is not negative. -/
theorem roundBinary_nonneg (p : Nat) (emin : Int) (x : ℚ) (h : 0 ≤ x) :
    0 ≤ roundBinary p emin x := by
  unfold roundBinary
  split
  · exact le_rfl
  · have h2 : (0 : ℚ) < (2 : ℚ) ^ (max (Int.log 2 |x| - ((p : Int) - 1)) emin) :=
      zpow_pos (by norm_num) _
    have h3 := roundHalfEven_nonneg _ (div_nonneg h h2.le)
    exact mul_nonneg (by exact_mod_cast h3) h2.le

theorem round64_nonneg (x : ℚ) (h : 0 ≤ x) : 0 ≤ round64 x := roundBinary_nonneg 53 _ x h

@[simp] theorem round64_zero : round64 0 = 0 := by simp [round64, roundBinary]

/-- An integer of magnitude below `2 ^ p` is rounded to itself at precision `p`. -/
theorem roundBinary_intCast (p : Nat) (emin : Int) (n : Int)
    (he : emin ≤ -((p : Int) - 1)) (h : |n| < 2 ^ p) : roundBinary p emin (n : ℚ) = (n : ℚ) := by
  by_cases h0 : n = 0
  · simp [h0, roundBinary]
  · have habs : |(n : ℚ)| = ((n.natAbs : ℕ) : ℚ) := by
      rw [Nat.cast_natAbs, Int.cast_abs]
    have hm1 : n.natAbs ≠ 0 := Int.natAbs_ne_zero.mpr h0
    have hm2 : n.natAbs < 2 ^ p := by
      rw [Int.abs_eq_natAbs] at h
      exact_mod_cast h
    have hlog : Int.log 2 |(n : ℚ)| = ((Nat.log 2 n.natAbs : ℕ) : Int) := by
      rw [habs, Int.log_natCast]
    have hL : Nat.log 2 n.natAbs < p := Nat.log_lt_of_lt_pow hm1 hm2
    refine roundBinary_of_multiple p emin n (n * 2 ^ (p - 1 - Nat.log 2 n.natAbs)) ?_
    rw [hlog]
    have hk : max (((Nat.log 2 n.natAbs : ℕ) : Int) - ((p : Int) - 1)) emin
        = -(((p - 1 - Nat.log 2 n.natAbs : ℕ)) : Int) := by
      rw [max_eq_left (by omega)]
      omega
    rw [hk, zpow_neg, zpow_natCast]
    push_cast
    rw [div_inv_eq_mul]

/-- An integer of magnitude below `2 ^ 53` is a `float64`: it is rounded to itself. -/
theorem round64_intCast (n : Int) (h : |n| < 2 ^ 53) : round64 (n : ℚ) = (n : ℚ) :=
  roundBinary_intCast 53 (-1074) n (by norm_num) h

/-- An integer of magnitude below `2 ^ 24` is a `float32`: it is rounded to itself. -/
theorem round32_intCast (n : Int) (h : |n| < 2 ^ 24) : round32 (n : ℚ) = (n : ℚ) :=
  roundBinary_intCast 24 (-149) n (by norm_num) h

/-- A natural number below `2 ^ 53` is a `float64`. -/
theorem round64_natCast (n : ℕ) (h : n < 2 ^ 53) : round64 (n : ℚ) = (n : ℚ) := by
  have := round64_intCast (n : Int) (by rw [abs_of_nonneg (by positivity)]; exact_mod_cast h)
  simpa using this

@[simp] theorem round64_ofNat (n : ℕ) [n.AtLeastTwo] (h : n < 9007199254740992) :
    round64 (no_index (OfNat.ofNat n)) = OfNat.ofNat n := by
  have := round64_natCast n (by norm_num; exact h)
  simpa using this

@[simp] theorem round64_one : round64 1 = 1 := by
  have := round64_natCast 1 (by norm_num)
  simpa using this

/-- The number `2 ^ 53` is a `float64`. -/
theorem round64_two_pow_53 : round64 9007199254740992 = 9007199254740992 := by
  have h := roundBinary_eval 53 (-1074) 9007199254740992 53 4503599627370496
    (by norm_num) (by norm_num) (by
      norm_num
      exact roundHalfEven_intCast 4503599627370496)
  unfold round64
  rw [h]
  norm_num

/-- The number `2 ^ 53 + 1` lies halfway between the `float64` values `2 ^ 53` and
`2 ^ 53 + 2` and is rounded to the first, whose last bit is even. -/
theorem round64_two_pow_53_add_one : round64 9007199254740993 = 9007199254740992 := by
  have h := roundBinary_eval 53 (-1074) 9007199254740993 53 4503599627370496
    (by norm_num) (by norm_num) (by
      norm_num
      exact roundHalfEven_of_tie_even _ 4503599627370496 (by norm_num) (by decide))
  unfold round64
  rw [h]
  norm_num

/-- The number `10 ^ 16 + 1` lies halfway between the `float64` values `10 ^ 16` and
`10 ^ 16 + 2` and is rounded to the first, whose last bit is even. -/
theorem round64_ten_pow_16_add_one : round64 10000000000000001 = 10000000000000000 := by
  have h := roundBinary_eval 53 (-1074) 10000000000000001 53 5000000000000000
    (by norm_num) (by norm_num) (by
      norm_num
      exact roundHalfEven_of_tie_even _ 5000000000000000 (by norm_num) (by decide))
  unfold round64
  rw [h]
  norm_num

/-- The number `2 ^ 53 + 3/2` is rounded to the `float64` value `2 ^ 53 + 2`. -/
theorem round64_two_pow_53_add_halves :
    round64 (18014398509481987 / 2) = 9007199254740994 := by
  have h := roundBinary_eval 53 (-1074) (18014398509481987 / 2) 53 4503599627370497
    (by norm_num [abs_of_nonneg]) (by norm_num [abs_of_nonneg]) (by
      norm_num
      exact roundHalfEven_of_gt _ 4503599627370496 (by norm_num) (by norm_num))
  unfold round64
  rw [h]
  norm_num

/-! ### `ConstructionBond.Invest` -/

/-- An amount whose `float64` value is above the cost of a unit is refused before anything
is done. -/
theorem bondInvest_refused (env : Env) (benv : BondEnv) (StoI : String → Int) (w : World)
    (s : BondStore) (a : ConstructionBond) (ipk iseed : String) (i : Investor) (r : Recipient)
    (amt invSeed recpSeed : String) (h : round64 (StoI amt : ℚ) > a.CostOfUnit) :
    a.Invest env benv StoI w s ipk iseed i r amt invSeed recpSeed =
      ⟨a, i,
        some "You are trying to invest more than a unit's cost, do you want to invest in two units?",
        w, s⟩ := by
  unfold ConstructionBond.Invest
  simp only [h, if_true]

/-- The fields of the bond `Invest` never changes, and the amounts on every path that
returns no error: the amount was not refused and both sums were made. -/
theorem bondInvest_fields (env : Env) (benv : BondEnv) (StoI : String → Int) (w : World)
    (s : BondStore) (a : ConstructionBond) (ipk iseed : String) (i : Investor) (r : Recipient)
    (amt invSeed recpSeed : String) :
    (a.Invest env benv StoI w s ipk iseed i r amt invSeed recpSeed).bond.CostOfUnit
      = a.CostOfUnit ∧
    (a.Invest env benv StoI w s ipk iseed i r amt invSeed recpSeed).bond.NoOfUnits
      = a.NoOfUnits ∧
    (a.Invest env benv StoI w s ipk iseed i r amt invSeed recpSeed).bond.Params.Index
      = a.Params.Index ∧
    ((a.Invest env benv StoI w s ipk iseed i r amt invSeed recpSeed).err = none →
      ¬ round64 (StoI amt : ℚ) > a.CostOfUnit ∧
      (a.Invest env benv StoI w s ipk iseed i r amt invSeed recpSeed).bond.AmountRaised
        = round64 (a.AmountRaised + round64 (StoI amt : ℚ)) ∧
      (a.Invest env benv StoI w s ipk iseed i r amt invSeed recpSeed).investor.AmountInvested
        = round64 (i.AmountInvested + round64 (StoI amt : ℚ))) := by
  unfold ConstructionBond.Invest
  by_cases h : round64 (StoI amt : ℚ) > a.CostOfUnit
  · simp [h]
  · simp only [h, if_false]
    repeat' split
    all_goals simp_all

/-- An accepted amount with every ledger and store call succeeding: `Invest` returns no
error after the trust line and the mint, adds the amount to what the bond raised and to
what the investor invested, and writes both records. -/
theorem bondInvest_ok (env : Env) (hs : env.Succeeds) (benv : BondEnv) (hb : benv.Sound)
    (StoI : String → Int) (w : World)
    (s : BondStore) (a : ConstructionBond) (ipk iseed : String) (i : Investor) (r : Recipient)
    (amt invSeed recpSeed : String) (h : ¬ round64 (StoI amt : ℚ) > a.CostOfUnit) :
    (a.Invest env benv StoI w s ipk iseed i r amt invSeed recpSeed).err = none ∧
    (a.Invest env benv StoI w s ipk iseed i r amt invSeed recpSeed).bond.AmountRaised
      = round64 (a.AmountRaised + round64 (StoI amt : ℚ)) ∧
    (a.Invest env benv StoI w s ipk iseed i r amt invSeed recpSeed).investor.AmountInvested
      = round64 (i.AmountInvested + round64 (StoI amt : ℚ)) ∧
    (a.Invest env benv StoI w s ipk iseed i r amt invSeed recpSeed).world.investors i.U.Index
      = some (a.Invest env benv StoI w s ipk iseed i r amt invSeed recpSeed).investor ∧
    (a.Invest env benv StoI w s ipk iseed i r amt invSeed recpSeed).store.bonds
        (benv.ItoB a.Params.Index)
      = some (benv.Marshal
          (a.Invest env benv StoI w s ipk iseed i r amt invSeed recpSeed).bond).1 ∧
    (callsSince w (a.Invest env benv StoI w s ipk iseed i r amt invSeed
        recpSeed).world).filter Call.isIssue =
      [Call.TrustAsset
          (a.Invest env benv StoI w s ipk iseed i r amt invSeed
            recpSeed).bond.Params.InvestorAssetCode ipk
          (env.FtoS (round64 (a.CostOfUnit * round64 (a.NoOfUnits : ℚ)))) i.U.PublicKey invSeed,
        Call.SendAssetFromIssuer
          (a.Invest env benv StoI w s ipk iseed i r amt invSeed
            recpSeed).bond.Params.InvestorAssetCode i.U.PublicKey amt iseed ipk] := by
  unfold ConstructionBond.Invest
  simp only [h, if_false, hs.trustAsset, hs.sendAssetFromIssuer, investorSave_err,
    hs.saveInvestor]
  by_cases hc : a.Params.InvestorAssetCode = ""
  · simp [hc, (bondSave_ok benv hb _ _).1, (bondSave_ok benv hb _ _).2,
      investorSave_investors, hs.saveInvestor, callsSince]
  · simp [hc, (bondSave_ok benv hb _ _).1, (bondSave_ok benv hb _ _).2,
      investorSave_investors, hs.saveInvestor, callsSince]

@[simp] theorem demoStoI_50 : demoStoI "50" = 50 := by decide
@[simp] theorem demoStoI_100 : demoStoI "100" = 100 := by decide
@[simp] theorem demoStoI_150 : demoStoI "150" = 150 := by decide
@[simp] theorem demoStoI_big : demoStoI "9007199254740993" = 9007199254740993 := by decide

/-! ### Balances read at single precision -/

/-- The `float32` nearest to 300.02. -/
theorem round32_300_02 : round32 (30002 / 100) = 9831055 / 32768 := by
  have h := roundBinary_eval 24 (-149) (30002 / 100) 8 9831055
    (by norm_num [abs_of_nonneg]) (by norm_num [abs_of_nonneg]) (by
      norm_num
      exact roundHalfEven_of_lt _ 9831055 (by norm_num) (by norm_num))
  unfold round32
  rw [h]
  norm_num

/-- The `float32` nearest to 100.02. -/
theorem round32_100_02 : round32 (10002 / 100) = 13109821 / 131072 := by
  have h := roundBinary_eval 24 (-149) (10002 / 100) 6 13109821
    (by norm_num [abs_of_nonneg]) (by norm_num [abs_of_nonneg]) (by
      norm_num
      exact roundHalfEven_of_lt _ 13109821 (by norm_num) (by norm_num))
  unfold round32
  rw [h]
  norm_num

/-- The number 200 is a `float32`. -/
theorem round32_200 : round32 200 = 200 := by
  have h := roundBinary_eval 24 (-149) 200 7 13107200
    (by norm_num) (by norm_num) (by
      norm_num
      exact roundHalfEven_intCast 13107200)
  unfold round32
  rw [h]
  norm_num

/-- The difference of the two `float32` balances is a `float64`. -/
theorem round64_paid : round64 (9831055 / 32768 - 13109821 / 131072) = 26214399 / 131072 := by
  have h := roundBinary_eval 53 (-1074) (9831055 / 32768 - 13109821 / 131072) 7
    7036874149330944 (by norm_num [abs_of_nonneg]) (by norm_num [abs_of_nonneg]) (by
      norm_num
      exact roundHalfEven_intCast 7036874149330944)
  unfold round64
  rw [h]
  norm_num

/-! ### The round with the booked sums rounded -/

/-- A failed check ends `InvestInProject64` at once. -/
theorem invest64_of_pre_err (env : Env) (w : World) (pi ii ri : Int)
    (amt invSeed recpSeed platformSeed : String) (e : String)
    (h : (PreInvestmentCheck env w pi ii ri amt).err = some e) :
    InvestInProject64 env w pi ii ri amt invSeed recpSeed platformSeed =
      ⟨(PreInvestmentCheck env w pi ii ri amt).project, some e, w⟩ := by
  unfold InvestInProject64
  simp only [h]

/-- A failed check ends `SeedInvestInProject64` at once. -/
theorem seedInvest64_of_pre_err (env : Env) (w : World) (pi ii ri : Int)
    (amt invSeed recpSeed platformSeed : String) (e : String)
    (h : (PreInvestmentCheck env w pi ii ri amt).err = some e) :
    SeedInvestInProject64 env w pi ii ri amt invSeed recpSeed platformSeed =
      ⟨(PreInvestmentCheck env w pi ii ri amt).project, some e, w⟩ := by
  unfold SeedInvestInProject64
  simp only [h]

/-- `InvestInProject64` when its bootstrap block fails. -/
theorem invest64_boot_fail (env : Env) (w : World) (pi ii ri : Int)
    (amt invSeed recpSeed platformSeed : String) (p : Project) (i : Investor) (r : Recipient)
    (e : String)
    (hpre : PreInvestmentCheck env w pi ii ri amt = ⟨p, i, r, none⟩)
    (hb : (investorBoot env w p platformSeed).err = some e) :
    InvestInProject64 env w pi ii ri amt invSeed recpSeed platformSeed =
      ⟨investorCoded env p, some e, (investorBoot env w p platformSeed).world⟩ := by
  have hp := (investorBoot_facts env w p platformSeed).1
  unfold InvestInProject64
  simp only [hpre]
  have hfold : (if p.Params.SeedAssetCode = "" ∧ p.Params.InvestorAssetCode = "" then
      bootstrap env w { p with Params := { p.Params with
        InvestorAssetCode := env.AssetID (InvestorAssetPrefix ++ p.Params.Metadata) } }
        platformSeed
    else (⟨p, none, w⟩ : Outcome)) = investorBoot env w p platformSeed := rfl
  rw [hfold]
  simp only [hb, hp]

/-- `InvestInProject64` when payment collection fails. -/
theorem invest64_collect_fail (env : Env) (w : World) (pi ii ri : Int)
    (amt invSeed recpSeed platformSeed : String) (p : Project) (i : Investor) (r : Recipient)
    (e : String)
    (hpre : PreInvestmentCheck env w pi ii ri amt = ⟨p, i, r, none⟩)
    (hb : (investorBoot env w p platformSeed).err = none)
    (hc : (investorPaid env w p platformSeed invSeed amt).err = some e) :
    InvestInProject64 env w pi ii ri amt invSeed recpSeed platformSeed =
      ⟨investorCoded env p, some e, (investorPaid env w p platformSeed invSeed amt).world⟩ := by
  have hp := (investorBoot_facts env w p platformSeed).1
  unfold investorPaid at hc ⊢
  unfold InvestInProject64
  simp only [hpre]
  have hfold : (if p.Params.SeedAssetCode = "" ∧ p.Params.InvestorAssetCode = "" then
      bootstrap env w { p with Params := { p.Params with
        InvestorAssetCode := env.AssetID (InvestorAssetPrefix ++ p.Params.Metadata) } }
        platformSeed
    else (⟨p, none, w⟩ : Outcome)) = investorBoot env w p platformSeed := rfl
  rw [hfold]
  simp only [hb, hp, investorCoded_Index, hc]

/-- `InvestInProject64` when the investor's trust line or mint fails. -/
theorem invest64_mint_fail (env : Env) (w : World) (pi ii ri : Int)
    (amt invSeed recpSeed platformSeed : String) (p : Project) (i : Investor) (r : Recipient)
    (e : String)
    (hpre : PreInvestmentCheck env w pi ii ri amt = ⟨p, i, r, none⟩)
    (hb : (investorBoot env w p platformSeed).err = none)
    (hc : (investorPaid env w p platformSeed invSeed amt).err = none)
    (hm : (investorMinted env w p i platformSeed invSeed amt).err = some e) :
    InvestInProject64 env w pi ii ri amt invSeed recpSeed platformSeed =
      ⟨investorCoded env p, some e,
        (investorMinted env w p i platformSeed invSeed amt).world⟩ := by
  have hp := (investorBoot_facts env w p platformSeed).1
  unfold investorMinted at hm ⊢
  unfold investorPaid at hc hm ⊢
  unfold InvestInProject64
  simp only [hpre]
  have hfold : (if p.Params.SeedAssetCode = "" ∧ p.Params.InvestorAssetCode = "" then
      bootstrap env w { p with Params := { p.Params with
        InvestorAssetCode := env.AssetID (InvestorAssetPrefix ++ p.Params.Metadata) } }
        platformSeed
    else (⟨p, none, w⟩ : Outcome)) = investorBoot env w p platformSeed := rfl
  rw [hfold]
  simp only [hb, hp, investorCoded_Index, investorCoded_TotalValue, hc, CreateAsset, hm]

/-- `InvestInProject64` when the investor's mint succeeds: the rest is `book`. -/
theorem invest64_booked (env : Env) (w : World) (pi ii ri : Int)
    (amt invSeed recpSeed platformSeed : String) (p : Project) (i : Investor) (r : Recipient)
    (hpre : PreInvestmentCheck env w pi ii ri amt = ⟨p, i, r, none⟩)
    (hb : (investorBoot env w p platformSeed).err = none)
    (hc : (investorPaid env w p platformSeed invSeed amt).err = none)
    (hm : (investorMinted env w p i platformSeed invSeed amt).err = none) :
    InvestInProject64 env w pi ii ri amt invSeed recpSeed platformSeed =
      book env (investorMinted env w p i platformSeed invSeed amt).world
        (investorRaised64 env (investorCoded env p) i amt)
        (investorBooked64 env i amt (investorCoded env p).Params.InvestorAssetCode) r
        (Call.NotifInvestor pi i.U.Email
          (investorPaid env w p platformSeed invSeed amt).stableTxHash
          (investorMinted env w p i platformSeed invSeed amt).invTrustTxHash
          (investorMinted env w p i platformSeed invSeed amt).invAssetTxHash)
        (investorPaid env w p platformSeed invSeed amt).issuerPubkey
        (investorPaid env w p platformSeed invSeed amt).issuerSeed recpSeed := by
  have hp := (investorBoot_facts env w p platformSeed).1
  unfold investorMinted at hm ⊢
  unfold investorPaid at hc hm ⊢
  unfold InvestInProject64
  simp only [hpre]
  have hfold : (if p.Params.SeedAssetCode = "" ∧ p.Params.InvestorAssetCode = "" then
      bootstrap env w { p with Params := { p.Params with
        InvestorAssetCode := env.AssetID (InvestorAssetPrefix ++ p.Params.Metadata) } }
        platformSeed
    else (⟨p, none, w⟩ : Outcome)) = investorBoot env w p platformSeed := rfl
  rw [hfold]
  simp only [hb, hp, investorCoded_Index, investorCoded_TotalValue, hc, CreateAsset, hm,
    investorRaised64, investorBooked64]

/-- `SeedInvestInProject64` when its bootstrap block fails. -/
theorem seedInvest64_boot_fail (env : Env) (w : World) (pi ii ri : Int)
    (amt invSeed recpSeed platformSeed : String) (p : Project) (i : Investor) (r : Recipient)
    (e : String)
    (hpre : PreInvestmentCheck env w pi ii ri amt = ⟨p, i, r, none⟩)
    (hb : (seedBoot env w p platformSeed).err = some e) :
    SeedInvestInProject64 env w pi ii ri amt invSeed recpSeed platformSeed =
      ⟨seedCoded env p, some e, (seedBoot env w p platformSeed).world⟩ := by
  have hp := (seedBoot_facts env w p platformSeed).1
  unfold SeedInvestInProject64
  simp only [hpre]
  have hfold : (if p.Params.SeedAssetCode = "" then
      bootstrap env w { p with Params := { p.Params with
        SeedAssetCode := env.AssetID (InvestorAssetPrefix ++ p.Params.Metadata) } }
        platformSeed
    else (⟨p, none, w⟩ : Outcome)) = seedBoot env w p platformSeed := rfl
  rw [hfold]
  simp only [hb, hp]

/-- `SeedInvestInProject64` when payment collection fails. -/
theorem seedInvest64_collect_fail (env : Env) (w : World) (pi ii ri : Int)
    (amt invSeed recpSeed platformSeed : String) (p : Project) (i : Investor) (r : Recipient)
    (e : String)
    (hpre : PreInvestmentCheck env w pi ii ri amt = ⟨p, i, r, none⟩)
    (hb : (seedBoot env w p platformSeed).err = none)
    (hc : (seedPaid env w p platformSeed invSeed amt).err = some e) :
    SeedInvestInProject64 env w pi ii ri amt invSeed recpSeed platformSeed =
      ⟨seedCoded env p, some e, (seedPaid env w p platformSeed invSeed amt).world⟩ := by
  have hp := (seedBoot_facts env w p platformSeed).1
  unfold seedPaid at hc ⊢
  unfold SeedInvestInProject64
  simp only [hpre]
  have hfold : (if p.Params.SeedAssetCode = "" then
      bootstrap env w { p with Params := { p.Params with
        SeedAssetCode := env.AssetID (InvestorAssetPrefix ++ p.Params.Metadata) } }
        platformSeed
    else (⟨p, none, w⟩ : Outcome)) = seedBoot env w p platformSeed := rfl
  rw [hfold]
  simp only [hb, hp, seedCoded_Index, hc]

/-- `SeedInvestInProject64` when the investor's trust line or mint fails. -/
theorem seedInvest64_mint_fail (env : Env) (w : World) (pi ii ri : Int)
    (amt invSeed recpSeed platformSeed : String) (p : Project) (i : Investor) (r : Recipient)
    (e : String)
    (hpre : PreInvestmentCheck env w pi ii ri amt = ⟨p, i, r, none⟩)
    (hb : (seedBoot env w p platformSeed).err = none)
    (hc : (seedPaid env w p platformSeed invSeed amt).err = none)
    (hm : (seedMinted env w p i platformSeed invSeed amt).err = some e) :
    SeedInvestInProject64 env w pi ii ri amt invSeed recpSeed platformSeed =
      ⟨seedRecoded env p, some e, (seedMinted env w p i platformSeed invSeed amt).world⟩ := by
  have hp := (seedBoot_facts env w p platformSeed).1
  rw [← seedRecoded_seedCoded env p]
  unfold seedMinted at hm ⊢
  unfold seedPaid at hc hm ⊢
  unfold SeedInvestInProject64
  simp only [hpre]
  have hfold : (if p.Params.SeedAssetCode = "" then
      bootstrap env w { p with Params := { p.Params with
        SeedAssetCode := env.AssetID (InvestorAssetPrefix ++ p.Params.Metadata) } }
        platformSeed
    else (⟨p, none, w⟩ : Outcome)) = seedBoot env w p platformSeed := rfl
  rw [hfold]
  simp only [hb, hp, seedCoded_Index, seedCoded_TotalValue, seedCoded_Metadata, hc,
    CreateAsset, hm, seedRecoded]

/-- `SeedInvestInProject64` when the investor's mint succeeds: the rest is `book`. -/
theorem seedInvest64_booked (env : Env) (w : World) (pi ii ri : Int)
    (amt invSeed recpSeed platformSeed : String) (p : Project) (i : Investor) (r : Recipient)
    (hpre : PreInvestmentCheck env w pi ii ri amt = ⟨p, i, r, none⟩)
    (hb : (seedBoot env w p platformSeed).err = none)
    (hc : (seedPaid env w p platformSeed invSeed amt).err = none)
    (hm : (seedMinted env w p i platformSeed invSeed amt).err = none) :
    SeedInvestInProject64 env w pi ii ri amt invSeed recpSeed platformSeed =
      book env (seedMinted env w p i platformSeed invSeed amt).world
        (seedRaised64 env (seedRecoded env p) i amt)
        (investorBooked64 env i amt (env.AssetID (SeedAssetPrefix ++ p.Params.Metadata))) r
        (Call.NotifSeedInvestor pi i.U.Email
          (seedPaid env w p platformSeed invSeed amt).stableTxHash
          (seedMinted env w p i platformSeed invSeed amt).invTrustTxHash
          (seedMinted env w p i platformSeed invSeed amt).invAssetTxHash)
        (seedPaid env w p platformSeed invSeed amt).issuerPubkey
        (seedPaid env w p platformSeed invSeed amt).issuerSeed recpSeed := by
  have hp := (seedBoot_facts env w p platformSeed).1
  have hq : seedRaised64 env (seedRecoded env (seedCoded env p)) i amt
      = seedRaised64 env (seedRecoded env p) i amt := by rw [seedRecoded_seedCoded]
  rw [← hq]
  unfold seedMinted at hm ⊢
  unfold seedPaid at hc hm ⊢
  unfold SeedInvestInProject64
  simp only [hpre]
  have hfold : (if p.Params.SeedAssetCode = "" then
      bootstrap env w { p with Params := { p.Params with
        SeedAssetCode := env.AssetID (InvestorAssetPrefix ++ p.Params.Metadata) } }
        platformSeed
    else (⟨p, none, w⟩ : Outcome)) = seedBoot env w p platformSeed := rfl
  rw [hfold]
  simp only [hb, hp, seedCoded_Index, seedCoded_TotalValue, seedCoded_Metadata, hc,
    CreateAsset, hm, seedRaised64, seedRecoded, investorBooked64]

/-- The ways an `InvestInProject64` ends: at the check, at the bootstrap block, at payment
collection, at the investor's trust line or mint, or in `book`. -/
theorem invest64_stages (env : Env) (w : World) (pi ii ri : Int)
    (amt invSeed recpSeed platformSeed : String) :
    (∃ e, (PreInvestmentCheck env w pi ii ri amt).err = some e ∧
      InvestInProject64 env w pi ii ri amt invSeed recpSeed platformSeed =
        ⟨(PreInvestmentCheck env w pi ii ri amt).project, some e, w⟩) ∨
    ∃ p i r, w.projects pi = some p ∧ w.investors ii = some i ∧ w.recipients ri = some r ∧
      env.CanInvest w.trace i amt = true ∧
      ((∃ e, (investorBoot env w p platformSeed).err = some e ∧
          InvestInProject64 env w pi ii ri amt invSeed recpSeed platformSeed =
            ⟨investorCoded env p, some e, (investorBoot env w p platformSeed).world⟩) ∨
        ((investorBoot env w p platformSeed).err = none ∧
          ∃ e, (investorPaid env w p platformSeed invSeed amt).err = some e ∧
          InvestInProject64 env w pi ii ri amt invSeed recpSeed platformSeed =
            ⟨investorCoded env p, some e,
              (investorPaid env w p platformSeed invSeed amt).world⟩) ∨
        ((investorBoot env w p platformSeed).err = none ∧
          (investorPaid env w p platformSeed invSeed amt).err = none ∧
          ∃ e, (investorMinted env w p i platformSeed invSeed amt).err = some e ∧
          InvestInProject64 env w pi ii ri amt invSeed recpSeed platformSeed =
            ⟨investorCoded env p, some e,
              (investorMinted env w p i platformSeed invSeed amt).world⟩) ∨
        ((investorBoot env w p platformSeed).err = none ∧
          (investorPaid env w p platformSeed invSeed amt).err = none ∧
          (investorMinted env w p i platformSeed invSeed amt).err = none ∧
          InvestInProject64 env w pi ii ri amt invSeed recpSeed platformSeed =
            book env (investorMinted env w p i platformSeed invSeed amt).world
              (investorRaised64 env (investorCoded env p) i amt)
              (investorBooked64 env i amt (investorCoded env p).Params.InvestorAssetCode) r
              (Call.NotifInvestor pi i.U.Email
                (investorPaid env w p platformSeed invSeed amt).stableTxHash
                (investorMinted env w p i platformSeed invSeed amt).invTrustTxHash
                (investorMinted env w p i platformSeed invSeed amt).invAssetTxHash)
              (investorPaid env w p platformSeed invSeed amt).issuerPubkey
              (investorPaid env w p platformSeed invSeed amt).issuerSeed recpSeed)) := by
  cases hpe : (PreInvestmentCheck env w pi ii ri amt).err with
  | some e =>
    exact Or.inl ⟨e, rfl, invest64_of_pre_err env w pi ii ri amt invSeed recpSeed
      platformSeed e hpe⟩
  | none =>
    obtain ⟨p, i, r, hp, hi, hr, hc, hpre⟩ := pre_err_none env w pi ii ri amt hpe
    refine Or.inr ⟨p, i, r, hp, hi, hr, hc, ?_⟩
    cases hb : (investorBoot env w p platformSeed).err with
    | some e =>
      exact Or.inl ⟨e, rfl, invest64_boot_fail env w pi ii ri amt invSeed recpSeed
        platformSeed p i r e hpre hb⟩
    | none =>
      cases hc' : (investorPaid env w p platformSeed invSeed amt).err with
      | some e =>
        exact Or.inr (Or.inl ⟨rfl, e, rfl, invest64_collect_fail env w pi ii ri amt invSeed
          recpSeed platformSeed p i r e hpre hb hc'⟩)
      | none =>
        cases hm : (investorMinted env w p i platformSeed invSeed amt).err with
        | some e =>
          exact Or.inr (Or.inr (Or.inl ⟨rfl, rfl, e, rfl, invest64_mint_fail env w pi ii ri
            amt invSeed recpSeed platformSeed p i r e hpre hb hc' hm⟩))
        | none =>
          exact Or.inr (Or.inr (Or.inr ⟨rfl, rfl, rfl, invest64_booked env w pi ii ri amt
            invSeed recpSeed platformSeed p i r hpre hb hc' hm⟩))

/-- The ways a `SeedInvestInProject64` ends: at the check, at the bootstrap block, at
payment collection, at the investor's trust line or mint, or in `book`. -/
theorem seedInvest64_stages (env : Env) (w : World) (pi ii ri : Int)
    (amt invSeed recpSeed platformSeed : String) :
    (∃ e, (PreInvestmentCheck env w pi ii ri amt).err = some e ∧
      SeedInvestInProject64 env w pi ii ri amt invSeed recpSeed platformSeed =
        ⟨(PreInvestmentCheck env w pi ii ri amt).project, some e, w⟩) ∨
    ∃ p i r, w.projects pi = some p ∧ w.investors ii = some i ∧ w.recipients ri = some r ∧
      env.CanInvest w.trace i amt = true ∧
      ((∃ e, (seedBoot env w p platformSeed).err = some e ∧
          SeedInvestInProject64 env w pi ii ri amt invSeed recpSeed platformSeed =
            ⟨seedCoded env p, some e, (seedBoot env w p platformSeed).world⟩) ∨
        ((seedBoot env w p platformSeed).err = none ∧
          ∃ e, (seedPaid env w p platformSeed invSeed amt).err = some e ∧
          SeedInvestInProject64 env w pi ii ri amt invSeed recpSeed platformSeed =
            ⟨seedCoded env p, some e, (seedPaid env w p platformSeed invSeed amt).world⟩) ∨
        ((seedBoot env w p platformSeed).err = none ∧
          (seedPaid env w p platformSeed invSeed amt).err = none ∧
          ∃ e, (seedMinted env w p i platformSeed invSeed amt).err = some e ∧
          SeedInvestInProject64 env w pi ii ri amt invSeed recpSeed platformSeed =
            ⟨seedRecoded env p, some e,
              (seedMinted env w p i platformSeed invSeed amt).world⟩) ∨
        ((seedBoot env w p platformSeed).err = none ∧
          (seedPaid env w p platformSeed invSeed amt).err = none ∧
          (seedMinted env w p i platformSeed invSeed amt).err = none ∧
          SeedInvestInProject64 env w pi ii ri amt invSeed recpSeed platformSeed =
            book env (seedMinted env w p i platformSeed invSeed amt).world
              (seedRaised64 env (seedRecoded env p) i amt)
              (investorBooked64 env i amt
                (env.AssetID (SeedAssetPrefix ++ p.Params.Metadata))) r
              (Call.NotifSeedInvestor pi i.U.Email
                (seedPaid env w p platformSeed invSeed amt).stableTxHash
                (seedMinted env w p i platformSeed invSeed amt).invTrustTxHash
                (seedMinted env w p i platformSeed invSeed amt).invAssetTxHash)
              (seedPaid env w p platformSeed invSeed amt).issuerPubkey
              (seedPaid env w p platformSeed invSeed amt).issuerSeed recpSeed)) := by
  cases hpe : (PreInvestmentCheck env w pi ii ri amt).err with
  | some e =>
    exact Or.inl ⟨e, rfl, seedInvest64_of_pre_err env w pi ii ri amt invSeed recpSeed
      platformSeed e hpe⟩
  | none =>
    obtain ⟨p, i, r, hp, hi, hr, hc, hpre⟩ := pre_err_none env w pi ii ri amt hpe
    refine Or.inr ⟨p, i, r, hp, hi, hr, hc, ?_⟩
    cases hb : (seedBoot env w p platformSeed).err with
    | some e =>
      exact Or.inl ⟨e, rfl, seedInvest64_boot_fail env w pi ii ri amt invSeed recpSeed
        platformSeed p i r e hpre hb⟩
    | none =>
      cases hc' : (seedPaid env w p platformSeed invSeed amt).err with
      | some e =>
        exact Or.inr (Or.inl ⟨rfl, e, rfl, seedInvest64_collect_fail env w pi ii ri amt
          invSeed recpSeed platformSeed p i r e hpre hb hc'⟩)
      | none =>
        cases hm : (seedMinted env w p i platformSeed invSeed amt).err with
        | some e =>
          exact Or.inr (Or.inr (Or.inl ⟨rfl, rfl, e, rfl, seedInvest64_mint_fail env w pi ii
            ri amt invSeed recpSeed platformSeed p i r e hpre hb hc' hm⟩))
        | none =>
          exact Or.inr (Or.inr (Or.inr ⟨rfl, rfl, rfl, seedInvest64_booked env w pi ii ri amt
            invSeed recpSeed platformSeed p i r hpre hb hc' hm⟩))

/-- A successful `InvestInProject64`: the three records were in the store, payment
collection and the investor's mint succeeded, the project handed back is the project with
the amount booked (`funded` when the target is met) and is in the store under its index,
the investor bucket holds the booked investor, the recipient bucket is written at the
target only, and the trust-line, mint and freeze calls are the investor's trust line and
mint, followed at the target by the five `fundingCalls`. -/
theorem invest64_success (env : Env) (w : World) (pi ii ri : Int)
    (amt invSeed recpSeed platformSeed : String)
    (h : (InvestInProject64 env w pi ii ri amt invSeed recpSeed platformSeed).err = none) :
    ∃ p i r, w.projects pi = some p ∧ w.investors ii = some i ∧ w.recipients ri = some r ∧
      env.CanInvest w.trace i amt = true ∧
      (investorPaid env w p platformSeed invSeed amt).err = none ∧
      (investorMinted env w p i platformSeed invSeed amt).err = none ∧
      (InvestInProject64 env w pi ii ri amt invSeed recpSeed platformSeed).project =
        (if (investorRaised64 env (investorCoded env p) i amt).Params.MoneyRaised
            = (investorRaised64 env (investorCoded env p) i amt).Params.TotalValue then
          funded env (investorRaised64 env (investorCoded env p) i amt) r
        else investorRaised64 env (investorCoded env p) i amt) ∧
      (InvestInProject64 env w pi ii ri amt invSeed recpSeed platformSeed).world.projects
          p.Params.Index
        = some (InvestInProject64 env w pi ii ri amt invSeed recpSeed platformSeed).project ∧
      (InvestInProject64 env w pi ii ri amt invSeed recpSeed platformSeed).world.investors =
        (fun k => if k = i.U.Index then
            some (investorBooked64 env i amt (investorCoded env p).Params.InvestorAssetCode)
          else w.investors k) ∧
      (InvestInProject64 env w pi ii ri amt invSeed recpSeed platformSeed).world.recipients =
        (if (investorRaised64 env (investorCoded env p) i amt).Params.MoneyRaised
            = (investorRaised64 env (investorCoded env p) i amt).Params.TotalValue then
          fun k => if k = r.U.Index then
              some (recipientCredited env (investorRaised64 env (investorCoded env p) i amt) r)
            else w.recipients k
        else w.recipients) ∧
      ∃ l, (InvestInProject64 env w pi ii ri amt invSeed recpSeed platformSeed).world.trace
          = w.trace ++ l ∧
        l.filter Call.isIssue =
          [Call.TrustAsset (investorCoded env p).Params.InvestorAssetCode
              (investorPaid env w p platformSeed invSeed amt).issuerPubkey
              (env.FtoS p.Params.TotalValue) i.U.PublicKey invSeed,
            Call.SendAssetFromIssuer (investorCoded env p).Params.InvestorAssetCode
              i.U.PublicKey amt (investorPaid env w p platformSeed invSeed amt).issuerSeed
              (investorPaid env w p platformSeed invSeed amt).issuerPubkey] ++
          (if (investorRaised64 env (investorCoded env p) i amt).Params.MoneyRaised
              = (investorRaised64 env (investorCoded env p) i amt).Params.TotalValue then
            fundingCalls env (investorRaised64 env (investorCoded env p) i amt) r
              (investorPaid env w p platformSeed invSeed amt).issuerPubkey
              (investorPaid env w p platformSeed invSeed amt).issuerSeed recpSeed
          else []) := by
  rcases invest64_stages env w pi ii ri amt invSeed recpSeed platformSeed with
    ⟨e, -, he⟩ | ⟨p, i, r, hp, hi, hr, hc, hst⟩
  · rw [he] at h; simp at h
  · rcases hst with ⟨e, -, he⟩ | ⟨-, e, -, he⟩ | ⟨-, -, e, -, he⟩ | ⟨-, hpaid, hmint, he⟩
    · rw [he] at h; simp at h
    · rw [he] at h; simp at h
    · rw [he] at h; simp at h
    · refine ⟨p, i, r, hp, hi, hr, hc, hpaid, hmint, ?_⟩
      rw [he] at h ⊢
      obtain ⟨h1, h2, h3, h4, l, hl, hf⟩ := book_err_none env _ _ _ r _ _ _ recpSeed (by rfl) h
      obtain ⟨m2, m3, m4, lb, lc, lm, hlm, -, hb, hcc, -, hlm'⟩ :=
        investorMinted_facts env w p i platformSeed invSeed amt
      have hlm2 := hlm' hmint
      have hidx : (investorRaised64 env (investorCoded env p) i amt).Params.Index
          = p.Params.Index := by simp [investorRaised64]
      have hbi : (investorBooked64 env i amt
          (investorCoded env p).Params.InvestorAssetCode).U.Index = i.U.Index := rfl
      rw [hidx] at h2
      rw [hbi] at h3
      refine ⟨h1, h2, ?_, ?_, lb ++ lc ++ lm ++ l, ?_, ?_⟩
      · rw [h3, m3]
      · rw [h4, m4]
      · rw [hl, hlm]; simp
      · rw [hlm2]
        simp [List.filter_append, filter_isIssue_of_isBoot lb hb,
          filter_isIssue_of_isCollect lc hcc, hf]

/-- A successful `SeedInvestInProject64`; see `invest64_success`. -/
theorem seedInvest64_success (env : Env) (w : World) (pi ii ri : Int)
    (amt invSeed recpSeed platformSeed : String)
    (h : (SeedInvestInProject64 env w pi ii ri amt invSeed recpSeed platformSeed).err = none) :
    ∃ p i r, w.projects pi = some p ∧ w.investors ii = some i ∧ w.recipients ri = some r ∧
      env.CanInvest w.trace i amt = true ∧
      (seedPaid env w p platformSeed invSeed amt).err = none ∧
      (seedMinted env w p i platformSeed invSeed amt).err = none ∧
      (SeedInvestInProject64 env w pi ii ri amt invSeed recpSeed platformSeed).project =
        (if (seedRaised64 env (seedRecoded env p) i amt).Params.MoneyRaised
            = (seedRaised64 env (seedRecoded env p) i amt).Params.TotalValue then
          funded env (seedRaised64 env (seedRecoded env p) i amt) r
        else seedRaised64 env (seedRecoded env p) i amt) ∧
      (SeedInvestInProject64 env w pi ii ri amt invSeed recpSeed platformSeed).world.projects
          p.Params.Index
        = some (SeedInvestInProject64 env w pi ii ri amt invSeed recpSeed
          platformSeed).project ∧
      (SeedInvestInProject64 env w pi ii ri amt invSeed recpSeed platformSeed).world.investors
        = (fun k => if k = i.U.Index then
            some (investorBooked64 env i amt
              (env.AssetID (SeedAssetPrefix ++ p.Params.Metadata)))
          else w.investors k) ∧
      (SeedInvestInProject64 env w pi ii ri amt invSeed recpSeed platformSeed).world.recipients
        = (if (seedRaised64 env (seedRecoded env p) i amt).Params.MoneyRaised
            = (seedRaised64 env (seedRecoded env p) i amt).Params.TotalValue then
          fun k => if k = r.U.Index then
              some (recipientCredited env (seedRaised64 env (seedRecoded env p) i amt) r)
            else w.recipients k
        else w.recipients) ∧
      ∃ l, (SeedInvestInProject64 env w pi ii ri amt invSeed recpSeed platformSeed).world.trace
          = w.trace ++ l ∧
        l.filter Call.isIssue =
          [Call.TrustAsset (env.AssetID (SeedAssetPrefix ++ p.Params.Metadata))
              (seedPaid env w p platformSeed invSeed amt).issuerPubkey
              (env.FtoS p.Params.TotalValue) i.U.PublicKey invSeed,
            Call.SendAssetFromIssuer (env.AssetID (SeedAssetPrefix ++ p.Params.Metadata))
              i.U.PublicKey amt (seedPaid env w p platformSeed invSeed amt).issuerSeed
              (seedPaid env w p platformSeed invSeed amt).issuerPubkey] ++
          (if (seedRaised64 env (seedRecoded env p) i amt).Params.MoneyRaised
              = (seedRaised64 env (seedRecoded env p) i amt).Params.TotalValue then
            fundingCalls env (seedRaised64 env (seedRecoded env p) i amt) r
              (seedPaid env w p platformSeed invSeed amt).issuerPubkey
              (seedPaid env w p platformSeed invSeed amt).issuerSeed recpSeed
          else []) := by
  rcases seedInvest64_stages env w pi ii ri amt invSeed recpSeed platformSeed with
    ⟨e, -, he⟩ | ⟨p, i, r, hp, hi, hr, hc, hst⟩
  · rw [he] at h; simp at h
  · rcases hst with ⟨e, -, he⟩ | ⟨-, e, -, he⟩ | ⟨-, -, e, -, he⟩ | ⟨-, hpaid, hmint, he⟩
    · rw [he] at h; simp at h
    · rw [he] at h; simp at h
    · rw [he] at h; simp at h
    · refine ⟨p, i, r, hp, hi, hr, hc, hpaid, hmint, ?_⟩
      rw [he] at h ⊢
      obtain ⟨h1, h2, h3, h4, l, hl, hf⟩ := book_err_none env _ _ _ r _ _ _ recpSeed (by rfl) h
      obtain ⟨m2, m3, m4, lb, lc, lm, hlm, -, hb, hcc, -, hlm'⟩ :=
        seedMinted_facts env w p i platformSeed invSeed amt
      have hlm2 := hlm' hmint
      have hidx : (seedRaised64 env (seedRecoded env p) i amt).Params.Index
          = p.Params.Index := by simp [seedRaised64, seedRecoded]
      have hbi : (investorBooked64 env i amt
          (env.AssetID (SeedAssetPrefix ++ p.Params.Metadata))).U.Index = i.U.Index := rfl
      rw [hidx] at h2
      rw [hbi] at h3
      refine ⟨h1, h2, ?_, ?_, lb ++ lc ++ lm ++ l, ?_, ?_⟩
      · rw [h3, m3]
      · rw [h4, m4]
      · rw [hl, hlm]; simp
      · rw [hlm2]
        simp [List.filter_append, filter_isIssue_of_isBoot lb hb,
          filter_isIssue_of_isCollect lc hcc, hf]

/-! ### Ledgers that honour the freeze -/

theorem frozenKey_mono (env : Env) (s k : String) (h0 h1 : List Call)
    (hk : env.FrozenKey s k h0) (hp : h0 <+: h1) : env.FrozenKey s k h1 :=
  fun h code d a hh => hk h code d a (hp.trans hh)

theorem frozen_mono (env : Env) (index : Int) (h0 h1 : List Call)
    (hf : env.Frozen index h0) (hp : h0 <+: h1) : env.Frozen index h1 :=
  fun hr => frozenKey_mono env _ _ h0 h1 (hf hr) hp

/-- A funding-completion step that returns no error at the target on a ledger that
honours the freeze leaves the issuer of the project frozen. -/
theorem sendRecipientAssets_frozen (env : Env) (hfz : env.HonoursFreeze) (w : World)
    (p : Project) (r : Recipient) (a b c : String)
    (hm : p.Params.MoneyRaised = p.Params.TotalValue)
    (h : (sendRecipientAssets env w p r a b c).err = none) :
    env.Frozen p.Params.Index (sendRecipientAssets env w p r a b c).world.trace := by
  revert h
  unfold sendRecipientAssets
  simp only [hm, ne_eq, not_true_eq_false, if_false]
  repeat' split
  all_goals intro h
  all_goals first
    | (exfalso; simp at h; done)
    | (have hf := hfz _ _ _ (by assumption)
       refine frozen_mono env _ _ _ hf ?_
       simp [List.prefix_append_right_inj])

/-- The fields of the project an `InvestInProject64` hands back when it returns no
error. -/
theorem invest64_success_fields (env : Env) (w : World) (pi ii ri : Int)
    (amt invSeed recpSeed platformSeed : String) (p : Project)
    (hp : w.projects pi = some p)
    (h : (InvestInProject64 env w pi ii ri amt invSeed recpSeed platformSeed).err = none) :
    (InvestInProject64 env w pi ii ri amt invSeed recpSeed platformSeed).project.Params.Index
      = p.Params.Index ∧
    (InvestInProject64 env w pi ii ri amt invSeed recpSeed
      platformSeed).project.Params.TotalValue = p.Params.TotalValue ∧
    (InvestInProject64 env w pi ii ri amt invSeed recpSeed
      platformSeed).project.Params.MoneyRaised
        = round64 (p.Params.MoneyRaised + env.StoF amt) ∧
    (InvestInProject64 env w pi ii ri amt invSeed recpSeed
      platformSeed).project.Params.Metadata = p.Params.Metadata ∧
    (InvestInProject64 env w pi ii ri amt invSeed recpSeed
      platformSeed).project.Params.InvestorAssetCode
        = (investorCoded env p).Params.InvestorAssetCode ∧
    (InvestInProject64 env w pi ii ri amt invSeed recpSeed
      platformSeed).project.Params.SeedAssetCode = p.Params.SeedAssetCode ∧
    (InvestInProject64 env w pi ii ri amt invSeed recpSeed
      platformSeed).project.Params.DebtAssetCode =
        (if round64 (p.Params.MoneyRaised + env.StoF amt) = p.Params.TotalValue then
          env.AssetID (DebtAssetPrefix ++ p.Params.Metadata) else p.Params.DebtAssetCode) ∧
    (InvestInProject64 env w pi ii ri amt invSeed recpSeed
      platformSeed).project.Params.PaybackAssetCode =
        (if round64 (p.Params.MoneyRaised + env.StoF amt) = p.Params.TotalValue then
          env.AssetID (PaybackAssetPrefix ++ p.Params.Metadata)
          else p.Params.PaybackAssetCode) ∧
    (InvestInProject64 env w pi ii ri amt invSeed recpSeed
      platformSeed).project.Params.BalLeft =
        (if round64 (p.Params.MoneyRaised + env.StoF amt) = p.Params.TotalValue then
          p.Params.TotalValue else p.Params.BalLeft) ∧
    (InvestInProject64 env w pi ii ri amt invSeed recpSeed platformSeed).project.Stage =
        (if round64 (p.Params.MoneyRaised + env.StoF amt) = p.Params.TotalValue then
          env.FundedProject else p.Stage) := by
  obtain ⟨p', i, r, hp', -, -, -, -, -, hproj, -⟩ :=
    invest64_success env w pi ii ri amt invSeed recpSeed platformSeed h
  rw [hp] at hp'
  cases hp'
  rw [hproj]
  have := settled_fields env (investorRaised64 env (investorCoded env p) i amt) r
  simpa [investorRaised64] using this

/-- The fields of the project a `SeedInvestInProject64` hands back when it returns no
error. -/
theorem seedInvest64_success_fields (env : Env) (w : World) (pi ii ri : Int)
    (amt invSeed recpSeed platformSeed : String) (p : Project)
    (hp : w.projects pi = some p)
    (h : (SeedInvestInProject64 env w pi ii ri amt invSeed recpSeed platformSeed).err = none) :
    (SeedInvestInProject64 env w pi ii ri amt invSeed recpSeed
      platformSeed).project.Params.Index = p.Params.Index ∧
    (SeedInvestInProject64 env w pi ii ri amt invSeed recpSeed
      platformSeed).project.Params.TotalValue = p.Params.TotalValue ∧
    (SeedInvestInProject64 env w pi ii ri amt invSeed recpSeed
      platformSeed).project.Params.MoneyRaised
        = round64 (p.Params.MoneyRaised + env.StoF amt) ∧
    (SeedInvestInProject64 env w pi ii ri amt invSeed recpSeed
      platformSeed).project.Params.Metadata = p.Params.Metadata ∧
    (SeedInvestInProject64 env w pi ii ri amt invSeed recpSeed
      platformSeed).project.Params.InvestorAssetCode = p.Params.InvestorAssetCode ∧
    (SeedInvestInProject64 env w pi ii ri amt invSeed recpSeed
      platformSeed).project.Params.SeedAssetCode
        = env.AssetID (SeedAssetPrefix ++ p.Params.Metadata) ∧
    (SeedInvestInProject64 env w pi ii ri amt invSeed recpSeed
      platformSeed).project.Params.DebtAssetCode =
        (if round64 (p.Params.MoneyRaised + env.StoF amt) = p.Params.TotalValue then
          env.AssetID (DebtAssetPrefix ++ p.Params.Metadata) else p.Params.DebtAssetCode) ∧
    (SeedInvestInProject64 env w pi ii ri amt invSeed recpSeed
      platformSeed).project.Params.PaybackAssetCode =
        (if round64 (p.Params.MoneyRaised + env.StoF amt) = p.Params.TotalValue then
          env.AssetID (PaybackAssetPrefix ++ p.Params.Metadata)
          else p.Params.PaybackAssetCode) ∧
    (SeedInvestInProject64 env w pi ii ri amt invSeed recpSeed
      platformSeed).project.Params.BalLeft =
        (if round64 (p.Params.MoneyRaised + env.StoF amt) = p.Params.TotalValue then
          p.Params.TotalValue else p.Params.BalLeft) ∧
    (SeedInvestInProject64 env w pi ii ri amt invSeed recpSeed platformSeed).project.Stage =
        (if round64 (p.Params.MoneyRaised + env.StoF amt) = p.Params.TotalValue then
          env.FundedProject else p.Stage) := by
  obtain ⟨p', i, r, hp', -, -, -, -, -, hproj, -⟩ :=
    seedInvest64_success env w pi ii ri amt invSeed recpSeed platformSeed h
  rw [hp] at hp'
  cases hp'
  rw [hproj]
  have := settled_fields env (seedRaised64 env (seedRecoded env p) i amt) r
  simpa [seedRaised64, seedRecoded] using this

theorem isFreeze_of_isBoot (c : Call) (h : c.isBoot = true) : c.isFreeze = false := by
  cases c <;> simp_all [Call.isBoot, Call.isFreeze]

theorem isFreeze_of_isCollect (c : Call) (h : c.isCollect = true) : c.isFreeze = false := by
  cases c <;> simp_all [Call.isCollect, Call.isFreeze]

/-- Calls of which none is an issue call hold no freeze. -/
theorem no_freeze_of_filter (l : List Call) (h : (l.filter Call.isIssue).filter Call.isFreeze = []) :
    ∀ x ∈ l, x.isFreeze = false := by
  rw [← filter_isFreeze_of_isIssue, List.filter_eq_nil_iff] at h
  intro x hx
  simpa using h x hx

theorem bootstrap_okU (env : Env) (hs : env.SucceedsUnfrozen) (w : World) (p : Project)
    (s : String) : (bootstrap env w p s).err = none := by
  simp [bootstrap, hs.initIssuer, hs.fundIssuer]

theorem investorBoot_okU (env : Env) (hs : env.SucceedsUnfrozen) (w : World) (p : Project)
    (s : String) : (investorBoot env w p s).err = none := by
  unfold investorBoot
  split
  · exact bootstrap_okU env hs _ _ _
  · rfl

theorem seedBoot_okU (env : Env) (hs : env.SucceedsUnfrozen) (w : World) (p : Project)
    (s : String) : (seedBoot env w p s).err = none := by
  unfold seedBoot
  split
  · exact bootstrap_okU env hs _ _ _
  · rfl

theorem sendUSD_okU (env : Env) (hs : env.SucceedsUnfrozen) (w : World)
    (ps is amt : String) (i : Int) : (SendUSDToPlatform env w ps is amt i).1.2 = none := by
  have hpay := hs.payment w.trace ps is (env.ReturnPubkey w.trace ps).1 env.StablecoinCode
    env.StablecoinPublicKey amt is
    (env.ReturnPubkey (w.trace ++ [Call.ReturnPubkey ps]) is).1
    ("Opensolar investment: " ++ env.ItoS i)
  have hpay' := not_lt.mpr hpay
  simp [SendUSDToPlatform, hs.returnPubkey, hs.getAssetBalance, hs.sendAsset, hpay']

theorem collect_okU (env : Env) (hs : env.SucceedsUnfrozen) (w : World)
    (ps is amt : String) (i : Int) : (collect env w ps is amt i).err = none := by
  unfold collect
  simp only [sendUSD_okU env hs w ps is amt i]
  exact hs.retrieveSeed _ _ _

theorem trustAndMint_okU (env : Env) (hs : env.SucceedsUnfrozen) (w : World)
    (code ipk iseed lim pk is amt : String) (hw : ∀ x ∈ w.trace, x.isFreeze = false) :
    (trustAndMint env w code ipk iseed lim pk is amt).err = none := by
  unfold trustAndMint
  simp only [hs.trustAsset]
  refine hs.sendAssetFromIssuer _ _ _ _ _ _ ?_
  intro x hx
  simp only [log_trace, List.mem_append, List.mem_singleton] at hx
  rcases hx with hx | rfl
  · exact hw x hx
  · rfl

/-- A completed funding-completion step on a ledger on which every call succeeds until a
freeze, started before any freeze. -/
theorem sendRecipientAssets_okU (env : Env) (hs : env.SucceedsUnfrozen) (w : World)
    (p : Project) (r : Recipient) (a b c : String)
    (hw : ∀ x ∈ w.trace, x.isFreeze = false)
    (h : p.Params.MoneyRaised = p.Params.TotalValue) :
    (sendRecipientAssets env w p r a b c).err = none := by
  have m1 : ∀ t1 x1 x2 x3 x4 x5,
      (env.SendAssetFromIssuer (w.trace ++ [Call.TrustAsset t1 x1 x2 x3 x4]) x5 x3 x2 b a).2
        = none := by
    intro t1 x1 x2 x3 x4 x5
    refine hs.sendAssetFromIssuer _ _ _ _ _ _ ?_
    intro x hx
    simp only [List.mem_append, List.mem_singleton] at hx
    rcases hx with hx | rfl
    · exact hw x hx
    · rfl
  have m2 : ∀ t1 x1 x2 x3 x4 y1 y2 y3 y4 y5 z1 z2 z3 z4 z5 u1 u2 u3,
      (env.SendAssetFromIssuer (w.trace ++ [Call.TrustAsset t1 x1 x2 x3 x4,
        Call.SendAssetFromIssuer y1 y2 y3 y4 y5, Call.TrustAsset z1 z2 z3 z4 z5]) u1 u2 u3
        b a).2 = none := by
    intro t1 x1 x2 x3 x4 y1 y2 y3 y4 y5 z1 z2 z3 z4 z5 u1 u2 u3
    refine hs.sendAssetFromIssuer _ _ _ _ _ _ ?_
    intro x hx
    simp only [List.mem_append, List.mem_cons, List.mem_singleton, List.not_mem_nil,
      or_false] at hx
    rcases hx with hx | rfl | rfl | rfl
    · exact hw x hx
    · rfl
    · rfl
    · rfl
  by_cases hn : r.U.Notification = true
  · simp [sendRecipientAssets, h, hs.trustAsset, m1, m2, hs.freezeIssuer,
      hs.saveRecipient, hs.saveProject, CreateAsset, hn]
  · simp [sendRecipientAssets, h, hs.trustAsset, m1, m2, hs.freezeIssuer,
      hs.saveRecipient, hs.saveProject, CreateAsset, hn]

theorem book_okU (env : Env) (hs : env.SucceedsUnfrozen) (w : World) (p : Project)
    (i : Investor) (r : Recipient) (n : Call) (a b c : String)
    (hw : ∀ x ∈ w.trace, x.isFreeze = false) (hn : n.isFreeze = false) :
    (book env w p i r n a b c).err = none := by
  unfold book
  simp only [investorSave_err, hs.saveInvestor]
  generalize hw8 : (if i.U.Notification = true then (Investor.Save env w i).2.log n
    else (Investor.Save env w i).2) = w8
  obtain ⟨-, -, -, l, hl, hl'⟩ := book_noted env w i n w8 hw8.symm
  have hw8' : ∀ x ∈ w8.trace, x.isFreeze = false := by
    intro x hx
    rw [hl] at hx
    rcases List.mem_append.mp hx with hx | hx
    · exact hw x hx
    · rcases hl' with h | h <;> subst h <;> simp at hx
      · subst hx; rfl
      · rcases hx with rfl | rfl
        · rfl
        · exact hn
  by_cases hm : p.Params.MoneyRaised = p.Params.TotalValue
  · simp [sendRecipientAssets_okU env hs w8 p r a b c hw8' hm, hs.saveProject]
  · simp [sendRecipientAssets_not_due env w8 p r a b c hm, hs.saveProject]

/-- On a ledger on which every call succeeds until a freeze, with the records in the
store, `CanInvest` true and no freeze issued yet, `InvestInProject64` returns no error. -/
theorem invest64_okU (env : Env) (hs : env.SucceedsUnfrozen) (w : World) (pi ii ri : Int)
    (amt invSeed recpSeed platformSeed : String) (p : Project) (i : Investor) (r : Recipient)
    (hp : w.projects pi = some p) (hi : w.investors ii = some i)
    (hr : w.recipients ri = some r) (hc : env.CanInvest w.trace i amt = true)
    (hw : ∀ x ∈ w.trace, x.isFreeze = false) :
    (InvestInProject64 env w pi ii ri amt invSeed recpSeed platformSeed).err = none := by
  have hpre := pre_of_lookups env w pi ii ri amt p i r hp hi hr hc
  have hb := investorBoot_okU env hs w p platformSeed
  have hpaid : (investorPaid env w p platformSeed invSeed amt).err = none :=
    collect_okU env hs _ _ _ _ _
  obtain ⟨-, -, -, lb, lc, hl, -, hlb, hlc⟩ := investorPaid_facts env w p platformSeed invSeed amt
  have hwp : ∀ x ∈ (investorPaid env w p platformSeed invSeed amt).world.trace,
      x.isFreeze = false := by
    intro x hx
    rw [hl] at hx
    rcases List.mem_append.mp hx with hx | hx
    · exact hw x hx
    · rcases List.mem_append.mp hx with hx | hx
      · exact isFreeze_of_isBoot x (hlb x hx)
      · exact isFreeze_of_isCollect x (hlc x hx)
  have hmint : (investorMinted env w p i platformSeed invSeed amt).err = none :=
    trustAndMint_okU env hs _ _ _ _ _ _ _ _ hwp
  obtain ⟨-, -, -, lb', lc', lm, hlm, -, hlb', hlc', hlm', -⟩ :=
    investorMinted_facts env w p i platformSeed invSeed amt
  have hwm : ∀ x ∈ (investorMinted env w p i platformSeed invSeed amt).world.trace,
      x.isFreeze = false := by
    intro x hx
    rw [hlm] at hx
    rcases List.mem_append.mp hx with hx | hx
    · exact hw x hx
    · rcases List.mem_append.mp hx with hx | hx
      · rcases List.mem_append.mp hx with hx | hx
        · exact isFreeze_of_isBoot x (hlb' x hx)
        · exact isFreeze_of_isCollect x (hlc' x hx)
      · rcases hlm' with h | h <;> subst h <;> simp at hx
        · subst hx; rfl
        · rcases hx with rfl | rfl <;> rfl
  rw [invest64_booked env w pi ii ri amt invSeed recpSeed platformSeed p i r hpre hb hpaid
    hmint]
  exact book_okU env hs _ _ _ _ _ _ _ _ hwm rfl

/-- On a ledger on which every call succeeds until a freeze, with the records in the
store, `CanInvest` true and no freeze issued yet, `SeedInvestInProject64` returns no
error. -/
theorem seedInvest64_okU (env : Env) (hs : env.SucceedsUnfrozen) (w : World)
    (pi ii ri : Int) (amt invSeed recpSeed platformSeed : String) (p : Project)
    (i : Investor) (r : Recipient)
    (hp : w.projects pi = some p) (hi : w.investors ii = some i)
    (hr : w.recipients ri = some r) (hc : env.CanInvest w.trace i amt = true)
    (hw : ∀ x ∈ w.trace, x.isFreeze = false) :
    (SeedInvestInProject64 env w pi ii ri amt invSeed recpSeed platformSeed).err = none := by
  have hpre := pre_of_lookups env w pi ii ri amt p i r hp hi hr hc
  have hb := seedBoot_okU env hs w p platformSeed
  have hpaid : (seedPaid env w p platformSeed invSeed amt).err = none :=
    collect_okU env hs _ _ _ _ _
  obtain ⟨-, -, -, lb, lc, hl, -, hlb, hlc⟩ := seedPaid_facts env w p platformSeed invSeed amt
  have hwp : ∀ x ∈ (seedPaid env w p platformSeed invSeed amt).world.trace,
      x.isFreeze = false := by
    intro x hx
    rw [hl] at hx
    rcases List.mem_append.mp hx with hx | hx
    · exact hw x hx
    · rcases List.mem_append.mp hx with hx | hx
      · exact isFreeze_of_isBoot x (hlb x hx)
      · exact isFreeze_of_isCollect x (hlc x hx)
  have hmint : (seedMinted env w p i platformSeed invSeed amt).err = none :=
    trustAndMint_okU env hs _ _ _ _ _ _ _ _ hwp
  obtain ⟨-, -, -, lb', lc', lm, hlm, -, hlb', hlc', hlm', -⟩ :=
    seedMinted_facts env w p i platformSeed invSeed amt
  have hwm : ∀ x ∈ (seedMinted env w p i platformSeed invSeed amt).world.trace,
      x.isFreeze = false := by
    intro x hx
    rw [hlm] at hx
    rcases List.mem_append.mp hx with hx | hx
    · exact hw x hx
    · rcases List.mem_append.mp hx with hx | hx
      · rcases List.mem_append.mp hx with hx | hx
        · exact isFreeze_of_isBoot x (hlb' x hx)
        · exact isFreeze_of_isCollect x (hlc' x hx)
      · rcases hlm' with h | h <;> subst h <;> simp at hx
        · subst hx; rfl
        · rcases hx with rfl | rfl <;> rfl
  rw [seedInvest64_booked env w pi ii ri amt invSeed recpSeed platformSeed p i r hpre hb
    hpaid hmint]
  exact book_okU env hs _ _ _ _ _ _ _ _ hwm rfl

/-- A successful `InvestInProject64` below the target issues no freeze. -/
theorem invest64_no_freeze (env : Env) (w : World) (pi ii ri : Int)
    (amt invSeed recpSeed platformSeed : String) (p : Project)
    (hp : w.projects pi = some p)
    (h : (InvestInProject64 env w pi ii ri amt invSeed recpSeed platformSeed).err = none)
    (hne : round64 (p.Params.MoneyRaised + env.StoF amt) ≠ p.Params.TotalValue)
    (hw : ∀ x ∈ w.trace, x.isFreeze = false) :
    ∀ x ∈ (InvestInProject64 env w pi ii ri amt invSeed recpSeed platformSeed).world.trace,
      x.isFreeze = false := by
  obtain ⟨p', i, r, hp', -, -, -, -, -, -, -, -, -, l, hl, hf⟩ :=
    invest64_success env w pi ii ri amt invSeed recpSeed platformSeed h
  cases (Option.some.inj (hp.symm.trans hp'))
  have hq : ¬ (investorRaised64 env (investorCoded env p) i amt).Params.MoneyRaised
      = (investorRaised64 env (investorCoded env p) i amt).Params.TotalValue := by
    simpa [investorRaised64] using hne
  simp only [hq, if_false, List.append_nil] at hf
  intro x hx
  rw [hl] at hx
  rcases List.mem_append.mp hx with hx | hx
  · exact hw x hx
  · exact no_freeze_of_filter l (by rw [hf]; simp [List.filter, Call.isFreeze]) x hx

/-! ### The ledger of the examples that honours the freeze -/

theorem demoEnvFreeze_succeeds : demoEnvFreeze.SucceedsUnfrozen where
  initIssuer := fun _ _ _ => rfl
  fundIssuer := fun _ _ _ _ => rfl
  returnPubkey := fun _ _ => rfl
  getAssetBalance := fun _ _ _ => rfl
  sendAsset := fun _ _ _ _ _ _ _ _ => rfl
  retrieveSeed := fun _ _ _ => rfl
  trustAsset := fun _ _ _ _ _ _ => rfl
  sendAssetFromIssuer := by
    intro h a b c d e hh
    have : h.any Call.isFreeze = false := by
      rw [List.any_eq_false]
      intro x hx
      simp [hh x hx]
    show (if h.any Call.isFreeze = true then
      (("", some "op_no_issuer: issuer frozen") : String × Option String)
      else ("txmint", none)).2 = none
    rw [this]
    rfl
  freezeIssuer := fun _ _ _ => rfl
  saveInvestor := fun _ _ => rfl
  saveRecipient := fun _ _ => rfl
  saveProject := fun _ _ => rfl
  payment := by
    intro h ps is k c i a s pk m
    simp [demoEnvFreeze, demoEnv, demoBalance, demoStoFHalves, demoStoF]

/-- On the ledger of the examples every issuer key is frozen once a freeze has been
issued. -/
theorem demoEnvFreeze_frozenKey (s k : String) (h0 : List Call)
    (h : ∃ x ∈ h0, x.isFreeze = true) : demoEnvFreeze.FrozenKey s k h0 := by
  intro h' code d a hp
  obtain ⟨x, hx, hxf⟩ := h
  have : h'.any Call.isFreeze = true := by
    rw [List.any_eq_true]
    exact ⟨x, hp.subset hx, hxf⟩
  show (if h'.any Call.isFreeze = true then
    (("", some "op_no_issuer: issuer frozen") : String × Option String)
    else ("txmint", none)).2 ≠ none
  rw [this]
  simp

theorem demoEnvFreeze_honours : demoEnvFreeze.HonoursFreeze := by
  intro h index pwd _ hr
  exact demoEnvFreeze_frozenKey _ _ _ ⟨Call.FreezeIssuer index pwd, by simp, rfl⟩

theorem demoEnvFreeze_assetID (s : String) : demoEnvFreeze.AssetID s ≠ "" :=
  demoEnv_assetID s

theorem demoEnvFreeze_canInvest (h : List Call) (i : Investor) (a : String) :
    demoEnvFreeze.CanInvest h i a = true := rfl

@[simp] theorem demoEnvFreeze_StoF_1000 : demoEnvFreeze.StoF "1000" = 1000 := by decide
@[simp] theorem demoEnvFreeze_StoF_600 : demoEnvFreeze.StoF "600" = 600 := by decide
@[simp] theorem demoEnvFreeze_StoF_400 : demoEnvFreeze.StoF "400" = 400 := by decide
@[simp] theorem demoEnvFreeze_StoF_1 : demoEnvFreeze.StoF "1" = 1 := by decide
@[simp] theorem demoEnvFreeze_StoF_0 : demoEnvFreeze.StoF "0" = 0 := by decide
@[simp] theorem demoEnvFreeze_StoF_halves : demoEnvFreeze.StoF "1.5" = 3 / 2 := by
  show demoStoFHalves "1.5" = 3 / 2
  simp [demoStoFHalves]

/-! ### The funding-completion step with the issuer key frozen -/

/-- With the target met and the issuer key frozen the funding-completion step fails at
its first mint at the latest: it returns an error, hands back the project with the two
codes assigned, writes no bucket and issues the payback trust line and, when that
succeeds, the refused payback mint. -/
theorem sendRecipientAssets_of_frozenKey (env : Env) (w : World) (p : Project)
    (r : Recipient) (ipk iseed recpSeed : String)
    (hm : p.Params.MoneyRaised = p.Params.TotalValue)
    (hk : env.FrozenKey iseed ipk w.trace) :
    (sendRecipientAssets env w p r ipk iseed recpSeed).err ≠ none ∧
    (sendRecipientAssets env w p r ipk iseed recpSeed).project = withCodes env p ∧
    (sendRecipientAssets env w p r ipk iseed recpSeed).world.projects = w.projects ∧
    (sendRecipientAssets env w p r ipk iseed recpSeed).world.investors = w.investors ∧
    (sendRecipientAssets env w p r ipk iseed recpSeed).world.recipients = w.recipients ∧
    ((sendRecipientAssets env w p r ipk iseed recpSeed).world.trace = w.trace ++
        [Call.TrustAsset (env.AssetID (PaybackAssetPrefix ++ p.Params.Metadata)) ipk
          (env.ItoS (wrapInt (wrapInt (p.Params.Years * 12) * 2))) r.U.PublicKey recpSeed] ∨
      (sendRecipientAssets env w p r ipk iseed recpSeed).world.trace = w.trace ++
        [Call.TrustAsset (env.AssetID (PaybackAssetPrefix ++ p.Params.Metadata)) ipk
          (env.ItoS (wrapInt (wrapInt (p.Params.Years * 12) * 2))) r.U.PublicKey recpSeed,
         Call.SendAssetFromIssuer (env.AssetID (PaybackAssetPrefix ++ p.Params.Metadata))
          r.U.PublicKey (env.ItoS (wrapInt (wrapInt (p.Params.Years * 12) * 2))) iseed ipk]) ∧
    ((env.TrustAsset w.trace (env.AssetID (PaybackAssetPrefix ++ p.Params.Metadata)) ipk
        (env.ItoS (wrapInt (wrapInt (p.Params.Years * 12) * 2))) r.U.PublicKey recpSeed).2
        = none →
      (sendRecipientAssets env w p r ipk iseed recpSeed).world.trace = w.trace ++
        [Call.TrustAsset (env.AssetID (PaybackAssetPrefix ++ p.Params.Metadata)) ipk
          (env.ItoS (wrapInt (wrapInt (p.Params.Years * 12) * 2))) r.U.PublicKey recpSeed,
         Call.SendAssetFromIssuer (env.AssetID (PaybackAssetPrefix ++ p.Params.Metadata))
          r.U.PublicKey (env.ItoS (wrapInt (wrapInt (p.Params.Years * 12) * 2))) iseed
          ipk]) := by
  have hmint := hk (w.trace ++
    [Call.TrustAsset (env.AssetID (PaybackAssetPrefix ++ p.Params.Metadata)) ipk
      (env.ItoS (wrapInt (wrapInt (p.Params.Years * 12) * 2))) r.U.PublicKey recpSeed])
    (env.AssetID (PaybackAssetPrefix ++ p.Params.Metadata)) r.U.PublicKey
    (env.ItoS (wrapInt (wrapInt (p.Params.Years * 12) * 2))) (List.prefix_append _ _)
  unfold sendRecipientAssets
  simp only [hm, ne_eq, not_true_eq_false, if_false, CreateAsset, log_trace]
  split
  · rename_i e he
    simp [withCodes, he]
    exact hm.symm
  · rename_i he
    split
    · simp [withCodes]
      exact hm.symm
    · rename_i hn
      exact absurd hn hmint

/-! ### A round on a project whose issuer is frozen -/

/-- A second run of the funding-completion step after a first that returned no error at
the target, on a ledger that honours the freeze, with the issuer key of the project. -/
theorem fundingAgain_spec (env : Env) (hfz : env.HonoursFreeze) (w : World) (p : Project)
    (r : Recipient) (hr : List Call) (recpSeed : String)
    (hm : p.Params.MoneyRaised = p.Params.TotalValue)
    (h1 : (sendRecipientAssets env w p r (issuerKey env p.Params.Index hr).1
      (issuerKey env p.Params.Index hr).2 recpSeed).err = none) :
    (sendRecipientAssets env w p r (issuerKey env p.Params.Index hr).1
      (issuerKey env p.Params.Index hr).2 recpSeed).project = funded env p r ∧
    (fundingAgain env w p r (issuerKey env p.Params.Index hr).1
      (issuerKey env p.Params.Index hr).2 recpSeed).err ≠ none ∧
    (fundingAgain env w p r (issuerKey env p.Params.Index hr).1
      (issuerKey env p.Params.Index hr).2 recpSeed).project = funded env p r ∧
    (fundingAgain env w p r (issuerKey env p.Params.Index hr).1
        (issuerKey env p.Params.Index hr).2 recpSeed).world.projects
      = (sendRecipientAssets env w p r (issuerKey env p.Params.Index hr).1
        (issuerKey env p.Params.Index hr).2 recpSeed).world.projects ∧
    (fundingAgain env w p r (issuerKey env p.Params.Index hr).1
        (issuerKey env p.Params.Index hr).2 recpSeed).world.investors
      = (sendRecipientAssets env w p r (issuerKey env p.Params.Index hr).1
        (issuerKey env p.Params.Index hr).2 recpSeed).world.investors ∧
    (fundingAgain env w p r (issuerKey env p.Params.Index hr).1
        (issuerKey env p.Params.Index hr).2 recpSeed).world.recipients
      = (sendRecipientAssets env w p r (issuerKey env p.Params.Index hr).1
        (issuerKey env p.Params.Index hr).2 recpSeed).world.recipients ∧
    (callsSince
        (sendRecipientAssets env w p r (issuerKey env p.Params.Index hr).1
          (issuerKey env p.Params.Index hr).2 recpSeed).world
        (fundingAgain env w p r (issuerKey env p.Params.Index hr).1
          (issuerKey env p.Params.Index hr).2 recpSeed).world =
        [Call.TrustAsset (env.AssetID (PaybackAssetPrefix ++ p.Params.Metadata))
          (issuerKey env p.Params.Index hr).1
          (env.ItoS (wrapInt (wrapInt (p.Params.Years * 12) * 2))) r.U.PublicKey recpSeed] ∨
      callsSince
        (sendRecipientAssets env w p r (issuerKey env p.Params.Index hr).1
          (issuerKey env p.Params.Index hr).2 recpSeed).world
        (fundingAgain env w p r (issuerKey env p.Params.Index hr).1
          (issuerKey env p.Params.Index hr).2 recpSeed).world =
        [Call.TrustAsset (env.AssetID (PaybackAssetPrefix ++ p.Params.Metadata))
          (issuerKey env p.Params.Index hr).1
          (env.ItoS (wrapInt (wrapInt (p.Params.Years * 12) * 2))) r.U.PublicKey recpSeed,
         Call.SendAssetFromIssuer (env.AssetID (PaybackAssetPrefix ++ p.Params.Metadata))
          r.U.PublicKey (env.ItoS (wrapInt (wrapInt (p.Params.Years * 12) * 2)))
          (issuerKey env p.Params.Index hr).2 (issuerKey env p.Params.Index hr).1]) ∧
    ((env.TrustAsset
        (sendRecipientAssets env w p r (issuerKey env p.Params.Index hr).1
          (issuerKey env p.Params.Index hr).2 recpSeed).world.trace
        (env.AssetID (PaybackAssetPrefix ++ p.Params.Metadata))
        (issuerKey env p.Params.Index hr).1
        (env.ItoS (wrapInt (wrapInt (p.Params.Years * 12) * 2))) r.U.PublicKey recpSeed).2
        = none →
      callsSince
        (sendRecipientAssets env w p r (issuerKey env p.Params.Index hr).1
          (issuerKey env p.Params.Index hr).2 recpSeed).world
        (fundingAgain env w p r (issuerKey env p.Params.Index hr).1
          (issuerKey env p.Params.Index hr).2 recpSeed).world =
        [Call.TrustAsset (env.AssetID (PaybackAssetPrefix ++ p.Params.Metadata))
          (issuerKey env p.Params.Index hr).1
          (env.ItoS (wrapInt (wrapInt (p.Params.Years * 12) * 2))) r.U.PublicKey recpSeed,
         Call.SendAssetFromIssuer (env.AssetID (PaybackAssetPrefix ++ p.Params.Metadata))
          r.U.PublicKey (env.ItoS (wrapInt (wrapInt (p.Params.Years * 12) * 2)))
          (issuerKey env p.Params.Index hr).2 (issuerKey env p.Params.Index hr).1]) := by
  have hF := sendRecipientAssets_frozen env hfz w p r _ _ recpSeed hm h1
  obtain ⟨d1, -⟩ := sendRecipientAssets_done env w p r _ _ recpSeed hm h1
  have hm2 : (funded env p r).Params.MoneyRaised = (funded env p r).Params.TotalValue := hm
  have hwc : withCodes env (funded env p r) = funded env p r := rfl
  unfold fundingAgain
  rw [d1]
  obtain ⟨s1, s2, s3, s4, s5, s6, s7⟩ := sendRecipientAssets_of_frozenKey env
    (sendRecipientAssets env w p r (issuerKey env p.Params.Index hr).1
      (issuerKey env p.Params.Index hr).2 recpSeed).world (funded env p r) r
    (issuerKey env p.Params.Index hr).1 (issuerKey env p.Params.Index hr).2 recpSeed hm2
    (hF hr)
  refine ⟨rfl, s1, s2.trans hwc, s3, s4, s5, ?_, ?_⟩
  · rcases s6 with h | h
    · exact Or.inl (callsSince_append _ _ _ h)
    · exact Or.inr (callsSince_append _ _ _ h)
  · intro ht
    exact callsSince_append _ _ _ (s7 ht)

/-! ### The examples on the ledger that honours the freeze -/

theorem demoWorld_no_freeze : ∀ x ∈ demoWorld.trace, x.isFreeze = false := by
  intro x hx
  simp [demoWorld] at hx

/-- Investor A's investment of 600: no error, the project stored with 600 raised and no
code set, the records of investor B and of the recipient still in the store, no freeze
issued. -/
theorem demoPartA64_facts :
    demoPartA64.err = none ∧
    demoPartA64.world.projects 1 = some demoPartA64.project ∧
    demoPartA64.project.Params.Index = 1 ∧
    demoPartA64.project.Params.TotalValue = 1000 ∧
    demoPartA64.project.Params.MoneyRaised = 600 ∧
    demoPartA64.project.Params.DebtAssetCode = "" ∧
    demoPartA64.project.Params.PaybackAssetCode = "" ∧
    demoPartA64.world.investors 2 = some demoInvestorB ∧
    demoPartA64.world.recipients 1 = some demoRecipient ∧
    (∀ x ∈ demoPartA64.world.trace, x.isFreeze = false) := by
  rw [demoPartA64]
  have hp : demoWorld.projects 1 = some demoProject := rfl
  have e1 := invest64_okU demoEnvFreeze demoEnvFreeze_succeeds
    demoWorld 1 1 1 "600" "SINVA" "SRECP" "SPLAT" demoProject demoInvestor demoRecipient hp
    rfl rfl rfl demoWorld_no_freeze
  have hr : round64 (demoProject.Params.MoneyRaised + demoEnvFreeze.StoF "600") = 600 := by
    norm_num [demoProject]
  have hne : round64 (demoProject.Params.MoneyRaised + demoEnvFreeze.StoF "600")
      ≠ demoProject.Params.TotalValue := by
    rw [hr]; norm_num [demoProject]
  obtain ⟨f1, f2, f3, -, -, -, f7, f8, -⟩ := invest64_success_fields demoEnvFreeze demoWorld
    1 1 1 "600" "SINVA" "SRECP" "SPLAT" demoProject hp e1
  obtain ⟨p, i, r, hp', hi', hr', -, -, -, -, hst, hinv, hrec, -⟩ :=
    invest64_success demoEnvFreeze demoWorld 1 1 1 "600" "SINVA" "SRECP" "SPLAT" e1
  cases (Option.some.inj (hp.symm.trans hp'))
  have hi0 : demoWorld.investors 1 = some demoInvestor := rfl
  have hr0 : demoWorld.recipients 1 = some demoRecipient := rfl
  cases (Option.some.inj (hi0.symm.trans hi'))
  cases (Option.some.inj (hr0.symm.trans hr'))
  have hq : ¬ (investorRaised64 demoEnvFreeze (investorCoded demoEnvFreeze demoProject)
      demoInvestor "600").Params.MoneyRaised
      = (investorRaised64 demoEnvFreeze (investorCoded demoEnvFreeze demoProject)
      demoInvestor "600").Params.TotalValue := by
    simpa [investorRaised64] using hne
  rw [if_neg hq] at hrec
  have hidx : demoProject.Params.Index = 1 := rfl
  have htv : demoProject.Params.TotalValue = 1000 := rfl
  rw [hidx] at hst f1
  rw [htv] at f2
  refine ⟨e1, hst, f1, f2, f3.trans hr, ?_, ?_, ?_, ?_,
    invest64_no_freeze demoEnvFreeze demoWorld 1 1 1 "600" "SINVA" "SRECP" "SPLAT" demoProject
      hp e1 hne demoWorld_no_freeze⟩
  · rw [f7, if_neg hne]; rfl
  · rw [f8, if_neg hne]; rfl
  · rw [hinv]; rfl
  · rw [hrec]; rfl

/-- C8. If the project, the investor or the recipient is not in the store, or
`investor.CanInvest(amount)` is false, then `InvestInProject` and `SeedInvestInProject`
return a non-nil error and hand back the world they were given: no call of any kind is
issued (no bootstrap, payment, trust line or mint) and no bucket is written. -/
theorem C8_precondition_failure_touches_nothing (env : Env) (w : World)
    (projIndex invIndex recpIndex : Int) (invAmount invSeed recpSeed platformSeed : String)
    (h : w.projects projIndex = none ∨ w.investors invIndex = none ∨
      w.recipients recpIndex = none ∨
      ∃ i, w.investors invIndex = some i ∧ env.CanInvest w.trace i invAmount = false) :
    (InvestInProject env w projIndex invIndex recpIndex invAmount invSeed recpSeed
        platformSeed).err ≠ none ∧
    (InvestInProject env w projIndex invIndex recpIndex invAmount invSeed recpSeed
        platformSeed).world = w ∧
    callsSince w (InvestInProject env w projIndex invIndex recpIndex invAmount invSeed
        recpSeed platformSeed).world = [] ∧
    (SeedInvestInProject env w projIndex invIndex recpIndex invAmount invSeed recpSeed
        platformSeed).err ≠ none ∧
    (SeedInvestInProject env w projIndex invIndex recpIndex invAmount invSeed recpSeed
        platformSeed).world = w ∧
    callsSince w (SeedInvestInProject env w projIndex invIndex recpIndex invAmount invSeed
        recpSeed platformSeed).world = [] := by
  have hne := pre_err_some env w projIndex invIndex recpIndex invAmount h
  cases he : (PreInvestmentCheck env w projIndex invIndex recpIndex invAmount).err with
  | none => exact absurd he hne
  | some e =>
    rw [invest_of_pre_err env w projIndex invIndex recpIndex invAmount invSeed recpSeed
        platformSeed e he,
      seedInvest_of_pre_err env w projIndex invIndex recpIndex invAmount invSeed recpSeed
        platformSeed e he]
    simp

/-- C8 at a concrete input: investor key 7 is not in the store of the examples. -/
theorem C8_precondition_failure_touches_nothing_witness :
    (InvestInProject demoEnv demoWorld 1 7 1 "400" "SINV" "SRECP" "SPLAT").err ≠ none ∧
    (InvestInProject demoEnv demoWorld 1 7 1 "400" "SINV" "SRECP" "SPLAT").world
      = demoWorld ∧
    callsSince demoWorld
      (InvestInProject demoEnv demoWorld 1 7 1 "400" "SINV" "SRECP" "SPLAT").world = [] ∧
    (SeedInvestInProject demoEnv demoWorld 1 7 1 "400" "SINV" "SRECP" "SPLAT").err ≠ none ∧
    (SeedInvestInProject demoEnv demoWorld 1 7 1 "400" "SINV" "SRECP" "SPLAT").world
      = demoWorld ∧
    callsSince demoWorld
      (SeedInvestInProject demoEnv demoWorld 1 7 1 "400" "SINV" "SRECP" "SPLAT").world = [] :=
  C8_precondition_failure_touches_nothing demoEnv demoWorld 1 7 1 "400" "SINV" "SRECP" "SPLAT"
    (Or.inr (Or.inl (by simp [demoWorld])))

/-- C1, at the failing input. Project 1 has total value 1000 and nothing raised; the
investor and the recipient are in the store and `CanInvest` holds; the amount "1001"
exceeds `TotalValue - MoneyRaised`. `PreInvestmentCheck` returns a nil error, and
`InvestInProject` and `SeedInvestInProject` go on to return a nil error and a project
whose `MoneyRaised` is 1001. -/
theorem C1_oversubscription_returns_nil :
    demoEnv.StoF "1001" > demoProject.Params.TotalValue - demoProject.Params.MoneyRaised ∧
    (PreInvestmentCheck demoEnv demoWorld 1 1 1 "1001").err = none ∧
    (InvestInProject demoEnv demoWorld 1 1 1 "1001" "SINV" "SRECP" "SPLAT").err = none ∧
    (InvestInProject demoEnv demoWorld 1 1 1 "1001" "SINV" "SRECP"
      "SPLAT").project.Params.MoneyRaised = 1001 ∧
    (SeedInvestInProject demoEnv demoWorld 1 1 1 "1001" "SINV" "SRECP" "SPLAT").err = none ∧
    (SeedInvestInProject demoEnv demoWorld 1 1 1 "1001" "SINV" "SRECP"
      "SPLAT").project.Params.MoneyRaised = 1001 := by
  have hp : demoWorld.projects 1 = some demoProject := rfl
  have hi : demoWorld.investors 1 = some demoInvestor := rfl
  have hr : demoWorld.recipients 1 = some demoRecipient := rfl
  have e1 := invest_ok demoEnv demoEnv_succeeds demoWorld 1 1 1 "1001" "SINV" "SRECP" "SPLAT"
    demoProject demoInvestor demoRecipient hp hi hr rfl
  have e2 := seedInvest_ok demoEnv demoEnv_succeeds demoWorld 1 1 1 "1001" "SINV" "SRECP"
    "SPLAT" demoProject demoInvestor demoRecipient hp hi hr rfl
  have f1 := (invest_success_fields demoEnv demoWorld 1 1 1 "1001" "SINV" "SRECP" "SPLAT"
    demoProject hp e1).2.2.1
  have f2 := (seedInvest_success_fields demoEnv demoWorld 1 1 1 "1001" "SINV" "SRECP" "SPLAT"
    demoProject hp e2).2.2.1
  refine ⟨?_, ?_, e1, ?_, e2, ?_⟩
  · norm_num [demoProject]
  · rw [pre_of_lookups demoEnv demoWorld 1 1 1 "1001" demoProject demoInvestor demoRecipient
      hp hi hr rfl]
  · rw [f1]; norm_num [demoProject]
  · rw [f2]; norm_num [demoProject]

/-- C2, as stated, fails. Project 1 has `0 ≤ MoneyRaised ≤ TotalValue` (0 and 1000);
`InvestInProject` with the amount "-1", every ledger and store call succeeding, returns
no error and a project with `MoneyRaised = -1`, and that project is the one in the
store afterwards. No line of the round looks at the sign of the amount. -/
theorem C2_counterexample_negative_amount :
    demoProject.WithinTarget ∧
    (InvestInProject demoEnv demoWorld 1 1 1 "-1" "SINV" "SRECP" "SPLAT").err = none ∧
    ¬ (InvestInProject demoEnv demoWorld 1 1 1 "-1" "SINV" "SRECP"
        "SPLAT").project.WithinTarget ∧
    (InvestInProject demoEnv demoWorld 1 1 1 "-1" "SINV" "SRECP" "SPLAT").world.projects 1
      = some (InvestInProject demoEnv demoWorld 1 1 1 "-1" "SINV" "SRECP" "SPLAT").project := by
  have hp : demoWorld.projects 1 = some demoProject := rfl
  have e1 := invest_ok demoEnv demoEnv_succeeds demoWorld 1 1 1 "-1" "SINV" "SRECP" "SPLAT"
    demoProject demoInvestor demoRecipient hp rfl rfl rfl
  have f1 := (invest_success_fields demoEnv demoWorld 1 1 1 "-1" "SINV" "SRECP" "SPLAT"
    demoProject hp e1).2.2.1
  obtain ⟨p, i, r, hp', -, -, -, -, hst, -⟩ :=
    invest_err_none demoEnv demoWorld 1 1 1 "-1" "SINV" "SRECP" "SPLAT" e1
  rw [hp] at hp'
  cases hp'
  refine ⟨?_, e1, ?_, hst⟩
  · norm_num [Project.WithinTarget, demoProject]
  · intro h
    have h0 := h.1
    rw [f1] at h0
    norm_num [demoProject] at h0

/-- C2, amended. If every project in the store has `0 ≤ MoneyRaised ≤ TotalValue` and
the amount lies between zero and the remaining need `TotalValue - MoneyRaised` of the
project read, then after `InvestInProject` and after `SeedInvestInProject`, whatever the
ledger and store calls answer, the project handed back and every project in the store
have `0 ≤ MoneyRaised ≤ TotalValue`. -/
theorem C2_invariant_for_amounts_within_need (env : Env) (w : World)
    (projIndex invIndex recpIndex : Int) (invAmount invSeed recpSeed platformSeed : String)
    (hstore : ∀ k q, w.projects k = some q → q.WithinTarget)
    (hamt : ∀ p, w.projects projIndex = some p →
      0 ≤ env.StoF invAmount ∧
      env.StoF invAmount ≤ p.Params.TotalValue - p.Params.MoneyRaised) :
    (InvestInProject env w projIndex invIndex recpIndex invAmount invSeed recpSeed
      platformSeed).project.WithinTarget ∧
    (∀ k q, (InvestInProject env w projIndex invIndex recpIndex invAmount invSeed recpSeed
      platformSeed).world.projects k = some q → q.WithinTarget) ∧
    (SeedInvestInProject env w projIndex invIndex recpIndex invAmount invSeed recpSeed
      platformSeed).project.WithinTarget ∧
    (∀ k q, (SeedInvestInProject env w projIndex invIndex recpIndex invAmount invSeed recpSeed
      platformSeed).world.projects k = some q → q.WithinTarget) := by
  have key : ∀ o : Outcome, StoreStep o.project w o.world → o.project.WithinTarget →
      o.project.WithinTarget ∧ ∀ k q, o.world.projects k = some q → q.WithinTarget := by
    intro o hst hin
    refine ⟨hin, fun k q hq => ?_⟩
    rcases hst k q hq with h | h
    · exact hstore k q h
    · rw [h]; exact hin
  cases hp : w.projects projIndex with
  | none =>
    have hne := pre_err_some env w projIndex invIndex recpIndex invAmount (Or.inl hp)
    cases he : (PreInvestmentCheck env w projIndex invIndex recpIndex invAmount).err with
    | none => exact absurd he hne
    | some e =>
      rw [invest_of_pre_err env w projIndex invIndex recpIndex invAmount invSeed recpSeed
          platformSeed e he,
        seedInvest_of_pre_err env w projIndex invIndex recpIndex invAmount invSeed recpSeed
          platformSeed e he]
      have hd : (default : Project).WithinTarget := by
        constructor <;> exact le_refl (0 : ℚ)
      simp only [pre_project, retrieveProject_of_missing w projIndex hp]
      exact ⟨hd, hstore, hd, hstore⟩
  | some p =>
    obtain ⟨h0, h1⟩ := hamt p hp
    obtain ⟨hp0, hp1⟩ := hstore projIndex p hp
    obtain ⟨hs1, hc1⟩ := invest_paths env w projIndex invIndex recpIndex invAmount invSeed
      recpSeed platformSeed
    obtain ⟨hs2, hc2⟩ := seedInvest_paths env w projIndex invIndex recpIndex invAmount invSeed
      recpSeed platformSeed
    rw [retrieveProject_of_lookup w projIndex p hp] at hc1 hc2
    have a1 := key _ hs1 (by
      rcases hc1 with h | h | ⟨i, r, h | ⟨-, h | h⟩⟩ <;> rw [h] <;>
        unfold Project.WithinTarget <;>
        (try simp only [investorRaised, withCodes, funded, investorCoded_MoneyRaised,
          investorCoded_TotalValue]) <;>
        constructor <;> linarith)
    have a2 := key _ hs2 (by
      rcases hc2 with h | h | h | ⟨i, r, h | ⟨-, h | h⟩⟩ <;> rw [h] <;>
        unfold Project.WithinTarget <;>
        (try simp only [seedRaised, seedRecoded, withCodes, funded, seedCoded_MoneyRaised,
          seedCoded_TotalValue]) <;>
        constructor <;> linarith)
    exact ⟨a1.1, a1.2, a2.1, a2.2⟩

/-- C2, amended, at a concrete input: investor A puts 400 into project 1 (total value
1000, nothing raised). -/
theorem C2_invariant_for_amounts_within_need_witness :
    (InvestInProject demoEnv demoWorld 1 1 1 "400" "SINV" "SRECP"
      "SPLAT").project.WithinTarget ∧
    (∀ k q, (InvestInProject demoEnv demoWorld 1 1 1 "400" "SINV" "SRECP"
      "SPLAT").world.projects k = some q → q.WithinTarget) ∧
    (SeedInvestInProject demoEnv demoWorld 1 1 1 "400" "SINV" "SRECP"
      "SPLAT").project.WithinTarget ∧
    (∀ k q, (SeedInvestInProject demoEnv demoWorld 1 1 1 "400" "SINV" "SRECP"
      "SPLAT").world.projects k = some q → q.WithinTarget) :=
  C2_invariant_for_amounts_within_need demoEnv demoWorld 1 1 1 "400" "SINV" "SRECP" "SPLAT"
    (by
      intro k q h
      by_cases hk : k = 1
      · subst hk
        cases (Option.some.inj h)
        norm_num [Project.WithinTarget, demoProject]
      · simp [demoWorld, hk] at h)
    (by
      intro p h
      cases (Option.some.inj h)
      norm_num [demoProject])

set_option linter.unusedVariables false in
/-- C6. Let every ledger and store call succeed and the identifier derivation never
return the empty string. For every project in the store and every amount with
`MoneyRaised + amount = TotalValue`, investor and recipient in the store and `CanInvest`
true, `InvestInProject` returns no error and a project with `MoneyRaised = TotalValue`,
non-empty `DebtAssetCode` and `PaybackAssetCode`, `Stage = FundedProject` and
`BalLeft = TotalValue`; `FreezeIssuer` is called exactly once; the recipient stored under
the recipient's index is the recipient read with `DebtAssetCode` appended to
`ReceivedSolarProjects`; and the project handed back is the one stored under the
project's index. -/
theorem C6_full_investment_funds_project (env : Env) (hs : env.Succeeds)
    (hid : ∀ s, env.AssetID s ≠ "") (w : World)
    (projIndex invIndex recpIndex : Int) (invAmount invSeed recpSeed platformSeed : String)
    (p : Project) (i : Investor) (r : Recipient)
    (hp : w.projects projIndex = some p) (hi : w.investors invIndex = some i)
    (hr : w.recipients recpIndex = some r) (hc : env.CanInvest w.trace i invAmount = true)
    (hsum : p.Params.MoneyRaised + env.StoF invAmount = p.Params.TotalValue) :
    (InvestInProject env w projIndex invIndex recpIndex invAmount invSeed recpSeed
      platformSeed).err = none ∧
    (InvestInProject env w projIndex invIndex recpIndex invAmount invSeed recpSeed
      platformSeed).project.Params.MoneyRaised = p.Params.TotalValue ∧
    (InvestInProject env w projIndex invIndex recpIndex invAmount invSeed recpSeed
      platformSeed).project.Params.TotalValue = p.Params.TotalValue ∧
    (InvestInProject env w projIndex invIndex recpIndex invAmount invSeed recpSeed
      platformSeed).project.Params.DebtAssetCode ≠ "" ∧
    (InvestInProject env w projIndex invIndex recpIndex invAmount invSeed recpSeed
      platformSeed).project.Params.PaybackAssetCode ≠ "" ∧
    (InvestInProject env w projIndex invIndex recpIndex invAmount invSeed recpSeed
      platformSeed).project.Stage = env.FundedProject ∧
    (InvestInProject env w projIndex invIndex recpIndex invAmount invSeed recpSeed
      platformSeed).project.Params.BalLeft = p.Params.TotalValue ∧
    (callsSince w (InvestInProject env w projIndex invIndex recpIndex invAmount invSeed
      recpSeed platformSeed).world).filter Call.isFreeze
        = [Call.FreezeIssuer p.Params.Index "blah"] ∧
    (InvestInProject env w projIndex invIndex recpIndex invAmount invSeed recpSeed
      platformSeed).world.recipients r.U.Index =
        some { r with ReceivedSolarProjects := r.ReceivedSolarProjects ++
          [(InvestInProject env w projIndex invIndex recpIndex invAmount invSeed recpSeed
            platformSeed).project.Params.DebtAssetCode] } ∧
    (InvestInProject env w projIndex invIndex recpIndex invAmount invSeed recpSeed
      platformSeed).world.projects p.Params.Index =
        some (InvestInProject env w projIndex invIndex recpIndex invAmount invSeed recpSeed
          platformSeed).project := by
  have e1 := invest_ok env hs w projIndex invIndex recpIndex invAmount invSeed recpSeed
    platformSeed p i r hp hi hr hc
  obtain ⟨-, f2, f3, -, -, -, f7, f8, f9, f10⟩ := invest_success_fields env w projIndex
    invIndex recpIndex invAmount invSeed recpSeed platformSeed p hp e1
  obtain ⟨p1, i1, r1, hp1, hi1, hr1, -, -, hst, -, hrec, iss, seed, hcalls⟩ :=
    invest_err_none env w projIndex invIndex recpIndex invAmount invSeed recpSeed
      platformSeed e1
  cases (Option.some.inj (hp.symm.trans hp1))
  cases (Option.some.inj (hi.symm.trans hi1))
  cases (Option.some.inj (hr.symm.trans hr1))
  have hq : (investorRaised env (investorCoded env p) i invAmount).Params.MoneyRaised
      = (investorRaised env (investorCoded env p) i invAmount).Params.TotalValue := by
    simpa [investorRaised] using hsum
  simp only [hsum, if_true] at f7 f8 f9 f10
  simp only [hq, if_true] at hrec hcalls
  refine ⟨e1, by rw [f3, hsum], f2, by rw [f7]; exact hid _, by rw [f8]; exact hid _, f10, f9,
    ?_, ?_, hst⟩
  · rw [filter_isFreeze_of_isIssue, hcalls]
    simp [fundingCalls, investorRaised, List.filter, Call.isFreeze]
  · rw [hrec, f7]
    simp [recipientCredited, investorRaised]

/-- C6 at the input of the scenario: total value 1000, nothing raised, investor A invests
1000 in one call. -/
theorem C6_full_investment_funds_project_witness :
    demoFull.err = none ∧
    demoFull.project.Params.MoneyRaised = 1000 ∧
    demoFull.project.Params.TotalValue = 1000 ∧
    demoFull.project.Params.DebtAssetCode ≠ "" ∧
    demoFull.project.Params.PaybackAssetCode ≠ "" ∧
    demoFull.project.Stage = demoEnv.FundedProject ∧
    demoFull.project.Params.BalLeft = 1000 ∧
    (callsSince demoWorld demoFull.world).filter Call.isFreeze
      = [Call.FreezeIssuer 1 "blah"] ∧
    demoFull.world.recipients 1 =
      some { demoRecipient with ReceivedSolarProjects :=
        demoRecipient.ReceivedSolarProjects ++ [demoFull.project.Params.DebtAssetCode] } ∧
    demoFull.world.projects 1 = some demoFull.project :=
  C6_full_investment_funds_project demoEnv demoEnv_succeeds demoEnv_assetID demoWorld 1 1 1
    "1000" "SINVA" "SRECP" "SPLAT" demoProject demoInvestor demoRecipient rfl rfl rfl rfl
    (by norm_num [demoProject])

/-- C9, as stated, fails. `demoOldCodes` holds non-empty debt and payback codes;
`sendRecipientAssets` hands back other values for both. `demoOldSeed` holds a non-empty
seed code; `SeedInvestInProject` returns no error and hands back, and stores, another
value. -/
theorem C9_counterexample_codes_overwritten :
    demoOldCodes.Params.DebtAssetCode ≠ "" ∧ demoOldCodes.Params.PaybackAssetCode ≠ "" ∧
    (sendRecipientAssets demoEnv demoWorld demoOldCodes demoRecipient "GISSUER" "SISSUER"
      "SRECP").project.Params.DebtAssetCode ≠ demoOldCodes.Params.DebtAssetCode ∧
    (sendRecipientAssets demoEnv demoWorld demoOldCodes demoRecipient "GISSUER" "SISSUER"
      "SRECP").project.Params.PaybackAssetCode ≠ demoOldCodes.Params.PaybackAssetCode ∧
    demoWorldOldSeed.projects 1 = some demoOldSeed ∧
    demoOldSeed.Params.SeedAssetCode ≠ "" ∧
    (SeedInvestInProject demoEnv demoWorldOldSeed 1 1 1 "400" "SINVA" "SRECP"
      "SPLAT").err = none ∧
    (SeedInvestInProject demoEnv demoWorldOldSeed 1 1 1 "400" "SINVA" "SRECP"
      "SPLAT").project.Params.SeedAssetCode ≠ demoOldSeed.Params.SeedAssetCode ∧
    (SeedInvestInProject demoEnv demoWorldOldSeed 1 1 1 "400" "SINVA" "SRECP"
      "SPLAT").world.projects 1 =
      some (SeedInvestInProject demoEnv demoWorldOldSeed 1 1 1 "400" "SINVA" "SRECP"
        "SPLAT").project := by
  obtain ⟨-, -, -, -, -, -, -, g8, g9, -⟩ := sendRecipientAssets_params demoEnv demoWorld
    demoOldCodes demoRecipient "GISSUER" "SISSUER" "SRECP"
  have hp : demoWorldOldSeed.projects 1 = some demoOldSeed := rfl
  have e1 := seedInvest_ok demoEnv demoEnv_succeeds demoWorldOldSeed 1 1 1 "400" "SINVA"
    "SRECP" "SPLAT" demoOldSeed demoInvestor demoRecipient hp rfl rfl rfl
  obtain ⟨-, -, -, -, -, f6, -⟩ := seedInvest_success_fields demoEnv demoWorldOldSeed 1 1 1
    "400" "SINVA" "SRECP" "SPLAT" demoOldSeed hp e1
  obtain ⟨p, i, r, hp', -, -, -, -, hst, -⟩ := seedInvest_err_none demoEnv demoWorldOldSeed
    1 1 1 "400" "SINVA" "SRECP" "SPLAT" e1
  cases (Option.some.inj (hp.symm.trans hp'))
  refine ⟨by decide, by decide, ?_, ?_, hp, by decide, e1, ?_, hst⟩
  · rw [g8]; decide
  · rw [g9]; decide
  · rw [f6]; decide

/-- C9, amended. Let `p` be the project read from the store. `InvestorAssetCode` is
write-once: once non-empty it comes back unchanged from `InvestInProject`, and
`SeedInvestInProject` and `sendRecipientAssets` never assign it. `InvestInProject` and
`sendRecipientAssets` never assign `SeedAssetCode`. `SeedAssetCode` (line 210),
`DebtAssetCode` and `PaybackAssetCode` (lines 258-259) are assigned without a test, to
the identifier derived from the project's `Metadata`; a non-empty value of these fields
comes back unchanged when it is that derived identifier. This holds on every path,
whatever the ledger and store calls answer, and a project put in the store by the call
is the project handed back. -/
theorem C9_codes_kept_when_derived (env : Env) (w : World)
    (projIndex invIndex recpIndex : Int) (invAmount invSeed recpSeed platformSeed : String)
    (p : Project) (hp : w.projects projIndex = some p) :
    ((p.Params.InvestorAssetCode ≠ "" →
        (InvestInProject env w projIndex invIndex recpIndex invAmount invSeed recpSeed
          platformSeed).project.Params.InvestorAssetCode = p.Params.InvestorAssetCode) ∧
      (InvestInProject env w projIndex invIndex recpIndex invAmount invSeed recpSeed
        platformSeed).project.Params.SeedAssetCode = p.Params.SeedAssetCode ∧
      (p.Params.DebtAssetCode = env.AssetID (DebtAssetPrefix ++ p.Params.Metadata) →
        (InvestInProject env w projIndex invIndex recpIndex invAmount invSeed recpSeed
          platformSeed).project.Params.DebtAssetCode = p.Params.DebtAssetCode) ∧
      (p.Params.PaybackAssetCode = env.AssetID (PaybackAssetPrefix ++ p.Params.Metadata) →
        (InvestInProject env w projIndex invIndex recpIndex invAmount invSeed recpSeed
          platformSeed).project.Params.PaybackAssetCode = p.Params.PaybackAssetCode) ∧
      StoreStep
        (InvestInProject env w projIndex invIndex recpIndex invAmount invSeed recpSeed
          platformSeed).project w
        (InvestInProject env w projIndex invIndex recpIndex invAmount invSeed recpSeed
          platformSeed).world) ∧
    ((SeedInvestInProject env w projIndex invIndex recpIndex invAmount invSeed recpSeed
        platformSeed).project.Params.InvestorAssetCode = p.Params.InvestorAssetCode ∧
      (p.Params.SeedAssetCode ≠ "" →
        p.Params.SeedAssetCode = env.AssetID (SeedAssetPrefix ++ p.Params.Metadata) →
        (SeedInvestInProject env w projIndex invIndex recpIndex invAmount invSeed recpSeed
          platformSeed).project.Params.SeedAssetCode = p.Params.SeedAssetCode) ∧
      (p.Params.DebtAssetCode = env.AssetID (DebtAssetPrefix ++ p.Params.Metadata) →
        (SeedInvestInProject env w projIndex invIndex recpIndex invAmount invSeed recpSeed
          platformSeed).project.Params.DebtAssetCode = p.Params.DebtAssetCode) ∧
      (p.Params.PaybackAssetCode = env.AssetID (PaybackAssetPrefix ++ p.Params.Metadata) →
        (SeedInvestInProject env w projIndex invIndex recpIndex invAmount invSeed recpSeed
          platformSeed).project.Params.PaybackAssetCode = p.Params.PaybackAssetCode) ∧
      StoreStep
        (SeedInvestInProject env w projIndex invIndex recpIndex invAmount invSeed recpSeed
          platformSeed).project w
        (SeedInvestInProject env w projIndex invIndex recpIndex invAmount invSeed recpSeed
          platformSeed).world) ∧
    (∀ (r : Recipient) (issuerPubkey issuerSeed : String),
      (sendRecipientAssets env w p r issuerPubkey issuerSeed
        recpSeed).project.Params.InvestorAssetCode = p.Params.InvestorAssetCode ∧
      (sendRecipientAssets env w p r issuerPubkey issuerSeed
        recpSeed).project.Params.SeedAssetCode = p.Params.SeedAssetCode ∧
      (p.Params.DebtAssetCode = env.AssetID (DebtAssetPrefix ++ p.Params.Metadata) →
        (sendRecipientAssets env w p r issuerPubkey issuerSeed
          recpSeed).project.Params.DebtAssetCode = p.Params.DebtAssetCode) ∧
      (p.Params.PaybackAssetCode = env.AssetID (PaybackAssetPrefix ++ p.Params.Metadata) →
        (sendRecipientAssets env w p r issuerPubkey issuerSeed
          recpSeed).project.Params.PaybackAssetCode = p.Params.PaybackAssetCode) ∧
      StoreStep (sendRecipientAssets env w p r issuerPubkey issuerSeed recpSeed).project w
        (sendRecipientAssets env w p r issuerPubkey issuerSeed recpSeed).world) := by
  obtain ⟨hs1, hc1⟩ := invest_paths env w projIndex invIndex recpIndex invAmount invSeed
    recpSeed platformSeed
  obtain ⟨hs2, hc2⟩ := seedInvest_paths env w projIndex invIndex recpIndex invAmount invSeed
    recpSeed platformSeed
  rw [retrieveProject_of_lookup w projIndex p hp] at hc1 hc2
  refine ⟨⟨?_, ?_, ?_, ?_, hs1⟩, ⟨?_, ?_, ?_, ?_, hs2⟩, ?_⟩
  · intro hne
    rw [investorCoded_of_code env p hne] at hc1
    rcases hc1 with h | h | ⟨i, r, h | ⟨-, h | h⟩⟩ <;> rw [h] <;> rfl
  · rcases hc1 with h | h | ⟨i, r, h | ⟨-, h | h⟩⟩ <;> rw [h] <;>
      simp [investorRaised, withCodes, funded]
  · intro hd
    rcases hc1 with h | h | ⟨i, r, h | ⟨-, h | h⟩⟩ <;> rw [h] <;>
      simp [investorRaised, withCodes, funded, hd.symm]
  · intro hd
    rcases hc1 with h | h | ⟨i, r, h | ⟨-, h | h⟩⟩ <;> rw [h] <;>
      simp [investorRaised, withCodes, funded, hd.symm]
  · rcases hc2 with h | h | h | ⟨i, r, h | ⟨-, h | h⟩⟩ <;> rw [h] <;>
      simp [seedRaised, seedRecoded, withCodes, funded]
  · intro hne hd
    rw [seedCoded_of_seed env p hne] at hc2
    rcases hc2 with h | h | h | ⟨i, r, h | ⟨-, h | h⟩⟩ <;> rw [h] <;>
      simp [seedRaised, seedRecoded, withCodes, funded, hd.symm]
  · intro hd
    rcases hc2 with h | h | h | ⟨i, r, h | ⟨-, h | h⟩⟩ <;> rw [h] <;>
      simp [seedRaised, seedRecoded, withCodes, funded, hd.symm]
  · intro hd
    rcases hc2 with h | h | h | ⟨i, r, h | ⟨-, h | h⟩⟩ <;> rw [h] <;>
      simp [seedRaised, seedRecoded, withCodes, funded, hd.symm]
  · intro r a b
    obtain ⟨-, -, -, -, -, g6, g7, g8, g9, -⟩ := sendRecipientAssets_params env w p r a b
      recpSeed
    refine ⟨g6, g7, ?_, ?_, sendRecipientAssets_storeStep env w p r a b recpSeed⟩
    · intro hd; rw [g8]; split
      · exact hd.symm
      · rfl
    · intro hd; rw [g9]; split
      · exact hd.symm
      · rfl

/-- C9, amended, at a concrete input: the project funded by `demoFull` holds the derived
investor, debt and payback codes; the further call `demoAfterFull` hands them back
unchanged. -/
theorem C9_codes_kept_when_derived_witness :
    demoFull.world.projects 1 = some demoFull.project ∧
    demoFull.project.Params.InvestorAssetCode ≠ "" ∧
    demoAfterFull.project.Params.InvestorAssetCode
      = demoFull.project.Params.InvestorAssetCode ∧
    demoAfterFull.project.Params.SeedAssetCode = demoFull.project.Params.SeedAssetCode ∧
    demoAfterFull.project.Params.DebtAssetCode = demoFull.project.Params.DebtAssetCode ∧
    demoAfterFull.project.Params.PaybackAssetCode
      = demoFull.project.Params.PaybackAssetCode := by
  have hp : demoWorld.projects 1 = some demoProject := rfl
  have e1 : demoFull.err = none := invest_ok demoEnv demoEnv_succeeds demoWorld 1 1 1 "1000"
    "SINVA" "SRECP" "SPLAT" demoProject demoInvestor demoRecipient hp rfl rfl rfl
  obtain ⟨-, -, -, f4, f5, -, f7, f8, -⟩ := invest_success_fields demoEnv demoWorld 1 1 1
    "1000" "SINVA" "SRECP" "SPLAT" demoProject hp e1
  obtain ⟨p, i, r, hp', -, -, -, -, hst, -⟩ :=
    invest_err_none demoEnv demoWorld 1 1 1 "1000" "SINVA" "SRECP" "SPLAT" e1
  cases (Option.some.inj (hp.symm.trans hp'))
  have hst' : demoFull.world.projects 1 = some demoFull.project := hst
  have hsum : demoProject.Params.MoneyRaised + demoEnv.StoF "1000"
      = demoProject.Params.TotalValue := by norm_num [demoProject]
  simp only [hsum, if_true] at f7 f8
  have hinv : demoFull.project.Params.InvestorAssetCode ≠ "" := by
    show (InvestInProject demoEnv demoWorld 1 1 1 "1000" "SINVA" "SRECP"
      "SPLAT").project.Params.InvestorAssetCode ≠ ""
    rw [f5]
    decide
  have hdebt : demoFull.project.Params.DebtAssetCode
      = demoEnv.AssetID (DebtAssetPrefix ++ demoFull.project.Params.Metadata) := by
    show (InvestInProject demoEnv demoWorld 1 1 1 "1000" "SINVA" "SRECP"
      "SPLAT").project.Params.DebtAssetCode = demoEnv.AssetID (DebtAssetPrefix ++
      (InvestInProject demoEnv demoWorld 1 1 1 "1000" "SINVA" "SRECP"
      "SPLAT").project.Params.Metadata)
    rw [f7, f4]
  have hpay : demoFull.project.Params.PaybackAssetCode
      = demoEnv.AssetID (PaybackAssetPrefix ++ demoFull.project.Params.Metadata) := by
    show (InvestInProject demoEnv demoWorld 1 1 1 "1000" "SINVA" "SRECP"
      "SPLAT").project.Params.PaybackAssetCode = demoEnv.AssetID (PaybackAssetPrefix ++
      (InvestInProject demoEnv demoWorld 1 1 1 "1000" "SINVA" "SRECP"
      "SPLAT").project.Params.Metadata)
    rw [f8, f4]
  obtain ⟨⟨a1, a2, a3, a4, -⟩, -, -⟩ := C9_codes_kept_when_derived demoEnv demoFull.world
    1 2 1 "0" "SINVB" "SRECP" "SPLAT" demoFull.project hst'
  exact ⟨hst', hinv, a1 hinv, a2, a3 hdebt, a4 hpay⟩

/-- C10, at the failing input. A seed round (`demoSeedRound`) leaves project 1 with its
seed code set and its investor code empty. The `InvestInProject` that follows
(`demoAfterSeed`, investor B, 400) reaches the trust-line and mint steps and returns no
error, yet the investor code it hands back is still empty and is not
`AssetID(InvestorAssetPrefix + Metadata)`; the trust line and the mint are issued for
the empty code, and the empty code is what is appended to investor B's
`InvestedSolarProjects`. -/
theorem C10_investor_code_unset_after_seed_round :
    demoSeedRound.err = none ∧
    demoSeedRound.project.Params.SeedAssetCode ≠ "" ∧
    demoSeedRound.project.Params.InvestorAssetCode = "" ∧
    demoSeedRound.world.projects 1 = some demoSeedRound.project ∧
    demoAfterSeed.err = none ∧
    demoAfterSeed.project.Params.InvestorAssetCode = "" ∧
    demoAfterSeed.project.Params.InvestorAssetCode
      ≠ demoEnv.AssetID (InvestorAssetPrefix ++ demoAfterSeed.project.Params.Metadata) ∧
    (∃ iss seed,
      (callsSince demoSeedRound.world demoAfterSeed.world).filter Call.isIssue =
        [Call.TrustAsset "" iss (demoEnv.FtoS 1000) demoInvestorB.U.PublicKey "SINVB",
          Call.SendAssetFromIssuer "" demoInvestorB.U.PublicKey "400" seed iss]) ∧
    demoAfterSeed.world.investors 2 =
      some { demoInvestorB with
        AmountInvested := demoInvestorB.AmountInvested + 400,
        InvestedSolarProjects := demoInvestorB.InvestedSolarProjects ++ [""] } := by
  have hp : demoWorld.projects 1 = some demoProject := rfl
  have e1 : demoSeedRound.err = none := seedInvest_ok demoEnv demoEnv_succeeds demoWorld 1 1 1
    "400" "SINVA" "SRECP" "SPLAT" demoProject demoInvestor demoRecipient hp rfl rfl rfl
  obtain ⟨-, f2, f3, f4, f5, f6, -⟩ := seedInvest_success_fields demoEnv demoWorld 1 1 1
    "400" "SINVA" "SRECP" "SPLAT" demoProject hp e1
  obtain ⟨p, i, r, hp', hi', hr', -, -, hst, hinv, hrec, -⟩ :=
    seedInvest_err_none demoEnv demoWorld 1 1 1 "400" "SINVA" "SRECP" "SPLAT" e1
  cases (Option.some.inj (hp.symm.trans hp'))
  have hi0 : demoWorld.investors 1 = some demoInvestor := rfl
  have hr0 : demoWorld.recipients 1 = some demoRecipient := rfl
  cases (Option.some.inj (hi0.symm.trans hi'))
  cases (Option.some.inj (hr0.symm.trans hr'))
  have hst' : demoSeedRound.world.projects 1 = some demoSeedRound.project := hst
  have hseed : demoSeedRound.project.Params.SeedAssetCode ≠ "" := by
    show (SeedInvestInProject demoEnv demoWorld 1 1 1 "400" "SINVA" "SRECP"
      "SPLAT").project.Params.SeedAssetCode ≠ ""
    rw [f6]
    decide
  have hcode : demoSeedRound.project.Params.InvestorAssetCode = "" := f5
  have hq : ¬ (seedRaised demoEnv (seedRecoded demoEnv demoProject) demoInvestor
      "400").Params.MoneyRaised = (seedRaised demoEnv (seedRecoded demoEnv demoProject)
      demoInvestor "400").Params.TotalValue := by
    norm_num [seedRaised, seedRecoded, demoProject]
  simp only [hq, if_false] at hrec
  have hinv' : demoSeedRound.world.investors 2 = some demoInvestorB := by
    show (SeedInvestInProject demoEnv demoWorld 1 1 1 "400" "SINVA" "SRECP"
      "SPLAT").world.investors 2 = _
    rw [hinv]
    rfl
  have hrec' : demoSeedRound.world.recipients 1 = some demoRecipient := by
    show (SeedInvestInProject demoEnv demoWorld 1 1 1 "400" "SINVA" "SRECP"
      "SPLAT").world.recipients 1 = _
    rw [hrec]
    rfl
  have e2 : demoAfterSeed.err = none := invest_ok demoEnv demoEnv_succeeds demoSeedRound.world
    1 2 1 "400" "SINVB" "SRECP" "SPLAT" demoSeedRound.project demoInvestorB demoRecipient
    hst' hinv' hrec' rfl
  obtain ⟨-, g2, g3, g4, g5, -⟩ := invest_success_fields demoEnv demoSeedRound.world 1 2 1
    "400" "SINVB" "SRECP" "SPLAT" demoSeedRound.project hst' e2
  obtain ⟨p2, i2, r2, hp2, hi2, hr2, -, -, -, hinv2, -, iss, seed, hcalls⟩ :=
    invest_err_none demoEnv demoSeedRound.world 1 2 1 "400" "SINVB" "SRECP" "SPLAT" e2
  cases (Option.some.inj (hst'.symm.trans hp2))
  cases (Option.some.inj (hinv'.symm.trans hi2))
  have hcoded := investorCoded_of_seed demoEnv demoSeedRound.project hseed
  rw [hcoded] at g5 hcalls hinv2
  have hmr : demoSeedRound.project.Params.MoneyRaised = 400 := by
    show (SeedInvestInProject demoEnv demoWorld 1 1 1 "400" "SINVA" "SRECP"
      "SPLAT").project.Params.MoneyRaised = 400
    rw [f3]
    norm_num [demoProject]
  have htv : demoSeedRound.project.Params.TotalValue = 1000 := f2
  have hq2 : ¬ (investorRaised demoEnv demoSeedRound.project demoInvestorB
      "400").Params.MoneyRaised = (investorRaised demoEnv demoSeedRound.project
      demoInvestorB "400").Params.TotalValue := by
    norm_num [investorRaised, hmr, htv]
  simp only [hq2, if_false, List.append_nil, hcode, htv] at hcalls
  have hcode2 : demoAfterSeed.project.Params.InvestorAssetCode = "" := g5.trans hcode
  refine ⟨e1, hseed, hcode, hst', e2, hcode2, ?_, ⟨iss, seed, hcalls⟩, ?_⟩
  · rw [hcode2]
    exact (demoEnv_assetID _).symm
  · show (InvestInProject demoEnv demoSeedRound.world 1 2 1 "400" "SINVB" "SRECP"
      "SPLAT").world.investors 2 = _
    rw [hinv2, hcode]
    simp [investorBooked, demoInvestorB]

/-- C11, at the failing input. Investor A's `InvestInProject` of 600 in project 1
(`demoPartA`) returns no error and performs the bootstrap (`InitIssuer` then
`FundIssuer`); it leaves the project stored with its investor code set and its seed code
empty. The `SeedInvestInProject` that follows on the same project (`demoSeedAfterPartA`,
investor B, 400) returns no error too and performs the bootstrap a second time: the
guard of line 185 reads the seed code only. -/
theorem C11_seed_round_after_investment_bootstraps_again :
    demoPartA.err = none ∧
    (callsSince demoWorld demoPartA.world).filter Call.isBoot =
      [Call.InitIssuer 1 "blah", Call.FundIssuer 1 "blah" "SPLAT"] ∧
    demoPartA.world.projects 1 = some demoPartA.project ∧
    demoPartA.project.Params.InvestorAssetCode ≠ "" ∧
    demoPartA.project.Params.SeedAssetCode = "" ∧
    demoSeedAfterPartA.err = none ∧
    (callsSince demoPartA.world demoSeedAfterPartA.world).filter Call.isBoot =
      [Call.InitIssuer 1 "blah", Call.FundIssuer 1 "blah" "SPLAT"] := by
  have hp : demoWorld.projects 1 = some demoProject := rfl
  have e1 : demoPartA.err = none := invest_ok demoEnv demoEnv_succeeds demoWorld 1 1 1 "600"
    "SINVA" "SRECP" "SPLAT" demoProject demoInvestor demoRecipient hp rfl rfl rfl
  have b1 := invest_boot_calls demoEnv demoWorld 1 1 1 "600" "SINVA" "SRECP" "SPLAT"
    demoProject hp e1
  obtain ⟨f1, -, -, -, f5, f6, -⟩ := invest_success_fields demoEnv demoWorld 1 1 1 "600"
    "SINVA" "SRECP" "SPLAT" demoProject hp e1
  obtain ⟨p, i, r, hp', hi', hr', -, -, hst, hinv, hrec, -⟩ :=
    invest_err_none demoEnv demoWorld 1 1 1 "600" "SINVA" "SRECP" "SPLAT" e1
  cases (Option.some.inj (hp.symm.trans hp'))
  have hi0 : demoWorld.investors 1 = some demoInvestor := rfl
  have hr0 : demoWorld.recipients 1 = some demoRecipient := rfl
  cases (Option.some.inj (hi0.symm.trans hi'))
  cases (Option.some.inj (hr0.symm.trans hr'))
  have hst' : demoPartA.world.projects 1 = some demoPartA.project := hst
  have hq : ¬ (investorRaised demoEnv (investorCoded demoEnv demoProject) demoInvestor
      "600").Params.MoneyRaised = (investorRaised demoEnv (investorCoded demoEnv demoProject)
      demoInvestor "600").Params.TotalValue := by
    norm_num [investorRaised, demoProject]
  simp only [hq, if_false] at hrec
  have hinv' : demoPartA.world.investors 2 = some demoInvestorB := by
    show (InvestInProject demoEnv demoWorld 1 1 1 "600" "SINVA" "SRECP"
      "SPLAT").world.investors 2 = _
    rw [hinv]
    rfl
  have hrec' : demoPartA.world.recipients 1 = some demoRecipient := by
    show (InvestInProject demoEnv demoWorld 1 1 1 "600" "SINVA" "SRECP"
      "SPLAT").world.recipients 1 = _
    rw [hrec]
    rfl
  have hcode : demoPartA.project.Params.InvestorAssetCode ≠ "" := by
    show (InvestInProject demoEnv demoWorld 1 1 1 "600" "SINVA" "SRECP"
      "SPLAT").project.Params.InvestorAssetCode ≠ ""
    rw [f5]
    decide
  have hseed : demoPartA.project.Params.SeedAssetCode = "" := f6
  have hidx : demoPartA.project.Params.Index = 1 := f1
  have e2 : demoSeedAfterPartA.err = none := seedInvest_ok demoEnv demoEnv_succeeds
    demoPartA.world 1 2 1 "400" "SINVB" "SRECP" "SPLAT" demoPartA.project demoInvestorB
    demoRecipient hst' hinv' hrec' rfl
  have b2 := seedInvest_boot_calls demoEnv demoPartA.world 1 2 1 "400" "SINVB" "SRECP" "SPLAT"
    demoPartA.project hst' e2
  rw [if_pos hseed, hidx] at b2
  exact ⟨e1, b1, hst', hcode, hseed, e2, b2⟩

/-- C12. A failure of payment collection, of the issuer seed read, of the investor's
trust line or of the investor's mint ends `InvestInProject` and `SeedInvestInProject` at
once. Past a check that passed (records `p`, `i`, `r` in the store, `CanInvest` true) and
a bootstrap block without error: when payment collection with the seed read (`collect`)
ends with error `e`, or when it succeeds and the trust line with the mint
(`trustAndMint`) ends with error `e`, the call returns `e` in the very world that block
left, hands back a project with the money raised and the investor lists of `p`, leaves
the project and investor buckets as they were, and has issued no store write, only
bootstrap, payment, trust-line and mint calls in that order (`AbortedAt`). Inside the
blocks the failing call is the last one: a failed payment is not followed by the seed
read, a failed trust line is not followed by the mint, and the error of the block is the
error of its last call. -/
theorem C12_failure_before_booking_aborts (env : Env) (w : World)
    (projIndex invIndex recpIndex : Int) (invAmount invSeed recpSeed platformSeed : String)
    (p : Project) (i : Investor) (r : Recipient)
    (hp : w.projects projIndex = some p) (hi : w.investors invIndex = some i)
    (hr : w.recipients recpIndex = some r)
    (hc : env.CanInvest w.trace i invAmount = true) :
    ((investorBoot env w p platformSeed).err = none →
      (∀ e, (investorPaid env w p platformSeed invSeed invAmount).err = some e →
        AbortedAt w p e (investorPaid env w p platformSeed invSeed invAmount).world
          (InvestInProject env w projIndex invIndex recpIndex invAmount invSeed recpSeed
            platformSeed)) ∧
      (∀ e, (investorPaid env w p platformSeed invSeed invAmount).err = none →
        (investorMinted env w p i platformSeed invSeed invAmount).err = some e →
        AbortedAt w p e (investorMinted env w p i platformSeed invSeed invAmount).world
          (InvestInProject env w projIndex invIndex recpIndex invAmount invSeed recpSeed
            platformSeed))) ∧
    ((seedBoot env w p platformSeed).err = none →
      (∀ e, (seedPaid env w p platformSeed invSeed invAmount).err = some e →
        AbortedAt w p e (seedPaid env w p platformSeed invSeed invAmount).world
          (SeedInvestInProject env w projIndex invIndex recpIndex invAmount invSeed recpSeed
            platformSeed)) ∧
      (∀ e, (seedPaid env w p platformSeed invSeed invAmount).err = none →
        (seedMinted env w p i platformSeed invSeed invAmount).err = some e →
        AbortedAt w p e (seedMinted env w p i platformSeed invSeed invAmount).world
          (SeedInvestInProject env w projIndex invIndex recpIndex invAmount invSeed recpSeed
            platformSeed))) ∧
    (∀ (w0 : World) (idx : Int),
      (∀ e, (SendUSDToPlatform env w0 platformSeed invSeed invAmount idx).1.2 = some e →
        (collect env w0 platformSeed invSeed invAmount idx).err = some e ∧
        (collect env w0 platformSeed invSeed invAmount idx).world
          = (SendUSDToPlatform env w0 platformSeed invSeed invAmount idx).2) ∧
      ((SendUSDToPlatform env w0 platformSeed invSeed invAmount idx).1.2 = none →
        (collect env w0 platformSeed invSeed invAmount idx).err =
          (env.RetrieveSeed (SendUSDToPlatform env w0 platformSeed invSeed invAmount idx).2.trace
            (env.CreatePath idx) IssuerSeedPwd).2 ∧
        (collect env w0 platformSeed invSeed invAmount idx).world =
          (SendUSDToPlatform env w0 platformSeed invSeed invAmount idx).2.log
            (Call.RetrieveSeed (env.CreatePath idx) IssuerSeedPwd))) ∧
    (∀ (w0 : World) (code issuerPubkey issuerSeed limit pubkey : String),
      (∀ e, (env.TrustAsset w0.trace code issuerPubkey limit pubkey invSeed).2 = some e →
        (trustAndMint env w0 code issuerPubkey issuerSeed limit pubkey invSeed invAmount).err
          = some e ∧
        (trustAndMint env w0 code issuerPubkey issuerSeed limit pubkey invSeed invAmount).world
          = w0.log (Call.TrustAsset code issuerPubkey limit pubkey invSeed)) ∧
      ((env.TrustAsset w0.trace code issuerPubkey limit pubkey invSeed).2 = none →
        (trustAndMint env w0 code issuerPubkey issuerSeed limit pubkey invSeed invAmount).err =
          (env.SendAssetFromIssuer
            (w0.trace ++ [Call.TrustAsset code issuerPubkey limit pubkey invSeed]) code pubkey
            invAmount issuerSeed issuerPubkey).2 ∧
        (trustAndMint env w0 code issuerPubkey issuerSeed limit pubkey invSeed invAmount).world =
          (w0.log (Call.TrustAsset code issuerPubkey limit pubkey invSeed)).log
            (Call.SendAssetFromIssuer code pubkey invAmount issuerSeed issuerPubkey))) := by
  have hpre := pre_of_lookups env w projIndex invIndex recpIndex invAmount p i r hp hi hr hc
  refine ⟨?_, ?_, ?_, ?_⟩
  · intro hb
    constructor
    · intro e he
      rw [invest_collect_fail env w projIndex invIndex recpIndex invAmount invSeed recpSeed
        platformSeed p i r e hpre hb he]
      obtain ⟨h2, h3, -, lb, lc, hl, -, hlb, hlc⟩ :=
        investorPaid_facts env w p platformSeed invSeed invAmount
      exact abortedAt_intro w p _ e _ lb lc [] (by simp) (by simp) (by simp) h2 h3
        (by simpa using hl) hlb hlc (Or.inl rfl)
    · intro e he hm
      rw [invest_mint_fail env w projIndex invIndex recpIndex invAmount invSeed recpSeed
        platformSeed p i r e hpre hb he hm]
      obtain ⟨h2, h3, -, lb, lc, lm, hl, -, hlb, hlc, hlm, -⟩ :=
        investorMinted_facts env w p i platformSeed invSeed invAmount
      refine abortedAt_intro w p _ e _ lb lc lm (by simp) (by simp) (by simp) h2 h3 hl hlb
        hlc ?_
      rcases hlm with h | h
      · exact Or.inr (Or.inl ⟨Call.TrustAsset _ _ _ _ _, rfl, h⟩)
      · exact Or.inr (Or.inr ⟨Call.TrustAsset _ _ _ _ _, Call.SendAssetFromIssuer _ _ _ _ _,
          rfl, rfl, h⟩)
  · intro hb
    constructor
    · intro e he
      rw [seedInvest_collect_fail env w projIndex invIndex recpIndex invAmount invSeed recpSeed
        platformSeed p i r e hpre hb he]
      obtain ⟨h2, h3, -, lb, lc, hl, -, hlb, hlc⟩ :=
        seedPaid_facts env w p platformSeed invSeed invAmount
      exact abortedAt_intro w p _ e _ lb lc [] (by simp) (by simp) (by simp) h2 h3
        (by simpa using hl) hlb hlc (Or.inl rfl)
    · intro e he hm
      rw [seedInvest_mint_fail env w projIndex invIndex recpIndex invAmount invSeed recpSeed
        platformSeed p i r e hpre hb he hm]
      obtain ⟨h2, h3, -, lb, lc, lm, hl, -, hlb, hlc, hlm, -⟩ :=
        seedMinted_facts env w p i platformSeed invSeed invAmount
      refine abortedAt_intro w p _ e _ lb lc lm (by simp [seedRecoded])
        (by simp [seedRecoded]) (by simp [seedRecoded]) h2 h3 hl hlb hlc ?_
      rcases hlm with h | h
      · exact Or.inr (Or.inl ⟨Call.TrustAsset _ _ _ _ _, rfl, h⟩)
      · exact Or.inr (Or.inr ⟨Call.TrustAsset _ _ _ _ _, Call.SendAssetFromIssuer _ _ _ _ _,
          rfl, rfl, h⟩)
  · intro w0 idx
    exact ⟨fun e he => collect_of_pay_err env w0 _ _ _ idx e he,
      fun h => collect_of_pay_ok env w0 _ _ _ idx h⟩
  · intro w0 code issuerPubkey issuerSeed limit pubkey
    exact ⟨fun e he => trustAndMint_of_trust_err env w0 _ _ _ _ _ _ _ e he,
      fun h => trustAndMint_of_trust_ok env w0 _ _ _ _ _ _ _ h⟩

/-- C12 at a concrete input: with a ledger that refuses every mint, investor A's
investment (and seed investment) of 600 in project 1 gets through bootstrap, payment and
trust line, fails at the mint, and ends there with the error of the mint. -/
theorem C12_failure_before_booking_aborts_witness :
    (investorBoot demoEnvMintFails demoWorld demoProject "SPLAT").err = none ∧
    (investorPaid demoEnvMintFails demoWorld demoProject "SPLAT" "SINVA" "600").err = none ∧
    (investorMinted demoEnvMintFails demoWorld demoProject demoInvestor "SPLAT" "SINVA"
      "600").err = some "mint refused" ∧
    AbortedAt demoWorld demoProject "mint refused"
      (investorMinted demoEnvMintFails demoWorld demoProject demoInvestor "SPLAT" "SINVA"
        "600").world
      (InvestInProject demoEnvMintFails demoWorld 1 1 1 "600" "SINVA" "SRECP" "SPLAT") ∧
    AbortedAt demoWorld demoProject "mint refused"
      (seedMinted demoEnvMintFails demoWorld demoProject demoInvestor "SPLAT" "SINVA"
        "600").world
      (SeedInvestInProject demoEnvMintFails demoWorld 1 1 1 "600" "SINVA" "SRECP" "SPLAT") := by
  have hb : (investorBoot demoEnvMintFails demoWorld demoProject "SPLAT").err = none := rfl
  have hb' : (seedBoot demoEnvMintFails demoWorld demoProject "SPLAT").err = none := rfl
  have hc : (investorPaid demoEnvMintFails demoWorld demoProject "SPLAT" "SINVA" "600").err
      = none := by
    norm_num [investorPaid, collect, SendUSDToPlatform, demoEnvMintFails, demoEnv, demoBalance]
  have hc' : (seedPaid demoEnvMintFails demoWorld demoProject "SPLAT" "SINVA" "600").err
      = none := by
    norm_num [seedPaid, collect, SendUSDToPlatform, demoEnvMintFails, demoEnv, demoBalance]
  have hm : (investorMinted demoEnvMintFails demoWorld demoProject demoInvestor "SPLAT"
      "SINVA" "600").err = some "mint refused" := rfl
  have hm' : (seedMinted demoEnvMintFails demoWorld demoProject demoInvestor "SPLAT"
      "SINVA" "600").err = some "mint refused" := rfl
  obtain ⟨a, b, -, -⟩ := C12_failure_before_booking_aborts demoEnvMintFails demoWorld 1 1 1
    "600" "SINVA" "SRECP" "SPLAT" demoProject demoInvestor demoRecipient rfl rfl rfl rfl
  exact ⟨hb, hc, hm, (a hb).2 _ hc hm, (b hb').2 _ hc' hm'⟩

/-- C16, as stated, fails: project 1 of the examples has raised 0 of 1000, and the
funding-completion step run on it returns no error. -/
theorem C16_counterexample_below_target_returns_nil :
    demoProject.Params.MoneyRaised ≠ demoProject.Params.TotalValue ∧
    (sendRecipientAssets demoEnv demoWorld demoProject demoRecipient "GISSUER" "SISSUER"
      "SRECP").err = none := by
  constructor
  · norm_num [demoProject]
  · rw [sendRecipientAssets_not_due]
    norm_num [demoProject]

/-- C16, amended. For every project whose money raised differs from its total value,
`sendRecipientAssets` returns nil, hands the project back unchanged and issues no call
at all: the world after the call is the world before it. -/
theorem C16_below_target_is_a_no_op (env : Env) (w : World) (p : Project) (r : Recipient)
    (issuerPubkey issuerSeed recpSeed : String)
    (h : p.Params.MoneyRaised ≠ p.Params.TotalValue) :
    (sendRecipientAssets env w p r issuerPubkey issuerSeed recpSeed).err = none ∧
    (sendRecipientAssets env w p r issuerPubkey issuerSeed recpSeed).project = p ∧
    (sendRecipientAssets env w p r issuerPubkey issuerSeed recpSeed).world = w ∧
    callsSince w (sendRecipientAssets env w p r issuerPubkey issuerSeed recpSeed).world = [] := by
  rw [sendRecipientAssets_not_due env w p r issuerPubkey issuerSeed recpSeed h]
  exact ⟨rfl, rfl, rfl, callsSince_self w⟩

/-- C16, amended, at a concrete input: project 1 of the examples, 0 raised of 1000. -/
theorem C16_below_target_is_a_no_op_witness :
    demoProject.Params.MoneyRaised ≠ demoProject.Params.TotalValue ∧
    (sendRecipientAssets demoEnv demoWorld demoProject demoRecipient "GISSUER" "SISSUER"
      "SRECP").err = none ∧
    (sendRecipientAssets demoEnv demoWorld demoProject demoRecipient "GISSUER" "SISSUER"
      "SRECP").project = demoProject ∧
    (sendRecipientAssets demoEnv demoWorld demoProject demoRecipient "GISSUER" "SISSUER"
      "SRECP").world = demoWorld ∧
    callsSince demoWorld (sendRecipientAssets demoEnv demoWorld demoProject demoRecipient
      "GISSUER" "SISSUER" "SRECP").world = [] :=
  ⟨by norm_num [demoProject],
    C16_below_target_is_a_no_op demoEnv demoWorld demoProject demoRecipient "GISSUER" "SISSUER"
      "SRECP" (by norm_num [demoProject])⟩

/-- C17. In `InvestInProject` and in `SeedInvestInProject` the investor's trust line -
the first trust line a call issues - has as its limit the total value of the stored
project `p` (`FtoS(TotalValue)`), whatever the amount invested, and is issued for the
public key of the stored investor with the seed given; a call that returns no error has
issued it. -/
theorem C17_trust_line_limit_is_total_value (env : Env) (w : World)
    (projIndex invIndex recpIndex : Int) (invAmount invSeed recpSeed platformSeed : String)
    (p : Project) (i : Investor)
    (hp : w.projects projIndex = some p) (hi : w.investors invIndex = some i) :
    (∀ c, ((callsSince w (InvestInProject env w projIndex invIndex recpIndex invAmount invSeed
        recpSeed platformSeed).world).filter Call.isTrust).head? = some c →
      ∃ code issuerPubkey, c = Call.TrustAsset code issuerPubkey
        (env.FtoS p.Params.TotalValue) i.U.PublicKey invSeed) ∧
    ((InvestInProject env w projIndex invIndex recpIndex invAmount invSeed recpSeed
        platformSeed).err = none →
      ((callsSince w (InvestInProject env w projIndex invIndex recpIndex invAmount invSeed
        recpSeed platformSeed).world).filter Call.isTrust).head? ≠ none) ∧
    (∀ c, ((callsSince w (SeedInvestInProject env w projIndex invIndex recpIndex invAmount
        invSeed recpSeed platformSeed).world).filter Call.isTrust).head? = some c →
      ∃ code issuerPubkey, c = Call.TrustAsset code issuerPubkey
        (env.FtoS p.Params.TotalValue) i.U.PublicKey invSeed) ∧
    ((SeedInvestInProject env w projIndex invIndex recpIndex invAmount invSeed recpSeed
        platformSeed).err = none →
      ((callsSince w (SeedInvestInProject env w projIndex invIndex recpIndex invAmount invSeed
        recpSeed platformSeed).world).filter Call.isTrust).head? ≠ none) := by
  obtain ⟨lb, lc, rest, h1, hlb, hlc, hrest, hne⟩ := invest_calls env w projIndex invIndex
    recpIndex invAmount invSeed recpSeed platformSeed p i hp hi
  obtain ⟨lb', lc', rest', h1', hlb', hlc', hrest', hne'⟩ := seedInvest_calls env w projIndex
    invIndex recpIndex invAmount invSeed recpSeed platformSeed p i hp hi
  have key : ∀ (lb lc rest : List Call), (∀ c ∈ lb, c.isBoot = true) →
      (∀ c ∈ lc, c.isCollect = true) →
      (rest = [] ∨ ∃ code iss rest', rest =
        Call.TrustAsset code iss (env.FtoS p.Params.TotalValue) i.U.PublicKey invSeed
          :: rest') →
      (∀ c, ((lb ++ lc ++ rest).filter Call.isTrust).head? = some c →
        ∃ code issuerPubkey, c = Call.TrustAsset code issuerPubkey
          (env.FtoS p.Params.TotalValue) i.U.PublicKey invSeed) ∧
      (rest ≠ [] → ((lb ++ lc ++ rest).filter Call.isTrust).head? ≠ none) := by
    intro lb lc rest hlb hlc hrest
    rcases hrest with rfl | ⟨code, iss, rest', rfl⟩
    · refine ⟨?_, fun h => absurd rfl h⟩
      intro c hc
      rw [List.append_nil, filter_isTrust_of_boot_collect lb lc hlb hlc] at hc
      simp at hc
    · rw [head_filter_isTrust lb lc rest'
        (Call.TrustAsset code iss (env.FtoS p.Params.TotalValue) i.U.PublicKey invSeed)
        hlb hlc rfl]
      exact ⟨fun c hc => ⟨code, iss, (Option.some.inj hc).symm⟩, fun _ => by simp⟩
  rw [h1, h1']
  obtain ⟨k1, k2⟩ := key lb lc rest hlb hlc hrest
  obtain ⟨k1', k2'⟩ := key lb' lc' rest' hlb' hlc' hrest'
  exact ⟨k1, fun h => k2 (hne h), k1', fun h => k2' (hne' h)⟩

/-- C17 at a concrete input: investor A's investment of 600 in project 1 (total value
1000) returns no error, and its first trust line has the limit `FtoS 1000`. -/
theorem C17_trust_line_limit_is_total_value_witness :
    demoPartA.err = none ∧
    ∃ code issuerPubkey,
      ((callsSince demoWorld demoPartA.world).filter Call.isTrust).head? =
        some (Call.TrustAsset code issuerPubkey (demoEnv.FtoS 1000) "GINVA" "SINVA") := by
  have e1 : demoPartA.err = none := invest_ok demoEnv demoEnv_succeeds demoWorld 1 1 1 "600"
    "SINVA" "SRECP" "SPLAT" demoProject demoInvestor demoRecipient rfl rfl rfl rfl
  obtain ⟨a1, a2, -, -⟩ := C17_trust_line_limit_is_total_value demoEnv demoWorld 1 1 1 "600"
    "SINVA" "SRECP" "SPLAT" demoProject demoInvestor rfl rfl
  refine ⟨e1, ?_⟩
  cases hh : ((callsSince demoWorld demoPartA.world).filter Call.isTrust).head? with
  | none => exact absurd hh (a2 e1)
  | some c =>
    obtain ⟨code, iss, hc⟩ := a1 c hh
    exact ⟨code, iss, by rw [hc]; rfl⟩

/-- C18. The investor's notification does not touch the outcome of `InvestInProject`.
Take a run in world `w` and a run with the same arguments in the world that differs from
`w` only in the notification flag of the investor stored under `invIndex` (set to `b`),
in an environment that does not see investor notifications (`NotifBlind`). The two runs
return the same error and issue the same ledger calls in the same order, and the projects
they hand back have the same `Params` (money raised, the four codes, `BalLeft` among
them) and the same stage; they agree in every field once the notification flags of the
investors on record are cleared. -/
theorem C18_notification_does_not_change_outcome (env : Env) (hB : env.NotifBlind) (w : World)
    (projIndex invIndex recpIndex : Int) (invAmount invSeed recpSeed platformSeed : String)
    (b : Bool) :
    (InvestInProject env (w.withNotification invIndex b) projIndex invIndex recpIndex invAmount
        invSeed recpSeed platformSeed).err
      = (InvestInProject env w projIndex invIndex recpIndex invAmount invSeed recpSeed
        platformSeed).err ∧
    (callsSince (w.withNotification invIndex b)
        (InvestInProject env (w.withNotification invIndex b) projIndex invIndex recpIndex
          invAmount invSeed recpSeed platformSeed).world).filter Call.isLedger
      = (callsSince w (InvestInProject env w projIndex invIndex recpIndex invAmount invSeed
        recpSeed platformSeed).world).filter Call.isLedger ∧
    (InvestInProject env (w.withNotification invIndex b) projIndex invIndex recpIndex invAmount
        invSeed recpSeed platformSeed).project.Params
      = (InvestInProject env w projIndex invIndex recpIndex invAmount invSeed recpSeed
        platformSeed).project.Params ∧
    (InvestInProject env (w.withNotification invIndex b) projIndex invIndex recpIndex invAmount
        invSeed recpSeed platformSeed).project.Stage
      = (InvestInProject env w projIndex invIndex recpIndex invAmount invSeed recpSeed
        platformSeed).project.Stage ∧
    (InvestInProject env (w.withNotification invIndex b) projIndex invIndex recpIndex invAmount
        invSeed recpSeed platformSeed).project.mute
      = (InvestInProject env w projIndex invIndex recpIndex invAmount invSeed recpSeed
        platformSeed).project.mute := by
  have hw : (w.withNotification invIndex b).trace = w.trace := rfl
  obtain ⟨hpe, hpp, hpre⟩ := pre_withNotification env hB w projIndex invIndex recpIndex
    invAmount b
  cases he : (PreInvestmentCheck env w projIndex invIndex recpIndex invAmount).err with
  | some e =>
    rw [invest_of_pre_err env w projIndex invIndex recpIndex invAmount invSeed recpSeed
        platformSeed e he,
      invest_of_pre_err env (w.withNotification invIndex b) projIndex invIndex recpIndex
        invAmount invSeed recpSeed platformSeed e (hpe.trans he), hpp]
    exact ⟨rfl, by simp, rfl, rfl, rfl⟩
  | none =>
    obtain ⟨p, i, r, h1, h2⟩ := hpre he
    obtain ⟨hb1, hb2⟩ := investorBoot_congr env w (w.withNotification invIndex b) p
      platformSeed hw
    obtain ⟨hc1, hc2, hc3, hc4, hc5⟩ := investorPaid_congr env w
      (w.withNotification invIndex b) p platformSeed invSeed invAmount hw
    obtain ⟨hm1, hm2, hm3, hm5⟩ := investorMinted_congr env w (w.withNotification invIndex b)
      p i (i.withNotification b) platformSeed invSeed invAmount hw rfl
    cases hb : (investorBoot env w p platformSeed).err with
    | some e =>
      rw [invest_boot_fail env w projIndex invIndex recpIndex invAmount invSeed recpSeed
          platformSeed p i r e h1 hb,
        invest_boot_fail env (w.withNotification invIndex b) projIndex invIndex recpIndex
          invAmount invSeed recpSeed platformSeed p (i.withNotification b) r e h2
          (hb1.trans hb)]
      refine ⟨rfl, ?_, rfl, rfl, rfl⟩
      simp only [callsSince, hb2, hw]
    | none =>
      cases hc : (investorPaid env w p platformSeed invSeed invAmount).err with
      | some e =>
        rw [invest_collect_fail env w projIndex invIndex recpIndex invAmount invSeed recpSeed
            platformSeed p i r e h1 hb hc,
          invest_collect_fail env (w.withNotification invIndex b) projIndex invIndex recpIndex
            invAmount invSeed recpSeed platformSeed p (i.withNotification b) r e h2
            (hb1.trans hb) (hc1.trans hc)]
        refine ⟨rfl, ?_, rfl, rfl, rfl⟩
        simp only [callsSince, hc5, hw]
      | none =>
        cases hm : (investorMinted env w p i platformSeed invSeed invAmount).err with
        | some e =>
          rw [invest_mint_fail env w projIndex invIndex recpIndex invAmount invSeed recpSeed
              platformSeed p i r e h1 hb hc hm,
            invest_mint_fail env (w.withNotification invIndex b) projIndex invIndex recpIndex
              invAmount invSeed recpSeed platformSeed p (i.withNotification b) r e h2
              (hb1.trans hb) (hc1.trans hc) (hm1.trans hm)]
          refine ⟨rfl, ?_, rfl, rfl, rfl⟩
          simp only [callsSince, hm5, hw]
        | none =>
          rw [invest_booked env w projIndex invIndex recpIndex invAmount invSeed recpSeed
              platformSeed p i r h1 hb hc hm,
            invest_booked env (w.withNotification invIndex b) projIndex invIndex recpIndex
              invAmount invSeed recpSeed platformSeed p (i.withNotification b) r h2
              (hb1.trans hb) (hc1.trans hc) (hm1.trans hm)]
          obtain ⟨s1, s2, s3⟩ := book_sim env hB
            (investorMinted env w p i platformSeed invSeed invAmount).world
            (investorMinted env (w.withNotification invIndex b) p (i.withNotification b)
              platformSeed invSeed invAmount).world
            (investorRaised env (investorCoded env p) i invAmount)
            (investorRaised env (investorCoded env p) (i.withNotification b) invAmount)
            (investorBooked env i invAmount (investorCoded env p).Params.InvestorAssetCode)
            (investorBooked env (i.withNotification b) invAmount
              (investorCoded env p).Params.InvestorAssetCode) r
            (Call.NotifInvestor projIndex i.U.Email
              (investorPaid env w p platformSeed invSeed invAmount).stableTxHash
              (investorMinted env w p i platformSeed invSeed invAmount).invTrustTxHash
              (investorMinted env w p i platformSeed invSeed invAmount).invAssetTxHash)
            (Call.NotifInvestor projIndex (i.withNotification b).U.Email
              (investorPaid env (w.withNotification invIndex b) p platformSeed invSeed
                invAmount).stableTxHash
              (investorMinted env (w.withNotification invIndex b) p (i.withNotification b)
                platformSeed invSeed invAmount).invTrustTxHash
              (investorMinted env (w.withNotification invIndex b) p (i.withNotification b)
                platformSeed invSeed invAmount).invAssetTxHash)
            (investorPaid env w p platformSeed invSeed invAmount).issuerPubkey
            (investorPaid env w p platformSeed invSeed invAmount).issuerSeed recpSeed
            (by rw [hm5])
            (by simp [Project.mute, investorRaised, Investor.mute, Investor.withNotification])
            rfl rfl rfl
          rw [hc3, hc4]
          obtain ⟨-, -, -, lb, lc, lm, hl, -⟩ :=
            investorMinted_facts env w p i platformSeed invSeed invAmount
          obtain ⟨l, hbk⟩ := book_extends env
            (investorMinted env w p i platformSeed invSeed invAmount).world
            (investorRaised env (investorCoded env p) i invAmount)
            (investorBooked env i invAmount (investorCoded env p).Params.InvestorAssetCode) r
            (Call.NotifInvestor projIndex i.U.Email
              (investorPaid env w p platformSeed invSeed invAmount).stableTxHash
              (investorMinted env w p i platformSeed invSeed invAmount).invTrustTxHash
              (investorMinted env w p i platformSeed invSeed invAmount).invAssetTxHash)
            (investorPaid env w p platformSeed invSeed invAmount).issuerPubkey
            (investorPaid env w p platformSeed invSeed invAmount).issuerSeed recpSeed
          obtain ⟨l', hbk'⟩ := book_extends env
            (investorMinted env (w.withNotification invIndex b) p (i.withNotification b)
              platformSeed invSeed invAmount).world
            (investorRaised env (investorCoded env p) (i.withNotification b) invAmount)
            (investorBooked env (i.withNotification b) invAmount
              (investorCoded env p).Params.InvestorAssetCode) r
            (Call.NotifInvestor projIndex (i.withNotification b).U.Email
              (investorPaid env (w.withNotification invIndex b) p platformSeed invSeed
                invAmount).stableTxHash
              (investorMinted env (w.withNotification invIndex b) p (i.withNotification b)
                platformSeed invSeed invAmount).invTrustTxHash
              (investorMinted env (w.withNotification invIndex b) p (i.withNotification b)
                platformSeed invSeed invAmount).invAssetTxHash)
            (investorPaid env w p platformSeed invSeed invAmount).issuerPubkey
            (investorPaid env w p platformSeed invSeed invAmount).issuerSeed recpSeed
          obtain ⟨q1, q2, -, -, -⟩ := mute_eq_fields _ _ s2
          refine ⟨s1, ?_, q1, q2, s2⟩
          refine filter_isLedger_callsSince w (w.withNotification invIndex b) _ _
            (lb ++ lc ++ lm ++ l) (lb ++ lc ++ lm ++ l') hw ?_ ?_ s3
          · rw [hbk, hl, List.append_assoc]
          · rw [hbk', hm5, hl, hw, List.append_assoc]

/-- C18 at a concrete input: investor B, stored with the notification flag set, funds
project 1 in full; the same call with the flag cleared returns the same error, issues
the same ledger calls and hands back a project with the same `Params` and stage. -/
theorem C18_notification_does_not_change_outcome_witness :
    demoEnv.NotifBlind ∧
    (demoWorld.investors 2).map (fun i => i.U.Notification) = some true ∧
    ((demoWorld.withNotification 2 false).investors 2).map (fun i => i.U.Notification)
      = some false ∧
    (InvestInProject demoEnv (demoWorld.withNotification 2 false) 1 2 1 "1000" "SINVB" "SRECP"
        "SPLAT").err
      = (InvestInProject demoEnv demoWorld 1 2 1 "1000" "SINVB" "SRECP" "SPLAT").err ∧
    (callsSince (demoWorld.withNotification 2 false)
        (InvestInProject demoEnv (demoWorld.withNotification 2 false) 1 2 1 "1000" "SINVB"
          "SRECP" "SPLAT").world).filter Call.isLedger
      = (callsSince demoWorld (InvestInProject demoEnv demoWorld 1 2 1 "1000" "SINVB" "SRECP"
        "SPLAT").world).filter Call.isLedger ∧
    (InvestInProject demoEnv (demoWorld.withNotification 2 false) 1 2 1 "1000" "SINVB" "SRECP"
        "SPLAT").project.Params
      = (InvestInProject demoEnv demoWorld 1 2 1 "1000" "SINVB" "SRECP"
        "SPLAT").project.Params := by
  obtain ⟨h1, h2, h3, -, -⟩ := C18_notification_does_not_change_outcome demoEnv
    demoEnv_notifBlind demoWorld 1 2 1 "1000" "SINVB" "SRECP" "SPLAT" false
  exact ⟨demoEnv_notifBlind, rfl, rfl, h1, h2, h3⟩

/-- C19. Bond indices are allocated in increasing order without reuse. In an
environment where the database opens, transactions begin and commit, encoding and `Put`
succeed and `ItoB` is injective, and with more than `n` iterations of fuel for the loop
of `RetrieveAllBonds`: on a bucket holding decodable records exactly at the keys of
1..n (`n + 1` within the range of a Go `int`), `NewBond` returns without error the bond
built from its arguments with index `n + 1`, stores its encoding under the key of
`n + 1`, leaves every other key as it was, and the bucket then holds records exactly at
the keys of 1..n+1. Hence a sequence of `NewBond` calls started on an empty bucket
assigns the indices 1, 2, 3, ... in turn, no two of them equal. -/
theorem C19_new_bond_takes_next_index (env : BondEnv) (hs : env.Sound) (fuel : Nat) :
    (∀ (s : BondStore) (n : Nat) (a : BondArgs), (n : Int) + 1 < 2 ^ 63 → n < fuel →
      s.HoldsUpTo env n → s.Decodable env →
      ∃ b s', a.run env s fuel = some ((b, none), s') ∧
        b = a.bond env s ((n : Int) + 1) ∧ b.Params.Index = (n : Int) + 1 ∧
        s'.bonds (env.ItoB ((n : Int) + 1)) = some (env.Marshal b).1 ∧
        (∀ key, key ≠ env.ItoB ((n : Int) + 1) → s'.bonds key = s.bonds key) ∧
        s'.HoldsUpTo env (n + 1)) ∧
    (∀ (s : BondStore) (as : List BondArgs), (∀ key, s.bonds key = none) →
      as.length ≤ fuel → (as.length : Int) < 2 ^ 63 →
      ∃ s', newBonds env fuel s as =
          some ((List.range as.length).map (fun (k : Nat) => (k : Int) + 1), s') ∧
        ((List.range as.length).map (fun (k : Nat) => (k : Int) + 1)).Nodup ∧
        s'.HoldsUpTo env as.length) := by
  constructor
  · intro s n a hn hfuel hkeys hdec
    obtain ⟨s', h1, h2, h3, -⟩ := newBond_spec env hs s n fuel hn hfuel hkeys hdec a
    refine ⟨_, s', h1, rfl, rfl, ?_, ?_, h3⟩
    · rw [h2]; simp
    · intro key hkey
      rw [h2]; simp [hkey]
  · intro s as hempty hfuel hn
    obtain ⟨hk, hd⟩ := empty_holdsUpTo env s hempty
    obtain ⟨s', h1, h2⟩ := newBonds_spec env hs fuel as s 0 hk hd (by omega)
      (by simpa using hn)
    have hmap : (List.range as.length).map (fun (k : Nat) => ((0 : Nat) : Int) + 1 + (k : Int))
        = (List.range as.length).map (fun (k : Nat) => (k : Int) + 1) := by
      apply List.map_congr_left
      intro k _
      simp only [Nat.cast_zero, zero_add]
      ring
    rw [hmap] at h1
    refine ⟨s', h1, ?_, by simpa using h2⟩
    apply List.Nodup.map _ (List.nodup_range _)
    intro j k hjk
    simp only at hjk
    omega

/-- C19 at a concrete input: in the bond-store environment of the examples, two
`NewBond` calls on the empty store assign the indices 1 and 2. -/
theorem C19_new_bond_takes_next_index_witness :
    demoBondEnv.Sound ∧
    ∃ s', newBonds demoBondEnv 3 emptyBondStore [demoBondArgs "tower", demoBondArgs "bridge"]
        = some ([1, 2], s') ∧
      s'.HoldsUpTo demoBondEnv 2 := by
  obtain ⟨s', h1, -, h3⟩ := (C19_new_bond_takes_next_index demoBondEnv demoBondEnv_sound 3).2
    emptyBondStore [demoBondArgs "tower", demoBondArgs "bridge"] (fun _ => rfl) (by decide)
    (by decide)
  exact ⟨demoBondEnv_sound, s', h1, h3⟩

/-- C21, at the failing input. Project `demoRaised` has total value 1000, the whole of it
raised, and runs over 3 years; every ledger and store call succeeds and numbers are
written as numerals. The funding-completion step returns no error and mints twice: the
payback asset for the amount "72" (`ItoS(Years * 12 * 2)`, the limit of the payback trust
line) and the debt asset for the amount "1000.000000" (`FtoS(TotalValue)`). The amount of
the payback mint is not the amount of the debt mint. -/
theorem C21_payback_mint_is_not_the_debt_amount :
    demoRaised.Params.MoneyRaised = demoRaised.Params.TotalValue ∧
    demoFundingNumerals.err = none ∧
    (callsSince demoWorld demoFundingNumerals.world).filter Call.isMint =
      [ Call.SendAssetFromIssuer demoFundingNumerals.project.Params.PaybackAssetCode "GRECP"
          "72" "SISSUER" "GISSUER",
        Call.SendAssetFromIssuer demoFundingNumerals.project.Params.DebtAssetCode "GRECP"
          "1000.000000" "SISSUER" "GISSUER" ] ∧
    demoEnvNumerals.ItoS (wrapInt (wrapInt (demoRaised.Params.Years * 12) * 2)) = "72" ∧
    demoEnvNumerals.FtoS demoRaised.Params.TotalValue = "1000.000000" ∧
    demoEnvNumerals.ItoS (wrapInt (wrapInt (demoRaised.Params.Years * 12) * 2))
      ≠ demoEnvNumerals.FtoS demoRaised.Params.TotalValue := by
  have hm : demoRaised.Params.MoneyRaised = demoRaised.Params.TotalValue := rfl
  obtain ⟨e, hp, -, -, l, hl, hf⟩ := sendRecipientAssets_ok demoEnvNumerals
    demoEnvNumerals_succeeds demoWorld demoRaised demoRecipient "GISSUER" "SISSUER" "SRECP" hm
  have hi : demoEnvNumerals.ItoS (wrapInt (wrapInt (demoRaised.Params.Years * 12) * 2))
      = "72" := by decide
  have hf' : demoEnvNumerals.FtoS demoRaised.Params.TotalValue = "1000.000000" := by
    simp [demoEnvNumerals, demoFtoS, demoRaised, demoProject]
  refine ⟨hm, e, ?_, hi, hf', ?_⟩
  · have hc : callsSince demoWorld demoFundingNumerals.world = l :=
      callsSince_append demoWorld _ l hl
    have hp' : demoFundingNumerals.project = funded demoEnvNumerals demoRaised demoRecipient :=
      hp
    rw [hc, ← filter_isMint_of_isIssue, hf, hp']
    simp only [fundingCalls, hi, hf']
    rfl
  · rw [hi, hf']
    decide

/-- C22, at the failing input. `demoFunding` is a completed run of the funding-completion
step on project 1 (fully raised) for the recipient stored under key 1, whose list of
received projects is empty. It returns no error; the recipient it persists has the debt
code of the project in `ReceivedSolarProjects`; the `ProjectRecipient` of the project it
hands back, which is also the project it stores, is the recipient as it was before the
code was appended: its list is empty and it is not the persisted record. -/
theorem C22_project_recipient_is_the_recipient_before_the_append :
    demoFunding.err = none ∧
    demoFunding.world.recipients 1 =
      some { demoRecipient with
        ReceivedSolarProjects := [demoFunding.project.Params.DebtAssetCode] } ∧
    demoFunding.world.projects 1 = some demoFunding.project ∧
    demoFunding.project.ProjectRecipient = demoRecipient ∧
    demoFunding.project.ProjectRecipient.ReceivedSolarProjects = [] ∧
    demoFunding.project.Params.DebtAssetCode ∉
      demoFunding.project.ProjectRecipient.ReceivedSolarProjects ∧
    some demoFunding.project.ProjectRecipient ≠ demoFunding.world.recipients 1 := by
  have hm : demoRaised.Params.MoneyRaised = demoRaised.Params.TotalValue := rfl
  obtain ⟨e, hp, hps, hrs, -⟩ := sendRecipientAssets_ok demoEnv demoEnv_succeeds demoWorld
    demoRaised demoRecipient "GISSUER" "SISSUER" "SRECP" hm
  have hp' : demoFunding.project = funded demoEnv demoRaised demoRecipient := hp
  have hps' : demoFunding.world.projects 1 = some (funded demoEnv demoRaised demoRecipient) :=
    by
      show (sendRecipientAssets demoEnv demoWorld demoRaised demoRecipient "GISSUER" "SISSUER"
        "SRECP").world.projects 1 = _
      rw [hps]
      rfl
  have hrs' : demoFunding.world.recipients 1 =
      some (recipientCredited demoEnv demoRaised demoRecipient) := by
    show (sendRecipientAssets demoEnv demoWorld demoRaised demoRecipient "GISSUER" "SISSUER"
      "SRECP").world.recipients 1 = _
    rw [hrs]
    rfl
  rw [hrs', hps', hp']
  refine ⟨e, rfl, rfl, rfl, rfl, ?_, ?_⟩
  · simp [funded, demoRecipient]
  · simp [funded, recipientCredited, demoRecipient]

/-- C24, on the constant itself. `PaybackInterval` is the `time.Duration` of the bare
number `1 * 60 * 60 * 24 * 30 = 2592000`, that is 2592000 nanoseconds: less than one
second, and not the duration of `30 * 24 * 60 * 60` seconds, which is
`2592000 * time.Second`. The neighbouring constants carry the factor `time.Second`:
`OneWeekInSecond` is the duration of 7 days and `TwoWeeksInSecond` that of 14 days. -/
theorem C24_payback_interval_is_not_thirty_days :
    PaybackInterval = 2592000 ∧
    PaybackInterval < Second ∧
    PaybackInterval ≠ 30 * 24 * 60 * 60 * Second ∧
    PaybackInterval * Second = 30 * 24 * 60 * 60 * Second ∧
    OneWeekInSecond = 7 * 24 * 60 * 60 * Second ∧
    TwoWeeksInSecond = 14 * 24 * 60 * 60 * Second ∧
    LockInterval = 3 * 24 * 60 * 60 := by
  decide

/-- C25, at the failing input. The recipient of `demoTeller` holds "150" of the asset
"STABLEUSD". On the command `display balance STABLEUSD` `ParseInput` announces the balance
in STABLEUSD and then asks the ledger for the recipient's balance of the asset whose code
is "balance" - the second word of the command, not the third; nothing asks for
"STABLEUSD", and the answer shown is the error for the code "balance". The same holds for
every third word other than "xlm": the one balance query made is for the code "balance".
The rest of the claim holds: the third word "xlm" asks for the native balance, and with
fewer than three words the usage text is printed and no query is made. -/
theorem C25_display_balance_queries_the_wrong_code :
    (ParseInput demoTellerEnv demoTeller ["display", "balance", "STABLEUSD"]).trace =
      [ TellerCall.ColorOutput "Displaying balance in STABLEUSD for user: " Color.White,
        TellerCall.GetAssetBalance "GRECP" "balance",
        TellerCall.LogPrintln "asset balance not found" ] ∧
    TellerCall.GetAssetBalance "GRECP" "STABLEUSD" ∉
      (ParseInput demoTellerEnv demoTeller ["display", "balance", "STABLEUSD"]).trace ∧
    (demoTellerEnv.GetAssetBalance [] "GRECP" "STABLEUSD").1 = "150" ∧
    (∀ (env : TellerEnv) (t : Teller) (X : String) (more : List String), X ≠ "xlm" →
      ((ParseInput env t ("display" :: "balance" :: X :: more)).trace.drop
        t.trace.length).filter TellerCall.isQuery
        = [TellerCall.GetAssetBalance t.RecpPublicKey "balance"]) ∧
    (∀ (env : TellerEnv) (t : Teller) (more : List String),
      ((ParseInput env t ("display" :: "balance" :: "xlm" :: more)).trace.drop
        t.trace.length).filter TellerCall.isQuery
        = [TellerCall.GetNativeBalance t.RecpPublicKey]) ∧
    (∀ (env : TellerEnv) (t : Teller),
      (ParseInput env t ["display", "balance"]).trace =
        t.trace ++ [TellerCall.Println ["USAGE: display balance <xlm, asset>"]] ∧
      (ParseInput env t ["display"]).trace =
        t.trace ++ [TellerCall.Println ["USAGE: display <balance, info>"]]) := by
  refine ⟨by decide, by decide, by decide, ?_, ?_, ?_⟩
  · intro env t X more hX
    simp only [ParseInput, hX, if_false, Teller.log]
    simp only [String.reduceEq, if_false, if_true]
    split <;> simp [TellerCall.isQuery]
  · intro env t more
    simp only [ParseInput, Teller.log]
    simp only [String.reduceEq, if_false, if_true]
    split <;> simp [TellerCall.isQuery]
  · intro env t
    exact ⟨rfl, rfl⟩

/-- C26, at the failing input. Project 1 has total value 1000 and nothing raised, so
`0 ≤ MoneyRaised ≤ TotalValue`; the amount is "1001". `PreInvestmentCheck` returns no
error, and `InvestInProject` and `SeedInvestInProject` go on to open the investor's trust
line with the limit `FtoS(TotalValue)` and, right after it, to mint "1001" of the same
asset, an amount above the total value 1000 for which the trust line was opened. -/
theorem C26_mint_above_the_trust_limit :
    demoProject.WithinTarget ∧
    (PreInvestmentCheck demoEnv demoWorld 1 1 1 "1001").err = none ∧
    (InvestInProject demoEnv demoWorld 1 1 1 "1001" "SINVA" "SRECP" "SPLAT").err = none ∧
    (∃ code iss seed,
      (callsSince demoWorld (InvestInProject demoEnv demoWorld 1 1 1 "1001" "SINVA" "SRECP"
        "SPLAT").world).filter Call.isIssue =
        [Call.TrustAsset code iss (demoEnv.FtoS demoProject.Params.TotalValue) "GINVA" "SINVA",
          Call.SendAssetFromIssuer code "GINVA" "1001" seed iss]) ∧
    (SeedInvestInProject demoEnv demoWorld 1 1 1 "1001" "SINVA" "SRECP" "SPLAT").err = none ∧
    (∃ code iss seed,
      (callsSince demoWorld (SeedInvestInProject demoEnv demoWorld 1 1 1 "1001" "SINVA" "SRECP"
        "SPLAT").world).filter Call.isIssue =
        [Call.TrustAsset code iss (demoEnv.FtoS demoProject.Params.TotalValue) "GINVA" "SINVA",
          Call.SendAssetFromIssuer code "GINVA" "1001" seed iss]) ∧
    demoProject.Params.TotalValue = 1000 ∧
    demoEnv.StoF "1001" > demoProject.Params.TotalValue := by
  have hp : demoWorld.projects 1 = some demoProject := rfl
  have hi : demoWorld.investors 1 = some demoInvestor := rfl
  have hr : demoWorld.recipients 1 = some demoRecipient := rfl
  have e1 := invest_ok demoEnv demoEnv_succeeds demoWorld 1 1 1 "1001" "SINVA" "SRECP" "SPLAT"
    demoProject demoInvestor demoRecipient hp hi hr rfl
  have e2 := seedInvest_ok demoEnv demoEnv_succeeds demoWorld 1 1 1 "1001" "SINVA" "SRECP"
    "SPLAT" demoProject demoInvestor demoRecipient hp hi hr rfl
  obtain ⟨p, i, r, hp1, hi1, -, -, -, -, -, -, iss, seed, hcalls⟩ :=
    invest_err_none demoEnv demoWorld 1 1 1 "1001" "SINVA" "SRECP" "SPLAT" e1
  cases (Option.some.inj (hp.symm.trans hp1))
  cases (Option.some.inj (hi.symm.trans hi1))
  obtain ⟨p2, i2, r2, hp2, hi2, -, -, -, -, -, -, iss2, seed2, hcalls2⟩ :=
    seedInvest_err_none demoEnv demoWorld 1 1 1 "1001" "SINVA" "SRECP" "SPLAT" e2
  cases (Option.some.inj (hp.symm.trans hp2))
  cases (Option.some.inj (hi.symm.trans hi2))
  have hq : ¬ (investorRaised demoEnv (investorCoded demoEnv demoProject) demoInvestor
      "1001").Params.MoneyRaised = (investorRaised demoEnv (investorCoded demoEnv demoProject)
      demoInvestor "1001").Params.TotalValue := by
    norm_num [investorRaised, demoProject]
  have hq2 : ¬ (seedRaised demoEnv (seedRecoded demoEnv demoProject) demoInvestor
      "1001").Params.MoneyRaised = (seedRaised demoEnv (seedRecoded demoEnv demoProject)
      demoInvestor "1001").Params.TotalValue := by
    norm_num [seedRaised, seedRecoded, demoProject]
  simp only [hq, if_false, List.append_nil] at hcalls
  simp only [hq2, if_false, List.append_nil] at hcalls2
  refine ⟨by norm_num [Project.WithinTarget, demoProject], ?_, e1, ⟨_, iss, seed, hcalls⟩, e2,
    ⟨_, iss2, seed2, hcalls2⟩, rfl, by norm_num [demoProject]⟩
  · rw [pre_of_lookups demoEnv demoWorld 1 1 1 "1001" demoProject demoInvestor demoRecipient
      hp hi hr rfl]

/-- C27, as stated, fails. The account of `demoHorizonNoDebt` loads and holds none of the
asset "DEBT", so the balance read before the transfer yields the empty string. The
payment is built, signed, encoded and submitted, and the ledger turns it down. `Payback`
returns the error of the submission, which is not an error of the parser: no parse is
reached. -/
theorem C27_counterexample_rejected_transfer :
    paybackOldBalance demoHorizonNoDebt [] demoAccount "DEBT" = "" ∧
    (demoAccount.Payback demoHorizonNoDebt [] "DEBT" "GISSUER" "200").1 =
      Ended.returned (some "tx_failed: op_underfunded") ∧
    (demoAccount.Payback demoHorizonNoDebt [] "DEBT" "GISSUER" "200").2 =
      [HorizonCall.LoadAccount "GRECP",
        HorizonCall.Transaction "GRECP" "GISSUER" "DEBT" "GISSUER" "200",
        HorizonCall.Sign "tx" "SRECP", HorizonCall.Base64 "txe",
        HorizonCall.SubmitTransaction "b64"] ∧
    (demoHorizonNoDebt.ParseFloat "").2 = some "strconv.ParseFloat: invalid syntax" ∧
    ∀ s, (demoHorizonNoDebt.ParseFloat s).2 ≠ some "tx_failed: op_underfunded" := by
  refine ⟨by decide, by decide, by decide, by decide, ?_⟩
  intro s
  simp only [demoHorizonNoDebt, demoParseFloat]
  repeat' split
  all_goals simp

/-- C27, amended. `GetAssetBalance` never returns an error: it hands back the empty
string when the account does not load or no entry has the code, and the balance of the
first entry with the code otherwise (an entry is matched on its code alone). `Payback`
therefore never ends in `log.Fatal`. When the transfer to the issuer fails, `Payback`
returns the error of the transfer. When the transfer returns no error and either balance
read yields the empty string - which the parser rejects - `Payback` returns an error of
the parser (that of the new balance, or else that of the old one), and the submission of
the transfer is among the calls it has issued by then. -/
theorem C27_empty_balance_ends_in_parse_error (hz : Horizon) (h : List HorizonCall)
    (a : Account) (assetName issuerPubkey amount : String) :
    (a.GetAssetBalance hz h assetName).1.2 = none ∧
    (a.GetAssetBalance hz h assetName).1.1 =
      (match (hz.LoadAccount h a.PublicKey).2 with
        | some _ => ""
        | none =>
          match (hz.LoadAccount h a.PublicKey).1.find?
            (fun balance => balance.Code == assetName) with
          | some balance => balance.Balance
          | none => "") ∧
    (∀ e, (a.Payback hz h assetName issuerPubkey amount).1 ≠ Ended.fatal e) ∧
    (∀ e, (paybackTransfer hz h a assetName issuerPubkey amount).1.2 = some e →
      (a.Payback hz h assetName issuerPubkey amount).1 = Ended.returned (some e)) ∧
    ((paybackTransfer hz h a assetName issuerPubkey amount).1.2 = none →
      (hz.ParseFloat "").2 ≠ none →
      (paybackOldBalance hz h a assetName = "" ∨
        paybackNewBalance hz h a assetName issuerPubkey amount = "") →
      ∃ e, (a.Payback hz h assetName issuerPubkey amount).1 = Ended.returned (some e) ∧
        ((hz.ParseFloat (paybackNewBalance hz h a assetName issuerPubkey amount)).2 = some e ∨
          ((hz.ParseFloat (paybackNewBalance hz h a assetName issuerPubkey amount)).2 = none ∧
            (hz.ParseFloat (paybackOldBalance hz h a assetName)).2 = some e)) ∧
        ((a.Payback hz h assetName issuerPubkey amount).2.drop h.length).any
          HorizonCall.isSubmit = true) := by
  refine ⟨getAssetBalance_err hz h a assetName, getAssetBalance_value hz h a assetName,
    fun e => payback_not_fatal hz h a assetName issuerPubkey amount e, ?_, ?_⟩
  · intro e he
    rw [payback_of_transfer_err hz h a assetName issuerPubkey amount e he]
  · intro hsend hparse hempty
    obtain ⟨htr, hnew, hold⟩ := payback_of_transfer_ok hz h a assetName issuerPubkey amount hsend
    obtain ⟨hcalls, hl⟩ := sendAssetToIssuer_submitted hz
      (a.GetAssetBalance hz h assetName).2 a assetName issuerPubkey amount hsend
    have hsub : ((a.Payback hz h assetName issuerPubkey amount).2.drop h.length).any
        HorizonCall.isSubmit = true := by
      rw [htr]
      unfold paybackTransfer
      rw [getAssetBalance_trace] at hcalls hl ⊢
      generalize (a.SendAssetToIssuer hz (h ++ [HorizonCall.LoadAccount a.PublicKey]) assetName
        issuerPubkey amount).2.drop (h ++ [HorizonCall.LoadAccount a.PublicKey]).length = D
        at hcalls hl
      rw [hcalls]
      simp [hl]
    cases hn : (hz.ParseFloat (paybackNewBalance hz h a assetName issuerPubkey amount)).2 with
    | some e => exact ⟨e, hnew e hn, Or.inl rfl, hsub⟩
    | none =>
      have hold0 : paybackOldBalance hz h a assetName = "" := by
        rcases hempty with ho | hne
        · exact ho
        · rw [hne] at hn
          exact absurd hn hparse
      cases ho : (hz.ParseFloat (paybackOldBalance hz h a assetName)).2 with
      | none =>
        rw [hold0] at ho
        exact absurd ho hparse
      | some e => exact ⟨e, hold e hn ho, Or.inr ⟨rfl, rfl⟩, hsub⟩

/-- C27 at a concrete input: the account of `demoHorizonNoEntry` holds none of the asset
"DEBT" and the ledger accepts the payment; both balance reads yield the empty string,
and `Payback` returns the error of the parser after the transaction was submitted. -/
theorem C27_empty_balance_ends_in_parse_error_witness :
    (paybackTransfer demoHorizonNoEntry [] demoAccount "DEBT" "GISSUER" "200").1.2 = none ∧
    paybackOldBalance demoHorizonNoEntry [] demoAccount "DEBT" = "" ∧
    (demoAccount.Payback demoHorizonNoEntry [] "DEBT" "GISSUER" "200").1 =
      Ended.returned (some "strconv.ParseFloat: invalid syntax") ∧
    ∃ e, (demoAccount.Payback demoHorizonNoEntry [] "DEBT" "GISSUER" "200").1 =
        Ended.returned (some e) ∧
      ((demoHorizonNoEntry.ParseFloat
          (paybackNewBalance demoHorizonNoEntry [] demoAccount "DEBT" "GISSUER" "200")).2
          = some e ∨
        ((demoHorizonNoEntry.ParseFloat
          (paybackNewBalance demoHorizonNoEntry [] demoAccount "DEBT" "GISSUER" "200")).2
            = none ∧
          (demoHorizonNoEntry.ParseFloat
            (paybackOldBalance demoHorizonNoEntry [] demoAccount "DEBT")).2 = some e)) ∧
      ((demoAccount.Payback demoHorizonNoEntry [] "DEBT" "GISSUER" "200").2.drop
        ([] : List HorizonCall).length).any HorizonCall.isSubmit = true :=
  ⟨by decide, by decide, by decide,
    (C27_empty_balance_ends_in_parse_error demoHorizonNoEntry [] demoAccount "DEBT" "GISSUER"
      "200").2.2.2.2 (by decide) (by decide) (Or.inl (by decide))⟩

/-- C28. `RetrieveAllBonds` on a finite bucket: all keys of the bucket lie in the list
`keys`, which is shorter than the largest Go `int`, and different integers have different
keys. Then there is a smallest positive key `k + 1` without a record, with `k` no more
than the number of keys and the only one with this property, and the call ends: more than
`k` iterations of fuel give a result, whatever the database and the decoder answer. When
the database opens, the read transaction begins and every record decodes, the result is,
without error, exactly the bonds decoded from the records under keys 1..k, in increasing
order of key; it has length `k`, whatever the bucket holds above key `k + 1`, and the
bucket is left as it was. -/
theorem C28_retrieve_all_returns_records_below_first_gap (env : BondEnv) (s : BondStore)
    (keys : List String) (hinj : Function.Injective env.ItoB)
    (hfin : ∀ key, s.bonds key ≠ none → key ∈ keys)
    (hsize : (keys.length : Int) + 1 < 2 ^ 63) :
    ∃ k, k ≤ keys.length ∧ FirstGap env s.bonds k ∧
      (∀ k', FirstGap env s.bonds k' → k' = k) ∧
      (∀ fuel, k < fuel → (RetrieveAllBonds env s fuel).isSome = true) ∧
      ((∀ h, env.OpenDB h = none) → (∀ h b, env.Begin h b = none) → s.Decodable env →
        (recordsUpTo env s.bonds k).length = k ∧
        (∀ j, j < k → ∃ x, s.bonds (env.ItoB ((j : Int) + 1)) = some x ∧
          (recordsUpTo env s.bonds k)[j]? = some (env.Unmarshal x).1) ∧
        ∀ fuel, k < fuel → ∃ s', RetrieveAllBonds env s fuel =
          some ((recordsUpTo env s.bonds k, none), s') ∧ s'.bonds = s.bonds) := by
  obtain ⟨k, hk, hgap⟩ := exists_firstGap env hinj s.bonds keys hfin
  refine ⟨k, hk, hgap, fun k' h' => firstGap_unique env s.bonds k' k h' hgap,
    fun fuel hfuel => retrieveAllBonds_ends env s k fuel (by omega) hgap.2 hfuel, ?_⟩
  intro hopen hbegin hdec
  have hrec : ∀ j : Nat, j < k → ∃ x, s.bonds (env.ItoB ((j : Int) + 1)) = some x ∧
      (env.Unmarshal x).2 = none := by
    intro j hj
    cases hb : s.bonds (env.ItoB ((j : Int) + 1)) with
    | none => exact absurd hb (hgap.1 j hj)
    | some x => exact ⟨x, rfl, hdec _ x hb⟩
  refine ⟨recordsUpTo_length env s.bonds k, ?_, ?_⟩
  · intro j hj
    obtain ⟨x, hx, -⟩ := hrec j hj
    refine ⟨x, hx, ?_⟩
    simp [recordsUpTo, hj, recordAt, hx]
  · intro fuel hfuel
    exact ⟨_, retrieveAllBonds_gap env s k fuel hopen hbegin (by omega) hrec hgap.2 hfuel, rfl⟩

/-- C28 at a concrete input: `demoGapStore` holds records under keys 1, 2 and 4. Its first
gap is at key 3, and `RetrieveAllBonds` returns the two bonds of keys 1 and 2, in that
order; the record under key 4 is not returned. -/
theorem C28_retrieve_all_returns_records_below_first_gap_witness :
    FirstGap demoBondEnv demoGapStore.bonds 2 ∧
    demoGapStore.bonds (demoItoB 4) = some "dddd" ∧
    (∃ s', RetrieveAllBonds demoBondEnv demoGapStore 3 =
      some ((recordsUpTo demoBondEnv demoGapStore.bonds 2, none), s')) ∧
    (recordsUpTo demoBondEnv demoGapStore.bonds 2).length = 2 ∧
    recordsUpTo demoBondEnv demoGapStore.bonds 2 =
      [(demoBondEnv.Unmarshal "a").1, (demoBondEnv.Unmarshal "bb").1] := by
  obtain ⟨k, -, -, huniq, -, hall⟩ :=
    C28_retrieve_all_returns_records_below_first_gap demoBondEnv demoGapStore
      [demoItoB 1, demoItoB 2, demoItoB 4] demoItoB_injective demoGapStore_keys (by decide)
  have hk : 2 = k := huniq 2 demoGapStore_firstGap
  subst hk
  obtain ⟨hlen, -, hres⟩ := hall (fun _ => rfl) (fun _ _ => rfl) (fun _ _ _ => rfl)
  obtain ⟨s', hs', -⟩ := hres 3 (by decide)
  exact ⟨demoGapStore_firstGap, by decide, ⟨s', hs'⟩, hlen, by decide⟩

/-- C30, at the failing input. The validate endpoint of `demoLoginEnv` answers the login
of "root" with the role "Admin", which is none of "Investor", "Recipient" and "Entity".
`Login` returns a nil error and the empty string as the role, after announcing an
authenticated user; it has asked for no password and decrypted no seed. The same holds
for every role the switch does not list: the login succeeds with an empty role. A listed
role goes as the claim says: the login of "alice", role "Investor", returns "Investor",
and a login that returns no error returns one of the four roles or the empty string. -/
theorem C30_unlisted_role_logs_in_with_empty_role :
    (demoLoginEnv.UnmarshalValidate
      (demoLoginEnv.GetRequest [] "https://api/user/validate?username=root&pwhash=h").1)
      = ("Admin", none) ∧
    (Login demoLoginEnv demoEmulator "root" "h").1 = ("", none) ∧
    (Login demoLoginEnv demoEmulator "root" "h").2.trace =
      [ LoginCall.GetRequest "https://api/user/validate?username=root&pwhash=h",
        LoginCall.ColorOutput "AUTHENTICATED USER, YOUR ROLE IS: " Color.Green ] ∧
    (Login demoLoginEnv demoEmulator "alice" "h").1 = ("Investor", none) ∧
    (∀ (env : LoginEnv) (m : Emulator) (username pwhash : String),
      (env.GetRequest m.trace (m.ApiUrl ++ "/user/validate?" ++ "username=" ++ username ++
        "&pwhash=" ++ pwhash)).2 = none →
      (env.UnmarshalValidate (env.GetRequest m.trace (m.ApiUrl ++ "/user/validate?" ++
        "username=" ++ username ++ "&pwhash=" ++ pwhash)).1).2 = none →
      (env.UnmarshalValidate (env.GetRequest m.trace (m.ApiUrl ++ "/user/validate?" ++
        "username=" ++ username ++ "&pwhash=" ++ pwhash)).1).1 ≠ "Investor" →
      (env.UnmarshalValidate (env.GetRequest m.trace (m.ApiUrl ++ "/user/validate?" ++
        "username=" ++ username ++ "&pwhash=" ++ pwhash)).1).1 ≠ "Recipient" →
      (env.UnmarshalValidate (env.GetRequest m.trace (m.ApiUrl ++ "/user/validate?" ++
        "username=" ++ username ++ "&pwhash=" ++ pwhash)).1).1 ≠ "Entity" →
      (Login env m username pwhash).1 = ("", none)) ∧
    (∀ (env : LoginEnv) (m : Emulator) (username pwhash : String),
      (Login env m username pwhash).1.2 = none →
      (Login env m username pwhash).1.1 ∈
        ["Investor", "Recipient", "Contractor", "Originator", ""]) := by
  refine ⟨by decide, by decide, by decide, by decide, ?_, login_roles⟩
  intro env m username pwhash h1 h2 h3 h4 h5
  simp only [Login, h1, h2, h3, h4, h5, if_false, authenticated]

/-- C4, as stated, fails. On the ledger of the examples, which honours the freeze,
`demoFunding64` is a completed run of `sendRecipientAssets`: it returns no error and
leaves `MoneyRaised = TotalValue`, both codes set and the funded stage. Calling
`sendRecipientAssets` again on the project and in the world it left issues a further
trust-line call and a further mint call: the payback trust line and the payback mint,
which the ledger refuses. -/
theorem C4_counterexample_second_run_issues_calls :
    demoFunding64.err = none ∧
    demoFunding64.project.Params.MoneyRaised = demoFunding64.project.Params.TotalValue ∧
    demoFunding64.project.Params.DebtAssetCode ≠ "" ∧
    demoFunding64.project.Params.PaybackAssetCode ≠ "" ∧
    demoFunding64.project.Stage = demoEnvFreeze.FundedProject ∧
    demoFundingAgain64.err ≠ none ∧
    callsSince demoFunding64.world demoFundingAgain64.world =
      [Call.TrustAsset (demoEnvFreeze.AssetID (PaybackAssetPrefix ++ "roof")) "GISSUER"
          (demoEnvFreeze.ItoS (wrapInt (wrapInt (3 * 12) * 2))) "GRECP" "SRECP",
        Call.SendAssetFromIssuer (demoEnvFreeze.AssetID (PaybackAssetPrefix ++ "roof"))
          "GRECP" (demoEnvFreeze.ItoS (wrapInt (wrapInt (3 * 12) * 2))) "SISSUER"
          "GISSUER"] ∧
    (callsSince demoFunding64.world demoFundingAgain64.world).filter Call.isTrust ≠ [] ∧
    (callsSince demoFunding64.world demoFundingAgain64.world).filter Call.isMint ≠ [] := by
  have hm : demoRaised.Params.MoneyRaised = demoRaised.Params.TotalValue := rfl
  have h1 : demoFunding64.err = none := sendRecipientAssets_okU demoEnvFreeze
    demoEnvFreeze_succeeds demoWorld demoRaised demoRecipient "GISSUER" "SISSUER" "SRECP"
    demoWorld_no_freeze hm
  obtain ⟨s1, s2, -, -, -, -, -, s8⟩ := fundingAgain_spec demoEnvFreeze demoEnvFreeze_honours
    demoWorld demoRaised demoRecipient [] "SRECP" hm h1
  have hc : callsSince demoFunding64.world demoFundingAgain64.world = _ := s8 rfl
  have s1' : demoFunding64.project = funded demoEnvFreeze demoRaised demoRecipient := s1
  refine ⟨h1, ?_, ?_, ?_, ?_, s2, hc, ?_, ?_⟩
  · rw [s1']; rfl
  · rw [s1']; exact demoEnvFreeze_assetID _
  · rw [s1']; exact demoEnvFreeze_assetID _
  · rw [s1']; rfl
  · rw [hc]; simp [List.filter, Call.isTrust]
  · rw [hc]; simp [List.filter, Call.isMint]

/-- C4, amended. On a ledger that honours the freeze, let a run of `sendRecipientAssets`
with the issuer key of the project have returned no error at the target
(`MoneyRaised = TotalValue`). A second run on the project and in the world it left, for
the same recipient and with the same key, is not free of ledger calls: it issues the
payback trust line and, when that succeeds, the payback mint, which the ledger refuses.
It returns an error, issues no other trust-line or mint call, no freeze and no store
write, leaves the three buckets as they were, and hands back the project it was given,
so `BalLeft` is unchanged. -/
theorem C4_second_completion_is_refused (env : Env) (hfz : env.HonoursFreeze) (w : World)
    (p : Project) (r : Recipient) (hr : List Call) (recpSeed : String)
    (hm : p.Params.MoneyRaised = p.Params.TotalValue)
    (h1 : (sendRecipientAssets env w p r (issuerKey env p.Params.Index hr).1
      (issuerKey env p.Params.Index hr).2 recpSeed).err = none) :
    (fundingAgain env w p r (issuerKey env p.Params.Index hr).1
      (issuerKey env p.Params.Index hr).2 recpSeed).err ≠ none ∧
    (fundingAgain env w p r (issuerKey env p.Params.Index hr).1
        (issuerKey env p.Params.Index hr).2 recpSeed).project
      = (sendRecipientAssets env w p r (issuerKey env p.Params.Index hr).1
        (issuerKey env p.Params.Index hr).2 recpSeed).project ∧
    (fundingAgain env w p r (issuerKey env p.Params.Index hr).1
        (issuerKey env p.Params.Index hr).2 recpSeed).project.Params.BalLeft
      = (sendRecipientAssets env w p r (issuerKey env p.Params.Index hr).1
        (issuerKey env p.Params.Index hr).2 recpSeed).project.Params.BalLeft ∧
    (fundingAgain env w p r (issuerKey env p.Params.Index hr).1
        (issuerKey env p.Params.Index hr).2 recpSeed).world.projects
      = (sendRecipientAssets env w p r (issuerKey env p.Params.Index hr).1
        (issuerKey env p.Params.Index hr).2 recpSeed).world.projects ∧
    (fundingAgain env w p r (issuerKey env p.Params.Index hr).1
        (issuerKey env p.Params.Index hr).2 recpSeed).world.investors
      = (sendRecipientAssets env w p r (issuerKey env p.Params.Index hr).1
        (issuerKey env p.Params.Index hr).2 recpSeed).world.investors ∧
    (fundingAgain env w p r (issuerKey env p.Params.Index hr).1
        (issuerKey env p.Params.Index hr).2 recpSeed).world.recipients
      = (sendRecipientAssets env w p r (issuerKey env p.Params.Index hr).1
        (issuerKey env p.Params.Index hr).2 recpSeed).world.recipients ∧
    (callsSince
        (sendRecipientAssets env w p r (issuerKey env p.Params.Index hr).1
          (issuerKey env p.Params.Index hr).2 recpSeed).world
        (fundingAgain env w p r (issuerKey env p.Params.Index hr).1
          (issuerKey env p.Params.Index hr).2 recpSeed).world =
        [Call.TrustAsset (env.AssetID (PaybackAssetPrefix ++ p.Params.Metadata))
          (issuerKey env p.Params.Index hr).1
          (env.ItoS (wrapInt (wrapInt (p.Params.Years * 12) * 2))) r.U.PublicKey recpSeed] ∨
      callsSince
        (sendRecipientAssets env w p r (issuerKey env p.Params.Index hr).1
          (issuerKey env p.Params.Index hr).2 recpSeed).world
        (fundingAgain env w p r (issuerKey env p.Params.Index hr).1
          (issuerKey env p.Params.Index hr).2 recpSeed).world =
        [Call.TrustAsset (env.AssetID (PaybackAssetPrefix ++ p.Params.Metadata))
          (issuerKey env p.Params.Index hr).1
          (env.ItoS (wrapInt (wrapInt (p.Params.Years * 12) * 2))) r.U.PublicKey recpSeed,
         Call.SendAssetFromIssuer (env.AssetID (PaybackAssetPrefix ++ p.Params.Metadata))
          r.U.PublicKey (env.ItoS (wrapInt (wrapInt (p.Params.Years * 12) * 2)))
          (issuerKey env p.Params.Index hr).2 (issuerKey env p.Params.Index hr).1]) ∧
    ((env.TrustAsset
        (sendRecipientAssets env w p r (issuerKey env p.Params.Index hr).1
          (issuerKey env p.Params.Index hr).2 recpSeed).world.trace
        (env.AssetID (PaybackAssetPrefix ++ p.Params.Metadata))
        (issuerKey env p.Params.Index hr).1
        (env.ItoS (wrapInt (wrapInt (p.Params.Years * 12) * 2))) r.U.PublicKey recpSeed).2
        = none →
      callsSince
        (sendRecipientAssets env w p r (issuerKey env p.Params.Index hr).1
          (issuerKey env p.Params.Index hr).2 recpSeed).world
        (fundingAgain env w p r (issuerKey env p.Params.Index hr).1
          (issuerKey env p.Params.Index hr).2 recpSeed).world =
        [Call.TrustAsset (env.AssetID (PaybackAssetPrefix ++ p.Params.Metadata))
          (issuerKey env p.Params.Index hr).1
          (env.ItoS (wrapInt (wrapInt (p.Params.Years * 12) * 2))) r.U.PublicKey recpSeed,
         Call.SendAssetFromIssuer (env.AssetID (PaybackAssetPrefix ++ p.Params.Metadata))
          r.U.PublicKey (env.ItoS (wrapInt (wrapInt (p.Params.Years * 12) * 2)))
          (issuerKey env p.Params.Index hr).2 (issuerKey env p.Params.Index hr).1]) ∧
    (callsSince
        (sendRecipientAssets env w p r (issuerKey env p.Params.Index hr).1
          (issuerKey env p.Params.Index hr).2 recpSeed).world
        (fundingAgain env w p r (issuerKey env p.Params.Index hr).1
          (issuerKey env p.Params.Index hr).2 recpSeed).world).filter Call.isFreeze = [] ∧
    (callsSince
        (sendRecipientAssets env w p r (issuerKey env p.Params.Index hr).1
          (issuerKey env p.Params.Index hr).2 recpSeed).world
        (fundingAgain env w p r (issuerKey env p.Params.Index hr).1
          (issuerKey env p.Params.Index hr).2 recpSeed).world).filter Call.isSave = [] := by
  obtain ⟨s1, s2, s3, s4, s5, s6, s7, s8⟩ := fundingAgain_spec env hfz w p r hr recpSeed hm h1
  refine ⟨s2, s3.trans s1.symm, by rw [s3, s1], s4, s5, s6, s7, s8, ?_, ?_⟩
  · rcases s7 with h | h <;> rw [h] <;> simp [List.filter, Call.isFreeze]
  · rcases s7 with h | h <;> rw [h] <;> simp [List.filter, Call.isSave]

/-- C4, amended, at a concrete input: the second run of the examples on the ledger that
honours the freeze. -/
theorem C4_second_completion_is_refused_witness :
    demoFunding64.err = none ∧
    demoFundingAgain64.err ≠ none ∧
    demoFundingAgain64.project = demoFunding64.project ∧
    demoFundingAgain64.project.Params.BalLeft = demoFunding64.project.Params.BalLeft ∧
    demoFundingAgain64.world.projects = demoFunding64.world.projects ∧
    (callsSince demoFunding64.world demoFundingAgain64.world).filter Call.isFreeze = [] ∧
    (callsSince demoFunding64.world demoFundingAgain64.world).filter Call.isSave = [] := by
  have hm : demoRaised.Params.MoneyRaised = demoRaised.Params.TotalValue := rfl
  have h1 : demoFunding64.err = none := sendRecipientAssets_okU demoEnvFreeze
    demoEnvFreeze_succeeds demoWorld demoRaised demoRecipient "GISSUER" "SISSUER" "SRECP"
    demoWorld_no_freeze hm
  obtain ⟨a1, a2, a3, a4, -, -, -, -, a9, a10⟩ := C4_second_completion_is_refused
    demoEnvFreeze demoEnvFreeze_honours demoWorld demoRaised demoRecipient [] "SRECP" hm h1
  exact ⟨h1, a1, a2, a3, a4, a9, a10⟩

/-- C7, as stated, fails. `demoNearTarget` has a total value of `2^53 + 2`, of which
`2^53` is raised, and investor A invests "1.5": `MoneyRaised + amount` is `2^53 + 1.5`,
which is not the total value. The sum of line 148 is a `float64` sum and `2^53 + 1.5` is
rounded to `2^53 + 2`: the call returns no error, the money raised is the total value,
the debt code is set, the stage is the funded stage and a `FreezeIssuer` call is issued. -/
theorem C7_counterexample_sum_rounds_onto_target :
    demoNearTarget.Params.MoneyRaised + demoEnvFreeze.StoF "1.5"
      ≠ demoNearTarget.Params.TotalValue ∧
    demoNearCall.err = none ∧
    demoNearCall.project.Params.MoneyRaised = demoNearTarget.Params.TotalValue ∧
    demoNearCall.project.Params.DebtAssetCode ≠ demoNearTarget.Params.DebtAssetCode ∧
    demoNearCall.project.Stage ≠ demoNearTarget.Stage ∧
    (callsSince demoWorldNearTarget demoNearCall.world).filter Call.isFreeze
      = [Call.FreezeIssuer 1 "blah"] := by
  have hp : demoWorldNearTarget.projects 1 = some demoNearTarget := rfl
  have e1 : demoNearCall.err = none := invest64_okU demoEnvFreeze demoEnvFreeze_succeeds
    demoWorldNearTarget 1 1 1 "1.5" "SINVA" "SRECP" "SPLAT" demoNearTarget demoInvestor
    demoRecipient hp rfl rfl rfl
    (by intro x hx; simp [demoWorldNearTarget, demoWorld] at hx)
  have hm : round64 (demoNearTarget.Params.MoneyRaised + demoEnvFreeze.StoF "1.5")
      = demoNearTarget.Params.TotalValue := by
    rw [demoEnvFreeze_StoF_halves]
    norm_num [demoNearTarget]
    exact round64_two_pow_53_add_halves
  obtain ⟨-, f2, f3, -, -, -, f7, -, -, f10⟩ := invest64_success_fields demoEnvFreeze
    demoWorldNearTarget 1 1 1 "1.5" "SINVA" "SRECP" "SPLAT" demoNearTarget hp e1
  obtain ⟨p, i, r, hp', -, -, -, -, -, -, -, -, -, l, hl, hf⟩ :=
    invest64_success demoEnvFreeze demoWorldNearTarget 1 1 1 "1.5" "SINVA" "SRECP" "SPLAT" e1
  cases (Option.some.inj (hp.symm.trans hp'))
  have hq : (investorRaised64 demoEnvFreeze (investorCoded demoEnvFreeze demoNearTarget) i
      "1.5").Params.MoneyRaised
      = (investorRaised64 demoEnvFreeze (investorCoded demoEnvFreeze demoNearTarget) i
      "1.5").Params.TotalValue := by
    simpa [investorRaised64] using hm
  simp only [hq, if_true] at hf
  refine ⟨?_, e1, f3.trans hm, ?_, ?_, ?_⟩
  · rw [demoEnvFreeze_StoF_halves]
    norm_num [demoNearTarget]
  · rw [show demoNearCall.project.Params.DebtAssetCode = _ from f7, if_pos hm]
    exact demoEnvFreeze_assetID _
  · rw [show demoNearCall.project.Stage = _ from f10, if_pos hm]
    norm_num [demoEnvFreeze, demoEnv, demoNearTarget, demoProject]
  · rw [show callsSince demoWorldNearTarget demoNearCall.world = l from
      callsSince_append _ _ _ hl, filter_isFreeze_of_isIssue, hf]
    simp [fundingCalls, investorRaised64, List.filter, Call.isFreeze, demoNearTarget,
      demoProject]

/-- C7, amended. Let the project be stored under its own index and let the `float64` sum
of `MoneyRaised` and `amountA` differ from `TotalValue`.

First part: an `InvestInProject` by investor A with `amountA` that returns no error
leaves `DebtAssetCode`, `PaybackAssetCode`, `BalLeft` and `Stage` as they were, and its
only trust-line, mint and freeze calls are the trust line and the mint for investor A:
no call for the recipient and no `FreezeIssuer`.

Second part: let every ledger and store call succeed, a mint as long as no freeze has
been issued, let none have been issued yet and let `CanInvest` always hold. If a
following `InvestInProject` by investor B brings `MoneyRaised`, as a `float64` sum, to
`TotalValue`, it returns no error and its outcome is that of a single investment of the
full remaining need made by any investor C in the first world: same `MoneyRaised`,
`TotalValue`, debt and payback codes, stage, `BalLeft`, the same `FreezeIssuer` call
issued once, and the same recipient bucket. -/
theorem C7_partial_then_completing_investment (env : Env) (w : World)
    (projIndex recpIndex invIndexA : Int) (amountA seedA recpSeed platformSeed : String)
    (p : Project) (iA : Investor) (r : Recipient)
    (hp : w.projects projIndex = some p) (hidx : p.Params.Index = projIndex)
    (hiA : w.investors invIndexA = some iA) (hr : w.recipients recpIndex = some r)
    (hne : round64 (p.Params.MoneyRaised + env.StoF amountA) ≠ p.Params.TotalValue) :
    ((InvestInProject64 env w projIndex invIndexA recpIndex amountA seedA recpSeed
        platformSeed).err = none →
      (InvestInProject64 env w projIndex invIndexA recpIndex amountA seedA recpSeed
        platformSeed).project.Params.DebtAssetCode = p.Params.DebtAssetCode ∧
      (InvestInProject64 env w projIndex invIndexA recpIndex amountA seedA recpSeed
        platformSeed).project.Params.PaybackAssetCode = p.Params.PaybackAssetCode ∧
      (InvestInProject64 env w projIndex invIndexA recpIndex amountA seedA recpSeed
        platformSeed).project.Params.BalLeft = p.Params.BalLeft ∧
      (InvestInProject64 env w projIndex invIndexA recpIndex amountA seedA recpSeed
        platformSeed).project.Stage = p.Stage ∧
      (callsSince w (InvestInProject64 env w projIndex invIndexA recpIndex amountA seedA
        recpSeed platformSeed).world).filter Call.isFreeze = [] ∧
      ∃ iss seed,
        (callsSince w (InvestInProject64 env w projIndex invIndexA recpIndex amountA seedA
          recpSeed platformSeed).world).filter Call.isIssue =
          [Call.TrustAsset (investorCoded env p).Params.InvestorAssetCode iss
              (env.FtoS p.Params.TotalValue) iA.U.PublicKey seedA,
            Call.SendAssetFromIssuer (investorCoded env p).Params.InvestorAssetCode
              iA.U.PublicKey amountA seed iss]) ∧
    (env.SucceedsUnfrozen → (∀ x ∈ w.trace, x.isFreeze = false) →
      (∀ h i a, env.CanInvest h i a = true) →
      ∀ (invIndexB invIndexC : Int) (amountB seedB amountC seedC : String)
        (iB iC : Investor),
        w.investors invIndexB = some iB → w.investors invIndexC = some iC →
        round64 (round64 (p.Params.MoneyRaised + env.StoF amountA) + env.StoF amountB)
          = p.Params.TotalValue →
        round64 (p.Params.MoneyRaised + env.StoF amountC) = p.Params.TotalValue →
        (InvestInProject64 env
          (InvestInProject64 env w projIndex invIndexA recpIndex amountA seedA recpSeed
            platformSeed).world
          projIndex invIndexB recpIndex amountB seedB recpSeed platformSeed).err = none ∧
        (InvestInProject64 env
          (InvestInProject64 env w projIndex invIndexA recpIndex amountA seedA recpSeed
            platformSeed).world
          projIndex invIndexB recpIndex amountB seedB recpSeed
            platformSeed).project.Params.MoneyRaised
          = (InvestInProject64 env w projIndex invIndexC recpIndex amountC seedC recpSeed
            platformSeed).project.Params.MoneyRaised ∧
        (InvestInProject64 env
          (InvestInProject64 env w projIndex invIndexA recpIndex amountA seedA recpSeed
            platformSeed).world
          projIndex invIndexB recpIndex amountB seedB recpSeed
            platformSeed).project.Params.MoneyRaised = p.Params.TotalValue ∧
        (InvestInProject64 env
          (InvestInProject64 env w projIndex invIndexA recpIndex amountA seedA recpSeed
            platformSeed).world
          projIndex invIndexB recpIndex amountB seedB recpSeed
            platformSeed).project.Params.TotalValue
          = (InvestInProject64 env w projIndex invIndexC recpIndex amountC seedC recpSeed
            platformSeed).project.Params.TotalValue ∧
        (InvestInProject64 env
          (InvestInProject64 env w projIndex invIndexA recpIndex amountA seedA recpSeed
            platformSeed).world
          projIndex invIndexB recpIndex amountB seedB recpSeed
            platformSeed).project.Params.DebtAssetCode
          = (InvestInProject64 env w projIndex invIndexC recpIndex amountC seedC recpSeed
            platformSeed).project.Params.DebtAssetCode ∧
        (InvestInProject64 env
          (InvestInProject64 env w projIndex invIndexA recpIndex amountA seedA recpSeed
            platformSeed).world
          projIndex invIndexB recpIndex amountB seedB recpSeed
            platformSeed).project.Params.PaybackAssetCode
          = (InvestInProject64 env w projIndex invIndexC recpIndex amountC seedC recpSeed
            platformSeed).project.Params.PaybackAssetCode ∧
        (InvestInProject64 env
          (InvestInProject64 env w projIndex invIndexA recpIndex amountA seedA recpSeed
            platformSeed).world
          projIndex invIndexB recpIndex amountB seedB recpSeed platformSeed).project.Stage
          = (InvestInProject64 env w projIndex invIndexC recpIndex amountC seedC recpSeed
            platformSeed).project.Stage ∧
        (InvestInProject64 env
          (InvestInProject64 env w projIndex invIndexA recpIndex amountA seedA recpSeed
            platformSeed).world
          projIndex invIndexB recpIndex amountB seedB recpSeed
            platformSeed).project.Params.BalLeft
          = (InvestInProject64 env w projIndex invIndexC recpIndex amountC seedC recpSeed
            platformSeed).project.Params.BalLeft ∧
        (callsSince
          (InvestInProject64 env w projIndex invIndexA recpIndex amountA seedA recpSeed
            platformSeed).world
          (InvestInProject64 env
            (InvestInProject64 env w projIndex invIndexA recpIndex amountA seedA recpSeed
              platformSeed).world
            projIndex invIndexB recpIndex amountB seedB recpSeed platformSeed).world).filter
              Call.isFreeze = [Call.FreezeIssuer p.Params.Index "blah"] ∧
        (callsSince w
          (InvestInProject64 env w projIndex invIndexC recpIndex amountC seedC recpSeed
            platformSeed).world).filter Call.isFreeze
          = [Call.FreezeIssuer p.Params.Index "blah"] ∧
        (InvestInProject64 env
          (InvestInProject64 env w projIndex invIndexA recpIndex amountA seedA recpSeed
            platformSeed).world
          projIndex invIndexB recpIndex amountB seedB recpSeed platformSeed).world.recipients
          = (InvestInProject64 env w projIndex invIndexC recpIndex amountC seedC recpSeed
            platformSeed).world.recipients) := by
  constructor
  · intro e1
    obtain ⟨-, -, -, -, -, -, f7, f8, f9, f10⟩ := invest64_success_fields env w projIndex
      invIndexA recpIndex amountA seedA recpSeed platformSeed p hp e1
    obtain ⟨p1, i1, r1, hp1, hi1, hr1, -, -, -, -, -, -, -, l, hl, hcalls⟩ :=
      invest64_success env w projIndex invIndexA recpIndex amountA seedA recpSeed
        platformSeed e1
    cases (Option.some.inj (hp.symm.trans hp1))
    cases (Option.some.inj (hiA.symm.trans hi1))
    have hq : ¬ (investorRaised64 env (investorCoded env p) iA amountA).Params.MoneyRaised
        = (investorRaised64 env (investorCoded env p) iA amountA).Params.TotalValue := by
      simpa [investorRaised64] using hne
    simp only [hne, if_false] at f7 f8 f9 f10
    simp only [hq, if_false, List.append_nil] at hcalls
    rw [callsSince_append _ _ _ hl]
    refine ⟨f7, f8, f9, f10, ?_, _, _, hcalls⟩
    rw [filter_isFreeze_of_isIssue, hcalls]
    simp [List.filter, Call.isFreeze]
  · intro hs hw hcan invIndexB invIndexC amountB seedB amountC seedC iB iC hiB hiC hsumB hsumC
    -- the first call
    have eA := invest64_okU env hs w projIndex invIndexA recpIndex amountA seedA recpSeed
      platformSeed p iA r hp hiA hr (hcan _ _ _) hw
    have hwA := invest64_no_freeze env w projIndex invIndexA recpIndex amountA seedA recpSeed
      platformSeed p hp eA hne hw
    obtain ⟨a1, a2, a3, a4, -⟩ := invest64_success_fields env w projIndex
      invIndexA recpIndex amountA seedA recpSeed platformSeed p hp eA
    obtain ⟨p1, i1, r1, hp1, hi1, hr1, -, -, -, -, hstA, hinvA, hrecA, -⟩ :=
      invest64_success env w projIndex invIndexA recpIndex amountA seedA recpSeed
        platformSeed eA
    cases (Option.some.inj (hp.symm.trans hp1))
    cases (Option.some.inj (hiA.symm.trans hi1))
    cases (Option.some.inj (hr.symm.trans hr1))
    have hqA : ¬ (investorRaised64 env (investorCoded env p) iA amountA).Params.MoneyRaised
        = (investorRaised64 env (investorCoded env p) iA amountA).Params.TotalValue := by
      simpa [investorRaised64] using hne
    simp only [hqA, if_false] at hrecA
    rw [hidx] at hstA
    -- the records read by the second call
    have hrB : (InvestInProject64 env w projIndex invIndexA recpIndex amountA seedA recpSeed
        platformSeed).world.recipients recpIndex = some r := by rw [hrecA]; exact hr
    have hiB' : (InvestInProject64 env w projIndex invIndexA recpIndex amountA seedA recpSeed
        platformSeed).world.investors invIndexB ≠ none := by
      rw [hinvA]
      by_cases hk : invIndexB = iA.U.Index <;> simp [hk, hiB]
    obtain ⟨iB', hiB'⟩ := Option.ne_none_iff_exists'.mp hiB'
    have hsumB' : round64 ((InvestInProject64 env w projIndex invIndexA recpIndex amountA seedA
        recpSeed platformSeed).project.Params.MoneyRaised + env.StoF amountB)
        = (InvestInProject64 env w projIndex invIndexA recpIndex amountA seedA recpSeed
        platformSeed).project.Params.TotalValue := by rw [a3, a2]; exact hsumB
    -- the second call
    have eB := invest64_okU env hs _ projIndex invIndexB recpIndex amountB seedB recpSeed
      platformSeed _ iB' r hstA hiB' hrB (hcan _ _ _) hwA
    obtain ⟨-, b2, b3, -, -, -, b7, b8, b9, b10⟩ := invest64_success_fields env _ projIndex
      invIndexB recpIndex amountB seedB recpSeed platformSeed _ hstA eB
    obtain ⟨p2, i2, r2, hp2, hi2, hr2, -, -, -, -, -, -, hrecB, lB, hlB, hcallsB⟩ :=
      invest64_success env _ projIndex invIndexB recpIndex amountB seedB recpSeed
        platformSeed eB
    cases (Option.some.inj (hstA.symm.trans hp2))
    cases (Option.some.inj (hiB'.symm.trans hi2))
    cases (Option.some.inj (hrB.symm.trans hr2))
    -- the single full investment
    have eC := invest64_okU env hs w projIndex invIndexC recpIndex amountC seedC recpSeed
      platformSeed p iC r hp hiC hr (hcan _ _ _) hw
    obtain ⟨-, c2, c3, -, -, -, c7, c8, c9, c10⟩ := invest64_success_fields env w projIndex
      invIndexC recpIndex amountC seedC recpSeed platformSeed p hp eC
    obtain ⟨p3, i3, r3, hp3, hi3, hr3, -, -, -, -, -, -, hrecC, lC, hlC, hcallsC⟩ :=
      invest64_success env w projIndex invIndexC recpIndex amountC seedC recpSeed
        platformSeed eC
    cases (Option.some.inj (hp.symm.trans hp3))
    cases (Option.some.inj (hiC.symm.trans hi3))
    cases (Option.some.inj (hr.symm.trans hr3))
    simp only [hsumB', if_true] at b7 b8 b9 b10
    simp only [hsumC, if_true] at c7 c8 c9 c10
    have hqB : (investorRaised64 env (investorCoded env
        (InvestInProject64 env w projIndex invIndexA recpIndex amountA seedA recpSeed
          platformSeed).project) iB' amountB).Params.MoneyRaised
        = (investorRaised64 env (investorCoded env
        (InvestInProject64 env w projIndex invIndexA recpIndex amountA seedA recpSeed
          platformSeed).project) iB' amountB).Params.TotalValue := by
      simpa [investorRaised64] using hsumB'
    have hqC : (investorRaised64 env (investorCoded env p) iC amountC).Params.MoneyRaised
        = (investorRaised64 env (investorCoded env p) iC amountC).Params.TotalValue := by
      simpa [investorRaised64] using hsumC
    simp only [hqB, if_true] at hrecB hcallsB
    simp only [hqC, if_true] at hrecC hcallsC
    refine ⟨eB, ?_, ?_, ?_, ?_, ?_, ?_, ?_, ?_, ?_, ?_⟩
    · rw [b3, c3, hsumB', hsumC, a2]
    · rw [b3, hsumB', a2]
    · rw [b2, c2, a2]
    · rw [b7, c7, a4]
    · rw [b8, c8, a4]
    · rw [b10, c10]
    · rw [b9, c9, a2]
    · rw [callsSince_append _ _ _ hlB, filter_isFreeze_of_isIssue, hcallsB]
      simp [fundingCalls, investorRaised64, List.filter, Call.isFreeze, a1]
    · rw [callsSince_append _ _ _ hlC, filter_isFreeze_of_isIssue, hcallsC]
      simp [fundingCalls, investorRaised64, List.filter, Call.isFreeze]
    · rw [hrecB, hrecC, hrecA]
      simp [recipientCredited, investorRaised64, a4]

/-- C7, amended, at the input of the scenario, on the ledger of the examples that
honours the freeze: total value 1000; investor A invests 600, investor B then invests
400; the single full investment is `demoFull64`. -/
theorem C7_partial_then_completing_investment_witness :
    round64 (demoProject.Params.MoneyRaised + demoEnvFreeze.StoF "600")
      ≠ demoProject.Params.TotalValue ∧
    demoPartA64.err = none ∧
    demoPartA64.project.Params.DebtAssetCode = "" ∧
    demoPartA64.project.Params.PaybackAssetCode = "" ∧
    demoPartA64.project.Params.BalLeft = demoProject.Params.BalLeft ∧
    demoPartA64.project.Stage = demoProject.Stage ∧
    (callsSince demoWorld demoPartA64.world).filter Call.isFreeze = [] ∧
    demoPartB64.err = none ∧
    demoPartB64.project.Params.MoneyRaised = demoFull64.project.Params.MoneyRaised ∧
    demoPartB64.project.Params.MoneyRaised = 1000 ∧
    demoPartB64.project.Params.DebtAssetCode = demoFull64.project.Params.DebtAssetCode ∧
    demoPartB64.project.Params.PaybackAssetCode = demoFull64.project.Params.PaybackAssetCode ∧
    demoPartB64.project.Stage = demoFull64.project.Stage ∧
    demoPartB64.project.Params.BalLeft = demoFull64.project.Params.BalLeft ∧
    (callsSince demoPartA64.world demoPartB64.world).filter Call.isFreeze
      = [Call.FreezeIssuer 1 "blah"] ∧
    demoPartB64.world.recipients = demoFull64.world.recipients := by
  have hne : round64 (demoProject.Params.MoneyRaised + demoEnvFreeze.StoF "600")
      ≠ demoProject.Params.TotalValue := by norm_num [demoProject]
  have eA : demoPartA64.err = none := demoPartA64_facts.1
  obtain ⟨h1, h2⟩ := C7_partial_then_completing_investment demoEnvFreeze demoWorld 1 1 1
    "600" "SINVA" "SRECP" "SPLAT" demoProject demoInvestor demoRecipient rfl rfl rfl rfl hne
  obtain ⟨p1, p2, p3, p4, p5, -⟩ := h1 eA
  obtain ⟨q1, q2, q3, -, q5, q6, q7, q8, q9, -, q11⟩ := h2 demoEnvFreeze_succeeds
    demoWorld_no_freeze demoEnvFreeze_canInvest 2 1 "400" "SINVB" "1000" "SINVA"
    demoInvestorB demoInvestor rfl rfl
    (by norm_num [demoProject]) (by norm_num [demoProject])
  exact ⟨hne, eA, p1, p2, p3, p4, p5, q1, q2, q3, q5, q6, q7, q8, q9, q11⟩

/-- C14, as stated, fails. Of the total value `2 * 10^16` of `demoLarge`, `10^16` is
raised. Investor A invests "1" and the call returns no error. The sum of line 148 is a
`float64` sum: `10^16 + 1` lies halfway between two `float64` values and is rounded to
`10^16`, so `MoneyRaised` is as before and has not increased by the amount. -/
theorem C14_counterexample_sum_drops_the_amount :
    demoLarge.Params.MoneyRaised = 10000000000000000 ∧
    demoEnvFreeze.StoF "1" = 1 ∧
    demoLargeCall.err = none ∧
    demoLargeCall.project.Params.MoneyRaised = 10000000000000000 ∧
    demoLargeCall.project.Params.MoneyRaised
      ≠ demoLarge.Params.MoneyRaised + demoEnvFreeze.StoF "1" := by
  rw [demoLargeCall]
  have hp : demoWorldLarge.projects 1 = some demoLarge := rfl
  have e1 := invest64_okU demoEnvFreeze demoEnvFreeze_succeeds
    demoWorldLarge 1 1 1 "1" "SINVA" "SRECP" "SPLAT" demoLarge demoInvestor demoRecipient hp
    rfl rfl rfl (by intro x hx; simp [demoWorldLarge, demoWorld] at hx)
  obtain ⟨-, -, f3, -⟩ := invest64_success_fields demoEnvFreeze demoWorldLarge
    1 1 1 "1" "SINVA" "SRECP" "SPLAT" demoLarge hp e1
  have hm : demoLarge.Params.MoneyRaised = 10000000000000000 := rfl
  rw [hm, demoEnvFreeze_StoF_1] at f3 ⊢
  have hs : (10000000000000000 : ℚ) + 1 = 10000000000000001 := by norm_num
  rw [hs] at f3 ⊢
  rw [round64_ten_pow_16_add_one] at f3
  refine ⟨rfl, rfl, e1, f3, ?_⟩
  rw [f3]
  norm_num

/-- C14, amended. A successful `InvestInProject` with amount `a` on the stored project
`p` and investor `i` hands back a project whose money raised is the `float64` sum of that
of `p` and `a` (the exact sum when that is a `float64`) and whose `ProjectInvestors` is
that of `p` with the one record `i` appended (`SeedInvestors` untouched); the investor
bucket then holds, under the index of `i`, the record `i` with `AmountInvested` the
`float64` sum of its old value and `a` and the investor code of the project handed back
appended once to `InvestedSolarProjects`; the project bucket holds the project handed
back under the index of `p`. The same holds of `SeedInvestInProject` with `SeedInvestors`
and the seed code. -/
theorem C14_successful_call_books_the_rounded_sum (env : Env) (w : World)
    (projIndex invIndex recpIndex : Int) (invAmount invSeed recpSeed platformSeed : String)
    (p : Project) (i : Investor)
    (hp : w.projects projIndex = some p) (hi : w.investors invIndex = some i) :
    ((InvestInProject64 env w projIndex invIndex recpIndex invAmount invSeed recpSeed
        platformSeed).err = none →
      (InvestInProject64 env w projIndex invIndex recpIndex invAmount invSeed recpSeed
        platformSeed).project.Params.MoneyRaised
        = round64 (p.Params.MoneyRaised + env.StoF invAmount) ∧
      (round64 (p.Params.MoneyRaised + env.StoF invAmount)
          = p.Params.MoneyRaised + env.StoF invAmount →
        (InvestInProject64 env w projIndex invIndex recpIndex invAmount invSeed recpSeed
          platformSeed).project.Params.MoneyRaised
          = p.Params.MoneyRaised + env.StoF invAmount) ∧
      (InvestInProject64 env w projIndex invIndex recpIndex invAmount invSeed recpSeed
        platformSeed).project.ProjectInvestors = p.ProjectInvestors ++ [i] ∧
      (InvestInProject64 env w projIndex invIndex recpIndex invAmount invSeed recpSeed
        platformSeed).project.SeedInvestors = p.SeedInvestors ∧
      (InvestInProject64 env w projIndex invIndex recpIndex invAmount invSeed recpSeed
        platformSeed).world.investors i.U.Index =
        some { i with
          AmountInvested := round64 (i.AmountInvested + env.StoF invAmount),
          InvestedSolarProjects := i.InvestedSolarProjects ++
            [(InvestInProject64 env w projIndex invIndex recpIndex invAmount invSeed recpSeed
              platformSeed).project.Params.InvestorAssetCode] } ∧
      (InvestInProject64 env w projIndex invIndex recpIndex invAmount invSeed recpSeed
        platformSeed).world.projects p.Params.Index =
        some (InvestInProject64 env w projIndex invIndex recpIndex invAmount invSeed recpSeed
          platformSeed).project) ∧
    ((SeedInvestInProject64 env w projIndex invIndex recpIndex invAmount invSeed recpSeed
        platformSeed).err = none →
      (SeedInvestInProject64 env w projIndex invIndex recpIndex invAmount invSeed recpSeed
        platformSeed).project.Params.MoneyRaised
        = round64 (p.Params.MoneyRaised + env.StoF invAmount) ∧
      (round64 (p.Params.MoneyRaised + env.StoF invAmount)
          = p.Params.MoneyRaised + env.StoF invAmount →
        (SeedInvestInProject64 env w projIndex invIndex recpIndex invAmount invSeed recpSeed
          platformSeed).project.Params.MoneyRaised
          = p.Params.MoneyRaised + env.StoF invAmount) ∧
      (SeedInvestInProject64 env w projIndex invIndex recpIndex invAmount invSeed recpSeed
        platformSeed).project.SeedInvestors = p.SeedInvestors ++ [i] ∧
      (SeedInvestInProject64 env w projIndex invIndex recpIndex invAmount invSeed recpSeed
        platformSeed).project.ProjectInvestors = p.ProjectInvestors ∧
      (SeedInvestInProject64 env w projIndex invIndex recpIndex invAmount invSeed recpSeed
        platformSeed).world.investors i.U.Index =
        some { i with
          AmountInvested := round64 (i.AmountInvested + env.StoF invAmount),
          InvestedSolarProjects := i.InvestedSolarProjects ++
            [(SeedInvestInProject64 env w projIndex invIndex recpIndex invAmount invSeed
              recpSeed platformSeed).project.Params.SeedAssetCode] } ∧
      (SeedInvestInProject64 env w projIndex invIndex recpIndex invAmount invSeed recpSeed
        platformSeed).world.projects p.Params.Index =
        some (SeedInvestInProject64 env w projIndex invIndex recpIndex invAmount invSeed
          recpSeed platformSeed).project) := by
  constructor
  · intro h
    obtain ⟨-, -, f3, -, f5, -⟩ := invest64_success_fields env w projIndex invIndex recpIndex
      invAmount invSeed recpSeed platformSeed p hp h
    obtain ⟨p', i', r, hp', hi', -, -, -, -, hproj, hst, hinv, -⟩ := invest64_success env w
      projIndex invIndex recpIndex invAmount invSeed recpSeed platformSeed h
    cases (Option.some.inj (hp.symm.trans hp'))
    cases (Option.some.inj (hi.symm.trans hi'))
    refine ⟨f3, fun hx => f3.trans hx, ?_, ?_, ?_, hst⟩
    · rw [hproj]; split <;> simp [funded, investorRaised64]
    · rw [hproj]; split <;> simp [funded, investorRaised64]
    · rw [hinv, f5]; simp [investorBooked64]
  · intro h
    obtain ⟨-, -, f3, -, -, f6, -⟩ := seedInvest64_success_fields env w projIndex invIndex
      recpIndex invAmount invSeed recpSeed platformSeed p hp h
    obtain ⟨p', i', r, hp', hi', -, -, -, -, hproj, hst, hinv, -⟩ := seedInvest64_success env
      w projIndex invIndex recpIndex invAmount invSeed recpSeed platformSeed h
    cases (Option.some.inj (hp.symm.trans hp'))
    cases (Option.some.inj (hi.symm.trans hi'))
    refine ⟨f3, fun hx => f3.trans hx, ?_, ?_, ?_, hst⟩
    · rw [hproj]; split <;> simp [funded, seedRaised64, seedRecoded]
    · rw [hproj]; split <;> simp [funded, seedRaised64, seedRecoded]
    · rw [hinv, f6]; simp [investorBooked64]

/-- C14, amended, at a concrete input: investor A invests, and seed-invests, 400 in
project 1. -/
theorem C14_successful_call_books_the_rounded_sum_witness :
    demoInvest64.err = none ∧
    demoInvest64.project.Params.MoneyRaised = 400 ∧
    demoInvest64.project.ProjectInvestors = [demoInvestor] ∧
    demoSeedRound64.err = none ∧
    demoSeedRound64.project.Params.MoneyRaised = 400 ∧
    demoSeedRound64.project.SeedInvestors = [demoInvestor] ∧
    demoSeedRound64.world.investors 1 =
      some { demoInvestor with
        AmountInvested := 400,
        InvestedSolarProjects := [demoSeedRound64.project.Params.SeedAssetCode] } ∧
    demoSeedRound64.world.projects 1 = some demoSeedRound64.project := by
  rw [demoInvest64, demoSeedRound64]
  have e1 := invest64_okU demoEnvFreeze demoEnvFreeze_succeeds
    demoWorld 1 1 1 "400" "SINVA" "SRECP" "SPLAT" demoProject demoInvestor demoRecipient rfl
    rfl rfl rfl demoWorld_no_freeze
  have e2 := seedInvest64_okU demoEnvFreeze
    demoEnvFreeze_succeeds demoWorld 1 1 1 "400" "SINVA" "SRECP" "SPLAT" demoProject
    demoInvestor demoRecipient rfl rfl rfl rfl demoWorld_no_freeze
  obtain ⟨a, b⟩ := C14_successful_call_books_the_rounded_sum demoEnvFreeze demoWorld 1 1 1
    "400" "SINVA" "SRECP" "SPLAT" demoProject demoInvestor rfl rfl
  obtain ⟨a1, -, a2, -, -, -⟩ := a e1
  obtain ⟨b1, -, b2, -, b4, b5⟩ := b e2
  have hr : round64 (demoProject.Params.MoneyRaised + demoEnvFreeze.StoF "400") = 400 := by
    norm_num [demoProject]
  have hri : round64 (demoInvestor.AmountInvested + demoEnvFreeze.StoF "400") = 400 := by
    norm_num [demoInvestor]
  have hpi : demoProject.ProjectInvestors = [] := rfl
  have hsi : demoProject.SeedInvestors = [] := rfl
  have hisp : demoInvestor.InvestedSolarProjects = [] := rfl
  have hidx : demoProject.Params.Index = 1 := rfl
  have hiidx : demoInvestor.U.Index = 1 := rfl
  rw [hr] at a1 b1
  rw [hpi, List.nil_append] at a2
  rw [hsi, List.nil_append] at b2
  rw [hiidx, hri, hisp, List.nil_append] at b4
  rw [hidx] at b5
  exact ⟨e1, a1, a2, e2, b1, b2, b4, b5⟩

/-- C15, counterexample. A ledger that debits exactly what is tendered: the balance read
before the transfer is "300.02", the amount tendered is the due "200", the balance read
after it is "100.02" (300.02 - 200 = 100.02). `strconv.ParseFloat(s, 32)` reads the two
balances as the nearest `float32` values, 9831055/32768 and 13109821/131072, whose
difference 26214399/131072 is below 200: `Payback` returns the under-paid error although
the amount due was tendered and debited. -/
theorem C15_counterexample_due_amount_tendered_is_under_paid :
    (30002 / 100 - 200 : ℚ) = 10002 / 100 ∧
    paybackOldBalance demoHorizon32 [] demoAccount "DEBT" = "300.02" ∧
    (paybackTransfer demoHorizon32 [] demoAccount "DEBT" "GISSUER" "200").1.2 = none ∧
    paybackNewBalance demoHorizon32 [] demoAccount "DEBT" "GISSUER" "200" = "100.02" ∧
    demoHorizon32.ParseFloat "300.02" = (round32 (30002 / 100), none) ∧
    demoHorizon32.ParseFloat "100.02" = (round32 (10002 / 100), none) ∧
    demoHorizon32.ParseFloat "200" = (200, none) ∧
    round64 (round32 (30002 / 100) - round32 (10002 / 100)) = 26214399 / 131072 ∧
    (demoAccount.Payback demoHorizon32 [] "DEBT" "GISSUER" "200").1 =
      Ended.returned (some "Amount paid is less than amount required, please pay more") := by
  have h200 : demoHorizon32.ParseFloat "200" = (200, none) := by
    show demoParseFloat32 "200" = (200, none)
    simp [demoParseFloat32, round32_200]
  have hpaid : round64 (round32 (30002 / 100) - round32 (10002 / 100))
      = 26214399 / 131072 := by
    rw [round32_300_02, round32_100_02, round64_paid]
  refine ⟨by norm_num, rfl, rfl, rfl, rfl, rfl, h200, hpaid, ?_⟩
  rw [payback_classified demoHorizon32 [] demoAccount "DEBT" "GISSUER" "200"
    (round32 (10002 / 100)) (round32 (30002 / 100)) 200 rfl rfl rfl h200, hpaid]
  norm_num

/-- C15. `Payback` classifies by the amount paid, the `float64` difference of the balance
read before the transfer and the balance read after it, against the amount due, the "200"
of `PriceOracle`. When the transfer succeeds and the two balances and the amount due parse
(to `ob`, `nb` and 200), `Payback` returns the under-paid error if and only if the amount
paid is below 200, and returns nil both when it is 200 and when it is above 200. Hence, on
a ledger that debits exactly the amount tendered `t` from the balance `o`, when the two
balances are read at 32 bits without loss (`o` and `o - t` are `float32` values) and `t`
is a `float64`, tendering 200 or more returns nil and tendering less returns the
under-paid error. -/
theorem C15_payback_classification (hz : Horizon) (h : List HorizonCall) (a : Account)
    (assetName issuerPubkey amount : String) (nb ob : ℚ)
    (hsend : (paybackTransfer hz h a assetName issuerPubkey amount).1.2 = none)
    (hnew : hz.ParseFloat (paybackNewBalance hz h a assetName issuerPubkey amount)
      = (nb, none))
    (hold : hz.ParseFloat (paybackOldBalance hz h a assetName) = (ob, none))
    (hdue : hz.ParseFloat (PriceOracle assetName).1 = (200, none)) :
    ((a.Payback hz h assetName issuerPubkey amount).1 =
        Ended.returned (some "Amount paid is less than amount required, please pay more") ↔
      round64 (ob - nb) < 200) ∧
    ((a.Payback hz h assetName issuerPubkey amount).1 ≠ Ended.returned none ↔
      round64 (ob - nb) < 200) ∧
    (round64 (ob - nb) = 200 →
      (a.Payback hz h assetName issuerPubkey amount).1 = Ended.returned none) ∧
    (round64 (ob - nb) > 200 →
      (a.Payback hz h assetName issuerPubkey amount).1 = Ended.returned none) ∧
    (∀ o t : ℚ, ob = round32 o → nb = round32 (o - t) →
      round32 o = o → round32 (o - t) = o - t → round64 t = t →
      (200 ≤ t → (a.Payback hz h assetName issuerPubkey amount).1 = Ended.returned none) ∧
      (t < 200 → (a.Payback hz h assetName issuerPubkey amount).1 =
        Ended.returned
          (some "Amount paid is less than amount required, please pay more"))) := by
  have hp := payback_classified hz h a assetName issuerPubkey amount nb ob 200 hsend hnew
    hold hdue
  rw [hp]
  refine ⟨?_, ?_, ?_, ?_, ?_⟩
  · constructor
    · intro he
      by_contra hn
      simp [hn] at he
    · intro hlt
      simp [hlt]
  · constructor
    · intro he
      by_contra hn
      simp [hn] at he
    · intro hlt
      simp [hlt]
  · intro heq
    simp [heq]
  · intro hgt
    simp [not_lt.mpr (le_of_lt hgt)]
  · intro o t hob hnb ho hn ht
    have hpaid : round64 (ob - nb) = t := by
      rw [hob, hnb, ho, hn]
      have : o - (o - t) = t := by ring
      rw [this, ht]
    rw [hpaid]
    constructor
    · intro hge
      simp [not_lt.mpr hge]
    · intro hlt
      simp [hlt]

/-- C15 at concrete inputs: on a ledger that debits what is tendered from a balance of
"1000", tendering "200" and tendering "250" return nil, tendering "150" returns the
under-paid error. -/
theorem C15_payback_classification_witness :
    (demoAccount.Payback demoHorizon [] "DEBT" "GISSUER" "200").1 = Ended.returned none ∧
    (demoAccount.Payback demoHorizon [] "DEBT" "GISSUER" "250").1 = Ended.returned none ∧
    (demoAccount.Payback demoHorizon [] "DEBT" "GISSUER" "150").1 =
      Ended.returned (some "Amount paid is less than amount required, please pay more") := by
  have a := C15_payback_classification demoHorizon [] demoAccount "DEBT" "GISSUER" "200" 800
    1000 rfl (by decide) (by decide) (by decide)
  have b := C15_payback_classification demoHorizon [] demoAccount "DEBT" "GISSUER" "250" 750
    1000 rfl (by decide) (by decide) (by decide)
  have c := C15_payback_classification demoHorizon [] demoAccount "DEBT" "GISSUER" "150" 850
    1000 rfl (by decide) (by decide) (by decide)
  have r1000 : round32 1000 = 1000 := by
    have := round32_intCast 1000 (by norm_num)
    simpa using this
  have r800 : round32 800 = 800 := by
    have := round32_intCast 800 (by norm_num)
    simpa using this
  have r750 : round32 750 = 750 := by
    have := round32_intCast 750 (by norm_num)
    simpa using this
  have r850 : round32 850 = 850 := by
    have := round32_intCast 850 (by norm_num)
    simpa using this
  have q200 : round64 200 = 200 := round64_ofNat 200 (by norm_num)
  have q250 : round64 250 = 250 := round64_ofNat 250 (by norm_num)
  have q150 : round64 150 = 150 := round64_ofNat 150 (by norm_num)
  refine ⟨(a.2.2.2.2 1000 200 r1000.symm (by norm_num [r800]) r1000 (by norm_num [r800])
      q200).1 (le_refl _),
    (b.2.2.2.2 1000 250 r1000.symm (by norm_num [r750]) r1000 (by norm_num [r750])
      q250).1 (by norm_num),
    (c.2.2.2.2 1000 150 r1000.symm (by norm_num [r850]) r1000 (by norm_num [r850])
      q150).2 (by norm_num)⟩

/-- C23, as stated, fails. `demoBigBond` has units of `2 ^ 53 = 9007199254740992` each
and the amount string is "9007199254740993": its integer value `2 ^ 53 + 1` exceeds
`CostOfUnit`. The comparison of line 144 is made on `float64(investmentAmount)`, which is
`2 ^ 53`, so the amount is not refused: with every ledger and store call succeeding
`Invest` opens the trust line, mints "9007199254740993" and returns no error, and
`AmountRaised` and the investor's `AmountInvested` have grown by `2 ^ 53`, not by the
amount. -/
theorem C23_counterexample_amount_above_unit_is_accepted :
    demoStoI "9007199254740993" = 9007199254740993 ∧
    ((demoStoI "9007199254740993" : Int) : ℚ) > demoBigBond.CostOfUnit ∧
    (demoInvest demoBigBond "9007199254740993").err = none ∧
    (callsSince demoWorld (demoInvest demoBigBond "9007199254740993").world).filter
        Call.isIssue =
      [Call.TrustAsset (demoInvest demoBigBond "9007199254740993").bond.Params.InvestorAssetCode
          "GISSUER" (demoEnv.FtoS (round64 (demoBigBond.CostOfUnit *
            round64 (demoBigBond.NoOfUnits : ℚ)))) "GINVA" "SINVA",
        Call.SendAssetFromIssuer
          (demoInvest demoBigBond "9007199254740993").bond.Params.InvestorAssetCode "GINVA"
          "9007199254740993" "SISSUER" "GISSUER"] ∧
    (demoInvest demoBigBond "9007199254740993").bond.AmountRaised = 9007199254740992 ∧
    (demoInvest demoBigBond "9007199254740993").investor.AmountInvested = 9007199254740992 ∧
    (demoInvest demoBigBond "9007199254740993").bond.AmountRaised
      ≠ demoBigBond.AmountRaised + ((demoStoI "9007199254740993" : Int) : ℚ) := by
  have hr : round64 ((demoStoI "9007199254740993" : Int) : ℚ) = 9007199254740992 := by
    rw [demoStoI_big]
    exact_mod_cast round64_two_pow_53_add_one
  have hacc : ¬ round64 ((demoStoI "9007199254740993" : Int) : ℚ) > demoBigBond.CostOfUnit := by
    rw [hr]
    norm_num [demoBigBond, demoUnitBond]
  obtain ⟨h1, h2, h3, -, -, h6⟩ := bondInvest_ok demoEnv demoEnv_succeeds demoBondEnv
    demoBondEnv_sound demoStoI demoWorld emptyBondStore demoBigBond "GISSUER" "SISSUER"
    demoInvestor demoRecipient "9007199254740993" "SINVA" "SRECP" hacc
  have e2 : (demoInvest demoBigBond "9007199254740993").bond.AmountRaised
      = 9007199254740992 := by
    show (demoBigBond.Invest demoEnv demoBondEnv demoStoI demoWorld emptyBondStore "GISSUER"
      "SISSUER" demoInvestor demoRecipient "9007199254740993" "SINVA"
      "SRECP").bond.AmountRaised = 9007199254740992
    rw [h2, hr]
    norm_num [demoBigBond, demoUnitBond, round64_two_pow_53]
  have e3 : (demoInvest demoBigBond "9007199254740993").investor.AmountInvested
      = 9007199254740992 := by
    show (demoBigBond.Invest demoEnv demoBondEnv demoStoI demoWorld emptyBondStore "GISSUER"
      "SISSUER" demoInvestor demoRecipient "9007199254740993" "SINVA"
      "SRECP").investor.AmountInvested = 9007199254740992
    rw [h3, hr]
    norm_num [demoInvestor, round64_two_pow_53]
  refine ⟨demoStoI_big, ?_, h1, h6, e2, e3, ?_⟩
  · rw [demoStoI_big]
    norm_num [demoBigBond, demoUnitBond]
  · rw [e2, demoStoI_big]
    norm_num [demoBigBond, demoUnitBond]

/-- C23, amended. `Invest` compares the amount with the cost of one unit as a `float64`.
When the `float64` value of the integer read from the amount string exceeds `CostOfUnit`,
the call returns an error, issues no call at all (the entity store, its list of calls and
the bond store are as before) and hands back the bond and the investor as they were.
When it does not exceed `CostOfUnit` and every ledger and store call succeeds, the call
returns no error, and `AmountRaised` and the investor's `AmountInvested` are each the
`float64` sum of their old value and the `float64` amount; the same holds for every call
that returns no error. An integer of magnitude below `2 ^ 53` is its own `float64` value,
so for such an amount the integer itself decides. -/
theorem C23_invest_refuses_more_than_a_unit (env : Env) (benv : BondEnv) (StoI : String → Int)
    (w : World) (s : BondStore) (a : ConstructionBond) (issuerPublicKey issuerSeed : String)
    (investor : Investor) (recipient : Recipient)
    (investmentAmountS investorSeed recipientSeed : String) :
    (round64 (StoI investmentAmountS : ℚ) > a.CostOfUnit →
      (a.Invest env benv StoI w s issuerPublicKey issuerSeed investor recipient
        investmentAmountS investorSeed recipientSeed).err ≠ none ∧
      (a.Invest env benv StoI w s issuerPublicKey issuerSeed investor recipient
        investmentAmountS investorSeed recipientSeed).world = w ∧
      callsSince w (a.Invest env benv StoI w s issuerPublicKey issuerSeed investor recipient
        investmentAmountS investorSeed recipientSeed).world = [] ∧
      (a.Invest env benv StoI w s issuerPublicKey issuerSeed investor recipient
        investmentAmountS investorSeed recipientSeed).store = s ∧
      (a.Invest env benv StoI w s issuerPublicKey issuerSeed investor recipient
        investmentAmountS investorSeed recipientSeed).bond = a ∧
      (a.Invest env benv StoI w s issuerPublicKey issuerSeed investor recipient
        investmentAmountS investorSeed recipientSeed).investor = investor) ∧
    (¬ round64 (StoI investmentAmountS : ℚ) > a.CostOfUnit → env.Succeeds → benv.Sound →
      (a.Invest env benv StoI w s issuerPublicKey issuerSeed investor recipient
        investmentAmountS investorSeed recipientSeed).err = none ∧
      (a.Invest env benv StoI w s issuerPublicKey issuerSeed investor recipient
        investmentAmountS investorSeed recipientSeed).bond.AmountRaised
        = round64 (a.AmountRaised + round64 (StoI investmentAmountS : ℚ)) ∧
      (a.Invest env benv StoI w s issuerPublicKey issuerSeed investor recipient
        investmentAmountS investorSeed recipientSeed).investor.AmountInvested
        = round64 (investor.AmountInvested + round64 (StoI investmentAmountS : ℚ))) ∧
    ((a.Invest env benv StoI w s issuerPublicKey issuerSeed investor recipient
        investmentAmountS investorSeed recipientSeed).err = none →
      ¬ round64 (StoI investmentAmountS : ℚ) > a.CostOfUnit ∧
      (a.Invest env benv StoI w s issuerPublicKey issuerSeed investor recipient
        investmentAmountS investorSeed recipientSeed).bond.AmountRaised
        = round64 (a.AmountRaised + round64 (StoI investmentAmountS : ℚ)) ∧
      (a.Invest env benv StoI w s issuerPublicKey issuerSeed investor recipient
        investmentAmountS investorSeed recipientSeed).investor.AmountInvested
        = round64 (investor.AmountInvested + round64 (StoI investmentAmountS : ℚ))) ∧
    (|StoI investmentAmountS| < 2 ^ 53 →
      round64 (StoI investmentAmountS : ℚ) = (StoI investmentAmountS : ℚ)) := by
  refine ⟨?_, ?_, ?_, round64_intCast _⟩
  · intro h
    rw [bondInvest_refused env benv StoI w s a issuerPublicKey issuerSeed investor recipient
      investmentAmountS investorSeed recipientSeed h]
    exact ⟨by simp, rfl, by simp, rfl, rfl, rfl⟩
  · intro h hs hb
    obtain ⟨h1, h2, h3, -⟩ := bondInvest_ok env hs benv hb StoI w s a issuerPublicKey
      issuerSeed investor recipient investmentAmountS investorSeed recipientSeed h
    exact ⟨h1, h2, h3⟩
  · exact (bondInvest_fields env benv StoI w s a issuerPublicKey issuerSeed investor recipient
      investmentAmountS investorSeed recipientSeed).2.2.2

/-- C23, amended, at concrete inputs: on the bond of the examples (units of 100) the
amount "150" is refused with nothing done, and the amount "50" is accepted and added to
what the bond raised and to what investor A invested. -/
theorem C23_invest_refuses_more_than_a_unit_witness :
    ((demoInvest demoUnitBond "150").err ≠ none ∧
      (demoInvest demoUnitBond "150").world = demoWorld ∧
      callsSince demoWorld (demoInvest demoUnitBond "150").world = [] ∧
      (demoInvest demoUnitBond "150").store = emptyBondStore ∧
      (demoInvest demoUnitBond "150").bond = demoUnitBond ∧
      (demoInvest demoUnitBond "150").investor = demoInvestor) ∧
    ((demoInvest demoUnitBond "50").err = none ∧
      (demoInvest demoUnitBond "50").bond.AmountRaised = 50 ∧
      (demoInvest demoUnitBond "50").investor.AmountInvested = 50) := by
  refine ⟨(C23_invest_refuses_more_than_a_unit demoEnv demoBondEnv demoStoI demoWorld
      emptyBondStore demoUnitBond "GISSUER" "SISSUER" demoInvestor demoRecipient "150" "SINVA"
      "SRECP").1 (by norm_num [demoUnitBond]), ?_⟩
  have h := (C23_invest_refuses_more_than_a_unit demoEnv demoBondEnv demoStoI demoWorld
      emptyBondStore demoUnitBond "GISSUER" "SISSUER" demoInvestor demoRecipient "50" "SINVA"
      "SRECP").2.1 (by norm_num [demoUnitBond]) demoEnv_succeeds demoBondEnv_sound
  obtain ⟨h1, h2, h3⟩ := h
  refine ⟨h1, ?_, ?_⟩
  · show (demoUnitBond.Invest demoEnv demoBondEnv demoStoI demoWorld emptyBondStore "GISSUER"
      "SISSUER" demoInvestor demoRecipient "50" "SINVA" "SRECP").bond.AmountRaised = 50
    rw [h2]
    norm_num [demoUnitBond]
  · show (demoUnitBond.Invest demoEnv demoBondEnv demoStoI demoWorld emptyBondStore "GISSUER"
      "SISSUER" demoInvestor demoRecipient "50" "SINVA" "SRECP").investor.AmountInvested = 50
    rw [h3]
    norm_num [demoInvestor]

/-- C29, as stated, fails. `demoFullBond` has two units of 100 and has raised 200, so
`0 ≤ AmountRaised ≤ CostOfUnit * NoOfUnits`. Investor A invests "50", no more than the
cost of a unit, and every ledger and store call succeeds: `Invest` returns no error and
the bond it hands back has raised 250, above the 200 its units cost. -/
theorem C29_counterexample_full_bond_takes_more :
    demoFullBond.WithinUnits ∧
    (demoInvest demoFullBond "50").err = none ∧
    (demoInvest demoFullBond "50").bond.AmountRaised = 250 ∧
    (demoInvest demoFullBond "50").bond.CostOfUnit
      * ((demoInvest demoFullBond "50").bond.NoOfUnits : ℚ) = 200 ∧
    ¬ (demoInvest demoFullBond "50").bond.AmountRaised ≤
      (demoInvest demoFullBond "50").bond.CostOfUnit
        * ((demoInvest demoFullBond "50").bond.NoOfUnits : ℚ) := by
  obtain ⟨h1, h2, -⟩ := bondInvest_ok demoEnv demoEnv_succeeds demoBondEnv demoBondEnv_sound
    demoStoI demoWorld emptyBondStore demoFullBond "GISSUER" "SISSUER" demoInvestor
    demoRecipient "50" "SINVA" "SRECP" (by norm_num [demoFullBond, demoUnitBond])
  obtain ⟨g1, g2, -⟩ := bondInvest_fields demoEnv demoBondEnv demoStoI demoWorld emptyBondStore
    demoFullBond "GISSUER" "SISSUER" demoInvestor demoRecipient "50" "SINVA" "SRECP"
  have e : (demoInvest demoFullBond "50").bond.AmountRaised = 250 := by
    show (demoFullBond.Invest demoEnv demoBondEnv demoStoI demoWorld emptyBondStore "GISSUER"
      "SISSUER" demoInvestor demoRecipient "50" "SINVA" "SRECP").bond.AmountRaised = 250
    rw [h2]
    norm_num [demoFullBond, demoUnitBond]
  have t : (demoInvest demoFullBond "50").bond.CostOfUnit
      * ((demoInvest demoFullBond "50").bond.NoOfUnits : ℚ) = 200 := by
    show (demoFullBond.Invest demoEnv demoBondEnv demoStoI demoWorld emptyBondStore "GISSUER"
      "SISSUER" demoInvestor demoRecipient "50" "SINVA" "SRECP").bond.CostOfUnit *
      ((demoFullBond.Invest demoEnv demoBondEnv demoStoI demoWorld emptyBondStore "GISSUER"
      "SISSUER" demoInvestor demoRecipient "50" "SINVA" "SRECP").bond.NoOfUnits : ℚ) = 200
    rw [g1, g2]
    norm_num [demoFullBond, demoUnitBond]
  refine ⟨by norm_num [ConstructionBond.WithinUnits, demoFullBond, demoUnitBond], h1, e, t, ?_⟩
  rw [e, t]
  norm_num

/-- C29, amended. `Invest` compares the amount with the cost of one unit only. A
successful call leaves `CostOfUnit` and `NoOfUnits` alone and makes `AmountRaised` the
`float64` sum of `AmountRaised` and the `float64` amount. For a bond with
`0 ≤ AmountRaised ≤ CostOfUnit * NoOfUnits` the bound `AmountRaised ≤ CostOfUnit *
NoOfUnits` therefore holds afterwards exactly when that sum does not exceed
`CostOfUnit * NoOfUnits`; with an amount that is not negative the bond then still lies
within its bounds. -/
theorem C29_raise_bound_kept_when_the_sum_fits (env : Env) (benv : BondEnv)
    (StoI : String → Int) (w : World) (s : BondStore) (a : ConstructionBond)
    (issuerPublicKey issuerSeed : String) (investor : Investor) (recipient : Recipient)
    (investmentAmountS investorSeed recipientSeed : String)
    (hw : a.WithinUnits)
    (h : (a.Invest env benv StoI w s issuerPublicKey issuerSeed investor recipient
      investmentAmountS investorSeed recipientSeed).err = none) :
    (a.Invest env benv StoI w s issuerPublicKey issuerSeed investor recipient
      investmentAmountS investorSeed recipientSeed).bond.AmountRaised
      = round64 (a.AmountRaised + round64 (StoI investmentAmountS : ℚ)) ∧
    ((a.Invest env benv StoI w s issuerPublicKey issuerSeed investor recipient
        investmentAmountS investorSeed recipientSeed).bond.AmountRaised ≤
      (a.Invest env benv StoI w s issuerPublicKey issuerSeed investor recipient
        investmentAmountS investorSeed recipientSeed).bond.CostOfUnit *
      ((a.Invest env benv StoI w s issuerPublicKey issuerSeed investor recipient
        investmentAmountS investorSeed recipientSeed).bond.NoOfUnits : ℚ) ↔
      round64 (a.AmountRaised + round64 (StoI investmentAmountS : ℚ))
        ≤ a.CostOfUnit * (a.NoOfUnits : ℚ)) ∧
    (0 ≤ StoI investmentAmountS →
      round64 (a.AmountRaised + round64 (StoI investmentAmountS : ℚ))
        ≤ a.CostOfUnit * (a.NoOfUnits : ℚ) →
      (a.Invest env benv StoI w s issuerPublicKey issuerSeed investor recipient
        investmentAmountS investorSeed recipientSeed).bond.WithinUnits) := by
  obtain ⟨g1, g2, -, g4⟩ := bondInvest_fields env benv StoI w s a issuerPublicKey issuerSeed
    investor recipient investmentAmountS investorSeed recipientSeed
  obtain ⟨-, e, -⟩ := g4 h
  unfold ConstructionBond.WithinUnits
  rw [g1, g2, e]
  refine ⟨rfl, Iff.rfl, fun h0 hfit => ⟨?_, hfit⟩⟩
  have h0' : (0 : ℚ) ≤ (StoI investmentAmountS : ℚ) := by exact_mod_cast h0
  exact round64_nonneg _ (add_nonneg hw.1 (round64_nonneg _ h0'))

/-- C29, amended, at a concrete input: the bond of the examples (two units of 100,
nothing raised) takes "50" from investor A; the call returns no error, the bond has
raised 50, and the bound of 200 still holds. -/
theorem C29_raise_bound_kept_when_the_sum_fits_witness :
    demoUnitBond.WithinUnits ∧
    (demoInvest demoUnitBond "50").err = none ∧
    (demoInvest demoUnitBond "50").bond.AmountRaised = 50 ∧
    (demoInvest demoUnitBond "50").bond.AmountRaised ≤
      (demoInvest demoUnitBond "50").bond.CostOfUnit *
        ((demoInvest demoUnitBond "50").bond.NoOfUnits : ℚ) := by
  have hw : demoUnitBond.WithinUnits := by
    norm_num [ConstructionBond.WithinUnits, demoUnitBond]
  have h1 := (bondInvest_ok demoEnv demoEnv_succeeds demoBondEnv demoBondEnv_sound
    demoStoI demoWorld emptyBondStore demoUnitBond "GISSUER" "SISSUER" demoInvestor
    demoRecipient "50" "SINVA" "SRECP" (by norm_num [demoUnitBond])).1
  obtain ⟨e, hiff, -⟩ := C29_raise_bound_kept_when_the_sum_fits demoEnv demoBondEnv demoStoI
    demoWorld emptyBondStore demoUnitBond "GISSUER" "SISSUER" demoInvestor demoRecipient "50"
    "SINVA" "SRECP" hw h1
  refine ⟨hw, h1, ?_, hiff.mpr (by norm_num [demoUnitBond])⟩
  show (demoUnitBond.Invest demoEnv demoBondEnv demoStoI demoWorld emptyBondStore "GISSUER"
    "SISSUER" demoInvestor demoRecipient "50" "SINVA" "SRECP").bond.AmountRaised = 50
  rw [e]
  norm_num [demoUnitBond]

end OpenFinancing
